import Mathlib

/-!
# DTVRecorder: keyframe detection, position map and buffered writer

A shallow embedding of `mythtv/libs/libmythtv/recorders/dtvrecorder.cpp`.

* The recorder object is the record `DTVRecorder`; every member function is a function
  from recorder states to recorder states.
* The ring buffer (storage sink) and the H.264 parser are collaborators whose code is
  outside this file: their state types are the parameters `R` and `P`, and what they
  compute is supplied by the record `Collab`.
* Calls made on collaborators (sink writes, change notifications, status changes) are
  also appended, in order, to the field `trace` of the recorder.
* Bytes are natural numbers below 256; the 64-bit frame counters are natural numbers
  (they cannot wrap in fewer than `2^64` frames), the 32-bit start-code accumulator and
  the unsigned subtraction of the H.264 fallback are reduced explicitly.
* Wall-clock readings (timers) and the floating-point frame interval of the audio
  detector enter as arguments of the operation that reads them.
-/

namespace DTVRec

/-! ## Plain data -/

/-- The map type `frm_pos_map_t` (a `QMap` from frame number to a 64-bit value), kept as
an association list sorted by key without repeated keys. -/
abbrev PosMap := List (Nat × Int)

/-- `QMap::contains`. -/
def PosMap.contains (m : PosMap) (k : Nat) : Bool :=
  m.any (fun e => e.1 == k)

/-- `QMap::operator[]` followed by assignment: adds the key in key order, or replaces the
value stored under it. -/
def PosMap.insert (k : Nat) (v : Int) : PosMap → PosMap
  | [] => [(k, v)]
  | e :: t =>
    if k < e.1 then (k, v) :: e :: t
    else if k = e.1 then (k, v) :: t
    else e :: PosMap.insert k v t

/-- The keys of a map, in map order. -/
def PosMap.keys (m : PosMap) : List Nat :=
  m.map Prod.fst

/-- Class `FrameRate`: a numerator and a denominator. -/
structure FrameRate where
  num : Nat
  den : Nat
deriving DecidableEq, Repr

/-- `FrameRate::isNonzero`. -/
def FrameRate.isNonzero (f : FrameRate) : Bool :=
  f.num != 0

/-- `FrameRate(n)` with the default denominator 1. -/
def FrameRate.ofNat (n : Nat) : FrameRate :=
  { num := n, den := 1 }

/-- The table `frameRateMap` (source lines 344-351), indexed by the 4-bit frame rate code. -/
def frameRateMap (i : Nat) : FrameRate :=
  match i with
  | 1 => { num := 24000, den := 1001 }
  | 2 => FrameRate.ofNat 24
  | 3 => FrameRate.ofNat 25
  | 4 => { num := 30000, den := 1001 }
  | 5 => FrameRate.ofNat 30
  | 6 => FrameRate.ofNat 50
  | 7 => { num := 60000, den := 1001 }
  | 8 => FrameRate.ofNat 60
  | _ => FrameRate.ofNat 0

/-- `TSPacket::kSize`. -/
def kSize : Nat := 188

/-- `DTVRecorder::kMaxKeyFrameDistance` (source line 36). -/
def kMaxKeyFrameDistance : Nat := 80

/-- A transport stream packet: its 188 bytes, and what the accessors of class `TSPacket`
(declared outside the sources) return for it. -/
structure TSPacket where
  data : List Nat
  size_eq : data.length = kSize
  PID : Nat
  HasPayload : Bool
  PayloadStart : Bool
  AFCOffset : Nat
  ContinuityCounter : Nat

/-- The values of `RecStatus` that the recorder distinguishes. -/
inductive RecStatus where
  | Recording
  | Failing
  | Recorded
  | Unknown
deriving DecidableEq, Repr

/-- A `RecordingGap`: the two end points, as milliseconds after the first time stamp of
the stream (what `ts_to_qdatetime` adds to the wall-clock time of that first stamp). -/
structure RecordingGap where
  start : Int
  stop : Int
deriving DecidableEq, Repr

/-- One elementary stream of a program map table: its stream type and PID, and what
`ProgramMapTable::IsVideo(i, sistandard)` and `IsAudio(i, sistandard)` answer for it. -/
structure PMTStream where
  StreamType : Nat
  StreamPID : Nat
  IsVideo : Bool
  IsAudio : Bool
deriving DecidableEq, Repr

/-- What the recorder reads from a `ProgramMapTable`. -/
structure ProgramMapTable where
  streams : List PMTStream
  PCRPID : Nat
  ContinuityCounter : Nat
deriving DecidableEq, Repr

/-- Calls the recorder makes on its collaborators, in the order made. -/
inductive Event where
  | Write (bytes : List Nat)
  | RecStartedWriting
  | SetRecordingStatusFailing
  | AspectChange (aspect : Nat) (frame : Nat)
  | ResolutionChange (width : Nat) (height : Nat) (frame : Nat)
  | FrameRateChange (rate : FrameRate) (frame : Nat)
  | VideoCodecChange (codec : Nat)
  | AudioCodecChange (codec : Nat)
deriving DecidableEq, Repr

/-! ## The recorder -/

/-- The members of `DTVRecorder` (and of its base `RecorderBase`) that the modelled
functions read or write. `R` is the state of a ring buffer, `P` the state of the
H.264 parser. -/
structure DTVRecorder (R P : Type) where
  m_ringBuffer : Option R
  m_nextRingBuffer : Option R
  m_curRecording : Option RecStatus
  m_nextRecording : Option RecStatus
  m_start_code : Nat
  m_first_keyframe : Int
  m_has_written_other_keyframe : Bool
  m_last_keyframe_seen : Nat
  m_last_gop_seen : Nat
  m_last_seq_seen : Nat
  m_audio_bytes_remaining : Nat
  m_video_bytes_remaining : Nat
  m_other_bytes_remaining : Nat
  m_error : List Nat
  m_progressive_sequence : Nat
  m_repeat_pict : Nat
  m_pes_synced : Bool
  m_seen_sps : Bool
  m_h264_parser_state : P
  m_positionMap : PosMap
  m_positionMapDelta : PosMap
  m_durationMap : PosMap
  m_durationMapDelta : PosMap
  m_ts_count : Nat → Nat
  m_ts_last : Nat → Int
  m_ts_first : Nat → Int
  m_packet_count : Nat
  m_continuity_error_count : Nat
  m_frames_seen_count : Nat
  m_frames_written_count : Nat
  m_total_duration : ℚ
  m_td_base : ℚ
  m_td_tick_count : Nat
  m_td_tick_framerate : FrameRate
  m_frameRate : FrameRate
  m_videoAspect : Nat
  m_videoHeight : Nat
  m_videoWidth : Nat
  m_stream_id : Nat → Nat
  m_pid_status : Nat → Nat
  m_continuity_counter : Nat → Nat
  m_wait_for_keyframe_option : Bool
  m_record_mpts : Bool
  m_record_mpts_only : Bool
  m_has_no_av : Bool
  m_buffer_packets : Bool
  m_use_pts : Bool
  m_music_choice : Bool
  m_payload_buffer : List Nat
  m_input_pmt : Option ProgramMapTable
  m_primaryVideoCodec : Nat
  m_primaryAudioCodec : Nat
  DesiredProgram : Int
  VideoPIDSingleProgram : Nat
  m_recordingGaps : List RecordingGap
  trace : List Event

/-- What the collaborators compute. `Write` is `RingBuffer::Write` (the sink after the
call and the returned count, negative on failure), `GetWritePosition` is
`RingBuffer::GetWritePosition`; the remaining fields are the member functions of
`H264Parser` that `FindH264Keyframes` and `HandleH264Keyframe` call; `IsDamaged` is
`RecordingQuality::IsDamaged` on the gap list. -/
structure Collab (R P : Type) where
  Write : R → List Nat → R × Int
  GetWritePosition : R → Int
  addBytes : P → List Nat → Int → P × Nat
  stateChanged : P → Bool
  onFrameStart : P → Bool
  isFieldBottom : P → Bool
  onKeyFrameStart : P → Bool
  pictureWidth : P → Nat
  pictureHeight : P → Nat
  aspectRatio : P → Nat
  getFrameRate : P → FrameRate → FrameRate
  keyframeAUstreamOffset : P → Nat
  IsDamaged : List RecordingGap → Bool

variable {R P : Type}

/-- The four maps of a recorder, in the order position, position delta, duration,
duration delta. -/
def DTVRecorder.maps (s : DTVRecorder R P) : PosMap × PosMap × PosMap × PosMap :=
  (s.m_positionMap, s.m_positionMapDelta, s.m_durationMap, s.m_durationMapDelta)

/-- `llround`: the nearest integer, halves away from zero. -/
def llround (x : ℚ) : Int :=
  if 0 ≤ x then Rat.floor (x + 1 / 2) else - Rat.floor (- x + 1 / 2)

/-! ## Reset -/

/-- `RecorderBase::ClearStatistics`, whose body is outside the sources: it resets
statistics of the base class only (the data-arrival time stamps, which are not part of
this model, and the list of recording gaps). -/
def RecorderBase.ClearStatistics (s : DTVRecorder R P) : DTVRecorder R P :=
  { s with m_recordingGaps := [] }

/-- `DTVRecorder::ClearStatistics` (source lines 171-189). -/
def ClearStatistics (s : DTVRecorder R P) : DTVRecorder R P :=
  { RecorderBase.ClearStatistics s with
    m_ts_count := fun _ => 0
    m_ts_last := fun _ => -1
    m_ts_first := fun _ => -1
    m_packet_count := 0
    m_continuity_error_count := 0
    m_frames_seen_count := 0
    m_frames_written_count := 0
    m_total_duration := 0
    m_td_base := 0
    m_td_tick_count := 0
    m_td_tick_framerate := FrameRate.ofNat 0 }

/-- `DTVRecorder::ResetForNewFile` (source lines 132-169). The members `m_pes_synced`,
`m_seen_sps` and the H.264 parser are not assigned. -/
def ResetForNewFile (s : DTVRecorder R P) : DTVRecorder R P :=
  ClearStatistics
    { s with
      m_start_code := 0xffffffff
      m_first_keyframe := -1
      m_has_written_other_keyframe := false
      m_last_keyframe_seen := 0
      m_last_gop_seen := 0
      m_last_seq_seen := 0
      m_audio_bytes_remaining := 0
      m_video_bytes_remaining := 0
      m_other_bytes_remaining := 0
      m_error := []
      m_progressive_sequence := 0
      m_repeat_pict := 0
      m_positionMap := []
      m_positionMapDelta := []
      m_durationMap := []
      m_durationMapDelta := [] }

/-! ## Frame accounting and the position map -/

/-- `DTVRecorder::UpdateFramesWritten` (source lines 669-697); the duration is kept as an
exact rational. -/
def UpdateFramesWritten (s : DTVRecorder R P) : DTVRecorder R P :=
  let s1 := { s with m_frames_written_count := s.m_frames_written_count + 1 }
  let s2 := if !s1.m_td_tick_framerate.isNonzero then
      { s1 with m_td_tick_framerate := s1.m_frameRate } else s1
  let s3 := if s2.m_td_tick_framerate ≠ s2.m_frameRate then
      { s2 with m_td_base := s2.m_total_duration
                m_td_tick_count := 0
                m_td_tick_framerate := s2.m_frameRate } else s2
  let s4 := { s3 with m_td_tick_count := s3.m_td_tick_count + (2 + s3.m_repeat_pict) }
  if s4.m_td_tick_framerate.isNonzero then
    { s4 with m_total_duration := s4.m_td_base +
        ((500 * s4.m_td_tick_count * s4.m_td_tick_framerate.den : Nat) : ℚ) /
          (s4.m_td_tick_framerate.num : ℚ) }
  else s4

/-- Modelled from the spec: `RecorderBase::CheckForRingBufferSwitch`, whose body is
outside the sources. The spec has a ring-buffer-rotation check at every keyframe, which
switches the sink to its next segment, and has the counters and maps reset by
`ResetForNewFile` at a file rotation; the comment in `ResetForNewFile` (source lines
137-143) says it is called as the first packet of a new keyframe is about to go to the new
file. So: when a next ring buffer is pending, the recorder is reset for the new file and
the pending ring buffer and recording become the current ones; otherwise nothing
changes. -/
def CheckForRingBufferSwitch (s : DTVRecorder R P) : DTVRecorder R P :=
  match s.m_nextRingBuffer with
  | none => s
  | some rb =>
    { ResetForNewFile s with
      m_ringBuffer := some rb
      m_curRecording := s.m_nextRecording
      m_nextRingBuffer := none
      m_nextRecording := none }

/-- The four assignments of source lines 790-793 and 1021-1024. -/
def storeKeyframe (frameNum : Nat) (startpos : Int) (s : DTVRecorder R P) :
    DTVRecorder R P :=
  { s with
    m_positionMapDelta := PosMap.insert frameNum startpos s.m_positionMapDelta
    m_positionMap := PosMap.insert frameNum startpos s.m_positionMap
    m_durationMap := PosMap.insert frameNum (llround s.m_total_duration) s.m_durationMap
    m_durationMapDelta :=
      PosMap.insert frameNum (llround s.m_total_duration) s.m_durationMapDelta }

/-- Source lines 773-777 and 1008-1013: the first keyframe is noted and announced. -/
def noteFirstKeyframe (s : DTVRecorder R P) : DTVRecorder R P :=
  if s.m_first_keyframe < 0 then
    { s with m_first_keyframe := (s.m_frames_written_count : Int)
             trace := s.trace ++ [Event.RecStartedWriting] }
  else s

/-- The statement `m_frames_seen_count++`. -/
def countFrame (s : DTVRecorder R P) : DTVRecorder R P :=
  { s with m_frames_seen_count := s.m_frames_seen_count + 1 }

/-- The statement `m_buffer_packets = false`. -/
def stopBuffering (s : DTVRecorder R P) : DTVRecorder R P :=
  { s with m_buffer_packets := false }

/-- The assignment `m_last_keyframe_seen = m_frames_seen_count` that precedes every call of
`HandleKeyframe` and `HandleH264Keyframe` in the detectors. -/
def markKeyframeSeen (s : DTVRecorder R P) : DTVRecorder R P :=
  { s with m_last_keyframe_seen := s.m_frames_seen_count }

/-- `DTVRecorder::HandleKeyframe` (source lines 764-797). -/
def HandleKeyframe (X : Collab R P) (extra : Int) (s : DTVRecorder R P) :
    DTVRecorder R P :=
  match s.m_ringBuffer with
  | none => s
  | some _ =>
    let s1 := CheckForRingBufferSwitch s
    let frameNum := s1.m_frames_written_count
    let s2 := noteFirstKeyframe s1
    if !s2.m_positionMap.contains frameNum then
      match s2.m_ringBuffer with
      | none => s2
      | some rb =>
        let startpos := X.GetWritePosition rb + extra
        if startpos ≥ 0 then storeKeyframe frameNum startpos s2 else s2
    else s2

/-- `DTVRecorder::HandleH264Keyframe` (source lines 1000-1027). -/
def HandleH264Keyframe (X : Collab R P) (s : DTVRecorder R P) : DTVRecorder R P :=
  let s1 := CheckForRingBufferSwitch s
  let frameNum := s1.m_frames_written_count
  let startpos : Int :=
    if s1.m_first_keyframe < 0 then 0
    else (X.keyframeAUstreamOffset s1.m_h264_parser_state : Int)
  let s2 := noteFirstKeyframe s1
  if !s2.m_positionMap.contains frameNum then storeKeyframe frameNum startpos s2 else s2

/-! ## The buffered writer -/

/-- `RecorderBase::SetRecordingStatus(RecStatus::Failing, ...)`, whose body is outside the
sources: the status of the current recording becomes `Failing` and the change is
reported. -/
def SetRecordingStatusFailing (s : DTVRecorder R P) : DTVRecorder R P :=
  { s with m_curRecording := s.m_curRecording.map (fun _ => RecStatus.Failing)
           trace := s.trace ++ [Event.SetRecordingStatusFailing] }

/-- A call `m_ringBuffer->Write(bytes, n)` whose result is not looked at (source lines
289-290, 1178-1187, 1492-1493); nothing happens without a ring buffer. -/
def writeIgnoringResult (X : Collab R P) (bytes : List Nat) (s : DTVRecorder R P) :
    DTVRecorder R P :=
  match s.m_ringBuffer with
  | none => s
  | some rb =>
    { s with m_ringBuffer := some (X.Write rb bytes).1
             trace := s.trace ++ [Event.Write bytes] }

/-- Source lines 287-292: buffered packets are written out and the buffer emptied. -/
def flushPayloadBuffer (X : Collab R P) (s : DTVRecorder R P) : DTVRecorder R P :=
  if !s.m_payload_buffer.isEmpty then
    { writeIgnoringResult X s.m_payload_buffer s with m_payload_buffer := [] }
  else s

/-- Source lines 295-303: the packet is written and a failed write marks the current
recording as failing. -/
def writePacket (X : Collab R P) (tspacket : TSPacket) (s : DTVRecorder R P) :
    DTVRecorder R P :=
  match s.m_ringBuffer with
  | none => s
  | some rb =>
    let r := X.Write rb tspacket.data
    let s1 := { s with m_ringBuffer := some r.1
                       trace := s.trace ++ [Event.Write tspacket.data] }
    if r.2 < 0 ∧ s1.m_curRecording.isSome ∧ s1.m_curRecording ≠ some RecStatus.Failing then
      SetRecordingStatusFailing s1
    else s1

/-- `DTVRecorder::BufferedWrite` (source lines 237-304). The bookkeeping of data-arrival
times (lines 246-274) touches only wall-clock statistics and is left out. -/
def BufferedWrite (X : Collab R P) (tspacket : TSPacket) (insert : Bool)
    (s : DTVRecorder R P) : DTVRecorder R P :=
  if !insert then
    if !s.m_buffer_packets && s.m_wait_for_keyframe_option && decide (s.m_first_keyframe < 0)
    then s
    else if s.m_buffer_packets then
      { s with m_payload_buffer := s.m_payload_buffer ++ tspacket.data }
    else writePacket X tspacket (flushPayloadBuffer X s)
  else writePacket X tspacket s

/-! ## Time stamps -/

/-- The selector `kExtractPTS` (source line 306). -/
def kExtractPTS : Nat := 0

/-- The selector `kExtractDTS` (source line 306). -/
def kExtractDTS : Nat := 1

/-- The byte `bufptr[k]` of a packet or buffer, `bufptr` being an offset into `data`;
a read past the end of `data` yields 0. -/
def rd (data : List Nat) (bufptr k : Nat) : Nat :=
  data.getD (bufptr + k) 0

/-- The 33-bit value assembled at source lines 328-332. -/
def timestampAt (data : List Nat) (bufptr offset : Nat) : Int :=
  ((((rd data bufptr (offset + 0) &&& 0x0e) <<< 29) |||
    ((rd data bufptr (offset + 1)) <<< 22) |||
    ((rd data bufptr (offset + 2) &&& 0xfe) <<< 14) |||
    ((rd data bufptr (offset + 3)) <<< 7) |||
    ((rd data bufptr (offset + 4) &&& 0xfe) >>> 1) : Nat) : Int)

/-- The function `extract_timestamp` (source lines 307-333). -/
def extract_timestamp (data : List Nat) (bufptr : Nat) (bytes_left : Int)
    (pts_or_dts : Nat) : Int :=
  if bytes_left < 4 then -1
  else
    let has_pts := (rd data bufptr 3 &&& 0x80) != 0
    let offset : Nat := 5
    if (kExtractPTS == pts_or_dts && !has_pts) || decide ((offset : Int) + 5 > bytes_left)
    then -1
    else
      let has_dts := (rd data bufptr 3 &&& 0x40) != 0
      if kExtractDTS == pts_or_dts then
        if !has_dts then -1
        else
          let offset2 := offset + (if has_pts then 5 else 0)
          if (offset2 : Int) + 5 > bytes_left then -1
          else timestampAt data bufptr offset2
      else timestampAt data bufptr offset

/-- Conversion of a 64-bit signed value to `uint64_t`. -/
def toUInt64 (x : Int) : Nat :=
  (x % (2 ^ 64 : Int)).toNat

/-- Conversion of a `uint64_t` value to a 64-bit signed value. -/
def toInt64 (n : Nat) : Int :=
  if n % 2 ^ 64 < 2 ^ 63 then ((n % 2 ^ 64 : Nat) : Int) else ((n % 2 ^ 64 : Nat) : Int) - 2 ^ 64

/-- The function `ts_to_qdatetime` (source lines 335-342), as the number of milliseconds
it adds to the wall-clock time of the first stamp. -/
def ts_to_qdatetime (pts pts_first : Int) : Int :=
  let p := toUInt64 pts
  let f := toUInt64 pts_first
  let p1 := if p < f then (p + 0x1FFFFFFFF) % 2 ^ 64 else p
  toInt64 (((p1 + 2 ^ 64 - f) % 2 ^ 64) / 90)

/-- Source lines 621-647: a gap is appended and the recording quality re-examined. -/
def recordGap (X : Collab R P) (stream_id : Nat) (ts : Int) (s : DTVRecorder R P) :
    DTVRecorder R P :=
  let gap : RecordingGap :=
    { start := ts_to_qdatetime (s.m_ts_last stream_id) (s.m_ts_first stream_id)
      stop := ts_to_qdatetime ts (s.m_ts_first stream_id) }
  let s1 := { s with m_recordingGaps := s.m_recordingGaps ++ [gap] }
  if s1.m_curRecording.isSome ∧ s1.m_curRecording ≠ some RecStatus.Failing then
    if X.IsDamaged s1.m_recordingGaps then SetRecordingStatusFailing s1 else s1
  else s1

/-- The difference computed at source lines 610-619. -/
def gapDiff (ts last : Int) : Int :=
  let diff := ts - last
  let diff1 := if diff < 10 * (-90000) then diff + 0x1ffffffff else diff
  if diff1 < 0 then - diff1 else diff1

/-- The threshold chosen at source lines 598-606. -/
def gapThreshold (use_pts music_choice : Bool) : Int :=
  let t : Int := if use_pts then 2 * 90000 else 90000
  if music_choice then 8 * 90000 else t

/-- Source lines 588-595: without a DTS the tracking switches to PTS, once. -/
def HandleTimestamps.downgrade (stream_id : Nat) (dts : Int) (s : DTVRecorder R P) :
    DTVRecorder R P :=
  if dts < 0 ∧ s.m_use_pts = false then
    { s with m_ts_last := Function.update s.m_ts_last stream_id (-1)
             m_use_pts := true }
  else s

/-- Source lines 597-648: the distance to the previous stamp of the stream is compared
with the threshold and a gap recorded. -/
def HandleTimestamps.checkGap (X : Collab R P) (stream_id : Nat) (ts : Int)
    (s : DTVRecorder R P) : DTVRecorder R P :=
  let gap_threshold := gapThreshold s.m_use_pts s.m_music_choice
  if s.m_ts_last stream_id ≥ 0 then
    if gapDiff ts (s.m_ts_last stream_id) > gap_threshold ∧ s.m_first_keyframe ≥ 0
    then recordGap X stream_id ts s else s
  else s

/-- Source lines 650-666: the stamp becomes the last one of the stream, the first one
among the first 30 if it is the smallest so far, and is counted. -/
def HandleTimestamps.note (stream_id : Nat) (ts : Int) (s : DTVRecorder R P) :
    DTVRecorder R P :=
  let s3 := { s with m_ts_last := Function.update s.m_ts_last stream_id ts }
  let s4 := if s3.m_ts_count stream_id < 30 then
      if s3.m_ts_count stream_id = 0 then
        { s3 with m_ts_first := Function.update s3.m_ts_first stream_id ts }
      else if ts < s3.m_ts_first stream_id then
        { s3 with m_ts_first := Function.update s3.m_ts_first stream_id ts }
      else s3
    else s3
  { s4 with m_ts_count := Function.update s4.m_ts_count stream_id (s4.m_ts_count stream_id + 1) }

/-- `DTVRecorder::HandleTimestamps` (source lines 580-667). The stamp `ts` that is
compared and stored is `dts` whether or not the tracking uses PTS, as in the source. -/
def HandleTimestamps (X : Collab R P) (stream_id : Nat) (pts dts : Int)
    (s : DTVRecorder R P) : DTVRecorder R P :=
  if pts < 0 then
    { s with m_ts_last := Function.update s.m_ts_last stream_id (-1) }
  else
    let ts := dts
    HandleTimestamps.note stream_id ts
      (HandleTimestamps.checkGap X stream_id ts (HandleTimestamps.downgrade stream_id dts s))

/-! ## Start codes -/

/-- The stream ids of `PESStreamID` (declared outside the sources; the first four are
listed in the comment at source lines 405-408, the others are the ISO 13818-1 values). -/
def PictureStartCode : Nat := 0x00

/-- The id `PESStreamID::GOPStartCode`. -/
def GOPStartCode : Nat := 0xB8

/-- The id `PESStreamID::SequenceStartCode`. -/
def SequenceStartCode : Nat := 0xB3

/-- The id `PESStreamID::MPEG2ExtensionStartCode`. -/
def MPEG2ExtensionStartCode : Nat := 0xB5

/-- The id `PESStreamID::PaddingStream`. -/
def PaddingStream : Nat := 0xBE

/-- The id `PESStreamID::MPEGAudioStreamBegin`. -/
def MPEGAudioStreamBegin : Nat := 0xC0

/-- The id `PESStreamID::MPEGAudioStreamEnd`. -/
def MPEGAudioStreamEnd : Nat := 0xDF

/-- The id `PESStreamID::MPEGVideoStreamBegin`. -/
def MPEGVideoStreamBegin : Nat := 0xE0

/-- The id `PESStreamID::MPEGVideoStreamEnd`. -/
def MPEGVideoStreamEnd : Nat := 0xEF

/-- The stream type `StreamID::H264Video`. -/
def H264Video : Nat := 0x1B

/-- The scan of `avpriv_find_start_code` from offset `p`, with `fuel` bytes allowed. -/
def find_start_code_from (data : List Nat) (bufend : Nat) : Nat → Nat → Nat → Nat × Nat
  | 0, p, state => (p, state)
  | fuel + 1, p, state =>
    if p < bufend then
      let state1 := ((state <<< 8) ||| rd data p 0) % 2 ^ 32
      if state1 &&& 0xffffff00 = 0x00000100 then (p + 1, state1)
      else find_start_code_from data bufend fuel (p + 1) state1
    else (p, state)

/-- Modelled from the spec: `avpriv_find_start_code` of libavcodec, whose body is outside
the sources. Bytes from `p` up to `bufend` are shifted one by one into the 32-bit rolling
accumulator; the scan stops just after the byte that completes `00 00 01 xx`, or at
`bufend`. The result is the new offset and the new accumulator. -/
def avpriv_find_start_code (data : List Nat) (p bufend state : Nat) : Nat × Nat :=
  find_start_code_from data bufend (bufend - p) p state

/-- The local variables of a keyframe detector that outlive its scanning loop. -/
structure ScanLocals where
  hasFrame : Bool
  hasKeyFrame : Bool
  aspectRatio : Nat
  height : Nat
  width : Nat
  frameRate : FrameRate
deriving DecidableEq, Repr

/-- The initial values of the locals (source lines 395-401, 823-829, 1037-1040). -/
def ScanLocals.init : ScanLocals :=
  { hasFrame := false, hasKeyFrame := false, aspectRatio := 0, height := 0, width := 0
    frameRate := FrameRate.ofNat 0 }

/-- Source lines 555-575 (and 969-991, 1149-1170): changes of aspect ratio, resolution
and frame rate are stored and reported. -/
def reportChanges (l : ScanLocals) (s : DTVRecorder R P) : DTVRecorder R P :=
  let s1 := if l.aspectRatio > 0 ∧ l.aspectRatio ≠ s.m_videoAspect then
      { s with m_videoAspect := l.aspectRatio
               trace := s.trace ++ [Event.AspectChange l.aspectRatio s.m_frames_written_count] }
    else s
  let s2 := if l.height ≠ 0 ∧ l.width ≠ 0 ∧
        (l.height ≠ s1.m_videoHeight ∨ s1.m_videoWidth ≠ l.width) then
      { s1 with m_videoHeight := l.height
                m_videoWidth := l.width
                trace := s1.trace ++
                  [Event.ResolutionChange l.width l.height s1.m_frames_written_count] }
    else s1
  if l.frameRate.isNonzero ∧ l.frameRate ≠ s2.m_frameRate then
    { s2 with m_frameRate := l.frameRate
              trace := s2.trace ++ [Event.FrameRateChange l.frameRate s2.m_frames_written_count] }
  else s2

/-! ## The MPEG-2 detector -/

/-- Source lines 457-487: the repeat count taken from a picture coding extension. -/
def repeatPictOf (data : List Nat) (bufptr : Nat) (progressive_sequence : Nat) : Nat :=
  let top_field_first := rd data bufptr 3 &&& (1 <<< 7)
  let repeat_first_field := rd data bufptr 3 &&& (1 <<< 1)
  let progressive_frame := rd data bufptr 4 &&& (1 <<< 7)
  let r : Nat :=
    if repeat_first_field ≠ 0 then
      if progressive_sequence ≠ 0 then (if top_field_first ≠ 0 then 5 else 3)
      else if progressive_frame ≠ 0 then 2
      else 1
    else 1
  r - 1

/-- Source lines 444-490: an MPEG-2 extension start code. -/
def handleExtension (data : List Nat) (bufptr : Nat) (bytes_left : Int)
    (s : DTVRecorder R P) : DTVRecorder R P :=
  if bytes_left ≥ 1 then
    let ext_type := rd data bufptr 0 >>> 4
    if ext_type = 0x1 then
      if bytes_left ≥ 6 then
        { s with m_progressive_sequence := rd data bufptr 1 &&& (1 <<< 3) }
      else s
    else if ext_type = 0x8 then
      if bytes_left ≥ 5 then
        { s with m_repeat_pict := repeatPictOf data bufptr s.m_progressive_sequence }
      else s
    else s
  else s

/-- Source lines 491-507: a video PES header; its time stamps are handled and the
music-choice rule applied. Both extractions ask for `kExtractPTS`, as the source does. -/
def handleVideoPES (X : Collab R P) (data : List Nat) (bufptr : Nat) (bytes_left : Int)
    (stream_id : Nat) (l : ScanLocals) (s : DTVRecorder R P) :
    DTVRecorder R P × ScanLocals :=
  let pts := extract_timestamp data bufptr bytes_left kExtractPTS
  let dts := extract_timestamp data bufptr bytes_left kExtractPTS
  let s1 := HandleTimestamps X stream_id pts dts s
  if s1.m_first_keyframe < 0 ∧ s1.m_ts_last stream_id - s1.m_ts_first stream_id > 3 * 90000
  then ({ s1 with m_music_choice := true }, { l with hasKeyFrame := true })
  else (s1, l)

/-- Source lines 418-508: what is done for one start code `00 00 01 xx` found with the
scan standing at `bufptr`. -/
def FindMPEG2Keyframes.onStartCode (X : Collab R P) (data : List Nat) (bufptr : Nat)
    (l : ScanLocals) (s : DTVRecorder R P) : DTVRecorder R P × ScanLocals :=
  let bytes_left : Int := (kSize : Int) - (bufptr : Int)
  let stream_id := s.m_start_code &&& 0x000000ff
  let r : DTVRecorder R P × ScanLocals :=
    if PictureStartCode = stream_id then (s, { l with hasFrame := true })
    else if GOPStartCode = stream_id then
      ({ s with m_last_gop_seen := s.m_frames_seen_count }, { l with hasKeyFrame := true })
    else if SequenceStartCode = stream_id then
      ({ s with m_last_seq_seen := s.m_frames_seen_count },
       { l with
         hasKeyFrame := l.hasKeyFrame ||
           decide (s.m_last_gop_seen + kMaxKeyFrameDistance < s.m_frames_seen_count)
         aspectRatio := rd data bufptr 3 >>> 4
         height := ((rd data bufptr 1 &&& 0xf) <<< 8) ||| rd data bufptr 2
         width := (rd data bufptr 0 <<< 4) ||| (rd data bufptr 1 >>> 4)
         frameRate := frameRateMap (rd data bufptr 3 &&& 0x0000000f) })
    else if MPEG2ExtensionStartCode = stream_id then
      (handleExtension data bufptr bytes_left s, l)
    else (s, l)
  if stream_id ≥ MPEGVideoStreamBegin ∧ stream_id ≤ MPEGVideoStreamEnd then
    handleVideoPES X data bufptr bytes_left stream_id r.2 r.1
  else r

/-- The recorder with the rolling start-code accumulator set to `state`. -/
def withStartCode (state : Nat) (s : DTVRecorder R P) : DTVRecorder R P :=
  { s with m_start_code := state }

/-- Source lines 414-509: the scanning loop, `bufptr` an offset into the packet. Every
round consumes at least one byte, so `kSize` rounds are enough. -/
def FindMPEG2Keyframes.loop (X : Collab R P) (data : List Nat) :
    Nat → Nat → ScanLocals → DTVRecorder R P → DTVRecorder R P × ScanLocals
  | 0, _, l, s => (s, l)
  | fuel + 1, bufptr, l, s =>
    if bufptr < kSize then
      let f := avpriv_find_start_code data bufptr kSize s.m_start_code
      let s1 := withStartCode f.2 s
      if f.2 &&& 0xffffff00 = 0x00000100 then
        let r := FindMPEG2Keyframes.onStartCode X data f.1 l s1
        FindMPEG2Keyframes.loop X data fuel f.1 r.2 r.1
      else FindMPEG2Keyframes.loop X data fuel f.1 l s1
    else (s, l)

/-- Source lines 511-520 (and 1125-1134): without a GOP or sequence start, every 16th
frame far enough from the last GOP and sequence start is taken for a keyframe. -/
def fallbackKeyFrame (l : ScanLocals) (s : DTVRecorder R P) : Bool :=
  if l.hasFrame && !l.hasKeyFrame then
    (s.m_frames_seen_count &&& 0xf == 0) &&
    decide (s.m_last_gop_seen + kMaxKeyFrameDistance < s.m_frames_seen_count) &&
    decide (s.m_last_seq_seen + kMaxKeyFrameDistance < s.m_frames_seen_count)
  else l.hasKeyFrame

/-- Source lines 535-553 (and 948-967): a frame was found. -/
def onFrame (s : DTVRecorder R P) : DTVRecorder R P :=
  let s1 := countFrame (stopBuffering s)
  if !s1.m_wait_for_keyframe_option || decide (s1.m_first_keyframe ≥ 0) then
    UpdateFramesWritten s1
  else { s1 with m_payload_buffer := [] }

/-- Source lines 387-509 of `FindMPEG2Keyframes`: the recorder and the locals when the
scanning loop is left. -/
def FindMPEG2Keyframes.scan (X : Collab R P) (tspacket : TSPacket) (s : DTVRecorder R P) :
    DTVRecorder R P × ScanLocals :=
  let s1 := withStartCode (if tspacket.PayloadStart then 0xffffffff else s.m_start_code)
    { s with m_repeat_pict := 0 }
  FindMPEG2Keyframes.loop X tspacket.data kSize tspacket.AFCOffset ScanLocals.init s1

/-- The final value of the local `hasKeyFrame` of `FindMPEG2Keyframes` (source line 520),
false when the packet is not scanned. -/
def FindMPEG2Keyframes.hasKeyFrame (X : Collab R P) (tspacket : TSPacket)
    (s : DTVRecorder R P) : Bool :=
  if !tspacket.HasPayload then false
  else match s.m_ringBuffer with
    | none => false
    | some _ =>
      let r := FindMPEG2Keyframes.scan X tspacket s
      fallbackKeyFrame r.2 r.1

/-- Source lines 511-577 of `FindMPEG2Keyframes`: what follows the scanning loop. -/
def FindMPEG2Keyframes.finish (X : Collab R P) (l : ScanLocals) (s : DTVRecorder R P) :
    DTVRecorder R P :=
  let hasKeyFrame := fallbackKeyFrame l s
  let s1 := if hasKeyFrame && (s.m_buffer_packets || decide (s.m_first_keyframe ≥ 0)) then
      HandleKeyframe X 0 (markKeyframeSeen s)
    else s
  let s2 := if l.hasFrame then onFrame s1 else s1
  reportChanges l s2

/-- `DTVRecorder::FindMPEG2Keyframes` (source lines 379-578), as the recorder it leaves;
the returned flag is `m_first_keyframe >= 0` of that recorder. -/
def FindMPEG2Keyframes (X : Collab R P) (tspacket : TSPacket) (s : DTVRecorder R P) :
    DTVRecorder R P :=
  if !tspacket.HasPayload then s
  else match s.m_ringBuffer with
    | none => s
    | some _ =>
      let r := FindMPEG2Keyframes.scan X tspacket s
      FindMPEG2Keyframes.finish X r.2 r.1

/-! ## The audio and the fallback detector -/

/-- `DTVRecorder::FindAudioKeyframes` (source lines 699-734). `expected_frame` is the
value of the local of that name at line 714; lines 705-712 compute it from the audio
timer and the floating-point frame interval. -/
def FindAudioKeyframes (X : Collab R P) (expected_frame : Nat) (s : DTVRecorder R P) :
    DTVRecorder R P :=
  if s.m_ringBuffer.isNone || decide (s.VideoPIDSingleProgram ≤ 0x1fff) then s
  else if s.m_frames_seen_count = 0 ∨ s.m_frames_seen_count < expected_frame then
    let s1 := countFrame (stopBuffering s)
    let s2 := if 1 = s1.m_frames_seen_count &&& 0x7 then
        HandleKeyframe X (s1.m_payload_buffer.length : Int) (markKeyframeSeen s1)
      else s1
    if !s2.m_wait_for_keyframe_option || decide (s2.m_first_keyframe ≥ 0) then
      UpdateFramesWritten s2
    else s2
  else s

/-- `DTVRecorder::FindOtherKeyframes` (source lines 738-758). -/
def FindOtherKeyframes (X : Collab R P) (s : DTVRecorder R P) : DTVRecorder R P :=
  if s.m_ringBuffer.isNone || decide (s.VideoPIDSingleProgram ≤ 0x1fff) then s
  else if s.m_has_written_other_keyframe then s
  else
    let s1 := countFrame s
    let s2 := UpdateFramesWritten s1
    let s3 := markKeyframeSeen s2
    let s4 := HandleKeyframe X (s3.m_payload_buffer.length : Int) s3
    { s4 with m_has_written_other_keyframe := true }

/-! ## The H.264 detector -/

/-- Source lines 901-920: the bytes from offset `i` on are handed to the parser and its
report is taken over. The result also carries the number of bytes used. -/
def FindH264Keyframes.feed (X : Collab R P) (data : List Nat) (i : Nat) (rb : R)
    (l : ScanLocals) (s : DTVRecorder R P) : (DTVRecorder R P × ScanLocals) × Nat :=
  let a := X.addBytes s.m_h264_parser_state (data.drop i) (X.GetWritePosition rb)
  let p := a.1
  let s1 := { s with m_h264_parser_state := p }
  if X.stateChanged p && X.onFrameStart p && !X.isFieldBottom p then
    let key := X.onKeyFrameStart p
    (({ s1 with m_seen_sps := s1.m_seen_sps || key },
      { hasFrame := true, hasKeyFrame := key, aspectRatio := X.aspectRatio p
        height := X.pictureHeight p, width := X.pictureWidth p
        frameRate := X.getFrameRate p l.frameRate }), a.2 % 2 ^ 32)
  else ((s1, l), a.2 % 2 ^ 32)

/-- Source lines 833-921: the loop over the packet, `i` the loop index. The result is
`none` when `fuel` rounds do not end the loop, which only a parser that reports zero
bytes used can cause. -/
def FindH264Keyframes.loop (X : Collab R P) (tspacket : TSPacket) (rb : R) :
    Nat → Nat → ScanLocals → DTVRecorder R P → Option (DTVRecorder R P × ScanLocals)
  | 0, _, _, _ => none
  | fuel + 1, i, l, s =>
    if i < kSize then
      if tspacket.PayloadStart && !s.m_pes_synced then
        if i + 2 ≥ kSize then some (s, l)
        else if rd tspacket.data i 0 ≠ 0x00 ∨ rd tspacket.data i 1 ≠ 0x00 ∨
            rd tspacket.data i 2 ≠ 0x01 then some (s, l)
        else
          let i3 := i + 3
          if i3 + 5 ≥ kSize then some (s, l)
          else
            let pes_header_length := rd tspacket.data i3 5
            if i3 + 6 + pes_header_length ≥ kSize then some (s, l)
            else
              FindH264Keyframes.loop X tspacket rb fuel (i3 + 5 + pes_header_length + 1) l
                { s with m_pes_synced := true }
      else if !s.m_pes_synced then some (s, l)
      else
        let r := FindH264Keyframes.feed X tspacket.data i rb l s
        let i1 := (i + (r.2 + 2 ^ 32 - 1)) % 2 ^ 32
        FindH264Keyframes.loop X tspacket rb fuel ((i1 + 1) % 2 ^ 32) r.1.2 r.1.1
    else some (s, l)

/-- Source lines 815-921 of `FindH264Keyframes`: the recorder and the locals when the
loop is left. -/
def FindH264Keyframes.scan (X : Collab R P) (tspacket : TSPacket) (rb : R)
    (s : DTVRecorder R P) : Option (DTVRecorder R P × ScanLocals) :=
  let s1 := if tspacket.PayloadStart then
      { s with m_pes_synced := false, m_start_code := 0xffffffff } else s
  FindH264Keyframes.loop X tspacket rb (kSize + 1) tspacket.AFCOffset ScanLocals.init s1

/-- The unsigned 64-bit difference `a - b`. -/
def subU64 (a b : Nat) : Nat :=
  (a % 2 ^ 64 + 2 ^ 64 - b % 2 ^ 64) % 2 ^ 64

/-- Source lines 923-932: the final value of the local `hasKeyFrame`. -/
def FindH264Keyframes.hasKeyFrame (l : ScanLocals) (s : DTVRecorder R P) : Bool :=
  if l.hasFrame && !l.hasKeyFrame &&
      decide (subU64 s.m_frames_seen_count s.m_last_keyframe_seen > 511) then true
  else l.hasKeyFrame

/-- Source lines 923-993 of `FindH264Keyframes`: what follows the loop. -/
def FindH264Keyframes.finish (X : Collab R P) (l : ScanLocals) (s : DTVRecorder R P) :
    DTVRecorder R P :=
  let hasKeyFrame := FindH264Keyframes.hasKeyFrame l s
  let s1 := if hasKeyFrame && (s.m_buffer_packets || decide (s.m_first_keyframe ≥ 0)) then
      HandleH264Keyframe X (markKeyframeSeen s)
    else s
  let s2 := if l.hasFrame then onFrame s1 else s1
  reportChanges l s2

/-- `DTVRecorder::FindH264Keyframes` (source lines 804-994), as the recorder it leaves;
the returned flag is `m_seen_sps` of that recorder. -/
def FindH264Keyframes (X : Collab R P) (tspacket : TSPacket) (s : DTVRecorder R P) :
    Option (DTVRecorder R P) :=
  if !tspacket.HasPayload then some s
  else match s.m_ringBuffer with
    | none => some s
    | some rb =>
      (FindH264Keyframes.scan X tspacket rb s).map
        (fun r => FindH264Keyframes.finish X r.2 r.1)

/-! ## The program stream detector -/

/-- The loop variables of `FindPSKeyFrames`: the offsets `bufstart` and `bufptr` into the
buffer, `skip`, and the locals declared before the loop. -/
structure PSVars where
  bufstart : Nat
  bufptr : Nat
  skip : Nat
  l : ScanLocals

/-- Source lines 1061-1121: the start code `00 00 01 xx` found with the scan at `bufptr`
is classified; the result also carries the locals `hasFrame` and `hasKeyFrame` in `l`. -/
def FindPSKeyFrames.classify (buffer : List Nat) (bufptr : Nat) (l : ScanLocals)
    (s : DTVRecorder R P) : DTVRecorder R P × ScanLocals :=
  let bufend := buffer.length
  let pes_packet_length : Int :=
    if (bufend : Int) - (bufptr : Int) ≥ 2 then
      (((rd buffer bufptr 0 <<< 8) ||| rd buffer bufptr 1 : Nat) : Int) + 2 + 6
    else -1
  let stream_id := s.m_start_code &&& 0x000000ff
  let r : DTVRecorder R P × ScanLocals :=
    if s.m_video_bytes_remaining ≠ 0 then
      if PictureStartCode = stream_id then
        if (bufend : Int) - (bufptr : Int) ≥ 4 then
          let frmtypei := (rd buffer bufptr 1 >>> 3) &&& 0x7
          if 1 ≤ frmtypei ∧ frmtypei ≤ 5 then (s, { l with hasFrame := true }) else (s, l)
        else (s, { l with hasFrame := true })
      else if GOPStartCode = stream_id then
        ({ s with m_last_gop_seen := s.m_frames_seen_count }, { l with hasKeyFrame := true })
      else if SequenceStartCode = stream_id then
        ({ s with m_last_seq_seen := s.m_frames_seen_count },
         { l with
           hasKeyFrame := l.hasKeyFrame ||
             decide (s.m_last_gop_seen + kMaxKeyFrameDistance < s.m_frames_seen_count)
           aspectRatio := rd buffer bufptr 3 >>> 4
           height := ((rd buffer bufptr 1 &&& 0xf) <<< 8) ||| rd buffer bufptr 2
           width := (rd buffer bufptr 0 <<< 4) ||| (rd buffer bufptr 1 >>> 4)
           frameRate := frameRateMap (rd buffer bufptr 3 &&& 0x0000000f) })
      else (s, l)
    else if s.m_video_bytes_remaining = 0 ∧ s.m_audio_bytes_remaining = 0 then
      if stream_id ≥ MPEGVideoStreamBegin ∧ stream_id ≤ MPEGVideoStreamEnd then
        ({ s with m_video_bytes_remaining := (max 0 pes_packet_length).toNat }, l)
      else if stream_id ≥ MPEGAudioStreamBegin ∧ stream_id ≤ MPEGAudioStreamEnd then
        ({ s with m_audio_bytes_remaining := (max 0 pes_packet_length).toNat }, l)
      else (s, l)
    else (s, l)
  let s1 := if PaddingStream = stream_id then
      { r.1 with m_other_bytes_remaining := (max 0 pes_packet_length).toNat } else r.1
  ({ s1 with m_start_code := 0xffffffff }, r.2)

/-- Source lines 1172-1190: buffered bytes and the bytes of the input up to `bufptr` are
written. -/
def FindPSKeyFrames.writeOut (X : Collab R P) (buffer : List Nat) (bufstart bufptr : Nat)
    (s : DTVRecorder R P) : DTVRecorder R P :=
  let s1 := flushPayloadBuffer X s
  writeIgnoringResult X ((buffer.drop bufstart).take (bufptr - bufstart)) s1

/-- Source lines 1125-1170: the frame counters are advanced, a keyframe is handled and
changes are reported, for the locals `l` left by the classification and the input
consumed up to `bufptr`. -/
def FindPSKeyFrames.account (X : Collab R P) (bufstart bufptr : Nat) (l : ScanLocals)
    (s : DTVRecorder R P) : DTVRecorder R P :=
  let hasKeyFrame := fallbackKeyFrame l s
  let s2 := if l.hasFrame then
      if !(countFrame s).m_wait_for_keyframe_option ||
          decide ((countFrame s).m_first_keyframe ≥ 0) then
        UpdateFramesWritten (countFrame s) else countFrame s
    else s
  let s3 := if hasKeyFrame then
      HandleKeyframe X ((s2.m_payload_buffer.length : Int) -
          ((bufptr : Int) - (bufstart : Int))) (markKeyframeSeen s2)
    else s2
  reportChanges l s3

/-- Source lines 1051-1054: the byte counts that remain of the current PES packets are
brought up to date after a scan from `tmp` to `bufptr`. -/
def FindPSKeyFrames.consume (tmp bufptr state : Nat) (s : DTVRecorder R P) : DTVRecorder R P :=
  { s with
    m_start_code := state
    m_audio_bytes_remaining := 0
    m_other_bytes_remaining := 0
    m_video_bytes_remaining :=
      s.m_video_bytes_remaining - min (bufptr - tmp) s.m_video_bytes_remaining }

/-- Source lines 1059-1192: what one round of the loop does for a start code found with
the scan at `bufptr`; the result carries the loop variables for the next round. -/
def FindPSKeyFrames.onStartCode (X : Collab R P) (buffer : List Nat) (v : PSVars)
    (bufptr : Nat) (s : DTVRecorder R P) : DTVRecorder R P × PSVars :=
  let c := FindPSKeyFrames.classify buffer bufptr
    { v.l with hasFrame := false, hasKeyFrame := false } s
  let w := fallbackKeyFrame c.2 c.1 || c.2.hasFrame
  let s4 := FindPSKeyFrames.account X v.bufstart bufptr c.2 c.1
  let s5 := if w then FindPSKeyFrames.writeOut X buffer v.bufstart bufptr s4 else s4
  (s5, { bufstart := if w then bufptr else v.bufstart
         bufptr := bufptr
         skip := max s5.m_audio_bytes_remaining s5.m_other_bytes_remaining
         l := c.2 })

/-- Source lines 1043-1193: the loop of `FindPSKeyFrames`. Every round consumes at least
one byte, so as many rounds as the buffer has bytes are enough. -/
def FindPSKeyFrames.loop (X : Collab R P) (buffer : List Nat) :
    Nat → PSVars → DTVRecorder R P → DTVRecorder R P × PSVars
  | 0, v, s => (s, v)
  | fuel + 1, v, s =>
    let bufend := buffer.length
    if v.bufptr + v.skip < bufend then
      let tmp := v.bufptr
      let f := avpriv_find_start_code buffer (v.bufptr + v.skip) bufend s.m_start_code
      let bufptr := f.1
      let s1 := FindPSKeyFrames.consume tmp bufptr f.2 s
      if f.2 &&& 0xffffff00 ≠ 0x00000100 then
        FindPSKeyFrames.loop X buffer fuel { v with bufptr := bufptr } s1
      else
        let r := FindPSKeyFrames.onStartCode X buffer v bufptr s1
        FindPSKeyFrames.loop X buffer fuel r.2 r.1
    else (s, v)

/-- `DTVRecorder::FindPSKeyFrames` (source lines 1029-1214). -/
def FindPSKeyFrames (X : Collab R P) (buffer : List Nat) (s : DTVRecorder R P) :
    DTVRecorder R P :=
  let bufend := buffer.length
  let r := FindPSKeyFrames.loop X buffer buffer.length
    { bufstart := 0, bufptr := 0
      skip := max s.m_audio_bytes_remaining s.m_other_bytes_remaining
      l := ScanLocals.init } s
  let s1 := r.1
  let bytes_skipped := bufend - r.2.bufptr
  let s2 := if bytes_skipped > 0 then
      { s1 with
        m_audio_bytes_remaining :=
          s1.m_audio_bytes_remaining - min bytes_skipped s1.m_audio_bytes_remaining
        m_video_bytes_remaining :=
          s1.m_video_bytes_remaining - min bytes_skipped s1.m_video_bytes_remaining
        m_other_bytes_remaining :=
          s1.m_other_bytes_remaining - min bytes_skipped s1.m_other_bytes_remaining }
    else s1
  { s2 with m_payload_buffer := s2.m_payload_buffer ++ buffer.drop r.2.bufstart }

/-! ## Packet processing -/

/-- Modelled from the spec: `DTVRecorder::CheckCC`, declared outside the sources. The
check passes when the counter is the previous one of the PID plus one modulo 16, and
always on the first packet of a PID (the constructor fills the table with `0xff`); the
counter is stored either way. The result is the recorder and whether the check passed. -/
def CheckCC (pid new_cnt : Nat) (s : DTVRecorder R P) : DTVRecorder R P × Bool :=
  let old := s.m_continuity_counter pid
  ({ s with m_continuity_counter := Function.update s.m_continuity_counter pid (new_cnt &&& 0xf) },
   (old == 0xFF) || (((old + 1) &&& 0xf) == new_cnt))

/-- Source lines 1418-1434 and 1547-1562: the packet is counted and its continuity
counter checked, except for the null PID. -/
def countAndCheck (tspacket : TSPacket) (s : DTVRecorder R P) : DTVRecorder R P :=
  let pid := tspacket.PID
  let s1 := if pid ≠ 0x1fff then { s with m_packet_count := s.m_packet_count + 1 } else s
  if pid ≠ 0x1fff then
    let c := CheckCC pid tspacket.ContinuityCounter s1
    if !c.2 then
      { c.1 with m_continuity_error_count := c.1.m_continuity_error_count + 1 }
    else c.1
  else s1

/-- `DTVRecorder::ProcessTSPacket` (source lines 1416-1478). `elapsed` is what the static
timer of the full-MPTS branch reads at line 1454. -/
def ProcessTSPacket (X : Collab R P) (tspacket : TSPacket) (elapsed : Int)
    (s : DTVRecorder R P) : DTVRecorder R P :=
  let pid := tspacket.PID
  let s1 := countAndCheck tspacket s
  if s1.m_input_pmt.isSome && s1.m_has_no_av then
    let s2 := FindOtherKeyframes X s1
    BufferedWrite X tspacket false (stopBuffering s2)
  else if s1.m_record_mpts_only then
    let s2 := countFrame s1
    let s3 := if elapsed > 500 then
        let t := UpdateFramesWritten s2
        HandleKeyframe X (t.m_payload_buffer.length : Int) (markKeyframeSeen t)
      else s2
    BufferedWrite X tspacket false s3
  else if s1.m_stream_id pid = 0 then s1
  else if s1.m_wait_for_keyframe_option && decide (s1.m_first_keyframe < 0) then s1
  else BufferedWrite X tspacket false s1

/-- The bit `kPayloadStartSeen` of `m_pid_status`. -/
def kPayloadStartSeen : Nat := 0x2

/-- `DTVRecorder::ProcessAVTSPacket` (source lines 1537-1574). -/
def ProcessAVTSPacket (X : Collab R P) (tspacket : TSPacket) (s : DTVRecorder R P) :
    DTVRecorder R P :=
  if s.m_wait_for_keyframe_option && decide (s.m_first_keyframe < 0) then
    if s.m_buffer_packets then BufferedWrite X tspacket false s else s
  else
    let pid := tspacket.PID
    let s1 := countAndCheck tspacket s
    let s2 := if s1.m_pid_status pid &&& kPayloadStartSeen = 0 then
        { s1 with m_pid_status :=
            Function.update s1.m_pid_status pid (s1.m_pid_status pid ||| kPayloadStartSeen) }
      else s1
    BufferedWrite X tspacket false s2

/-- Source lines 1487-1499 and 1518-1530: at a payload start pending buffered data is
written out and buffering begins. -/
def onPayloadStart (X : Collab R P) (tspacket : TSPacket) (s : DTVRecorder R P) :
    DTVRecorder R P :=
  if tspacket.HasPayload && tspacket.PayloadStart then
    let s1 := if s.m_buffer_packets && decide (s.m_first_keyframe ≥ 0) &&
        !s.m_payload_buffer.isEmpty then
        { writeIgnoringResult X s.m_payload_buffer s with m_payload_buffer := [] }
      else s
    { s1 with m_buffer_packets := true }
  else s

/-- `DTVRecorder::ProcessVideoTSPacket` (source lines 1480-1511). -/
def ProcessVideoTSPacket (X : Collab R P) (tspacket : TSPacket) (s : DTVRecorder R P) :
    Option (DTVRecorder R P) :=
  if s.m_ringBuffer.isNone then some s
  else
    let streamType := s.m_stream_id tspacket.PID
    let s1 := onPayloadStart X tspacket s
    let s2 : Option (DTVRecorder R P) :=
      if streamType = H264Video then FindH264Keyframes X tspacket s1
      else if streamType ≠ 0 then some (FindMPEG2Keyframes X tspacket s1)
      else some s1
    s2.map (ProcessAVTSPacket X tspacket)

/-- `DTVRecorder::ProcessAudioTSPacket` (source lines 1513-1534); `expected_frame` as in
`FindAudioKeyframes`. -/
def ProcessAudioTSPacket (X : Collab R P) (tspacket : TSPacket) (expected_frame : Nat)
    (s : DTVRecorder R P) : DTVRecorder R P :=
  if s.m_ringBuffer.isNone then s
  else
    let s1 := onPayloadStart X tspacket s
    ProcessAVTSPacket X tspacket (FindAudioKeyframes X expected_frame s1)

/-! ## Concrete collaborators for examples -/

/-- A ring buffer for examples: its write position, and whether writes to it fail. -/
structure TestSink where
  pos : Int
  fails : Bool
deriving DecidableEq, Repr

/-- An H.264 parser for examples: it follows a script that says, for every call of
`addBytes`, whether a frame starts there and whether that frame is a key frame; `cur` is
the report of the last call. -/
structure TestParser where
  script : List (Bool × Bool)
  cur : Bool × Bool
deriving DecidableEq, Repr

/-- Collaborators for examples: a successful write advances the write position by the
number of bytes and returns it, a failing one returns -1; the parser uses up all bytes
it is given and reports the next entry of its script. -/
def testCollab : Collab TestSink TestParser where
  Write := fun rb bytes =>
    if rb.fails then (rb, -1) else ({ rb with pos := rb.pos + bytes.length }, bytes.length)
  GetWritePosition := fun rb => rb.pos
  addBytes := fun p bytes _ =>
    ({ script := p.script.tail, cur := p.script.headD (false, false) }, bytes.length)
  stateChanged := fun p => p.cur.1
  onFrameStart := fun p => p.cur.1
  isFieldBottom := fun _ => false
  onKeyFrameStart := fun p => p.cur.2
  pictureWidth := fun _ => 0
  pictureHeight := fun _ => 0
  aspectRatio := fun _ => 0
  getFrameRate := fun _ fr => fr
  keyframeAUstreamOffset := fun _ => 0
  IsDamaged := fun _ => false

/-- A recorder for examples: all members zero, empty or false. -/
def blank (rb : Option R) (p : P) : DTVRecorder R P where
  m_ringBuffer := rb
  m_nextRingBuffer := none
  m_curRecording := none
  m_nextRecording := none
  m_start_code := 0
  m_first_keyframe := 0
  m_has_written_other_keyframe := false
  m_last_keyframe_seen := 0
  m_last_gop_seen := 0
  m_last_seq_seen := 0
  m_audio_bytes_remaining := 0
  m_video_bytes_remaining := 0
  m_other_bytes_remaining := 0
  m_error := []
  m_progressive_sequence := 0
  m_repeat_pict := 0
  m_pes_synced := false
  m_seen_sps := false
  m_h264_parser_state := p
  m_positionMap := []
  m_positionMapDelta := []
  m_durationMap := []
  m_durationMapDelta := []
  m_ts_count := fun _ => 0
  m_ts_last := fun _ => 0
  m_ts_first := fun _ => 0
  m_packet_count := 0
  m_continuity_error_count := 0
  m_frames_seen_count := 0
  m_frames_written_count := 0
  m_total_duration := 0
  m_td_base := 0
  m_td_tick_count := 0
  m_td_tick_framerate := FrameRate.ofNat 0
  m_frameRate := FrameRate.ofNat 0
  m_videoAspect := 0
  m_videoHeight := 0
  m_videoWidth := 0
  m_stream_id := fun _ => 0
  m_pid_status := fun _ => 0
  m_continuity_counter := fun _ => 0
  m_wait_for_keyframe_option := false
  m_record_mpts := false
  m_record_mpts_only := false
  m_has_no_av := false
  m_buffer_packets := false
  m_use_pts := false
  m_music_choice := false
  m_payload_buffer := []
  m_input_pmt := none
  m_primaryVideoCodec := 0
  m_primaryAudioCodec := 0
  DesiredProgram := 0
  VideoPIDSingleProgram := 0
  m_recordingGaps := []
  trace := []

/-- The constructor of `DTVRecorder` (source lines 46-62) run on a recorder whose members
have the values `c`: the reset for a new file, then the three tables are filled. With
`c` left open, everything the constructor does not assign is arbitrary. -/
def construct (c : DTVRecorder R P) : DTVRecorder R P :=
  { ResetForNewFile c with
    m_stream_id := fun _ => 0
    m_pid_status := fun _ => 0
    m_continuity_counter := fun _ => 0xff }

/-- A recorder for examples as the constructor leaves it, with a ring buffer at position
0 attached and the option to wait for a keyframe set. -/
def fresh0 : DTVRecorder TestSink TestParser :=
  construct { blank (some { pos := 0, fails := false }) { script := [], cur := (false, false) }
    with m_wait_for_keyframe_option := true }

/-- A byte list cut or filled with `0xff` to the 188 bytes of a packet. -/
def fit188 (l : List Nat) : List Nat :=
  l.take 188 ++ List.replicate (188 - l.length) 0xff

/-- The bytes of a transport stream packet of PID `0x100` that carries `payload`: the
four header bytes, an adaptation field of stuffing when the payload is shorter than 184
bytes, then the payload. -/
def packetBytes (payloadStart : Bool) (payload : List Nat) : List Nat :=
  let b1 := if payloadStart then 0x41 else 0x01
  if 184 ≤ payload.length then [0x47, b1, 0x00, 0x10] ++ payload
  else if payload.length = 183 then [0x47, b1, 0x00, 0x30, 0] ++ payload
  else [0x47, b1, 0x00, 0x30, 183 - payload.length, 0] ++
    List.replicate (182 - payload.length) 0xff ++ payload

/-- A packet for examples: PID `0x100`, continuity counter 0, carrying `payload` at the
end of its 188 bytes. -/
def mkPacket (payloadStart : Bool) (payload : List Nat) : TSPacket where
  data := fit188 (packetBytes payloadStart payload)
  size_eq := by
    simp only [fit188, kSize, List.length_append, List.length_take, List.length_replicate]
    omega
  PID := 0x100
  HasPayload := true
  PayloadStart := payloadStart
  AFCOffset := if 184 ≤ payload.length then 4 else 188 - payload.length
  ContinuityCounter := 0

/-- `QMap::value` as an option: the value stored under a key, if any. -/
def PosMap.find? (m : PosMap) (k : Nat) : Option Int :=
  (List.find? (fun e => e.1 == k) m).map Prod.snd

/-- A recorder for examples: a ring-buffer switch is pending while the position map holds
an entry for frame 0, the current frame number. -/
def pendingSwitch0 : DTVRecorder TestSink TestParser :=
  { fresh0 with
    m_nextRingBuffer := some { pos := 0, fails := false }
    m_first_keyframe := 0
    m_positionMap := [(0, 5)]
    m_positionMapDelta := [(0, 5)]
    m_durationMap := [(0, 0)]
    m_durationMapDelta := [(0, 0)] }

/-- A recorder for examples: as constructed, with PID `0x100` classified as MPEG-2 video
(stream type 2). -/
def mpeg2Rec : DTVRecorder TestSink TestParser :=
  { fresh0 with m_stream_id := fun pid => if pid = 0x100 then 2 else 0 }

/-- A packet for examples: the start of a video PES packet (stream id `0xE0`, no time
stamps) followed by four bytes that hold no start code. -/
def pesStartPacket : TSPacket :=
  mkPacket true [0x00, 0x00, 0x01, 0xE0, 0x00, 0x00, 0x80, 0x00, 0x00, 0x11, 0x22, 0x33, 0x44]

/-- A packet for examples that continues a PES packet with a GOP start code and a
picture start code. -/
def gopPicturePacket : TSPacket :=
  mkPacket false [0x00, 0x00, 0x01, 0xB8, 0x00, 0x08, 0x00, 0x40,
                  0x00, 0x00, 0x01, 0x00, 0x00, 0x0f, 0xff, 0xf8]

/-! ## Sequences of operations -/

/-- The operations on a recorder that the claims speak of, each with the outside readings
its function takes. -/
inductive Op where
  | tsPacket (tspacket : TSPacket) (elapsed : Int)
  | videoPacket (tspacket : TSPacket)
  | audioPacket (tspacket : TSPacket) (expected_frame : Nat)
  | psData (buffer : List Nat)
  | resetForNewFile
  | clearStatistics

/-- Whether an operation processes stream data (a packet or a program stream buffer). -/
def Op.isPacketOp : Op → Bool
  | Op.resetForNewFile => false
  | Op.clearStatistics => false
  | _ => true

/-- One operation; `none` when the function does not return. -/
def Op.apply (X : Collab R P) : Op → DTVRecorder R P → Option (DTVRecorder R P)
  | Op.tsPacket p elapsed, s => some (ProcessTSPacket X p elapsed s)
  | Op.videoPacket p, s => ProcessVideoTSPacket X p s
  | Op.audioPacket p e, s => some (ProcessAudioTSPacket X p e s)
  | Op.psData b, s => some (FindPSKeyFrames X b s)
  | Op.resetForNewFile, s => some (ResetForNewFile s)
  | Op.clearStatistics, s => some (ClearStatistics s)

/-- A sequence of operations, the first of the list first. -/
def run (X : Collab R P) : List Op → DTVRecorder R P → Option (DTVRecorder R P)
  | [], s => some s
  | op :: ops, s => (op.apply X s).bind (run X ops)

/-- The members that neither the writer nor the scanning loops nor the bookkeeping of
counters and notifications assign. -/
structure Core (R : Type) where
  next : Option R
  hasRing : Bool
  seen : Nat
  written : Nat
  maps : PosMap × PosMap × PosMap × PosMap
  first_keyframe : Int
  last_keyframe_seen : Nat
  has_written_other_keyframe : Bool
  has_no_av : Bool
  input_pmt : Option ProgramMapTable
  videoPID : Nat
  wait_for_keyframe_option : Bool
  record_mpts_only : Bool
  stream_id : Nat → Nat

/-- The `Core` of a recorder. -/
def coreOf (s : DTVRecorder R P) : Core R :=
  { next := s.m_nextRingBuffer
    hasRing := s.m_ringBuffer.isSome
    seen := s.m_frames_seen_count
    written := s.m_frames_written_count
    maps := s.maps
    first_keyframe := s.m_first_keyframe
    last_keyframe_seen := s.m_last_keyframe_seen
    has_written_other_keyframe := s.m_has_written_other_keyframe
    has_no_av := s.m_has_no_av
    input_pmt := s.m_input_pmt
    videoPID := s.VideoPIDSingleProgram
    wait_for_keyframe_option := s.m_wait_for_keyframe_option
    record_mpts_only := s.m_record_mpts_only
    stream_id := s.m_stream_id }

/-- The keys of the position map do not exceed the number of frames written and are
strictly increasing in map order. -/
def KeysOK (s : DTVRecorder R P) : Prop :=
  (∀ e ∈ s.m_positionMap, e.1 ≤ s.m_frames_written_count) ∧
  (s.m_positionMap.map Prod.fst).Pairwise (fun a b => a < b)

/-- From `s` to `t` no ring-buffer switch is pending at the end, `a` frames more were seen
and `b` more written, and a position map whose keys are in order was only extended at
its end, its keys staying in order and every key added being a frame number not below
the frames written at `s`. -/
def Delta (a b : Nat) (s t : DTVRecorder R P) : Prop :=
  t.m_nextRingBuffer = none ∧
  t.m_frames_seen_count = s.m_frames_seen_count + a ∧
  t.m_frames_written_count = s.m_frames_written_count + b ∧
  (KeysOK s → KeysOK t ∧ ∃ new, t.m_positionMap = s.m_positionMap ++ new ∧
    ∀ e ∈ new, s.m_frames_written_count ≤ e.1)

/-- As `Delta`, for some numbers of frames of which no more were written than seen. -/
def Pres (s t : DTVRecorder R P) : Prop :=
  ∃ a b, b ≤ a ∧ Delta a b s t

/-! ## Definitions for the detector scenarios -/

/-- The start codes that the scanning loop of `FindMPEG2Keyframes` finds in a packet from
offset `bufptr` on: the same rounds as `FindMPEG2Keyframes.loop`, keeping the stream ids. -/
def startCodesFrom (data : List Nat) : Nat → Nat → Nat → List Nat
  | 0, _, _ => []
  | fuel + 1, bufptr, state =>
    if bufptr < kSize then
      let f := avpriv_find_start_code data bufptr kSize state
      if f.2 &&& 0xffffff00 = 0x00000100 then
        (f.2 &&& 0x000000ff) :: startCodesFrom data fuel f.1 f.2
      else startCodesFrom data fuel f.1 f.2
    else []

/-- A packet for examples: the start of a PES payload that holds one picture start code
and the four bytes of a picture header. -/
def picturePacket : TSPacket :=
  mkPacket true [0x00, 0x00, 0x01, 0x00, 0x00, 0x0f, 0xff, 0xf8]

/-- The final values of `hasKeyFrame` when the part of `FindH264Keyframes` that follows
its loop runs for a sequence of packets, given the locals with which the loop is left
for each of them. -/
def h264Fallbacks (X : Collab R P) : List ScanLocals → DTVRecorder R P → List Bool
  | [], _ => []
  | l :: ls, s =>
    FindH264Keyframes.hasKeyFrame l s :: h264Fallbacks X ls (FindH264Keyframes.finish X l s)

/-- The locals after a loop in which the parser reported the start of a frame; `key` says
whether it reported a key frame. -/
def frameLocals (key : Bool) : ScanLocals :=
  { ScanLocals.init with hasFrame := true, hasKeyFrame := key }

/-- A packet for examples: the start of a video PES packet with a PES header of length 0,
followed by five bytes of elementary stream. -/
def h264Packet : TSPacket :=
  mkPacket true [0x00, 0x00, 0x01, 0xE0, 0x00, 0x00, 0x80, 0x00, 0x00,
                 0x00, 0x00, 0x00, 0x01, 0x65]

/-- A recorder for examples: 600 frames seen, the last keyframe handled at frame 0, the
parser about to report a frame that is not a key frame. -/
def h264Late : DTVRecorder TestSink TestParser :=
  { fresh0 with
    m_frames_seen_count := 600
    m_first_keyframe := 0
    m_h264_parser_state := { script := [(true, false)], cur := (false, false) } }

/-- A list of packets, each with the reading of the timer, fed one after the other to
`ProcessTSPacket`. -/
def feedTS (X : Collab R P) : List (TSPacket × Int) → DTVRecorder R P → DTVRecorder R P
  | [], s => s
  | pe :: ps, s => feedTS X ps (ProcessTSPacket X pe.1 pe.2 s)

/-- A recorder for examples: freshly reset, a program map table without streams cached,
no audio or video, no single-program video PID. -/
def noAVRec : DTVRecorder TestSink TestParser :=
  ResetForNewFile { fresh0 with
    m_input_pmt := some { streams := [], PCRPID := 0x1fff, ContinuityCounter := 0 }
    m_has_no_av := true
    VideoPIDSingleProgram := 0xffffffff }

/-- What the part of `FindH264Keyframes` after its loop reads and writes when a frame was
started: frames seen, the last keyframe seen, whether a first keyframe exists, and
whether packets are being buffered. -/
def h264Summary (s : DTVRecorder R P) : Nat × Nat × Bool × Bool :=
  (s.m_frames_seen_count, s.m_last_keyframe_seen, decide (0 ≤ s.m_first_keyframe),
    s.m_buffer_packets)

/-- The final value of `hasKeyFrame` for a started frame, from the summary; `key` is what
the parser reported. -/
def summaryKey (key : Bool) (c : Nat × Nat × Bool × Bool) : Bool :=
  key || decide (511 < subU64 c.1 c.2.1)

/-- The summary after a started frame was handled. -/
def summaryStep (key : Bool) (c : Nat × Nat × Bool × Bool) : Nat × Nat × Bool × Bool :=
  let handled := summaryKey key c && (c.2.2.2 || c.2.2.1)
  (c.1 + 1, (if handled then c.1 else c.2.1), c.2.2.1 || handled, false)

/-- The final values of `hasKeyFrame` for a sequence of started frames, from the summary. -/
def summaryFallbacks : List Bool → Nat × Nat × Bool × Bool → List Bool
  | [], _ => []
  | k :: ks, c => summaryKey k c :: summaryFallbacks ks (summaryStep k c)

/-! ## The tables of the program (C16) and the dispatch of packets -/

/-- The byte sequences passed to `RingBuffer::Write` by the calls in a trace, in call
order. -/
def writesOf (trace : List Event) : List (List Nat) :=
  trace.filterMap (fun e => match e with
    | Event.Write bytes => some bytes
    | _ => none)

/-- A ring buffer for examples whose next `failures` writes fail. -/
structure FlakySink where
  pos : Int
  failures : Nat
deriving DecidableEq, Repr

/-- Collaborators for examples as `testCollab`, with a ring buffer whose writes fail
(returning -1) as long as `failures` is positive, each failure using one up. -/
def flakyCollab : Collab FlakySink TestParser where
  Write := fun rb bytes =>
    if rb.failures = 0 then ({ rb with pos := rb.pos + bytes.length }, bytes.length)
    else ({ rb with failures := rb.failures - 1 }, -1)
  GetWritePosition := fun rb => rb.pos
  addBytes := testCollab.addBytes
  stateChanged := testCollab.stateChanged
  onFrameStart := testCollab.onFrameStart
  isFieldBottom := testCollab.isFieldBottom
  onKeyFrameStart := testCollab.onKeyFrameStart
  pictureWidth := testCollab.pictureWidth
  pictureHeight := testCollab.pictureHeight
  aspectRatio := testCollab.aspectRatio
  getFrameRate := testCollab.getFrameRate
  keyframeAUstreamOffset := testCollab.keyframeAUstreamOffset
  IsDamaged := testCollab.IsDamaged

/-- A recorder for examples: a recording in progress on a ring buffer whose next write
fails, one packet of zero bytes waiting in the payload buffer, no buffering, no waiting
for a keyframe. -/
def flushFails : DTVRecorder FlakySink TestParser :=
  { construct (blank (some { pos := 0, failures := 1 }) { script := [], cur := (false, false) })
    with m_curRecording := some RecStatus.Recording
         m_payload_buffer := List.replicate 188 0 }

/-- The cast `(int)progNum` of a `uint` (source line 1261). -/
def toInt32 (n : Nat) : Int :=
  if n % 2 ^ 32 < 2 ^ 31 then ((n % 2 ^ 32 : Nat) : Int) else ((n % 2 ^ 32 : Nat) : Int) - 2 ^ 32

/-- Source lines 1269-1274 of `HandlePMT`: the loop over the streams of the table, which
ends as soon as `has_no_av` is false. -/
def HandlePMT.has_no_av : List PMTStream → Bool → Bool
  | [], has_no_av => has_no_av
  | st :: rest, has_no_av =>
    if has_no_av then HandlePMT.has_no_av rest ((has_no_av && !st.IsVideo) && !st.IsAudio)
    else has_no_av

/-- `DTVRecorder::HandlePMT` (source lines 1253-1280) for a table that is not null. The
recorder keeps its own copy of the table; `SetCAMPMT`, declared outside the sources, is
handed that copy and assigns none of the members modelled here. -/
def HandlePMT (progNum : Nat) (pmt : ProgramMapTable) (s : DTVRecorder R P) :
    DTVRecorder R P :=
  if toInt32 progNum = s.DesiredProgram then
    { s with m_input_pmt := some pmt
             m_has_no_av := HandlePMT.has_no_av pmt.streams true }
  else s

/-- Source lines 1436-1475 of `ProcessTSPacket`: what is done with the packet once it is
counted and its continuity counter checked. -/
def ProcessTSPacket.dispatch (X : Collab R P) (tspacket : TSPacket) (elapsed : Int)
    (s1 : DTVRecorder R P) : DTVRecorder R P :=
  if s1.m_input_pmt.isSome && s1.m_has_no_av then
    BufferedWrite X tspacket false (stopBuffering (FindOtherKeyframes X s1))
  else if s1.m_record_mpts_only then
    let s2 := countFrame s1
    let s3 := if elapsed > 500 then
        let t := UpdateFramesWritten s2
        HandleKeyframe X (t.m_payload_buffer.length : Int) (markKeyframeSeen t)
      else s2
    BufferedWrite X tspacket false s3
  else if s1.m_stream_id tspacket.PID = 0 then s1
  else if s1.m_wait_for_keyframe_option && decide (s1.m_first_keyframe < 0) then s1
  else BufferedWrite X tspacket false s1

/-- A program map table for examples: one stream, of a type (`0x0B`, DSM-CC) that is
neither video nor audio. -/
def dataOnlyPMT : ProgramMapTable :=
  { streams := [{ StreamType := 0x0B, StreamPID := 0x101, IsVideo := false, IsAudio := false }]
    PCRPID := 0x1fff
    ContinuityCounter := 0 }

/-! ## The single-program tables (C17, C18) -/

/-- Modelled from the spec: the stream type `StreamID::MPEG1Video`, declared outside the
sources, with its value in the program map table. -/
def MPEG1Video : Nat := 0x01

/-- Modelled from the spec: the stream type `StreamID::MPEG2Video`. -/
def MPEG2Video : Nat := 0x02

/-- Modelled from the spec: the stream type `StreamID::MPEG4Video`. -/
def MPEG4Video : Nat := 0x10

/-- Modelled from the spec: the stream type `StreamID::H265Video`. -/
def H265Video : Nat := 0x24

/-- Modelled from the spec: the stream type `StreamID::OpenCableVideo`. -/
def OpenCableVideo : Nat := 0x80

/-- Modelled from the spec: the stream type `StreamID::VC1Video`. -/
def VC1Video : Nat := 0xea

/-- Modelled from the spec: the stream type `StreamID::MPEG1Audio`. -/
def MPEG1Audio : Nat := 0x03

/-- Modelled from the spec: the stream type `StreamID::MPEG2Audio`. -/
def MPEG2Audio : Nat := 0x04

/-- Modelled from the spec: the stream type `StreamID::MPEG2AACAudio`. -/
def MPEG2AACAudio : Nat := 0x0f

/-- Modelled from the spec: the stream type `StreamID::MPEG2AudioAmd1`. -/
def MPEG2AudioAmd1 : Nat := 0x11

/-- Modelled from the spec: the stream type `StreamID::AC3Audio`. -/
def AC3Audio : Nat := 0x81

/-- Modelled from the spec: the stream type `StreamID::EAC3Audio`. -/
def EAC3Audio : Nat := 0x87

/-- Modelled from the spec: the stream type `StreamID::DTSAudio`. -/
def DTSAudio : Nat := 0x8a

/-- Modelled from the spec: the stream type `StreamID::PrivSec`. -/
def PrivSec : Nat := 0x05

/-- Modelled from the spec: `StreamID::IsVideo`, declared outside the sources: the stream
types that classify as video, which are the ones the table of `HandleSingleProgramPMT`
maps to a video codec. -/
def StreamID.IsVideo (type : Nat) : Bool :=
  type == MPEG1Video || type == MPEG2Video || type == MPEG4Video || type == H264Video ||
  type == H265Video || type == VC1Video || type == OpenCableVideo

/-- Modelled from the spec: `StreamID::IsAudio`, declared outside the sources: the stream
types that classify as audio, which are the ones the table of `HandleSingleProgramPMT`
maps to an audio codec. -/
def StreamID.IsAudio (type : Nat) : Bool :=
  type == MPEG1Audio || type == MPEG2Audio || type == MPEG2AudioAmd1 ||
  type == MPEG2AACAudio || type == AC3Audio || type == EAC3Audio || type == DTSAudio

/-- Modelled from the spec: the enumerator `AV_CODEC_ID_NONE` of libavcodec. The
enumerators of `AVCodecID` are declared outside the sources; the recorder stores them,
passes them on and compares them with `AV_CODEC_ID_NONE`, so only that they differ from
each other matters here. -/
def AV_CODEC_ID_NONE : Nat := 0

/-- Modelled from the spec: the enumerator `AV_CODEC_ID_MPEG1VIDEO` of libavcodec. -/
def AV_CODEC_ID_MPEG1VIDEO : Nat := 1

/-- Modelled from the spec: the enumerator `AV_CODEC_ID_MPEG2VIDEO` of libavcodec. -/
def AV_CODEC_ID_MPEG2VIDEO : Nat := 2

/-- Modelled from the spec: the enumerator `AV_CODEC_ID_MPEG4` of libavcodec. -/
def AV_CODEC_ID_MPEG4 : Nat := 12

/-- Modelled from the spec: the enumerator `AV_CODEC_ID_H264` of libavcodec. -/
def AV_CODEC_ID_H264 : Nat := 27

/-- Modelled from the spec: the enumerator `AV_CODEC_ID_VC1` of libavcodec. -/
def AV_CODEC_ID_VC1 : Nat := 70

/-- Modelled from the spec: the enumerator `AV_CODEC_ID_H265` of libavcodec. -/
def AV_CODEC_ID_H265 : Nat := 173

/-- Modelled from the spec: the enumerator `AV_CODEC_ID_MP2` of libavcodec. -/
def AV_CODEC_ID_MP2 : Nat := 0x15000

/-- Modelled from the spec: the enumerator `AV_CODEC_ID_AAC` of libavcodec. -/
def AV_CODEC_ID_AAC : Nat := 0x15002

/-- Modelled from the spec: the enumerator `AV_CODEC_ID_AC3` of libavcodec. -/
def AV_CODEC_ID_AC3 : Nat := 0x15003

/-- Modelled from the spec: the enumerator `AV_CODEC_ID_DTS` of libavcodec. -/
def AV_CODEC_ID_DTS : Nat := 0x15004

/-- Modelled from the spec: the enumerator `AV_CODEC_ID_EAC3` of libavcodec. -/
def AV_CODEC_ID_EAC3 : Nat := 0x15028

/-- Modelled from the spec: the enumerator `AV_CODEC_ID_AAC_LATM` of libavcodec. -/
def AV_CODEC_ID_AAC_LATM : Nat := 0x15031

/-- The `switch` of source lines 1325-1347: the video codec of a stream type; a type
without a case leaves the codec `cur` as it is. -/
def HandleSingleProgramPMT.videoCodec (type cur : Nat) : Nat :=
  if type = MPEG1Video then AV_CODEC_ID_MPEG1VIDEO
  else if type = MPEG2Video then AV_CODEC_ID_MPEG2VIDEO
  else if type = MPEG4Video then AV_CODEC_ID_MPEG4
  else if type = H264Video then AV_CODEC_ID_H264
  else if type = H265Video then AV_CODEC_ID_H265
  else if type = OpenCableVideo then AV_CODEC_ID_MPEG2VIDEO
  else if type = VC1Video then AV_CODEC_ID_VC1
  else cur

/-- The `switch` of source lines 1361-1386: the audio codec of a stream type; a type
without a case leaves the codec `cur` as it is. -/
def HandleSingleProgramPMT.audioCodec (type cur : Nat) : Nat :=
  if type = MPEG1Audio then AV_CODEC_ID_MP2
  else if type = MPEG2Audio then AV_CODEC_ID_MP2
  else if type = MPEG2AACAudio then AV_CODEC_ID_AAC
  else if type = MPEG2AudioAmd1 then AV_CODEC_ID_AAC_LATM
  else if type = AC3Audio then AV_CODEC_ID_AC3
  else if type = EAC3Audio then AV_CODEC_ID_EAC3
  else if type = DTSAudio then AV_CODEC_ID_DTS
  else cur

/-- The locals `seenVideo` and `bestAudioCodec` of `HandleSingleProgramPMT`. -/
structure PMTLocals where
  seenVideo : Bool
  bestAudioCodec : Nat
deriving DecidableEq, Repr

/-- Source lines 1318-1351: the first identifiable video stream sets the primary video
codec, which is announced. -/
def HandleSingleProgramPMT.onVideo (st : PMTStream) (v : PMTLocals) (s : DTVRecorder R P) :
    PMTLocals × DTVRecorder R P :=
  if !v.seenVideo && s.m_primaryVideoCodec == AV_CODEC_ID_NONE &&
      StreamID.IsVideo st.StreamType then
    let codec := HandleSingleProgramPMT.videoCodec st.StreamType s.m_primaryVideoCodec
    ({ v with seenVideo := true },
     if codec ≠ AV_CODEC_ID_NONE then
       { s with m_primaryVideoCodec := codec
                trace := s.trace ++ [Event.VideoCodecChange codec] }
     else { s with m_primaryVideoCodec := codec })
  else (v, s)

/-- Source lines 1353-1390: an audio stream whose type is above `bestAudioCodec` sets the
primary audio codec, which is announced. `seenAudio` is fixed before the loop. -/
def HandleSingleProgramPMT.onAudio (seenAudio : Bool) (st : PMTStream) (v : PMTLocals)
    (s : DTVRecorder R P) : PMTLocals × DTVRecorder R P :=
  if !seenAudio && StreamID.IsAudio st.StreamType &&
      decide (st.StreamType > v.bestAudioCodec) then
    let codec := HandleSingleProgramPMT.audioCodec st.StreamType s.m_primaryAudioCodec
    ({ v with bestAudioCodec := st.StreamType },
     if codec ≠ AV_CODEC_ID_NONE then
       { s with m_primaryAudioCodec := codec
                trace := s.trace ++ [Event.AudioCodecChange codec] }
     else { s with m_primaryAudioCodec := codec })
  else (v, s)

/-- Source lines 1316-1396: one round of the loop over the streams of the table. -/
def HandleSingleProgramPMT.onStream (seenAudio : Bool) (st : PMTStream) (v : PMTLocals)
    (s : DTVRecorder R P) : PMTLocals × DTVRecorder R P :=
  let r1 := HandleSingleProgramPMT.onVideo st v s
  let r2 := HandleSingleProgramPMT.onAudio seenAudio st r1.1 r1.2
  (r2.1, { r2.2 with m_stream_id := Function.update r2.2.m_stream_id st.StreamPID st.StreamType })

/-- Source lines 1315-1397: the loop over the streams of the table. -/
def HandleSingleProgramPMT.loop (seenAudio : Bool) :
    List PMTStream → PMTLocals → DTVRecorder R P → PMTLocals × DTVRecorder R P
  | [], v, s => (v, s)
  | st :: rest, v, s =>
    let r := HandleSingleProgramPMT.onStream seenAudio st v s
    HandleSingleProgramPMT.loop seenAudio rest r.1 r.2

/-- Source lines 1408-1413: the packets of a table are handed to `BufferedWrite` in
order. -/
def writeTablePackets (X : Collab R P) (insert : Bool) :
    List TSPacket → DTVRecorder R P → DTVRecorder R P
  | [], s => s
  | p :: ps, s => writeTablePackets X insert ps (BufferedWrite X p insert s)

/-- `DTVRecorder::HandleSingleProgramPMT` (source lines 1301-1414) for a table that is
not null. `GetAsTSPackets` is `ProgramMapTable::GetAsTSPackets`, declared outside the
sources: the packets that carry the table, given the table with its continuity counter
advanced, and that counter. `ProgramMapTable::FindPID` answers -1 when no stream of the
table has the PID. -/
def HandleSingleProgramPMT (X : Collab R P)
    (GetAsTSPackets : ProgramMapTable → Nat → List TSPacket) (pmt : ProgramMapTable)
    (insert : Bool) (s : DTVRecorder R P) : DTVRecorder R P :=
  let seenVideo := s.m_primaryVideoCodec != AV_CODEC_ID_NONE
  let seenAudio := s.m_primaryAudioCodec != AV_CODEC_ID_NONE
  let r := HandleSingleProgramPMT.loop seenAudio pmt.streams
    { seenVideo := seenVideo, bestAudioCodec := 0 } s
  let s1 := if pmt.PCRPID ≠ 0x1fff ∧ pmt.streams.all (fun st => st.StreamPID != pmt.PCRPID) then
      { r.2 with m_stream_id := Function.update r.2.m_stream_id pmt.PCRPID PrivSec }
    else r.2
  if s1.m_ringBuffer.isNone then s1
  else
    let next_cc := (pmt.ContinuityCounter + 1) &&& 0xf
    writeTablePackets X insert (GetAsTSPackets { pmt with ContinuityCounter := next_cc } next_cc) s1

/-- The codecs passed to `VideoCodecChange` by the calls in a trace, in call order. -/
def videoCodecChanges (trace : List Event) : List Nat :=
  trace.filterMap (fun e => match e with
    | Event.VideoCodecChange codec => some codec
    | _ => none)

/-- The codecs passed to `AudioCodecChange` by the calls in a trace, in call order. -/
def audioCodecChanges (trace : List Event) : List Nat :=
  trace.filterMap (fun e => match e with
    | Event.AudioCodecChange codec => some codec
    | _ => none)

/-- The number of audio streams of a list whose stream type is above `best` and above
the type of every audio stream before them in the list. -/
def audioRises : Nat → List PMTStream → Nat
  | _, [] => 0
  | best, st :: rest =>
    if StreamID.IsAudio st.StreamType && decide (st.StreamType > best) then
      audioRises st.StreamType rest + 1
    else audioRises best rest

/-- Several calls of `HandleSingleProgramPMT`, one for each table of the list, each with
its `insert` flag. -/
def handleTables (X : Collab R P) (GetAsTSPackets : ProgramMapTable → Nat → List TSPacket) :
    List (ProgramMapTable × Bool) → DTVRecorder R P → DTVRecorder R P
  | [], s => s
  | q :: qs, s => handleTables X GetAsTSPackets qs (HandleSingleProgramPMT X GetAsTSPackets q.1 q.2 s)

/-- A serialisation of tables for examples: every table is carried by one packet. -/
def onePacket (_pmt : ProgramMapTable) (_cc : Nat) : List TSPacket :=
  [mkPacket true [0, 2, 0xb0]]

/-- A program map table for examples: an H.264 video stream on PID `0x101` and an AC-3
audio stream on PID `0x102`. -/
def h264ac3PMT : ProgramMapTable :=
  { streams := [{ StreamType := 0x1b, StreamPID := 0x101, IsVideo := true, IsAudio := false },
                { StreamType := 0x81, StreamPID := 0x102, IsVideo := false, IsAudio := true }]
    PCRPID := 0x101
    ContinuityCounter := 0 }

/-- A program map table for examples: an H.264 video stream, an MPEG-1 audio stream and,
after it, an AC-3 audio stream. -/
def twoAudioPMT : ProgramMapTable :=
  { streams := [{ StreamType := 0x1b, StreamPID := 0x101, IsVideo := true, IsAudio := false },
                { StreamType := 0x03, StreamPID := 0x102, IsVideo := false, IsAudio := true },
                { StreamType := 0x81, StreamPID := 0x103, IsVideo := false, IsAudio := true }]
    PCRPID := 0x101
    ContinuityCounter := 0 }

/-- What `HandleSingleProgramPMT` decides about codecs: the two primary codecs and the
codecs announced so far. -/
def codecsOf (s : DTVRecorder R P) : Nat × Nat × List Nat × List Nat :=
  (s.m_primaryVideoCodec, s.m_primaryAudioCodec, videoCodecChanges s.trace,
   audioCodecChanges s.trace)

/-! ## Definitions for the PES synchronisation of the H.264 detector (C20) -/

/-- The collaborators `X` with an H.264 parser that also keeps, oldest first, the byte
sequences it was handed by `addBytes`. -/
def logged (X : Collab R P) : Collab R (P × List (List Nat)) where
  Write := X.Write
  GetWritePosition := X.GetWritePosition
  addBytes := fun p bytes pos =>
    (((X.addBytes p.1 bytes pos).1, p.2 ++ [bytes]), (X.addBytes p.1 bytes pos).2)
  stateChanged := fun p => X.stateChanged p.1
  onFrameStart := fun p => X.onFrameStart p.1
  isFieldBottom := fun p => X.isFieldBottom p.1
  onKeyFrameStart := fun p => X.onKeyFrameStart p.1
  pictureWidth := fun p => X.pictureWidth p.1
  pictureHeight := fun p => X.pictureHeight p.1
  aspectRatio := fun p => X.aspectRatio p.1
  getFrameRate := fun p fr => X.getFrameRate p.1 fr
  keyframeAUstreamOffset := fun p => X.keyframeAUstreamOffset p.1
  IsDamaged := X.IsDamaged

/-- What `FindH264Keyframes` relies on to leave its loop: given at least one byte,
`H264Parser::addBytes` reports that it used at least one byte and no more than it was
given. -/
def ParserProgress (X : Collab R P) : Prop :=
  ∀ (p : P) (bytes : List Nat) (pos : Int), bytes ≠ [] →
    1 ≤ (X.addBytes p bytes pos).2 ∧ (X.addBytes p bytes pos).2 ≤ bytes.length

/-- The condition of the claim on a packet whose payload starts at offset `a`: the bytes
at `a`, `a + 1`, `a + 2` are `00 00 01`, and `a + 9 + L` is below 188 for the byte `L` at
`a + 8`. -/
def PESHeaderFits (tspacket : TSPacket) : Prop :=
  rd tspacket.data tspacket.AFCOffset 0 = 0x00 ∧ rd tspacket.data tspacket.AFCOffset 1 = 0x00 ∧
  rd tspacket.data tspacket.AFCOffset 2 = 0x01 ∧
  tspacket.AFCOffset + 9 + rd tspacket.data tspacket.AFCOffset 8 < 188

instance PESHeaderFits.decidable (p : TSPacket) : Decidable (PESHeaderFits p) := by
  unfold PESHeaderFits
  infer_instance

/-- Packets handed to `FindH264Keyframes` one after the other; `none` when one of the
calls does not return. -/
def feedH264 (X : Collab R P) : List TSPacket → DTVRecorder R P → Option (DTVRecorder R P)
  | [], s => some s
  | p :: ps, s => (FindH264Keyframes X p s).bind (feedH264 X ps)

/-- The PES synchronisation and the H.264 parser of a recorder. -/
def syncOf (s : DTVRecorder R P) : Bool × P :=
  (s.m_pes_synced, s.m_h264_parser_state)

/-- A recorder for examples with a logging parser: all members zero, empty or false, a
ring buffer attached. -/
def loggedRec : DTVRecorder TestSink (TestParser × List (List Nat)) :=
  blank (some { pos := 0, fails := false }) ({ script := [], cur := (false, false) }, [])

/-- A recorder for examples: no ring buffer attached, and PES-synchronised by an earlier
packet. -/
def syncedNoSink : DTVRecorder TestSink TestParser :=
  { blank none { script := [], cur := (false, false) } with m_pes_synced := true }

/-! ## Definitions for the gate before the first keyframe (C14) -/

/-- The byte sequences written so far, as the trace of a recorder shows them. -/
def wOf (s : DTVRecorder R P) : List (List Nat) :=
  writesOf s.trace

/-- The calls that hand a packet to the recorder: the three packet-processing functions,
each with the outside readings it takes, and `BufferedWrite` itself, as the table
handlers call it. -/
inductive PacketCall where
  | tsPacket (tspacket : TSPacket) (elapsed : Int)
  | videoPacket (tspacket : TSPacket)
  | audioPacket (tspacket : TSPacket) (expected_frame : Nat)
  | bufferedWrite (tspacket : TSPacket) (insert : Bool)

/-- One call; `none` when the function does not return. -/
def PacketCall.apply (X : Collab R P) : PacketCall → DTVRecorder R P → Option (DTVRecorder R P)
  | PacketCall.tsPacket p elapsed, s => some (ProcessTSPacket X p elapsed s)
  | PacketCall.videoPacket p, s => ProcessVideoTSPacket X p s
  | PacketCall.audioPacket p e, s => some (ProcessAudioTSPacket X p e s)
  | PacketCall.bufferedWrite p insert, s => some (BufferedWrite X p insert s)

/-- A sequence of calls, the first of the list first. -/
def runCalls (X : Collab R P) : List PacketCall → DTVRecorder R P → Option (DTVRecorder R P)
  | [], s => some s
  | c :: cs, s => (c.apply X s).bind (runCalls X cs)

/-- The bytes of the packets that a sequence of calls passes to `BufferedWrite` with
`insert` set, in call order. -/
def insertedPackets : List PacketCall → List (List Nat)
  | [] => []
  | PacketCall.bufferedWrite p true :: cs => p.data :: insertedPackets cs
  | _ :: cs => insertedPackets cs

/-- The final value of the local `hasFrame` of the detector that `ProcessVideoTSPacket`
runs on a packet: whether the packet confirms a frame. -/
def videoHasFrame (X : Collab R P) (tspacket : TSPacket) (s : DTVRecorder R P) : Bool :=
  if !tspacket.HasPayload then false
  else
    let s1 := onPayloadStart X tspacket s
    match s1.m_ringBuffer with
    | none => false
    | some rb =>
      if s.m_stream_id tspacket.PID = H264Video then
        match FindH264Keyframes.scan X tspacket rb s1 with
        | some r => r.2.hasFrame
        | none => false
      else if s.m_stream_id tspacket.PID ≠ 0 then (FindMPEG2Keyframes.scan X tspacket s1).2.hasFrame
      else false

/-- What the gate before the first keyframe reads and guards: the option to wait for a
keyframe, `m_first_keyframe`, whether a ring buffer is attached, and the writes made. -/
def gateOf (s : DTVRecorder R P) : Bool × Int × Bool × List (List Nat) :=
  (s.m_wait_for_keyframe_option, s.m_first_keyframe, s.m_ringBuffer.isSome, wOf s)

/-- From `s` to `t` the option to wait for a keyframe is kept, and if `t` has no first
keyframe then `s` had none, the ring buffer was neither attached nor detached, and, the
option being set, the only writes made are those of `ins`. -/
def Gated (ins : List (List Nat)) (s t : DTVRecorder R P) : Prop :=
  t.m_wait_for_keyframe_option = s.m_wait_for_keyframe_option ∧
  (t.m_first_keyframe < 0 →
    s.m_first_keyframe < 0 ∧ t.m_ringBuffer.isSome = s.m_ringBuffer.isSome ∧
    (s.m_wait_for_keyframe_option = true → wOf t = wOf s ++ ins))

/-- Calls for examples: the first packet of a PES packet, a table packet written with
`insert` set, and a packet that starts a PES payload with a picture start code. -/
def gateCalls : List PacketCall :=
  [PacketCall.videoPacket pesStartPacket,
   PacketCall.bufferedWrite (mkPacket true [0, 2, 0xb0]) true,
   PacketCall.videoPacket picturePacket]

/-! ## Definitions for PES time stamps (C28) -/

/-- The 33-bit value `t` is carried by the five bytes at `bufptr[offset]` to
`bufptr[offset + 4]` in the layout of a PES time stamp: its top 3 bits in bits 3 to 1 of
the first byte, the next 15 bits in the second byte and bits 7 to 1 of the third, the
low 15 bits in the fourth byte and bits 7 to 1 of the fifth; the other bits (the 4-bit
prefix and the three marker bits) are free. -/
def CarriesStamp (data : List Nat) (bufptr offset t : Nat) : Prop :=
  rd data bufptr (offset + 0) / 2 % 8 = t / 2 ^ 30 ∧
  rd data bufptr (offset + 1) = t / 2 ^ 22 % 256 ∧
  rd data bufptr (offset + 2) / 2 = t / 2 ^ 15 % 128 ∧
  rd data bufptr (offset + 3) = t / 2 ^ 7 % 256 ∧
  rd data bufptr (offset + 4) / 2 = t % 128

instance CarriesStamp.decidable (data : List Nat) (bufptr offset t : Nat) :
    Decidable (CarriesStamp data bufptr offset t) := by
  unfold CarriesStamp
  infer_instance

/-- The five bytes of a PES time stamp with the 4-bit prefix `pre` and marker bits set. -/
def stampBytes (pre t : Nat) : List Nat :=
  [pre * 16 + 2 * (t / 2 ^ 30 % 8) + 1, t / 2 ^ 22 % 256, 2 * (t / 2 ^ 15 % 128) + 1,
   t / 2 ^ 7 % 256, 2 * (t % 128) + 1]

/-- A PES header for examples, as it follows a start code `00 00 01 xx`: two length
bytes, the flags with PTS and DTS announced, the header length, and the stamps `pts` and
`dts`. -/
def pesHeader (pts dts : Nat) : List Nat :=
  [0x00, 0x00, 0x80, 0xC0, 0x0A] ++ stampBytes 3 pts ++ stampBytes 1 dts

/-! ## Definitions for the recording gaps (C21, C22) -/

/-- A recorder for examples: as constructed, but a first keyframe has been written at
frame 0 and the last time stamp of every stream is `last`. -/
def stampedRec (last : Int) : DTVRecorder TestSink TestParser :=
  { fresh0 with
    m_first_keyframe := 0
    m_ts_last := fun _ => last }

/-! ## Definitions for the time stamps of video PES headers (C26, C27) -/

/-- A packet for examples: the start of a video PES packet (stream id `0xE0`) whose header
carries the PTS `pts` and the DTS `dts`. -/
def stampPacket (pts dts : Nat) : TSPacket :=
  mkPacket true ([0x00, 0x00, 0x01, 0xE0] ++ pesHeader pts dts)

/-- Five video PES headers for examples, each stamped one second (90000 ticks) after the
one before. -/
def secondApart : List Op :=
  [Op.videoPacket (stampPacket 0 0), Op.videoPacket (stampPacket 90000 90000),
   Op.videoPacket (stampPacket 180000 180000), Op.videoPacket (stampPacket 270000 270000),
   Op.videoPacket (stampPacket 360000 360000)]

/-- The members that decide the music-choice rule besides the last time stamp: the
counts and the first time stamps of the streams, the first keyframe and the flag. -/
def stampsOf (s : DTVRecorder R P) : (Nat → Nat) × (Nat → Int) × Int × Bool :=
  (s.m_ts_count, s.m_ts_first, s.m_first_keyframe, s.m_music_choice)

/-! ## Definitions for the accrual of the duration (C23) -/

/-- One frame written: the detector has set the frame rate to `call.1` and the repeat
count to `call.2` and calls `UpdateFramesWritten`. -/
def frameWritten (call : FrameRate × Nat) (s : DTVRecorder R P) : DTVRecorder R P :=
  UpdateFramesWritten { s with m_frameRate := call.1, m_repeat_pict := call.2 }

/-- A sequence of frames written, the first of the list first. -/
def framesWritten : List (FrameRate × Nat) → DTVRecorder R P → DTVRecorder R P
  | [], s => s
  | call :: calls, s => framesWritten calls (frameWritten call s)

/-- The duration is the base plus what the tick count is worth at the tick frame rate,
and the base alone while that rate is unknown: the relation that `ClearStatistics`
establishes and `UpdateFramesWritten` keeps. -/
def DurationAccrued (s : DTVRecorder R P) : Prop :=
  s.m_total_duration = s.m_td_base +
    (if s.m_td_tick_framerate.isNonzero then
      ((500 * s.m_td_tick_count * s.m_td_tick_framerate.den : Nat) : ℚ) /
        (s.m_td_tick_framerate.num : ℚ)
     else 0)

/-! ## Definitions for the bytes read by the MPEG-2 detector (C30) -/

/-- The offsets from the start of the packet of the bytes that `extract_timestamp`
(source lines 307-333) reads when it is called with the pointer at `bufptr`. -/
def extract_timestamp.reads (data : List Nat) (bufptr : Nat) (bytes_left : Int)
    (pts_or_dts : Nat) : List Nat :=
  if bytes_left < 4 then []
  else
    let has_pts := (rd data bufptr 3 &&& 0x80) != 0
    let offset : Nat := 5
    if (kExtractPTS == pts_or_dts && !has_pts) || decide ((offset : Int) + 5 > bytes_left)
    then [bufptr + 3]
    else
      let has_dts := (rd data bufptr 3 &&& 0x40) != 0
      if kExtractDTS == pts_or_dts then
        if !has_dts then [bufptr + 3, bufptr + 3]
        else
          let offset2 := offset + (if has_pts then 5 else 0)
          if (offset2 : Int) + 5 > bytes_left then [bufptr + 3, bufptr + 3]
          else [bufptr + 3, bufptr + 3, bufptr + offset2, bufptr + offset2 + 1,
            bufptr + offset2 + 2, bufptr + offset2 + 3, bufptr + offset2 + 4]
      else [bufptr + 3, bufptr + 3, bufptr + offset, bufptr + offset + 1,
        bufptr + offset + 2, bufptr + offset + 3, bufptr + offset + 4]

/-- The offsets from the start of the packet of the bytes `bufptr[k]` that source lines
418-498 read for a start code with the stream id `stream_id`, found with the scan standing
at `bufptr`: the same branches as `FindMPEG2Keyframes.onStartCode`, keeping the offsets
instead of the values. The sequence-start branch (lines 436-442) reads `bufptr[3]`,
`bufptr[1]`, `bufptr[2]`, `bufptr[0]`, `bufptr[1]` and `bufptr[3]` without looking at
`bytes_left`. -/
def FindMPEG2Keyframes.readsAt (data : List Nat) (bufptr stream_id : Nat) : List Nat :=
  let bytes_left : Int := (kSize : Int) - (bufptr : Int)
  let r : List Nat :=
    if PictureStartCode = stream_id then []
    else if GOPStartCode = stream_id then []
    else if SequenceStartCode = stream_id then
      [bufptr + 3, bufptr + 1, bufptr + 2, bufptr + 0, bufptr + 1, bufptr + 3]
    else if MPEG2ExtensionStartCode = stream_id then
      if bytes_left ≥ 1 then
        let ext_type := rd data bufptr 0 >>> 4
        if ext_type = 0x1 then
          if bytes_left ≥ 6 then [bufptr + 0, bufptr + 1] else [bufptr + 0]
        else if ext_type = 0x8 then
          if bytes_left ≥ 5 then [bufptr + 0, bufptr + 3, bufptr + 3, bufptr + 4]
          else [bufptr + 0]
        else [bufptr + 0]
      else []
    else []
  if stream_id ≥ MPEGVideoStreamBegin ∧ stream_id ≤ MPEGVideoStreamEnd then
    r ++ extract_timestamp.reads data bufptr bytes_left kExtractPTS ++
      extract_timestamp.reads data bufptr bytes_left kExtractPTS
  else r

/-- The offsets of the bytes that the scanning loop of `FindMPEG2Keyframes` reads after
the start codes it finds from offset `bufptr` on: the same rounds as
`FindMPEG2Keyframes.loop`. The bytes that `avpriv_find_start_code` itself looks at lie
between `bufptr` and the end of the packet and are left out. -/
def FindMPEG2Keyframes.readsFrom (data : List Nat) : Nat → Nat → Nat → List Nat
  | 0, _, _ => []
  | fuel + 1, bufptr, state =>
    if bufptr < kSize then
      let f := avpriv_find_start_code data bufptr kSize state
      if f.2 &&& 0xffffff00 = 0x00000100 then
        FindMPEG2Keyframes.readsAt data f.1 (f.2 &&& 0x000000ff) ++
          FindMPEG2Keyframes.readsFrom data fuel f.1 f.2
      else FindMPEG2Keyframes.readsFrom data fuel f.1 f.2
    else []

/-- The offsets of the bytes that `FindMPEG2Keyframes` reads after start codes when it
scans `tspacket` (nothing is read without a payload or without a ring buffer). -/
def FindMPEG2Keyframes.reads (tspacket : TSPacket) (s : DTVRecorder R P) : List Nat :=
  if !tspacket.HasPayload then []
  else match s.m_ringBuffer with
    | none => []
    | some _ =>
      FindMPEG2Keyframes.readsFrom tspacket.data kSize tspacket.AFCOffset
        (if tspacket.PayloadStart then 0xffffffff else s.m_start_code)

/-- A packet for examples: 184 bytes of payload that end with the sequence start code
`00 00 01 B3`, whose sequence header follows in the next packet. -/
def sequenceEndPacket : TSPacket :=
  mkPacket false (List.replicate 180 0xff ++ [0x00, 0x00, 0x01, 0xB3])

/-! ## Definitions for the bytes of a program stream (C29) -/

/-- Where the bytes of a recorder are: the byte sequences written so far, the payload
buffer, and whether a ring buffer is attached. -/
def bytesOf (s : DTVRecorder R P) : List (List Nat) × List Nat × Bool :=
  (wOf s, s.m_payload_buffer, s.m_ringBuffer.isSome)

/-- A program stream buffer for examples: a video PES header, a GOP start code and a
picture start code with its header, and two bytes that follow. -/
def psBuffer : List Nat :=
  [0x00, 0x00, 0x01, 0xE0, 0x00, 0x10, 0x80, 0x00, 0x00,
   0x00, 0x00, 0x01, 0xB8, 0x00, 0x08, 0x00, 0x40,
   0x00, 0x00, 0x01, 0x00, 0x00, 0x0f, 0xff, 0xf8, 0x11, 0x22]

/-- The relation that the loop of `FindPSKeyFrames` keeps between the recorder `s0` it
starts from and the recorder `s` and loop variables `v` of a round: a ring buffer is
attached, `bufstart` does not pass `bufptr` nor `bufptr` the end of the buffer, and the
bytes written since `s0`, the payload buffer and the input from `bufstart` on make up the
payload buffer of `s0` followed by the input. -/
def PSConserved (buffer : List Nat) (s0 : DTVRecorder R P) (v : PSVars)
    (s : DTVRecorder R P) : Prop :=
  s.m_ringBuffer.isSome = true ∧ v.bufstart ≤ v.bufptr ∧ v.bufptr ≤ buffer.length ∧
  ∃ new, wOf s = wOf s0 ++ new ∧
    new.flatten ++ s.m_payload_buffer ++ buffer.drop v.bufstart =
      s0.m_payload_buffer ++ buffer

/-! ## Definitions for start codes across packets (C25) -/

/-- The rolling accumulator after the bytes of a list have been shifted into it one by
one, as `avpriv_find_start_code` does. -/
def shiftIn (state : Nat) : List Nat → Nat
  | [] => state
  | b :: bs => shiftIn (((state <<< 8) ||| b) % 2 ^ 32) bs

/-- No byte of the list completes a start code `00 00 01 xx` when the bytes are shifted
into the accumulator `state`. -/
def NoStartCode (state : Nat) : List Nat → Prop
  | [] => True
  | b :: bs =>
    ((state <<< 8) ||| b) % 2 ^ 32 &&& 0xffffff00 ≠ 0x00000100 ∧
    NoStartCode (((state <<< 8) ||| b) % 2 ^ 32) bs

instance NoStartCode.decidable : ∀ (state : Nat) (bytes : List Nat),
    Decidable (NoStartCode state bytes)
  | _, [] => isTrue trivial
  | state, b :: bs =>
    @instDecidableAnd _ _ _ (NoStartCode.decidable (((state <<< 8) ||| b) % 2 ^ 32) bs)

/-- A packet for examples: a payload of two bytes, a picture start code and the four
bytes of a picture header. -/
def straddleWhole : TSPacket :=
  mkPacket true ([0x11, 0x22] ++ [0x00, 0x00, 0x01, 0x00] ++ [0x00, 0x0f, 0xff, 0xf8])

/-- A packet for examples: the payload of `straddleWhole` up to the second byte of its
start code. -/
def straddleFirst : TSPacket :=
  mkPacket true ([0x11, 0x22] ++ [0x00, 0x00])

/-- A packet for examples: the payload of `straddleWhole` from the third byte of its
start code on, in a packet that does not start a payload unit. -/
def straddleSecond : TSPacket :=
  mkPacket false ([0x01, 0x00] ++ [0x00, 0x0f, 0xff, 0xf8])

/-- A packet for examples: a payload with two pictures, each a picture start code and
four bytes of picture header. -/
def twoPicturesWhole : TSPacket :=
  mkPacket true ([0x00, 0x00, 0x01, 0x00, 0x00, 0x0f, 0xff, 0xf8] ++
    [0x00, 0x00, 0x01, 0x00] ++ [0x00, 0x0f, 0xff, 0xf8])

/-- A packet for examples: the payload of `twoPicturesWhole` up to the second byte of its
second start code. -/
def twoPicturesFirst : TSPacket :=
  mkPacket true ([0x00, 0x00, 0x01, 0x00, 0x00, 0x0f, 0xff, 0xf8] ++ [0x00, 0x00])

/-- A packet for examples: the payload of `twoPicturesWhole` from the third byte of its
second start code on, in a packet that does not start a payload unit. -/
def twoPicturesSecond : TSPacket :=
  mkPacket false ([0x01, 0x00] ++ [0x00, 0x0f, 0xff, 0xf8])

/-! ## Definitions for the frames written and the position map (C24) -/

/-- A recorder for examples: as constructed, with the ring buffer at write position 100. -/
def psRec : DTVRecorder TestSink TestParser :=
  { fresh0 with m_ringBuffer := some { pos := 100, fails := false } }

/-- A program stream buffer for examples: a video PES header, a GOP start code, a picture
start code with its header, and a second GOP start code. -/
def psTwoKeys : List Nat :=
  [0x00, 0x00, 0x01, 0xE0, 0x01, 0x00,
   0x00, 0x00, 0x01, 0xB8,
   0x00, 0x00, 0x01, 0x00, 0x00, 0x08, 0xff, 0xf8,
   0x00, 0x00, 0x01, 0xB8]

/-- A recorder for examples: `mpeg2Rec` after the packet that starts a video PES packet. -/
def afterPesStart : DTVRecorder TestSink TestParser :=
  (run testCollab [Op.videoPacket pesStartPacket] mpeg2Rec).getD mpeg2Rec

/-- A recorder for examples: `afterPesStart` after the packet with the GOP start code and
the picture start code. -/
def afterGopPicture : DTVRecorder TestSink TestParser :=
  ((Op.videoPacket gopPicturePacket).apply testCollab afterPesStart).getD mpeg2Rec

/-! ## Definitions for the fallback of the MPEG-2 detector (C6) -/

/-- The start codes that the scan of `FindMPEG2Keyframes` finds in a packet: the
accumulator starts from `0xffffffff` when the packet starts a payload unit and from the
one the recorder carries otherwise (source line 391). -/
def scanCodes (tspacket : TSPacket) (s : DTVRecorder R P) : List Nat :=
  startCodesFrom tspacket.data kSize tspacket.AFCOffset
    (if tspacket.PayloadStart then 0xffffffff else s.m_start_code)

/-- A packet with payload in which the scan of `FindMPEG2Keyframes`, run on the recorder
`s`, finds a picture start code and neither a GOP start nor a sequence start code. -/
def PictureNoKey (tspacket : TSPacket) (s : DTVRecorder R P) : Prop :=
  tspacket.HasPayload = true ∧ PictureStartCode ∈ scanCodes tspacket s ∧
  GOPStartCode ∉ scanCodes tspacket s ∧ SequenceStartCode ∉ scanCodes tspacket s

/-- The scan of a packet finds a picture start code and no GOP or sequence start code:
decidable, the codes being a list of numbers. -/
instance PictureNoKey.decidable (p : TSPacket) (s : DTVRecorder R P) :
    Decidable (PictureNoKey p s) := by
  unfold PictureNoKey
  infer_instance

/-! ## Theorems -/

set_option maxRecDepth 1000000

/-! ### Reset (C9) -/

/-- C9. After `ResetForNewFile` the four maps are empty, the frame counters and the
last-seen markers are 0 and `m_first_keyframe` is -1, while `m_pes_synced`, `m_seen_sps`
and the H.264 parser are what they were; a second `ResetForNewFile` changes nothing. -/
theorem ResetForNewFile_clears_maps_keeps_h264_sync (s : DTVRecorder R P) :
    (ResetForNewFile s).m_positionMap = [] ∧
    (ResetForNewFile s).m_positionMapDelta = [] ∧
    (ResetForNewFile s).m_durationMap = [] ∧
    (ResetForNewFile s).m_durationMapDelta = [] ∧
    (ResetForNewFile s).m_frames_seen_count = 0 ∧
    (ResetForNewFile s).m_frames_written_count = 0 ∧
    (ResetForNewFile s).m_last_keyframe_seen = 0 ∧
    (ResetForNewFile s).m_last_gop_seen = 0 ∧
    (ResetForNewFile s).m_last_seq_seen = 0 ∧
    (ResetForNewFile s).m_first_keyframe = -1 ∧
    (ResetForNewFile s).m_pes_synced = s.m_pes_synced ∧
    (ResetForNewFile s).m_seen_sps = s.m_seen_sps ∧
    (ResetForNewFile s).m_h264_parser_state = s.m_h264_parser_state ∧
    ResetForNewFile (ResetForNewFile s) = ResetForNewFile s :=
  ⟨rfl, rfl, rfl, rfl, rfl, rfl, rfl, rfl, rfl, rfl, rfl, rfl, rfl, rfl⟩

/-! ### The buffered writer (C10) -/

/-- C10. While `m_buffer_packets` is set, `BufferedWrite(packet, false)` makes no call on
the sink (ring buffer and trace of calls are unchanged) and the payload buffer becomes
its previous content followed by the 188 bytes of the packet. -/
theorem BufferedWrite_buffers_while_buffer_packets (X : Collab R P) (tspacket : TSPacket)
    (s : DTVRecorder R P) (hb : s.m_buffer_packets = true) :
    (BufferedWrite X tspacket false s).m_ringBuffer = s.m_ringBuffer ∧
    (BufferedWrite X tspacket false s).trace = s.trace ∧
    (BufferedWrite X tspacket false s).m_payload_buffer = s.m_payload_buffer ++ tspacket.data ∧
    tspacket.data.length = 188 := by
  simp [BufferedWrite, hb, tspacket.size_eq, kSize]

/-- C10, at a concrete recorder and packet. -/
theorem BufferedWrite_buffers_while_buffer_packets_witness :
    ({ fresh0 with m_buffer_packets := true } : DTVRecorder TestSink TestParser).m_buffer_packets
        = true ∧
    (BufferedWrite testCollab (mkPacket true [0, 0, 1, 0]) false
      { fresh0 with m_buffer_packets := true }).m_payload_buffer =
      ({ fresh0 with m_buffer_packets := true } : DTVRecorder TestSink TestParser).m_payload_buffer
        ++ (mkPacket true [0, 0, 1, 0]).data :=
  ⟨rfl, (BufferedWrite_buffers_while_buffer_packets testCollab (mkPacket true [0, 0, 1, 0])
    { fresh0 with m_buffer_packets := true } rfl).2.2.1⟩

/-! ### The position map (C2, C4, C5) -/

theorem PosMap.contains_iff (m : PosMap) (k : Nat) :
    m.contains k = true ↔ k ∈ m.keys := by
  simp [PosMap.contains, PosMap.keys]

theorem PosMap.find?_insert_self (k : Nat) (v : Int) (m : PosMap) :
    (PosMap.insert k v m).find? k = some v := by
  induction m with
  | nil => simp [PosMap.insert, PosMap.find?]
  | cons e t ih =>
    unfold PosMap.insert
    split
    · simp [PosMap.find?]
    · split
      · simp [PosMap.find?]
      · rename_i h1 h2
        have hne : (e.1 == k) = false := by
          simp only [beq_eq_false_iff_ne, ne_eq]
          exact fun h => h2 h.symm
        simpa [PosMap.find?, List.find?, hne] using ih

theorem PosMap.mem_insert_of_not_contains (k : Nat) (v : Int) (m : PosMap)
    (h : m.contains k = false) (e : Nat × Int) (he : e ∈ m) :
    e ∈ PosMap.insert k v m := by
  induction m with
  | nil => cases he
  | cons a t ih =>
    have ha : a.1 ≠ k := by
      intro hk
      simp [PosMap.contains, hk] at h
    have ht : PosMap.contains t k = false := by
      simp only [PosMap.contains, List.any_cons, Bool.or_eq_false_iff] at h
      exact h.2
    unfold PosMap.insert
    split
    · exact List.mem_cons_of_mem _ he
    · split
      · rename_i h1 h2
        exact absurd h2.symm ha
      · rcases List.mem_cons.1 he with rfl | h3
        · exact List.mem_cons_self _ _
        · exact List.mem_cons_of_mem _ (ih ht h3)

theorem CheckForRingBufferSwitch_none (s : DTVRecorder R P) (hn : s.m_nextRingBuffer = none) :
    CheckForRingBufferSwitch s = s := by
  simp [CheckForRingBufferSwitch, hn]

theorem HandleKeyframe_present (X : Collab R P) (extra : Int) (s : DTVRecorder R P)
    (hn : s.m_nextRingBuffer = none)
    (hc : s.m_positionMap.contains s.m_frames_written_count = true) :
    HandleKeyframe X extra s = s ∨ HandleKeyframe X extra s = noteFirstKeyframe s := by
  unfold HandleKeyframe
  cases hrb : s.m_ringBuffer with
  | none => simp
  | some rb =>
    have hc2 : (noteFirstKeyframe s).m_positionMap.contains s.m_frames_written_count = true := by
      unfold noteFirstKeyframe
      split <;> simpa using hc
    simp [CheckForRingBufferSwitch_none s hn, hc2]

theorem noteFirstKeyframe_maps (s : DTVRecorder R P) :
    (noteFirstKeyframe s).maps = s.maps := by
  unfold noteFirstKeyframe
  split <;> rfl

theorem HandleKeyframe_posMap_cases (X : Collab R P) (extra : Int) (s : DTVRecorder R P)
    (hn : s.m_nextRingBuffer = none) :
    (HandleKeyframe X extra s).maps = s.maps ∨
    (s.m_positionMap.contains s.m_frames_written_count = false ∧
      ∃ v, (HandleKeyframe X extra s).m_positionMap =
        PosMap.insert s.m_frames_written_count v s.m_positionMap) := by
  unfold HandleKeyframe
  cases hrb : s.m_ringBuffer with
  | none => simp
  | some rb =>
    simp only [CheckForRingBufferSwitch_none s hn]
    have hm : (noteFirstKeyframe s).m_positionMap = s.m_positionMap :=
      congrArg Prod.fst (noteFirstKeyframe_maps s)
    have hr : (noteFirstKeyframe s).m_ringBuffer = some rb := by
      unfold noteFirstKeyframe
      split <;> simpa using hrb
    cases hc : s.m_positionMap.contains s.m_frames_written_count with
    | true => simp [hm, hc, noteFirstKeyframe_maps]
    | false =>
      simp only [hm, hc, hr, Bool.not_false, if_true]
      split
      · right
        refine ⟨trivial, X.GetWritePosition rb + extra, ?_⟩
        simp [storeKeyframe, hm]
      · left
        exact noteFirstKeyframe_maps s

/-- C2, as amended. With no ring-buffer switch pending: a call to `HandleKeyframe` on a
recorder whose position map already holds the key `m_frames_written_count` leaves the
four maps unchanged; of two calls in a row at most one changes the maps; and an entry of
the position map is never replaced. -/
theorem HandleKeyframe_idempotent_per_frame (X : Collab R P) (e1 e2 : Int)
    (s : DTVRecorder R P) (hn : s.m_nextRingBuffer = none) :
    (s.m_positionMap.contains s.m_frames_written_count = true →
      (HandleKeyframe X e1 s).maps = s.maps) ∧
    ((HandleKeyframe X e2 (HandleKeyframe X e1 s)).maps = (HandleKeyframe X e1 s).maps ∨
      (HandleKeyframe X e1 s).maps = s.maps) ∧
    (∀ e, e ∈ s.m_positionMap → e ∈ (HandleKeyframe X e1 s).m_positionMap) := by
  refine ⟨?_, ?_, ?_⟩
  · intro hc
    rcases HandleKeyframe_present X e1 s hn hc with h | h
    · rw [h]
    · rw [h, noteFirstKeyframe_maps]
  · rcases HandleKeyframe_posMap_cases X e1 s hn with h | ⟨hc, v, hv⟩
    · exact Or.inr h
    · left
      have hn1 : (HandleKeyframe X e1 s).m_nextRingBuffer = none := by
        unfold HandleKeyframe
        cases hrb : s.m_ringBuffer with
        | none => simpa using hn
        | some rb =>
          simp only [CheckForRingBufferSwitch_none s hn]
          have h0 : (noteFirstKeyframe s).m_nextRingBuffer = none := by
            unfold noteFirstKeyframe
            split <;> simpa using hn
          split
          · split
            · exact h0
            · split
              · simpa [storeKeyframe] using h0
              · exact h0
          · exact h0
      have hw1 : (HandleKeyframe X e1 s).m_frames_written_count = s.m_frames_written_count := by
        unfold HandleKeyframe
        cases hrb : s.m_ringBuffer with
        | none => simp
        | some rb =>
          simp only [CheckForRingBufferSwitch_none s hn]
          have h0 : (noteFirstKeyframe s).m_frames_written_count = s.m_frames_written_count := by
            unfold noteFirstKeyframe
            split <;> rfl
          split
          · split
            · exact h0
            · split
              · simpa [storeKeyframe] using h0
              · exact h0
          · exact h0
      have hc1 : (HandleKeyframe X e1 s).m_positionMap.contains
          (HandleKeyframe X e1 s).m_frames_written_count = true := by
        rw [hw1, hv]
        have := PosMap.find?_insert_self s.m_frames_written_count v s.m_positionMap
        rw [PosMap.find?] at this
        cases hf : List.find? (fun e => e.1 == s.m_frames_written_count)
            (PosMap.insert s.m_frames_written_count v s.m_positionMap) with
        | none => simp [hf] at this
        | some a =>
          have h1 := List.find?_some hf
          have h2 := List.mem_of_find?_eq_some hf
          simp only [PosMap.contains, List.any_eq_true]
          exact ⟨a, h2, h1⟩
      rcases HandleKeyframe_present X e2 _ hn1 hc1 with h | h
      · rw [h]
      · rw [h, noteFirstKeyframe_maps]
  · intro e he
    rcases HandleKeyframe_posMap_cases X e1 s hn with h | ⟨hc, v, hv⟩
    · have : (HandleKeyframe X e1 s).m_positionMap = s.m_positionMap := congrArg Prod.fst h
      rw [this]
      exact he
    · rw [hv]
      exact PosMap.mem_insert_of_not_contains _ _ _ hc e he

/-- C2 as amended, at a concrete recorder. -/
theorem HandleKeyframe_idempotent_per_frame_witness :
    fresh0.m_nextRingBuffer = none ∧
    ((HandleKeyframe testCollab 3 (HandleKeyframe testCollab 0 fresh0)).maps =
        (HandleKeyframe testCollab 0 fresh0).maps ∨
      (HandleKeyframe testCollab 0 fresh0).maps = fresh0.maps) :=
  ⟨rfl, (HandleKeyframe_idempotent_per_frame testCollab 0 3 fresh0 rfl).2.1⟩

/-- C2 as stated fails when a ring-buffer switch is pending: the position map holds the
key `m_frames_written_count`, yet the call changes the map (the switch resets it and the
keyframe of the new file is stored under the same frame number). -/
theorem HandleKeyframe_pending_switch_counterexample :
    pendingSwitch0.m_positionMap.contains pendingSwitch0.m_frames_written_count = true ∧
    (HandleKeyframe testCollab 7 pendingSwitch0).m_positionMap = [(0, 7)] ∧
    pendingSwitch0.m_positionMap = [(0, 5)] := by
  decide

/-- C4, as amended. When `HandleKeyframe(extra)` stores an entry for a new frame number
(a ring buffer is attached, the key is absent after the ring-buffer switch check and the
offset is not negative), the stored offset is the write position of the ring buffer then
in use plus `extra`; the length of the payload buffer is not added. -/
theorem HandleKeyframe_stored_offset (X : Collab R P) (extra : Int) (s : DTVRecorder R P)
    (rb : R) (hrb : s.m_ringBuffer.isSome = true)
    (hsw : (CheckForRingBufferSwitch s).m_ringBuffer = some rb)
    (hnew : (CheckForRingBufferSwitch s).m_positionMap.contains
      (CheckForRingBufferSwitch s).m_frames_written_count = false)
    (hpos : 0 ≤ X.GetWritePosition rb + extra) :
    (HandleKeyframe X extra s).m_positionMap.find?
      (CheckForRingBufferSwitch s).m_frames_written_count =
        some (X.GetWritePosition rb + extra) := by
  unfold HandleKeyframe
  cases h0 : s.m_ringBuffer with
  | none => simp [h0] at hrb
  | some rb0 =>
    have hm : (noteFirstKeyframe (CheckForRingBufferSwitch s)).m_positionMap =
        (CheckForRingBufferSwitch s).m_positionMap :=
      congrArg Prod.fst (noteFirstKeyframe_maps _)
    have hr : (noteFirstKeyframe (CheckForRingBufferSwitch s)).m_ringBuffer = some rb := by
      unfold noteFirstKeyframe
      split <;> simpa using hsw
    simp only [hm, hnew, hr, Bool.not_false, if_true, ge_iff_le, hpos]
    simp only [storeKeyframe, hm]
    exact PosMap.find?_insert_self _ _ _

/-- C4 as amended, at a concrete recorder: a payload buffer of 188 bytes, write position
0, and the offset stored by `HandleKeyframe(0)` is 0. -/
theorem HandleKeyframe_stored_offset_witness :
    (HandleKeyframe testCollab 0
      { fresh0 with m_payload_buffer := List.replicate 188 0 }).m_positionMap.find? 0
        = some 0 :=
  HandleKeyframe_stored_offset testCollab 0
    { fresh0 with m_payload_buffer := List.replicate 188 0 } { pos := 0, fails := false }
    rfl rfl rfl (by decide)

/-- C4 as stated fails for the call `HandleKeyframe(0)` of the MPEG-2 detector while a
packet is buffered: after the first packet of a PES packet the payload buffer holds its
188 bytes and the write position is 0; the second packet carries a GOP start code, and
the offset stored for frame 0 is 0, not 188. -/
theorem HandleKeyframe_offset_ignores_buffer_counterexample :
    (ProcessVideoTSPacket testCollab pesStartPacket mpeg2Rec).map
        (fun s => (s.m_payload_buffer.length, s.m_buffer_packets, s.m_ringBuffer)) =
      some (188, true, some { pos := 0, fails := false }) ∧
    ((ProcessVideoTSPacket testCollab pesStartPacket mpeg2Rec).bind
        (ProcessVideoTSPacket testCollab gopPicturePacket)).map
        (fun s => s.m_positionMap) = some [(0, 0)] := by
  decide

/-- C5, as amended. With a ring buffer attached and the write position of the ring buffer
in use after the ring-buffer switch check plus `extra` negative, `HandleKeyframe(extra)`
stores nothing: the four maps are as the switch check leaves them, that is unchanged when
no switch is pending and emptied by the reset for the new file when one is. -/
theorem HandleKeyframe_negative_offset (X : Collab R P) (extra : Int) (s : DTVRecorder R P)
    (rb : R) (hrb : s.m_ringBuffer.isSome = true)
    (hsw : (CheckForRingBufferSwitch s).m_ringBuffer = some rb)
    (hneg : X.GetWritePosition rb + extra < 0) :
    (HandleKeyframe X extra s).maps = (CheckForRingBufferSwitch s).maps ∧
    (s.m_nextRingBuffer = none → (HandleKeyframe X extra s).maps = s.maps) ∧
    (s.m_nextRingBuffer.isSome = true →
      (HandleKeyframe X extra s).maps = ([], [], [], [])) := by
  have h : (HandleKeyframe X extra s).maps = (CheckForRingBufferSwitch s).maps := by
    unfold HandleKeyframe
    cases h0 : s.m_ringBuffer with
    | none => simp [h0] at hrb
    | some rb0 =>
      have hr : (noteFirstKeyframe (CheckForRingBufferSwitch s)).m_ringBuffer = some rb := by
        unfold noteFirstKeyframe
        split <;> simpa using hsw
      simp only [hr]
      split
      · rw [if_neg (by omega)]
        exact noteFirstKeyframe_maps _
      · exact noteFirstKeyframe_maps _
  refine ⟨h, ?_, ?_⟩
  · intro hn
    rw [h, CheckForRingBufferSwitch_none s hn]
  · intro hn
    rw [h]
    unfold CheckForRingBufferSwitch
    cases hx : s.m_nextRingBuffer with
    | none => simp [hx] at hn
    | some rb2 => rfl

/-- C5 as amended, at two concrete recorders with write position 0 and `extra = -10`: one
with a switch pending, whose maps end empty, and one without, whose maps are unchanged. -/
theorem HandleKeyframe_negative_offset_witness :
    (HandleKeyframe testCollab (-10) pendingSwitch0).maps = ([], [], [], []) ∧
    (HandleKeyframe testCollab (-10) fresh0).maps = fresh0.maps :=
  ⟨(HandleKeyframe_negative_offset testCollab (-10) pendingSwitch0 { pos := 0, fails := false }
      rfl rfl (by decide)).2.2 rfl,
   (HandleKeyframe_negative_offset testCollab (-10) fresh0 { pos := 0, fails := false }
      rfl rfl (by decide)).2.1 rfl⟩

/-- C5 as stated fails when a ring-buffer switch is pending: the write position plus
`extra` is negative (before and after the switch), yet the call empties the position
map. -/
theorem HandleKeyframe_negative_offset_counterexample :
    pendingSwitch0.m_ringBuffer = some { pos := 0, fails := false } ∧
    testCollab.GetWritePosition { pos := 0, fails := false } + (-10) < 0 ∧
    pendingSwitch0.m_positionMap = [(0, 5)] ∧
    (HandleKeyframe testCollab (-10) pendingSwitch0).m_positionMap = [] := by
  decide

/-! ### Frame counters and the keys of the position map (C1, C3) -/

theorem writeIgnoringResult_core (X : Collab R P) (bytes : List Nat) (s : DTVRecorder R P) :
    coreOf (writeIgnoringResult X bytes s) = coreOf s := by
  unfold writeIgnoringResult
  split <;> simp_all [coreOf, DTVRecorder.maps]

theorem SetRecordingStatusFailing_core (s : DTVRecorder R P) :
    coreOf (SetRecordingStatusFailing s) = coreOf s := rfl

theorem flushPayloadBuffer_core (X : Collab R P) (s : DTVRecorder R P) :
    coreOf (flushPayloadBuffer X s) = coreOf s := by
  unfold flushPayloadBuffer
  split
  · exact writeIgnoringResult_core X _ s
  · rfl

theorem writePacket_core (X : Collab R P) (p : TSPacket) (s : DTVRecorder R P) :
    coreOf (writePacket X p s) = coreOf s := by
  unfold writePacket
  split
  · rfl
  · rename_i rb h
    dsimp only
    split
    · rw [SetRecordingStatusFailing_core]
      simp [coreOf, DTVRecorder.maps, h]
    · simp [coreOf, DTVRecorder.maps, h]

theorem BufferedWrite_core (X : Collab R P) (p : TSPacket) (i : Bool) (s : DTVRecorder R P) :
    coreOf (BufferedWrite X p i s) = coreOf s := by
  unfold BufferedWrite
  split
  · split
    · rfl
    · split
      · rfl
      · rw [writePacket_core, flushPayloadBuffer_core]
  · exact writePacket_core X p s

theorem countAndCheck_core (p : TSPacket) (s : DTVRecorder R P) :
    coreOf (countAndCheck p s) = coreOf s := by
  unfold countAndCheck CheckCC
  dsimp only
  split <;> [skip; rfl]
  split <;> rfl

theorem reportChanges_core (l : ScanLocals) (s : DTVRecorder R P) :
    coreOf (reportChanges l s) = coreOf s := by
  unfold reportChanges
  dsimp only
  split <;> split <;> split <;> rfl

theorem recordGap_core (X : Collab R P) (sid : Nat) (ts : Int) (s : DTVRecorder R P) :
    coreOf (recordGap X sid ts s) = coreOf s := by
  unfold recordGap
  dsimp only
  split
  · split
    · rfl
    · rfl
  · rfl

theorem HandleTimestamps_core (X : Collab R P) (sid : Nat) (pts dts : Int) (s : DTVRecorder R P) :
    coreOf (HandleTimestamps X sid pts dts s) = coreOf s := by
  have h1 : ∀ t : DTVRecorder R P, coreOf (HandleTimestamps.downgrade sid dts t) = coreOf t := by
    intro t; unfold HandleTimestamps.downgrade; split <;> rfl
  have h2 : ∀ t : DTVRecorder R P, coreOf (HandleTimestamps.checkGap X sid dts t) = coreOf t := by
    intro t; unfold HandleTimestamps.checkGap; dsimp only
    split
    · split
      · exact recordGap_core X sid dts t
      · rfl
    · rfl
  have h3 : ∀ t : DTVRecorder R P, coreOf (HandleTimestamps.note sid dts t) = coreOf t := by
    intro t; unfold HandleTimestamps.note; dsimp only
    split
    · split
      · rfl
      · split <;> rfl
    · rfl
  unfold HandleTimestamps
  split
  · rfl
  · dsimp only
    rw [h3, h2, h1]

theorem handleExtension_core (data : List Nat) (bufptr : Nat) (bl : Int) (s : DTVRecorder R P) :
    coreOf (handleExtension data bufptr bl s) = coreOf s := by
  unfold handleExtension
  dsimp only
  split
  · split
    · split <;> rfl
    · split
      · split <;> rfl
      · rfl
  · rfl

theorem handleVideoPES_core (X : Collab R P) (data : List Nat) (bufptr : Nat) (bl : Int)
    (sid : Nat) (l : ScanLocals) (s : DTVRecorder R P) :
    coreOf (handleVideoPES X data bufptr bl sid l s).1 = coreOf s := by
  unfold handleVideoPES
  dsimp only
  split
  · exact HandleTimestamps_core X sid _ _ s
  · exact HandleTimestamps_core X sid _ _ s

theorem onStartCode_core (X : Collab R P) (data : List Nat) (bufptr : Nat)
    (l : ScanLocals) (s : DTVRecorder R P) :
    coreOf (FindMPEG2Keyframes.onStartCode X data bufptr l s).1 = coreOf s := by
  unfold FindMPEG2Keyframes.onStartCode
  dsimp only
  have h : coreOf (if PictureStartCode = s.m_start_code &&& 0x000000ff then
        (s, { l with hasFrame := true })
      else if GOPStartCode = s.m_start_code &&& 0x000000ff then
        ({ s with m_last_gop_seen := s.m_frames_seen_count }, { l with hasKeyFrame := true })
      else if SequenceStartCode = s.m_start_code &&& 0x000000ff then
        ({ s with m_last_seq_seen := s.m_frames_seen_count },
         { l with
           hasKeyFrame := l.hasKeyFrame ||
             decide (s.m_last_gop_seen + kMaxKeyFrameDistance < s.m_frames_seen_count)
           aspectRatio := rd data bufptr 3 >>> 4
           height := ((rd data bufptr 1 &&& 0xf) <<< 8) ||| rd data bufptr 2
           width := (rd data bufptr 0 <<< 4) ||| (rd data bufptr 1 >>> 4)
           frameRate := frameRateMap (rd data bufptr 3 &&& 0x0000000f) })
      else if MPEG2ExtensionStartCode = s.m_start_code &&& 0x000000ff then
        (handleExtension data bufptr ((kSize : Int) - (bufptr : Int)) s, l)
      else (s, l) : DTVRecorder R P × ScanLocals).1 = coreOf s := by
    split
    · rfl
    · split
      · rfl
      · split
        · rfl
        · split
          · exact handleExtension_core _ _ _ s
          · rfl
  split
  · rw [handleVideoPES_core]; exact h
  · exact h

theorem MPEG2_loop_core (X : Collab R P) (data : List Nat) (fuel : Nat) :
    ∀ (bufptr : Nat) (l : ScanLocals) (s : DTVRecorder R P),
    coreOf (FindMPEG2Keyframes.loop X data fuel bufptr l s).1 = coreOf s := by
  induction fuel with
  | zero => intro bufptr l s; rfl
  | succ n ih =>
    intro bufptr l s
    unfold FindMPEG2Keyframes.loop
    dsimp only
    split
    · split
      · rw [ih, onStartCode_core]; rfl
      · rw [ih]; rfl
    · rfl

theorem MPEG2_scan_core (X : Collab R P) (p : TSPacket) (s : DTVRecorder R P) :
    coreOf (FindMPEG2Keyframes.scan X p s).1 = coreOf s := by
  unfold FindMPEG2Keyframes.scan
  dsimp only
  rw [MPEG2_loop_core]; rfl

theorem PosMap_insert_append (k : Nat) (v : Int) (m : PosMap) (h : ∀ e ∈ m, e.1 < k) :
    PosMap.insert k v m = m ++ [(k, v)] := by
  induction m with
  | nil => rfl
  | cons a t ih =>
    have ha : a.1 < k := h a (List.mem_cons_self _ _)
    unfold PosMap.insert
    rw [if_neg (by omega), if_neg (by omega)]
    rw [ih (fun e he => h e (List.mem_cons_of_mem _ he))]
    rfl

theorem HandleKeyframe_shape (X : Collab R P) (extra : Int) (s : DTVRecorder R P)
    (hn : s.m_nextRingBuffer = none) :
    HandleKeyframe X extra s = s ∨ HandleKeyframe X extra s = noteFirstKeyframe s ∨
    (s.m_positionMap.contains s.m_frames_written_count = false ∧
      ∃ v, HandleKeyframe X extra s =
        storeKeyframe s.m_frames_written_count v (noteFirstKeyframe s)) := by
  unfold HandleKeyframe
  cases hrb : s.m_ringBuffer with
  | none => simp
  | some rb =>
    simp only [CheckForRingBufferSwitch_none s hn]
    have hm : (noteFirstKeyframe s).m_positionMap = s.m_positionMap :=
      congrArg Prod.fst (noteFirstKeyframe_maps s)
    have hr : (noteFirstKeyframe s).m_ringBuffer = some rb := by
      unfold noteFirstKeyframe
      split <;> simpa using hrb
    cases hc : s.m_positionMap.contains s.m_frames_written_count with
    | true => simp [hm, hc]
    | false =>
      simp only [hm, hc, hr, Bool.not_false, if_true]
      split
      · right; right
        exact ⟨trivial, _, rfl⟩
      · right; left; rfl

theorem HandleH264Keyframe_shape (X : Collab R P) (s : DTVRecorder R P)
    (hn : s.m_nextRingBuffer = none) :
    HandleH264Keyframe X s = noteFirstKeyframe s ∨
    (s.m_positionMap.contains s.m_frames_written_count = false ∧
      ∃ v, HandleH264Keyframe X s =
        storeKeyframe s.m_frames_written_count v (noteFirstKeyframe s)) := by
  unfold HandleH264Keyframe
  simp only [CheckForRingBufferSwitch_none s hn]
  have hm : (noteFirstKeyframe s).m_positionMap = s.m_positionMap :=
    congrArg Prod.fst (noteFirstKeyframe_maps s)
  cases hc : s.m_positionMap.contains s.m_frames_written_count with
  | true => simp [hm, hc]
  | false =>
    simp only [hm, hc, Bool.not_false, if_true]
    right
    exact ⟨trivial, _, rfl⟩

theorem Delta_refl (s : DTVRecorder R P) (hn : s.m_nextRingBuffer = none) : Delta 0 0 s s :=
  ⟨hn, rfl, rfl, fun h => ⟨h, [], by simp, fun e he => absurd he (List.not_mem_nil e)⟩⟩

theorem Delta_trans {a b c d : Nat} {s t u : DTVRecorder R P}
    (h1 : Delta a b s t) (h2 : Delta c d t u) : Delta (a + c) (b + d) s u := by
  obtain ⟨_, hs1, hw1, hk1⟩ := h1
  obtain ⟨hn2, hs2, hw2, hk2⟩ := h2
  refine ⟨hn2, by omega, by omega, fun hk => ?_⟩
  obtain ⟨hkt, n1, e1, b1⟩ := hk1 hk
  obtain ⟨hku, n2, e2, b2⟩ := hk2 hkt
  refine ⟨hku, n1 ++ n2, by rw [e2, e1, List.append_assoc], ?_⟩
  intro e he
  rcases List.mem_append.1 he with h | h
  · exact b1 e h
  · have := b2 e h
    omega

/-- A step that leaves the next ring buffer, both counters and the position map alone. -/
theorem Delta_of_same {s t : DTVRecorder R P} (hn : s.m_nextRingBuffer = none)
    (h1 : t.m_nextRingBuffer = s.m_nextRingBuffer)
    (h2 : t.m_frames_seen_count = s.m_frames_seen_count)
    (h3 : t.m_frames_written_count = s.m_frames_written_count)
    (h4 : t.m_positionMap = s.m_positionMap) : Delta 0 0 s t := by
  refine ⟨h1.trans hn, by omega, by omega, fun hk => ⟨?_, [], by simp [h4],
    fun e he => absurd he (List.not_mem_nil e)⟩⟩
  unfold KeysOK at *
  rw [h4, h3]
  exact hk

theorem Delta_of_core {s t : DTVRecorder R P} (hn : s.m_nextRingBuffer = none)
    (h : coreOf t = coreOf s) : Delta 0 0 s t :=
  Delta_of_same hn (congrArg Core.next h) (congrArg Core.seen h) (congrArg Core.written h)
    (congrArg (fun c => c.maps.1) h)

theorem Delta_noteFirstKeyframe (s : DTVRecorder R P) (hn : s.m_nextRingBuffer = none) :
    Delta 0 0 s (noteFirstKeyframe s) := by
  unfold noteFirstKeyframe
  split
  · exact Delta_of_same hn rfl rfl rfl rfl
  · exact Delta_refl s hn

theorem Delta_storeKeyframe (v : Int) (s : DTVRecorder R P) (hn : s.m_nextRingBuffer = none)
    (hc : s.m_positionMap.contains s.m_frames_written_count = false) :
    Delta 0 0 s (storeKeyframe s.m_frames_written_count v s) := by
  refine ⟨hn, rfl, rfl, fun hk => ?_⟩
  obtain ⟨hle, hsorted⟩ := hk
  have hlt : ∀ e ∈ s.m_positionMap, e.1 < s.m_frames_written_count := by
    intro e he
    have h1 := hle e he
    have h2 : e.1 ≠ s.m_frames_written_count := by
      intro heq
      have : s.m_positionMap.contains s.m_frames_written_count = true := by
        simp only [PosMap.contains, List.any_eq_true]
        exact ⟨e, he, by simp [heq]⟩
      rw [hc] at this
      cases this
    omega
  have happ := PosMap_insert_append s.m_frames_written_count v s.m_positionMap hlt
  have hpm : (storeKeyframe s.m_frames_written_count v s).m_positionMap =
      s.m_positionMap ++ [(s.m_frames_written_count, v)] := by
    simp only [storeKeyframe]
    exact happ
  refine ⟨⟨?_, ?_⟩, [(s.m_frames_written_count, v)], hpm, ?_⟩
  · intro e he
    rw [hpm] at he
    rcases List.mem_append.1 he with h | h
    · exact hle e h
    · simp at h
      rw [h]
      exact Nat.le_refl _
  · rw [hpm, List.map_append, List.pairwise_append]
    refine ⟨hsorted, by simp, ?_⟩
    intro a ha b hb
    simp at hb
    obtain ⟨x, hx⟩ := List.mem_map.1 ha
    rw [hb, ← hx.2]
    exact hlt x hx.1
  · intro e he
    simp at he
    rw [he]

theorem noteFirstKeyframe_fields (s : DTVRecorder R P) :
    (noteFirstKeyframe s).m_nextRingBuffer = s.m_nextRingBuffer ∧
    (noteFirstKeyframe s).m_frames_written_count = s.m_frames_written_count ∧
    (noteFirstKeyframe s).m_positionMap = s.m_positionMap := by
  unfold noteFirstKeyframe
  split <;> exact ⟨rfl, rfl, rfl⟩

theorem Delta_HandleKeyframe (X : Collab R P) (extra : Int) (s : DTVRecorder R P)
    (hn : s.m_nextRingBuffer = none) : Delta 0 0 s (HandleKeyframe X extra s) := by
  rcases HandleKeyframe_shape X extra s hn with h | h | ⟨hc, v, h⟩
  · rw [h]; exact Delta_refl s hn
  · rw [h]; exact Delta_noteFirstKeyframe s hn
  · rw [h]
    obtain ⟨f1, f2, f3⟩ := noteFirstKeyframe_fields s
    have := Delta_storeKeyframe v (noteFirstKeyframe s) (f1.trans hn) (by rw [f2, f3]; exact hc)
    rw [f2] at this
    exact Delta_trans (Delta_noteFirstKeyframe s hn) this

theorem Delta_HandleH264Keyframe (X : Collab R P) (s : DTVRecorder R P)
    (hn : s.m_nextRingBuffer = none) : Delta 0 0 s (HandleH264Keyframe X s) := by
  rcases HandleH264Keyframe_shape X s hn with h | ⟨hc, v, h⟩
  · rw [h]; exact Delta_noteFirstKeyframe s hn
  · rw [h]
    obtain ⟨f1, f2, f3⟩ := noteFirstKeyframe_fields s
    have := Delta_storeKeyframe v (noteFirstKeyframe s) (f1.trans hn) (by rw [f2, f3]; exact hc)
    rw [f2] at this
    exact Delta_trans (Delta_noteFirstKeyframe s hn) this

theorem UpdateFramesWritten_shape (s : DTVRecorder R P) :
    ∃ a b c d, UpdateFramesWritten s =
      { s with m_frames_written_count := s.m_frames_written_count + 1
               m_total_duration := a, m_td_base := b, m_td_tick_count := c
               m_td_tick_framerate := d } := by
  unfold UpdateFramesWritten
  dsimp only
  split <;> split <;> split <;> exact ⟨_, _, _, _, rfl⟩

theorem UpdateFramesWritten_fields (s : DTVRecorder R P) :
    (UpdateFramesWritten s).m_nextRingBuffer = s.m_nextRingBuffer ∧
    (UpdateFramesWritten s).m_frames_seen_count = s.m_frames_seen_count ∧
    (UpdateFramesWritten s).m_frames_written_count = s.m_frames_written_count + 1 ∧
    (UpdateFramesWritten s).m_positionMap = s.m_positionMap := by
  obtain ⟨a, b, c, d, h⟩ := UpdateFramesWritten_shape s
  rw [h]
  exact ⟨rfl, rfl, rfl, rfl⟩

/-- A step that only moves the counters up. -/
theorem Delta_of_counters {a b : Nat} {s t : DTVRecorder R P} (hn : s.m_nextRingBuffer = none)
    (h1 : t.m_nextRingBuffer = s.m_nextRingBuffer)
    (h2 : t.m_frames_seen_count = s.m_frames_seen_count + a)
    (h3 : t.m_frames_written_count = s.m_frames_written_count + b)
    (h4 : t.m_positionMap = s.m_positionMap) : Delta a b s t := by
  refine ⟨h1.trans hn, h2, h3, fun hk => ⟨?_, [], by simp [h4],
    fun e he => absurd he (List.not_mem_nil e)⟩⟩
  unfold KeysOK at *
  rw [h4, h3]
  exact ⟨fun e he => Nat.le_trans (hk.1 e he) (Nat.le_add_right _ _), hk.2⟩

theorem Delta_UpdateFramesWritten (s : DTVRecorder R P) (hn : s.m_nextRingBuffer = none) :
    Delta 0 1 s (UpdateFramesWritten s) := by
  obtain ⟨h1, h2, h3, h4⟩ := UpdateFramesWritten_fields s
  exact Delta_of_counters hn h1 (by omega) h3 h4

theorem Pres_refl (s : DTVRecorder R P) (hn : s.m_nextRingBuffer = none) : Pres s s :=
  ⟨0, 0, Nat.le_refl _, Delta_refl s hn⟩

theorem Pres_trans {s t u : DTVRecorder R P} (h1 : Pres s t) (h2 : Pres t u) : Pres s u := by
  obtain ⟨a, b, hab, d1⟩ := h1
  obtain ⟨c, d, hcd, d2⟩ := h2
  exact ⟨a + c, b + d, by omega, Delta_trans d1 d2⟩

theorem Pres_next {s t : DTVRecorder R P} (h : Pres s t) : t.m_nextRingBuffer = none := by
  obtain ⟨a, b, _, d⟩ := h
  exact d.1

theorem Pres_of_core {s t : DTVRecorder R P} (hn : s.m_nextRingBuffer = none)
    (h : coreOf t = coreOf s) : Pres s t :=
  ⟨0, 0, Nat.le_refl _, Delta_of_core hn h⟩

theorem Pres_of_delta {a b : Nat} {s t : DTVRecorder R P} (hab : b ≤ a) (h : Delta a b s t) :
    Pres s t :=
  ⟨a, b, hab, h⟩

theorem Pres_andThen {s t : DTVRecorder R P} (f : DTVRecorder R P → DTVRecorder R P)
    (hf : ∀ u : DTVRecorder R P, u.m_nextRingBuffer = none → Pres u (f u))
    (h : Pres s t) : Pres s (f t) :=
  Pres_trans h (hf t (Pres_next h))

theorem Pres_andThen_core {s t : DTVRecorder R P} (f : DTVRecorder R P → DTVRecorder R P)
    (hf : ∀ u : DTVRecorder R P, coreOf (f u) = coreOf u)
    (h : Pres s t) : Pres s (f t) :=
  Pres_trans h (Pres_of_core (Pres_next h) (hf t))

theorem Pres_andThen_ite {s t : DTVRecorder R P} (c : Prop) [Decidable c]
    (f : DTVRecorder R P → DTVRecorder R P)
    (hf : ∀ u : DTVRecorder R P, u.m_nextRingBuffer = none → Pres u (f u))
    (h : Pres s t) : Pres s (if c then f t else t) := by
  split
  · exact Pres_andThen f hf h
  · exact h

theorem Pres_markKeyframeSeen (s : DTVRecorder R P) (hn : s.m_nextRingBuffer = none) :
    Pres s (markKeyframeSeen s) :=
  Pres_of_delta (Nat.le_refl 0) (Delta_of_same hn rfl rfl rfl rfl)

theorem Pres_HandleKeyframe (X : Collab R P) (e : Int) (s : DTVRecorder R P)
    (hn : s.m_nextRingBuffer = none) : Pres s (HandleKeyframe X e s) :=
  Pres_of_delta (Nat.le_refl 0) (Delta_HandleKeyframe X e s hn)

theorem Pres_HandleH264Keyframe (X : Collab R P) (s : DTVRecorder R P)
    (hn : s.m_nextRingBuffer = none) : Pres s (HandleH264Keyframe X s) :=
  Pres_of_delta (Nat.le_refl 0) (Delta_HandleH264Keyframe X s hn)

theorem Delta_countFrame (s : DTVRecorder R P) (hn : s.m_nextRingBuffer = none) :
    Delta 1 0 s (countFrame s) :=
  Delta_of_counters hn rfl rfl rfl rfl

theorem Pres_countFrame (s : DTVRecorder R P) (hn : s.m_nextRingBuffer = none) :
    Pres s (countFrame s) :=
  Pres_of_delta (Nat.zero_le 1) (Delta_countFrame s hn)

theorem Pres_stopBuffering (s : DTVRecorder R P) (hn : s.m_nextRingBuffer = none) :
    Pres s (stopBuffering s) :=
  Pres_of_core hn rfl

/-- A frame is counted as seen and, maybe, as written. -/
theorem Pres_count_then_write (c : Prop) [Decidable c] (s : DTVRecorder R P)
    (hn : s.m_nextRingBuffer = none) (g : DTVRecorder R P → DTVRecorder R P)
    (hg : ∀ u : DTVRecorder R P, u.m_nextRingBuffer = none → Delta 0 0 u (g u))
    (k : DTVRecorder R P → DTVRecorder R P)
    (hk : ∀ u : DTVRecorder R P, u.m_nextRingBuffer = none → Delta 0 0 u (k u)) :
    Pres s (if c then UpdateFramesWritten (g (countFrame s)) else k (g (countFrame s))) := by
  have h1 := Delta_countFrame s hn
  have h2 := Delta_trans h1 (hg _ h1.1)
  split
  · exact Pres_of_delta (by omega) (Delta_trans h2 (Delta_UpdateFramesWritten _ h2.1))
  · exact Pres_of_delta (by omega) (Delta_trans h2 (hk _ h2.1))

theorem Delta_id (u : DTVRecorder R P) (hu : u.m_nextRingBuffer = none) : Delta 0 0 u (id u) :=
  Delta_refl u hu

theorem Pres_onFrame (s : DTVRecorder R P) (hn : s.m_nextRingBuffer = none) :
    Pres s (onFrame s) := by
  unfold onFrame
  dsimp only
  have h0 : Pres s (stopBuffering s) := Pres_stopBuffering s hn
  refine Pres_trans h0 ?_
  exact Pres_count_then_write _ (stopBuffering s) hn id Delta_id
    (fun u => { u with m_payload_buffer := [] })
    (fun u hu => Delta_of_same hu rfl rfl rfl rfl)

theorem Pres_MPEG2_finish (X : Collab R P) (l : ScanLocals) (s : DTVRecorder R P)
    (hn : s.m_nextRingBuffer = none) : Pres s (FindMPEG2Keyframes.finish X l s) := by
  unfold FindMPEG2Keyframes.finish
  dsimp only
  apply Pres_andThen_core (reportChanges l) (reportChanges_core l)
  apply Pres_andThen_ite _ onFrame Pres_onFrame
  apply Pres_andThen_ite _ (fun u => HandleKeyframe X 0 (markKeyframeSeen u))
  · intro u hu
    exact Pres_andThen _ (Pres_HandleKeyframe X 0) (Pres_markKeyframeSeen u hu)
  · exact Pres_refl s hn

theorem Pres_FindMPEG2Keyframes (X : Collab R P) (p : TSPacket) (s : DTVRecorder R P)
    (hn : s.m_nextRingBuffer = none) : Pres s (FindMPEG2Keyframes X p s) := by
  unfold FindMPEG2Keyframes
  split
  · exact Pres_refl s hn
  · split
    · exact Pres_refl s hn
    · dsimp only
      have hc := MPEG2_scan_core X p s
      exact Pres_andThen _ (Pres_MPEG2_finish X _) (Pres_of_core hn hc)

theorem Delta_mark_HandleKeyframe (X : Collab R P) (c : Prop) [Decidable c]
    (u : DTVRecorder R P) (hu : u.m_nextRingBuffer = none) :
    Delta 0 0 u (if c then HandleKeyframe X (u.m_payload_buffer.length : Int)
      (markKeyframeSeen u) else u) := by
  split
  · exact Delta_trans (Delta_of_same (t := markKeyframeSeen u) hu rfl rfl rfl rfl)
      (Delta_HandleKeyframe X _ (markKeyframeSeen u) hu)
  · exact Delta_refl u hu

theorem Pres_FindAudioKeyframes (X : Collab R P) (e : Nat) (s : DTVRecorder R P)
    (hn : s.m_nextRingBuffer = none) : Pres s (FindAudioKeyframes X e s) := by
  unfold FindAudioKeyframes
  split
  · exact Pres_refl s hn
  · split
    · dsimp only
      refine Pres_trans (Pres_stopBuffering s hn) ?_
      exact Pres_count_then_write _ (stopBuffering s) hn
        (fun u => if 1 = u.m_frames_seen_count &&& 0x7 then
          HandleKeyframe X (u.m_payload_buffer.length : Int) (markKeyframeSeen u) else u)
        (fun u hu => Delta_mark_HandleKeyframe X _ u hu) id Delta_id
    · exact Pres_refl s hn

theorem Pres_FindOtherKeyframes (X : Collab R P) (s : DTVRecorder R P)
    (hn : s.m_nextRingBuffer = none) : Pres s (FindOtherKeyframes X s) := by
  unfold FindOtherKeyframes
  split
  · exact Pres_refl s hn
  · split
    · exact Pres_refl s hn
    · dsimp only
      have h1 := Delta_countFrame s hn
      have h2 := Delta_trans h1 (Delta_UpdateFramesWritten _ h1.1)
      have h3 : Pres s (markKeyframeSeen (UpdateFramesWritten (countFrame s))) :=
        Pres_andThen _ Pres_markKeyframeSeen (Pres_of_delta (by omega) h2)
      have h4 := Pres_andThen _ (Pres_HandleKeyframe X
        ((markKeyframeSeen (UpdateFramesWritten (countFrame s))).m_payload_buffer.length : Int)) h3
      exact Pres_trans h4 (Pres_of_delta (Nat.le_refl 0) (Delta_of_same (Pres_next h4) rfl rfl rfl rfl))

theorem H264_feed_core (X : Collab R P) (data : List Nat) (i : Nat) (rb : R)
    (l : ScanLocals) (s : DTVRecorder R P) :
    coreOf (FindH264Keyframes.feed X data i rb l s).1.1 = coreOf s := by
  unfold FindH264Keyframes.feed
  dsimp only
  split <;> rfl

theorem H264_loop_core (X : Collab R P) (p : TSPacket) (rb : R) (fuel : Nat) :
    ∀ (i : Nat) (l : ScanLocals) (s : DTVRecorder R P) (r : DTVRecorder R P × ScanLocals),
    FindH264Keyframes.loop X p rb fuel i l s = some r → coreOf r.1 = coreOf s := by
  induction fuel with
  | zero =>
    intro i l s r h
    simp [FindH264Keyframes.loop] at h
  | succ n ih =>
    intro i l s r h
    unfold FindH264Keyframes.loop at h
    dsimp only at h
    split at h
    · split at h
      · split at h
        · cases h; rfl
        · split at h
          · cases h; rfl
          · split at h
            · cases h; rfl
            · split at h
              · cases h; rfl
              · rw [ih _ _ _ _ h]; rfl
      · split at h
        · cases h; rfl
        · rw [ih _ _ _ _ h]
          exact H264_feed_core X _ _ _ _ _
    · cases h; rfl

theorem H264_scan_core (X : Collab R P) (p : TSPacket) (rb : R) (s : DTVRecorder R P)
    (r : DTVRecorder R P × ScanLocals) (h : FindH264Keyframes.scan X p rb s = some r) :
    coreOf r.1 = coreOf s := by
  unfold FindH264Keyframes.scan at h
  dsimp only at h
  rw [H264_loop_core X p rb _ _ _ _ _ h]
  split <;> rfl

theorem Pres_H264_finish (X : Collab R P) (l : ScanLocals) (s : DTVRecorder R P)
    (hn : s.m_nextRingBuffer = none) : Pres s (FindH264Keyframes.finish X l s) := by
  unfold FindH264Keyframes.finish
  dsimp only
  apply Pres_andThen_core (reportChanges l) (reportChanges_core l)
  apply Pres_andThen_ite _ onFrame Pres_onFrame
  apply Pres_andThen_ite _ (fun u => HandleH264Keyframe X (markKeyframeSeen u))
  · intro u hu
    exact Pres_andThen _ (Pres_HandleH264Keyframe X) (Pres_markKeyframeSeen u hu)
  · exact Pres_refl s hn

theorem Pres_FindH264Keyframes (X : Collab R P) (p : TSPacket) (s t : DTVRecorder R P)
    (hn : s.m_nextRingBuffer = none) (h : FindH264Keyframes X p s = some t) : Pres s t := by
  unfold FindH264Keyframes at h
  split at h
  · cases h; exact Pres_refl s hn
  · split at h
    · cases h; exact Pres_refl s hn
    · rename_i rb hrb
      cases hs : FindH264Keyframes.scan X p rb s with
      | none => simp [hs] at h
      | some r =>
        simp only [hs, Option.map_some', Option.some.injEq] at h
        rw [← h]
        exact Pres_andThen _ (Pres_H264_finish X _) (Pres_of_core hn (H264_scan_core X p rb s r hs))

theorem ProcessAVTSPacket_core (X : Collab R P) (p : TSPacket) (s : DTVRecorder R P) :
    coreOf (ProcessAVTSPacket X p s) = coreOf s := by
  unfold ProcessAVTSPacket
  split
  · split
    · exact BufferedWrite_core X p false s
    · rfl
  · dsimp only
    rw [BufferedWrite_core]
    split
    · exact countAndCheck_core p s
    · exact countAndCheck_core p s

theorem onPayloadStart_core (X : Collab R P) (p : TSPacket) (s : DTVRecorder R P) :
    coreOf (onPayloadStart X p s) = coreOf s := by
  unfold onPayloadStart
  split
  · dsimp only
    split
    · exact writeIgnoringResult_core X _ s
    · rfl
  · rfl

theorem Pres_ProcessVideoTSPacket (X : Collab R P) (p : TSPacket) (s t : DTVRecorder R P)
    (hn : s.m_nextRingBuffer = none) (h : ProcessVideoTSPacket X p s = some t) : Pres s t := by
  unfold ProcessVideoTSPacket at h
  split at h
  · cases h; exact Pres_refl s hn
  · dsimp only at h
    have h0 : Pres s (onPayloadStart X p s) := Pres_of_core hn (onPayloadStart_core X p s)
    split at h
    · cases hf : FindH264Keyframes X p (onPayloadStart X p s) with
      | none => simp [hf] at h
      | some u =>
        simp only [hf, Option.map_some', Option.some.injEq] at h
        rw [← h]
        exact Pres_andThen_core _ (ProcessAVTSPacket_core X p)
          (Pres_trans h0 (Pres_FindH264Keyframes X p _ u (Pres_next h0) hf))
    · split at h
      · simp only [Option.map_some', Option.some.injEq] at h
        rw [← h]
        exact Pres_andThen_core _ (ProcessAVTSPacket_core X p)
          (Pres_andThen _ (Pres_FindMPEG2Keyframes X p) h0)
      · simp only [Option.map_some', Option.some.injEq] at h
        rw [← h]
        exact Pres_andThen_core _ (ProcessAVTSPacket_core X p) h0

theorem Pres_ProcessAudioTSPacket (X : Collab R P) (p : TSPacket) (e : Nat)
    (s : DTVRecorder R P) (hn : s.m_nextRingBuffer = none) :
    Pres s (ProcessAudioTSPacket X p e s) := by
  unfold ProcessAudioTSPacket
  split
  · exact Pres_refl s hn
  · dsimp only
    have h0 : Pres s (onPayloadStart X p s) := Pres_of_core hn (onPayloadStart_core X p s)
    exact Pres_andThen_core _ (ProcessAVTSPacket_core X p)
      (Pres_andThen _ (Pres_FindAudioKeyframes X e) h0)

theorem Pres_mpts_branch (X : Collab R P) (el : Int) (s : DTVRecorder R P)
    (hn : s.m_nextRingBuffer = none) :
    Pres s (if el > 500 then
        HandleKeyframe X ((UpdateFramesWritten (countFrame s)).m_payload_buffer.length : Int)
          (markKeyframeSeen (UpdateFramesWritten (countFrame s)))
      else countFrame s) := by
  have d1 : Delta 1 0 s (countFrame s) := Delta_countFrame s hn
  split
  · have d2 := Delta_trans d1 (Delta_UpdateFramesWritten _ d1.1)
    have p2 : Pres s (UpdateFramesWritten (countFrame s)) := Pres_of_delta (by omega) d2
    exact Pres_andThen _ (Pres_HandleKeyframe X _) (Pres_andThen _ Pres_markKeyframeSeen p2)
  · exact Pres_of_delta (by omega) d1

theorem Pres_ProcessTSPacket (X : Collab R P) (p : TSPacket) (el : Int)
    (s : DTVRecorder R P) (hn : s.m_nextRingBuffer = none) :
    Pres s (ProcessTSPacket X p el s) := by
  have h0 : Pres s (countAndCheck p s) := Pres_of_core hn (countAndCheck_core p s)
  have hw : ∀ u : DTVRecorder R P, Pres s u → Pres s (BufferedWrite X p false u) :=
    fun u hu => Pres_trans hu (Pres_of_core (Pres_next hu) (BufferedWrite_core X p false u))
  unfold ProcessTSPacket
  dsimp only
  generalize countAndCheck p s = t at h0
  split
  · apply hw
    have h1 : Pres s (FindOtherKeyframes X t) :=
      Pres_trans h0 (Pres_FindOtherKeyframes X t (Pres_next h0))
    exact Pres_trans h1 (Pres_stopBuffering _ (Pres_next h1))
  · split
    · apply hw
      exact Pres_trans h0 (Pres_mpts_branch X el t (Pres_next h0))
    · split
      · exact h0
      · split
        · exact h0
        · exact hw t h0

theorem PS_classify_core (buffer : List Nat) (bufptr : Nat) (l : ScanLocals)
    (s : DTVRecorder R P) :
    coreOf (FindPSKeyFrames.classify buffer bufptr l s).1 = coreOf s := by
  unfold FindPSKeyFrames.classify
  dsimp only
  split
  · split
    · split
      · split
        · split <;> rfl
        · rfl
      · split
        · rfl
        · split <;> rfl
    · split
      · split
        · rfl
        · split <;> rfl
      · rfl
  · split
    · split
      · split
        · split <;> rfl
        · rfl
      · split
        · rfl
        · split <;> rfl
    · split
      · split
        · rfl
        · split <;> rfl
      · rfl

theorem PS_writeOut_core (X : Collab R P) (buffer : List Nat) (a b : Nat)
    (s : DTVRecorder R P) :
    coreOf (FindPSKeyFrames.writeOut X buffer a b s) = coreOf s := by
  unfold FindPSKeyFrames.writeOut
  dsimp only
  rw [writeIgnoringResult_core, flushPayloadBuffer_core]

theorem Pres_PS_account (X : Collab R P) (a b : Nat) (l : ScanLocals) (s : DTVRecorder R P)
    (hn : s.m_nextRingBuffer = none) : Pres s (FindPSKeyFrames.account X a b l s) := by
  unfold FindPSKeyFrames.account
  dsimp only
  apply Pres_andThen_core (reportChanges l) (reportChanges_core l)
  have h2 : Pres s (if l.hasFrame = true then
      if (!(countFrame s).m_wait_for_keyframe_option ||
          decide ((countFrame s).m_first_keyframe ≥ 0)) = true then
        UpdateFramesWritten (countFrame s) else countFrame s
    else s) := by
    split
    · exact Pres_count_then_write _ s hn id Delta_id id Delta_id
    · exact Pres_refl s hn
  split
  · exact Pres_andThen _ (Pres_HandleKeyframe X _) (Pres_andThen _ Pres_markKeyframeSeen h2)
  · exact h2

theorem Pres_PS_onStartCode (X : Collab R P) (buffer : List Nat) (v : PSVars) (bufptr : Nat)
    (s : DTVRecorder R P) (hn : s.m_nextRingBuffer = none) :
    Pres s (FindPSKeyFrames.onStartCode X buffer v bufptr s).1 := by
  unfold FindPSKeyFrames.onStartCode
  dsimp only
  have h1 : Pres s (FindPSKeyFrames.classify buffer bufptr
      { v.l with hasFrame := false, hasKeyFrame := false } s).1 :=
    Pres_of_core hn (PS_classify_core _ _ _ _)
  have h2 := Pres_andThen _ (Pres_PS_account X v.bufstart bufptr
    (FindPSKeyFrames.classify buffer bufptr
      { v.l with hasFrame := false, hasKeyFrame := false } s).2) h1
  split
  · exact Pres_trans h2 (Pres_of_core (Pres_next h2) (PS_writeOut_core X _ _ _ _))
  · exact h2

theorem Pres_PS_loop (X : Collab R P) (buffer : List Nat) (fuel : Nat) :
    ∀ (v : PSVars) (s : DTVRecorder R P), s.m_nextRingBuffer = none →
      Pres s (FindPSKeyFrames.loop X buffer fuel v s).1 := by
  induction fuel with
  | zero => intro v s hn; exact Pres_refl s hn
  | succ n ih =>
    intro v s hn
    unfold FindPSKeyFrames.loop
    dsimp only
    generalize avpriv_find_start_code buffer (v.bufptr + v.skip) buffer.length s.m_start_code = f
    have h0 : Pres s (FindPSKeyFrames.consume v.bufptr f.1 f.2 s) := Pres_of_core hn rfl
    split
    · split
      · exact Pres_trans h0 (ih _ _ (Pres_next h0))
      · have h1 := Pres_trans h0 (Pres_PS_onStartCode X buffer v f.1 _ (Pres_next h0))
        exact Pres_trans h1 (ih _ _ (Pres_next h1))
    · exact Pres_refl s hn

theorem Pres_FindPSKeyFrames (X : Collab R P) (buffer : List Nat) (s : DTVRecorder R P)
    (hn : s.m_nextRingBuffer = none) : Pres s (FindPSKeyFrames X buffer s) := by
  unfold FindPSKeyFrames
  dsimp only
  have h := Pres_PS_loop X buffer buffer.length
    { bufstart := 0, bufptr := 0
      skip := max s.m_audio_bytes_remaining s.m_other_bytes_remaining
      l := ScanLocals.init } s hn
  refine Pres_trans h (Pres_of_core (Pres_next h) ?_)
  split <;> rfl

theorem Pres_packetOp (X : Collab R P) (op : Op) (s t : DTVRecorder R P)
    (hp : op.isPacketOp = true) (hn : s.m_nextRingBuffer = none)
    (h : op.apply X s = some t) : Pres s t := by
  cases op with
  | tsPacket p el =>
    simp only [Op.apply, Option.some.injEq] at h
    rw [← h]; exact Pres_ProcessTSPacket X p el s hn
  | videoPacket p => exact Pres_ProcessVideoTSPacket X p s t hn h
  | audioPacket p e =>
    simp only [Op.apply, Option.some.injEq] at h
    rw [← h]; exact Pres_ProcessAudioTSPacket X p e s hn
  | psData b =>
    simp only [Op.apply, Option.some.injEq] at h
    rw [← h]; exact Pres_FindPSKeyFrames X b s hn
  | resetForNewFile => simp [Op.isPacketOp] at hp
  | clearStatistics => simp [Op.isPacketOp] at hp

theorem Pres_written_le_seen {s t : DTVRecorder R P} (h : Pres s t)
    (hs : s.m_frames_written_count ≤ s.m_frames_seen_count) :
    t.m_frames_written_count ≤ t.m_frames_seen_count := by
  obtain ⟨a, b, hab, _, h2, h3, _⟩ := h
  omega

theorem written_le_seen_step (X : Collab R P) (op : Op) (s t : DTVRecorder R P)
    (hn : s.m_nextRingBuffer = none)
    (hs : s.m_frames_written_count ≤ s.m_frames_seen_count)
    (h : op.apply X s = some t) :
    t.m_nextRingBuffer = none ∧ t.m_frames_written_count ≤ t.m_frames_seen_count := by
  cases hp : op.isPacketOp with
  | true =>
    have := Pres_packetOp X op s t hp hn h
    exact ⟨(Pres_next this), Pres_written_le_seen this hs⟩
  | false =>
    cases op with
    | resetForNewFile =>
      simp only [Op.apply, Option.some.injEq] at h
      rw [← h]; exact ⟨hn, Nat.le_refl _⟩
    | clearStatistics =>
      simp only [Op.apply, Option.some.injEq] at h
      rw [← h]; exact ⟨hn, Nat.le_refl _⟩
    | tsPacket p el => simp [Op.isPacketOp] at hp
    | videoPacket p => simp [Op.isPacketOp] at hp
    | audioPacket p e => simp [Op.isPacketOp] at hp
    | psData b => simp [Op.isPacketOp] at hp

theorem written_le_seen_run (X : Collab R P) (ops : List Op) :
    ∀ (s t : DTVRecorder R P), s.m_nextRingBuffer = none →
      s.m_frames_written_count ≤ s.m_frames_seen_count → run X ops s = some t →
      t.m_nextRingBuffer = none ∧ t.m_frames_written_count ≤ t.m_frames_seen_count := by
  induction ops with
  | nil =>
    intro s t hn hs h
    simp only [run, Option.some.injEq] at h
    rw [← h]; exact ⟨hn, hs⟩
  | cons op ops ih =>
    intro s t hn hs h
    simp only [run] at h
    cases h1 : op.apply X s with
    | none => simp [h1] at h
    | some u =>
      simp only [h1, Option.some_bind] at h
      obtain ⟨hn1, hs1⟩ := written_le_seen_step X op s u hn hs h1
      exact ih u t hn1 hs1 h

/-- C1. For every sequence of the operations `ProcessTSPacket`, `ProcessVideoTSPacket`,
`ProcessAudioTSPacket`, `FindPSKeyFrames`, `ResetForNewFile` and `ClearStatistics` applied
to a fresh recorder (both frame counters 0 as the reset of the constructor leaves them, no
ring-buffer switch pending, every other member arbitrary), the recorder reached has
`m_frames_written_count ≤ m_frames_seen_count`; as the sequence is arbitrary, this holds
after every operation of it. -/
theorem frames_written_le_frames_seen (X : Collab R P) (s0 : DTVRecorder R P) (ops : List Op)
    (s : DTVRecorder R P) (hseen : s0.m_frames_seen_count = 0)
    (hwritten : s0.m_frames_written_count = 0) (hn : s0.m_nextRingBuffer = none)
    (h : run X ops s0 = some s) :
    s.m_frames_written_count ≤ s.m_frames_seen_count :=
  (written_le_seen_run X ops s0 s hn (by omega) h).2

/-- C1, at a concrete recorder and two video packets. -/
theorem frames_written_le_frames_seen_witness :
    ∃ s, run testCollab [Op.videoPacket pesStartPacket, Op.videoPacket gopPicturePacket]
        mpeg2Rec = some s ∧ s.m_frames_written_count ≤ s.m_frames_seen_count :=
  have h : (run testCollab [Op.videoPacket pesStartPacket, Op.videoPacket gopPicturePacket]
      mpeg2Rec).isSome = true := by decide
  ⟨Option.get _ h, (Option.some_get h).symm,
    frames_written_le_frames_seen testCollab mpeg2Rec _ _ rfl rfl rfl (Option.some_get h).symm⟩

theorem keysOK_run (X : Collab R P) (ops : List Op) :
    ∀ (s t : DTVRecorder R P), s.m_nextRingBuffer = none → KeysOK s →
      (∀ o ∈ ops, o.isPacketOp = true) → run X ops s = some t →
      t.m_nextRingBuffer = none ∧ KeysOK t := by
  induction ops with
  | nil =>
    intro s t hn hs _ h
    simp only [run, Option.some.injEq] at h
    rw [← h]; exact ⟨hn, hs⟩
  | cons op ops ih =>
    intro s t hn hs hp h
    simp only [run] at h
    cases h1 : op.apply X s with
    | none => simp [h1] at h
    | some u =>
      simp only [h1, Option.some_bind] at h
      have hpres := Pres_packetOp X op s u (hp op (List.mem_cons_self _ _)) hn h1
      obtain ⟨a, b, _, d⟩ := hpres
      exact ih u t d.1 (d.2.2.2 hs).1 (fun o ho => hp o (List.mem_cons_of_mem _ ho)) h

/-- C3. Starting from a recorder with an empty position map and no ring-buffer switch
pending (the state after a reset), after any sequence of packet-processing operations a
further packet-processing operation only appends entries at the end of the key-ordered
position map, and the keys of the map stay strictly increasing: every key inserted is
greater than every key already in the map. -/
theorem position_map_keys_strictly_increase (X : Collab R P) (s0 : DTVRecorder R P)
    (ops : List Op) (op : Op) (s t : DTVRecorder R P)
    (hmap : s0.m_positionMap = []) (hn : s0.m_nextRingBuffer = none)
    (hops : ∀ o ∈ ops, o.isPacketOp = true) (hop : op.isPacketOp = true)
    (hrun : run X ops s0 = some s) (hstep : op.apply X s = some t) :
    ∃ new, t.m_positionMap = s.m_positionMap ++ new ∧
      (t.m_positionMap.map Prod.fst).Pairwise (fun a b => a < b) := by
  have h0 : KeysOK s0 := by
    unfold KeysOK
    rw [hmap]
    exact ⟨fun e he => absurd he (List.not_mem_nil e), List.Pairwise.nil⟩
  obtain ⟨hn1, hk1⟩ := keysOK_run X ops s0 s hn h0 hops hrun
  obtain ⟨a, b, _, d⟩ := Pres_packetOp X op s t hop hn1 hstep
  obtain ⟨hk2, new, he, _⟩ := d.2.2.2 hk1
  exact ⟨new, he, hk2.2⟩

theorem eq_some_getD {α : Type} (o : Option α) (d : α) (h : o.isSome = true) :
    o = some (o.getD d) := by
  cases o with
  | none => cases h
  | some a => rfl

/-- C3, at a concrete recorder: after the first packet of a PES packet, the packet with
the GOP start code appends the entry for frame 0. -/
theorem position_map_keys_strictly_increase_witness :
    ∃ new, (((Op.videoPacket gopPicturePacket).apply testCollab
        ((run testCollab [Op.videoPacket pesStartPacket] mpeg2Rec).getD mpeg2Rec)).getD
          mpeg2Rec).m_positionMap =
      ((run testCollab [Op.videoPacket pesStartPacket] mpeg2Rec).getD mpeg2Rec).m_positionMap
        ++ new ∧
      ((((Op.videoPacket gopPicturePacket).apply testCollab
        ((run testCollab [Op.videoPacket pesStartPacket] mpeg2Rec).getD mpeg2Rec)).getD
          mpeg2Rec).m_positionMap.map Prod.fst).Pairwise (fun a b => a < b) :=
  position_map_keys_strictly_increase testCollab mpeg2Rec [Op.videoPacket pesStartPacket]
    (Op.videoPacket gopPicturePacket) _ _ rfl rfl (by decide) rfl
    (eq_some_getD _ mpeg2Rec (by decide)) (eq_some_getD _ mpeg2Rec (by decide))

/-! ### The fallbacks of the detectors (C7, C8) -/

/-- C7, as amended. When the loop of `FindH264Keyframes` is left for a packet with a frame
started that the parser does not report as a key frame, and more than 511 frames were
seen since the last keyframe handled, true or forced (the unsigned 64-bit difference
`m_frames_seen_count - m_last_keyframe_seen` exceeds 511), then `hasKeyFrame` becomes
true; and when buffering or after the first keyframe, `m_last_keyframe_seen` is set to
`m_frames_seen_count` and `HandleH264Keyframe` runs before the frame is counted. -/
theorem FindH264Keyframes_forced_keyframe (X : Collab R P) (p : TSPacket)
    (s0 s : DTVRecorder R P) (rb : R) (l : ScanLocals)
    (hpay : p.HasPayload = true) (hrb : s0.m_ringBuffer = some rb)
    (hscan : FindH264Keyframes.scan X p rb s0 = some (s, l))
    (hf : l.hasFrame = true) (hk : l.hasKeyFrame = false)
    (hd : 511 < subU64 s.m_frames_seen_count s.m_last_keyframe_seen) :
    FindH264Keyframes.hasKeyFrame l s = true ∧
    ((s.m_buffer_packets = true ∨ 0 ≤ s.m_first_keyframe) →
      FindH264Keyframes X p s0 =
        some (reportChanges l (onFrame (HandleH264Keyframe X (markKeyframeSeen s))))) ∧
    (markKeyframeSeen s).m_last_keyframe_seen = s.m_frames_seen_count := by
  have h1 : FindH264Keyframes.hasKeyFrame l s = true := by
    unfold FindH264Keyframes.hasKeyFrame
    simp [hf, hk, hd]
  refine ⟨h1, ?_, rfl⟩
  intro hb
  unfold FindH264Keyframes
  simp only [hpay, hrb, hscan, Bool.not_true, Bool.false_eq_true, if_false, Option.map_some']
  unfold FindH264Keyframes.finish
  have hc : (FindH264Keyframes.hasKeyFrame l s &&
      (s.m_buffer_packets || decide (s.m_first_keyframe ≥ 0))) = true := by
    rw [h1]
    rcases hb with hb | hb
    · simp [hb]
    · simp [hb]
  simp only [hc, hf, if_true]

/-- C7 as amended, at a concrete packet and a recorder that has seen 600 frames since the
last keyframe handled. -/
theorem FindH264Keyframes_forced_keyframe_witness :
    FindH264Keyframes.hasKeyFrame
      ((FindH264Keyframes.scan testCollab h264Packet { pos := 0, fails := false }
        h264Late).getD (h264Late, ScanLocals.init)).2
      ((FindH264Keyframes.scan testCollab h264Packet { pos := 0, fails := false }
        h264Late).getD (h264Late, ScanLocals.init)).1 = true :=
  (FindH264Keyframes_forced_keyframe testCollab h264Packet h264Late _ { pos := 0, fails := false }
    _ rfl rfl (eq_some_getD _ (h264Late, ScanLocals.init) (by decide))
    (by decide) (by decide) (by decide)).1

theorem countAndCheck_ring (p : TSPacket) (s : DTVRecorder R P) :
    (countAndCheck p s).m_ringBuffer = s.m_ringBuffer ∧
    (countAndCheck p s).m_payload_buffer = s.m_payload_buffer := by
  unfold countAndCheck CheckCC
  dsimp only
  split <;> [skip; exact ⟨rfl, rfl⟩]
  split <;> exact ⟨rfl, rfl⟩

theorem HandleKeyframe_store (X : Collab R P) (e : Int) (s : DTVRecorder R P) (rb : R)
    (hn : s.m_nextRingBuffer = none) (hrb : s.m_ringBuffer = some rb)
    (hc : s.m_positionMap.contains s.m_frames_written_count = false)
    (hpos : 0 ≤ X.GetWritePosition rb + e) :
    HandleKeyframe X e s =
      storeKeyframe s.m_frames_written_count (X.GetWritePosition rb + e)
        (noteFirstKeyframe s) := by
  unfold HandleKeyframe
  have hm : (noteFirstKeyframe s).m_positionMap = s.m_positionMap :=
    congrArg Prod.fst (noteFirstKeyframe_maps s)
  have hr : (noteFirstKeyframe s).m_ringBuffer = some rb := by
    unfold noteFirstKeyframe
    split <;> simpa using hrb
  simp only [hrb, CheckForRingBufferSwitch_none s hn, hm, hc, hr, Bool.not_false, if_true,
    ge_iff_le, hpos]

theorem FindOtherKeyframes_first (X : Collab R P) (s : DTVRecorder R P) (rb : R)
    (hrb : s.m_ringBuffer = some rb) (hvid : 0x1fff < s.VideoPIDSingleProgram)
    (hn : s.m_nextRingBuffer = none) (hmap : s.m_positionMap = [])
    (hw : s.m_frames_written_count = 0) (hk : s.m_has_written_other_keyframe = false)
    (hpos : 0 ≤ X.GetWritePosition rb + (s.m_payload_buffer.length : Int)) :
    (FindOtherKeyframes X s).m_positionMap =
      [(1, X.GetWritePosition rb + (s.m_payload_buffer.length : Int))] ∧
    (FindOtherKeyframes X s).m_has_written_other_keyframe = true ∧
    (FindOtherKeyframes X s).m_has_no_av = s.m_has_no_av ∧
    (FindOtherKeyframes X s).m_input_pmt = s.m_input_pmt := by
  unfold FindOtherKeyframes
  have h1 : (s.m_ringBuffer.isNone || decide (s.VideoPIDSingleProgram ≤ 0x1fff)) = false := by
    simp [hrb]; omega
  rw [h1, hk]
  simp only [Bool.false_eq_true, if_false]
  obtain ⟨a, b, c, d, hu⟩ := UpdateFramesWritten_shape (countFrame s)
  rw [hu]
  rw [HandleKeyframe_store X _ _ rb (by exact hn) (by exact hrb)
    (by simp [markKeyframeSeen, countFrame, hmap, PosMap.contains])
    (by simpa [markKeyframeSeen, countFrame] using hpos)]
  unfold noteFirstKeyframe
  split <;> simp [storeKeyframe, markKeyframeSeen, countFrame, hmap, hw, PosMap.insert]

theorem ProcessTSPacket_noAV_first (X : Collab R P) (p : TSPacket) (el : Int)
    (s : DTVRecorder R P) (rb : R)
    (hpmt : s.m_input_pmt.isSome = true) (hav : s.m_has_no_av = true)
    (hrb : s.m_ringBuffer = some rb) (hvid : 0x1fff < s.VideoPIDSingleProgram)
    (hn : s.m_nextRingBuffer = none) (hmap : s.m_positionMap = [])
    (hw : s.m_frames_written_count = 0) (hk : s.m_has_written_other_keyframe = false)
    (hpos : 0 ≤ X.GetWritePosition rb + (s.m_payload_buffer.length : Int)) :
    (ProcessTSPacket X p el s).m_positionMap =
      [(1, X.GetWritePosition rb + (s.m_payload_buffer.length : Int))] ∧
    (ProcessTSPacket X p el s).m_has_written_other_keyframe = true ∧
    (ProcessTSPacket X p el s).m_has_no_av = true ∧
    (ProcessTSPacket X p el s).m_input_pmt.isSome = true := by
  have hc := countAndCheck_core p s
  obtain ⟨hr1, hp1⟩ := countAndCheck_ring p s
  have c1 : (countAndCheck p s).m_input_pmt = s.m_input_pmt := congrArg Core.input_pmt hc
  have c2 : (countAndCheck p s).m_has_no_av = s.m_has_no_av := congrArg Core.has_no_av hc
  have c3 : (countAndCheck p s).VideoPIDSingleProgram = s.VideoPIDSingleProgram :=
    congrArg Core.videoPID hc
  have c4 : (countAndCheck p s).m_nextRingBuffer = s.m_nextRingBuffer := congrArg Core.next hc
  have c5 : (countAndCheck p s).m_positionMap = s.m_positionMap :=
    congrArg (fun c => c.maps.1) hc
  have c6 : (countAndCheck p s).m_frames_written_count = s.m_frames_written_count :=
    congrArg Core.written hc
  have c7 : (countAndCheck p s).m_has_written_other_keyframe = s.m_has_written_other_keyframe :=
    congrArg Core.has_written_other_keyframe hc
  obtain ⟨f1, f2, f3, f4⟩ := FindOtherKeyframes_first X (countAndCheck p s) rb
    (hr1.trans hrb) (by rw [c3]; exact hvid) (c4.trans hn) (c5.trans hmap) (c6.trans hw)
    (c7.trans hk) (by rw [hp1]; exact hpos)
  unfold ProcessTSPacket
  dsimp only
  rw [c1, c2, hpmt, hav]
  simp only [Bool.and_self, if_true]
  have hb : coreOf (BufferedWrite X p false
      (stopBuffering (FindOtherKeyframes X (countAndCheck p s)))) =
      coreOf (FindOtherKeyframes X (countAndCheck p s)) :=
    BufferedWrite_core X p false _
  have b1 : (BufferedWrite X p false
      (stopBuffering (FindOtherKeyframes X (countAndCheck p s)))).m_positionMap =
      (FindOtherKeyframes X (countAndCheck p s)).m_positionMap :=
    congrArg (fun c => c.maps.1) hb
  have b2 : (BufferedWrite X p false
      (stopBuffering (FindOtherKeyframes X (countAndCheck p s)))).m_has_written_other_keyframe =
      (FindOtherKeyframes X (countAndCheck p s)).m_has_written_other_keyframe :=
    congrArg Core.has_written_other_keyframe hb
  have b3 : (BufferedWrite X p false
      (stopBuffering (FindOtherKeyframes X (countAndCheck p s)))).m_has_no_av =
      (FindOtherKeyframes X (countAndCheck p s)).m_has_no_av :=
    congrArg Core.has_no_av hb
  have b4 : (BufferedWrite X p false
      (stopBuffering (FindOtherKeyframes X (countAndCheck p s)))).m_input_pmt =
      (FindOtherKeyframes X (countAndCheck p s)).m_input_pmt :=
    congrArg Core.input_pmt hb
  refine ⟨?_, ?_, ?_, ?_⟩
  · rw [b1, f1, hp1]
  · rw [b2]; exact f2
  · rw [b3]; exact f3.trans (c2.trans hav)
  · rw [b4, f4, c1]; exact hpmt

theorem ProcessTSPacket_noAV_later (X : Collab R P) (p : TSPacket) (el : Int)
    (s : DTVRecorder R P)
    (hpmt : s.m_input_pmt.isSome = true) (hav : s.m_has_no_av = true)
    (hk : s.m_has_written_other_keyframe = true) :
    coreOf (ProcessTSPacket X p el s) = coreOf s := by
  have hc := countAndCheck_core p s
  have c1 : (countAndCheck p s).m_input_pmt = s.m_input_pmt := congrArg Core.input_pmt hc
  have c2 : (countAndCheck p s).m_has_no_av = s.m_has_no_av := congrArg Core.has_no_av hc
  have c7 : (countAndCheck p s).m_has_written_other_keyframe = s.m_has_written_other_keyframe :=
    congrArg Core.has_written_other_keyframe hc
  have hf : FindOtherKeyframes X (countAndCheck p s) = countAndCheck p s := by
    unfold FindOtherKeyframes
    split
    · rfl
    · rw [c7, hk]; rfl
  unfold ProcessTSPacket
  dsimp only
  rw [c1, c2, hpmt, hav]
  simp only [Bool.and_self, if_true]
  rw [BufferedWrite_core, hf]
  exact Eq.trans (rfl : coreOf (stopBuffering (countAndCheck p s)) =
    coreOf (countAndCheck p s)) hc

theorem feedTS_noAV_later (X : Collab R P) (ps : List (TSPacket × Int)) :
    ∀ s : DTVRecorder R P, s.m_input_pmt.isSome = true → s.m_has_no_av = true →
      s.m_has_written_other_keyframe = true →
      (feedTS X ps s).m_positionMap = s.m_positionMap := by
  induction ps with
  | nil => intro s _ _ _; rfl
  | cons pe ps ih =>
    intro s h1 h2 h3
    have hc := ProcessTSPacket_noAV_later X pe.1 pe.2 s h1 h2 h3
    simp only [feedTS]
    rw [ih _ ((congrArg (fun c => c.input_pmt.isSome) hc).trans h1)
      ((congrArg Core.has_no_av hc).trans h2)
      ((congrArg Core.has_written_other_keyframe hc).trans h3)]
    exact congrArg (fun c => c.maps.1) hc

/-- C8, as amended. For a freshly reset recorder with a program map table cached,
`m_has_no_av` set, a ring buffer attached (write position plus buffered bytes not
negative), no single-program video PID and no ring-buffer switch pending, feeding any
number `n ≥ 1` of packets to `ProcessTSPacket` leaves the position map with exactly one
entry, and its key is frame 1: `FindOtherKeyframes` counts the frame as written before it
stores the keyframe. -/
theorem no_av_stream_single_keyframe (X : Collab R P) (c : DTVRecorder R P) (rb : R)
    (ps : List (TSPacket × Int)) (hne : ps ≠ [])
    (hpmt : c.m_input_pmt.isSome = true) (hav : c.m_has_no_av = true)
    (hrb : c.m_ringBuffer = some rb) (hvid : 0x1fff < c.VideoPIDSingleProgram)
    (hn : c.m_nextRingBuffer = none)
    (hpos : 0 ≤ X.GetWritePosition rb + (c.m_payload_buffer.length : Int)) :
    (feedTS X ps (ResetForNewFile c)).m_positionMap =
      [(1, X.GetWritePosition rb + (c.m_payload_buffer.length : Int))] := by
  cases ps with
  | nil => exact absurd rfl hne
  | cons pe ps =>
    obtain ⟨f1, f2, f3, f4⟩ := ProcessTSPacket_noAV_first X pe.1 pe.2 (ResetForNewFile c) rb
      hpmt hav hrb hvid hn rfl rfl rfl hpos
    simp only [feedTS]
    rw [feedTS_noAV_later X ps _ f4 f3 f2]
    exact f1

/-- C8 as amended, at three concrete packets. -/
theorem no_av_stream_single_keyframe_witness :
    (feedTS testCollab [(pesStartPacket, 0), (gopPicturePacket, 0), (picturePacket, 0)]
      noAVRec).m_positionMap = [(1, 0)] :=
  no_av_stream_single_keyframe testCollab _ { pos := 0, fails := false }
    [(pesStartPacket, 0), (gopPicturePacket, 0), (picturePacket, 0)] (by simp)
    rfl rfl rfl (by decide) rfl (by decide)

/-- C8 as stated fails: after one packet, and after three, the only key of the position
map is frame 1, not frame 0. -/
theorem no_av_stream_keyframe_is_frame_one_counterexample :
    (feedTS testCollab [(pesStartPacket, 0)] noAVRec).m_positionMap.keys = [1] ∧
    (feedTS testCollab [(pesStartPacket, 0), (gopPicturePacket, 0), (picturePacket, 0)]
      noAVRec).m_positionMap.keys = [1] := by
  decide

theorem onFrame_summary (s : DTVRecorder R P) :
    h264Summary (onFrame s) =
      (s.m_frames_seen_count + 1, s.m_last_keyframe_seen, decide (0 ≤ s.m_first_keyframe),
        false) ∧
    (onFrame s).m_nextRingBuffer = s.m_nextRingBuffer := by
  unfold onFrame
  dsimp only
  split
  · obtain ⟨a, b, c, d, hu⟩ := UpdateFramesWritten_shape (countFrame (stopBuffering s))
    rw [hu]
    exact ⟨rfl, rfl⟩
  · exact ⟨rfl, rfl⟩

theorem noteFirstKeyframe_summary (s : DTVRecorder R P) :
    h264Summary (noteFirstKeyframe s) =
      (s.m_frames_seen_count, s.m_last_keyframe_seen, true, s.m_buffer_packets) ∧
    (noteFirstKeyframe s).m_nextRingBuffer = s.m_nextRingBuffer := by
  unfold noteFirstKeyframe
  split
  · refine ⟨?_, rfl⟩
    simp [h264Summary]
  · rename_i h
    refine ⟨?_, rfl⟩
    have : 0 ≤ s.m_first_keyframe := by omega
    simp [h264Summary, this]

theorem HandleH264Keyframe_summary (X : Collab R P) (s : DTVRecorder R P)
    (hn : s.m_nextRingBuffer = none) :
    h264Summary (HandleH264Keyframe X s) =
      (s.m_frames_seen_count, s.m_last_keyframe_seen, true, s.m_buffer_packets) ∧
    (HandleH264Keyframe X s).m_nextRingBuffer = none := by
  obtain ⟨n1, n2⟩ := noteFirstKeyframe_summary s
  rcases HandleH264Keyframe_shape X s hn with h | ⟨_, v, h⟩
  · rw [h]; exact ⟨n1, n2.trans hn⟩
  · rw [h]; exact ⟨n1, n2.trans hn⟩

theorem H264_finish_summary (X : Collab R P) (key : Bool) (s : DTVRecorder R P)
    (hn : s.m_nextRingBuffer = none) :
    FindH264Keyframes.hasKeyFrame (frameLocals key) s = summaryKey key (h264Summary s) ∧
    h264Summary (FindH264Keyframes.finish X (frameLocals key) s) =
      summaryStep key (h264Summary s) ∧
    (FindH264Keyframes.finish X (frameLocals key) s).m_nextRingBuffer = none := by
  have hk : FindH264Keyframes.hasKeyFrame (frameLocals key) s =
      summaryKey key (h264Summary s) := by
    unfold FindH264Keyframes.hasKeyFrame summaryKey h264Summary frameLocals
    cases key <;> simp
  refine ⟨hk, ?_⟩
  unfold FindH264Keyframes.finish
  dsimp only
  rw [hk]
  have hrc : ∀ t : DTVRecorder R P, h264Summary (reportChanges (frameLocals key) t) =
      h264Summary t ∧ (reportChanges (frameLocals key) t).m_nextRingBuffer =
        t.m_nextRingBuffer := by
    intro t
    have hc := reportChanges_core (frameLocals key) t
    have e1 := congrArg Core.seen hc
    have e2 := congrArg Core.last_keyframe_seen hc
    have e3 := congrArg Core.first_keyframe hc
    have e4 := congrArg Core.next hc
    simp only [coreOf] at e1 e2 e3 e4
    have e5 : (reportChanges (frameLocals key) t).m_buffer_packets = t.m_buffer_packets := by
      unfold reportChanges
      dsimp only
      split <;> split <;> split <;> rfl
    exact ⟨by simp only [h264Summary, e1, e2, e3, e5], e4⟩
  have hfl : (frameLocals key).hasFrame = true := rfl
  rw [hfl, if_pos rfl]
  cases hh : (summaryKey key (h264Summary s) &&
      (s.m_buffer_packets || decide (s.m_first_keyframe ≥ 0))) with
  | true =>
    rw [if_pos rfl]
    obtain ⟨a1, a2⟩ := HandleH264Keyframe_summary X (markKeyframeSeen s) hn
    obtain ⟨b1, b2⟩ := onFrame_summary (HandleH264Keyframe X (markKeyframeSeen s))
    obtain ⟨c1, c2⟩ := hrc (onFrame (HandleH264Keyframe X (markKeyframeSeen s)))
    refine ⟨?_, by rw [c2, b2, a2]⟩
    rw [c1, b1]
    simp only [h264Summary, Prod.mk.injEq] at a1
    obtain ⟨x1, x2, x3, x4⟩ := a1
    have hh' : (summaryKey key (h264Summary s) &&
        ((h264Summary s).2.2.2 || (h264Summary s).2.2.1)) = true := by
      simpa [h264Summary] using hh
    simp only [decide_eq_true_eq] at x3
    have m1 : (markKeyframeSeen s).m_frames_seen_count = s.m_frames_seen_count := rfl
    have m2 : (markKeyframeSeen s).m_last_keyframe_seen = s.m_frames_seen_count := rfl
    rw [x1, x2, m1, m2, decide_eq_true x3]
    simp only [summaryStep, hh', if_true, Bool.or_true]
    rfl
  | false =>
    rw [if_neg (by simp)]
    obtain ⟨b1, b2⟩ := onFrame_summary s
    obtain ⟨c1, c2⟩ := hrc (onFrame s)
    refine ⟨?_, by rw [c2, b2, hn]⟩
    rw [c1, b1]
    have hh' : (summaryKey key (h264Summary s) &&
        ((h264Summary s).2.2.2 || (h264Summary s).2.2.1)) = false := by
      simpa [h264Summary] using hh
    simp only [summaryStep, hh', Bool.false_eq_true, if_false, Bool.or_false]
    rfl

theorem h264Fallbacks_summary (X : Collab R P) (ks : List Bool) :
    ∀ s : DTVRecorder R P, s.m_nextRingBuffer = none →
      h264Fallbacks X (ks.map frameLocals) s = summaryFallbacks ks (h264Summary s) := by
  induction ks with
  | nil => intro s _; rfl
  | cons k ks ih =>
    intro s hn
    obtain ⟨h1, h2, h3⟩ := H264_finish_summary X k s hn
    simp only [List.map_cons, h264Fallbacks, summaryFallbacks]
    rw [h1, ih _ h3, h2]

theorem summaryFallbacks_scenario :
    summaryFallbacks (true :: List.replicate 513 false) (0, 0, false, true) =
      true :: (List.replicate 511 false ++ [true, false]) := by
  decide

/-- C7 as stated fails: the parser reports a key frame at frame 0 and then 513 frames that
are not key frames. Frame 512 is forced to be a keyframe; at frame 513 more than 511
frames have been seen since the last parser-reported key frame, yet it is not treated as
a keyframe, because the count restarted at the forced one. -/
theorem FindH264Keyframes_counts_from_forced_counterexample :
    h264Fallbacks testCollab (frameLocals true :: List.replicate 513 (frameLocals false))
        { fresh0 with m_buffer_packets := true } =
      true :: (List.replicate 511 false ++ [true, false]) := by
  have h := h264Fallbacks_summary testCollab (true :: List.replicate 513 false)
    { fresh0 with m_buffer_packets := true } rfl
  rw [List.map_cons, List.map_replicate] at h
  rw [h]
  exact summaryFallbacks_scenario

/-! ### The buffered writer, continued (C11, C12, C13) -/

theorem writesOf_append (a b : List Event) : writesOf (a ++ b) = writesOf a ++ writesOf b := by
  simp [writesOf, List.filterMap_append]

theorem writePacket_writes (X : Collab R P) (p : TSPacket) (s : DTVRecorder R P) (rb : R)
    (hrb : s.m_ringBuffer = some rb) :
    (writePacket X p s).m_payload_buffer = s.m_payload_buffer ∧
    (writePacket X p s).m_buffer_packets = s.m_buffer_packets ∧
    writesOf (writePacket X p s).trace = writesOf s.trace ++ [p.data] ∧
    (writePacket X p s).m_ringBuffer = some (X.Write rb p.data).1 := by
  unfold writePacket
  simp only [hrb]
  split
  · simp [SetRecordingStatusFailing, writesOf_append, writesOf]
  · simp [writesOf_append, writesOf]

/-- C11. With a ring buffer attached, `m_buffer_packets` false and writing permitted
(the option to wait for a keyframe off, or a first keyframe found),
`BufferedWrite(packet, false)` leaves the payload buffer empty and hands the ring buffer
first the whole previous payload buffer (in one call, none when it was empty) and then
the 188 bytes of the packet: the bytes written are the old buffer followed by the
packet. -/
theorem BufferedWrite_flushes_buffer_before_packet (X : Collab R P) (tspacket : TSPacket)
    (s : DTVRecorder R P) (rb : R) (hrb : s.m_ringBuffer = some rb)
    (hb : s.m_buffer_packets = false)
    (hw : s.m_wait_for_keyframe_option = false ∨ 0 ≤ s.m_first_keyframe) :
    (BufferedWrite X tspacket false s).m_payload_buffer = [] ∧
    writesOf (BufferedWrite X tspacket false s).trace =
      writesOf s.trace ++
        (if s.m_payload_buffer = [] then [] else [s.m_payload_buffer]) ++ [tspacket.data] ∧
    (writesOf (BufferedWrite X tspacket false s).trace).flatten =
      (writesOf s.trace).flatten ++ (s.m_payload_buffer ++ tspacket.data) ∧
    tspacket.data.length = 188 ∧
    (BufferedWrite X tspacket false s).m_ringBuffer =
      some (X.Write (if s.m_payload_buffer = [] then rb
        else (X.Write rb s.m_payload_buffer).1) tspacket.data).1 := by
  have hgate : (!s.m_buffer_packets && s.m_wait_for_keyframe_option &&
      decide (s.m_first_keyframe < 0)) = false := by
    rcases hw with hw | hw
    · simp [hw]
    · simp [hb, hw]
  have hbw : BufferedWrite X tspacket false s = writePacket X tspacket (flushPayloadBuffer X s) := by
    unfold BufferedWrite
    rw [hgate]
    simp [hb]
  rw [hbw]
  by_cases he : s.m_payload_buffer = []
  · have hf : flushPayloadBuffer X s = s := by simp [flushPayloadBuffer, he]
    rw [hf]
    obtain ⟨h1, -, h3, h4⟩ := writePacket_writes X tspacket s rb hrb
    refine ⟨by rw [h1, he], by simp [h3, he], by simp [h3, he], tspacket.size_eq, by simp [h4, he]⟩
  · have hf : flushPayloadBuffer X s =
        { writeIgnoringResult X s.m_payload_buffer s with m_payload_buffer := [] } := by
      simp [flushPayloadBuffer, he]
    have hr : (flushPayloadBuffer X s).m_ringBuffer = some (X.Write rb s.m_payload_buffer).1 := by
      rw [hf]; simp [writeIgnoringResult, hrb]
    have ht : writesOf (flushPayloadBuffer X s).trace = writesOf s.trace ++ [s.m_payload_buffer] := by
      rw [hf]; simp [writeIgnoringResult, hrb, writesOf_append, writesOf]
    have hp : (flushPayloadBuffer X s).m_payload_buffer = [] := by rw [hf]
    obtain ⟨h1, -, h3, h4⟩ := writePacket_writes X tspacket (flushPayloadBuffer X s) _ hr
    refine ⟨by rw [h1, hp], by simp [h3, ht, he], by simp [h3, ht], tspacket.size_eq,
      by simp [h4, he]⟩

/-- C11, at a recorder whose payload buffer holds one packet of zero bytes. -/
theorem BufferedWrite_flushes_buffer_before_packet_witness :
    writesOf (BufferedWrite testCollab (mkPacket true [0, 0, 1, 0]) false
      { fresh0 with m_first_keyframe := 0, m_payload_buffer := List.replicate 188 0 }).trace =
      [List.replicate 188 0, (mkPacket true [0, 0, 1, 0]).data] := by
  have h := (BufferedWrite_flushes_buffer_before_packet testCollab (mkPacket true [0, 0, 1, 0])
    { fresh0 with m_first_keyframe := 0, m_payload_buffer := List.replicate 188 0 }
    { pos := 0, fails := false } rfl rfl (Or.inr (by decide))).2.1
  rw [h]
  decide

/-- C12. With a ring buffer attached, `BufferedWrite(packet, true)` hands the ring buffer
the 188 bytes of the packet and nothing else, and leaves the payload buffer,
`m_buffer_packets`, the option to wait for a keyframe and `m_first_keyframe` as they
were, whatever their values. -/
theorem BufferedWrite_insert_writes_at_once (X : Collab R P) (tspacket : TSPacket)
    (s : DTVRecorder R P) (rb : R) (hrb : s.m_ringBuffer = some rb) :
    (BufferedWrite X tspacket true s).m_payload_buffer = s.m_payload_buffer ∧
    (BufferedWrite X tspacket true s).m_buffer_packets = s.m_buffer_packets ∧
    writesOf (BufferedWrite X tspacket true s).trace = writesOf s.trace ++ [tspacket.data] ∧
    tspacket.data.length = 188 ∧
    (BufferedWrite X tspacket true s).m_ringBuffer = some (X.Write rb tspacket.data).1 := by
  have hbw : BufferedWrite X tspacket true s = writePacket X tspacket s := by
    simp [BufferedWrite]
  rw [hbw]
  obtain ⟨h1, h2, h3, h4⟩ := writePacket_writes X tspacket s rb hrb
  exact ⟨h1, h2, h3, tspacket.size_eq, h4⟩

/-- C12, at a recorder that waits for a keyframe, has found none, buffers packets and
holds one packet of zero bytes in its payload buffer. -/
theorem BufferedWrite_insert_writes_at_once_witness :
    writesOf (BufferedWrite testCollab (mkPacket true [0, 0, 1, 0]) true
      { fresh0 with m_buffer_packets := true, m_payload_buffer := List.replicate 188 0 }).trace =
      [(mkPacket true [0, 0, 1, 0]).data] ∧
    (BufferedWrite testCollab (mkPacket true [0, 0, 1, 0]) true
      { fresh0 with m_buffer_packets := true, m_payload_buffer := List.replicate 188 0 }
      ).m_payload_buffer = List.replicate 188 0 :=
  ⟨(BufferedWrite_insert_writes_at_once testCollab (mkPacket true [0, 0, 1, 0])
      { fresh0 with m_buffer_packets := true, m_payload_buffer := List.replicate 188 0 }
      { pos := 0, fails := false } rfl).2.2.1,
   (BufferedWrite_insert_writes_at_once testCollab (mkPacket true [0, 0, 1, 0])
      { fresh0 with m_buffer_packets := true, m_payload_buffer := List.replicate 188 0 }
      { pos := 0, fails := false } rfl).1⟩

/-- C13. A recording in progress, one packet waiting in the payload buffer, a ring buffer
whose next write fails and whose write after that succeeds: `BufferedWrite(packet,
false)` issues both writes, the first (the flush of the payload buffer) returns -1, and
the recording status is still `Recording` afterwards, not `Failing`. -/
theorem BufferedWrite_flush_failure_not_reported :
    flushFails.m_curRecording = some RecStatus.Recording ∧
    (flakyCollab.Write { pos := 0, failures := 1 } flushFails.m_payload_buffer).2 = -1 ∧
    writesOf (BufferedWrite flakyCollab (mkPacket true [0, 0, 1, 0]) false flushFails).trace =
      [List.replicate 188 0, (mkPacket true [0, 0, 1, 0]).data] ∧
    (BufferedWrite flakyCollab (mkPacket true [0, 0, 1, 0]) false flushFails).m_curRecording =
      some RecStatus.Recording := by
  decide

/-! ### Program map tables and the dispatch of packets (C15, C16, C19) -/

theorem ProcessTSPacket_eq_dispatch (X : Collab R P) (p : TSPacket) (e : Int)
    (s : DTVRecorder R P) :
    ProcessTSPacket X p e s = ProcessTSPacket.dispatch X p e (countAndCheck p s) := rfl

theorem has_no_av_all (streams : List PMTStream) (h : Bool) :
    HandlePMT.has_no_av streams h =
      (h && streams.all (fun st => !st.IsVideo && !st.IsAudio)) := by
  induction streams generalizing h with
  | nil => simp [HandlePMT.has_no_av]
  | cons st rest ih =>
    unfold HandlePMT.has_no_av
    cases h
    · simp
    · simp [ih, Bool.and_assoc]

/-- C16. `HandlePMT(progNum, pmt)` leaves the recorder as it is unless `progNum`, cast
to `int`, is the desired program; when it is, only the cached table and `m_has_no_av`
change: the table becomes `pmt`, and `m_has_no_av` is true exactly when every stream of
`pmt` is neither video nor audio (so for a table without streams). A program number
below `2 ^ 31` is its own cast. -/
theorem HandlePMT_sets_has_no_av (progNum : Nat) (pmt : ProgramMapTable)
    (s : DTVRecorder R P) :
    (toInt32 progNum ≠ s.DesiredProgram → HandlePMT progNum pmt s = s) ∧
    (toInt32 progNum = s.DesiredProgram →
      HandlePMT progNum pmt s =
        { s with m_input_pmt := some pmt
                 m_has_no_av := pmt.streams.all (fun st => !st.IsVideo && !st.IsAudio) } ∧
      ((HandlePMT progNum pmt s).m_has_no_av = true ↔
        ∀ st ∈ pmt.streams, st.IsVideo = false ∧ st.IsAudio = false) ∧
      (pmt.streams = [] → (HandlePMT progNum pmt s).m_has_no_av = true)) ∧
    (progNum < 2 ^ 31 → toInt32 progNum = (progNum : Int)) := by
  refine ⟨fun h => by simp [HandlePMT, h], fun h => ?_, fun h => ?_⟩
  · have e : HandlePMT progNum pmt s =
        { s with m_input_pmt := some pmt
                 m_has_no_av := pmt.streams.all (fun st => !st.IsVideo && !st.IsAudio) } := by
      simp [HandlePMT, h, has_no_av_all]
    refine ⟨e, ?_, ?_⟩
    · rw [e]; simp
    · intro hnil; rw [e]; simp [hnil]
  · unfold toInt32
    have h1 : progNum % 2 ^ 32 = progNum := Nat.mod_eq_of_lt (by omega)
    rw [h1, if_pos h]

/-- C19. In `ProcessTSPacket`, a packet whose PID has stream type 0 is neither written nor
buffered when no table without audio and video is cached and `m_record_mpts_only` is
off: the call only counts the packet and checks its continuity counter. When a table is
cached and `m_has_no_av` is set, the packet, whatever the stream type of its PID, goes
through `FindOtherKeyframes` to `BufferedWrite`. -/
theorem ProcessTSPacket_unclassified_not_forwarded (X : Collab R P) (tspacket : TSPacket)
    (elapsed : Int) (s : DTVRecorder R P) :
    ((s.m_input_pmt = none ∨ s.m_has_no_av = false) → s.m_record_mpts_only = false →
      s.m_stream_id tspacket.PID = 0 →
      ProcessTSPacket X tspacket elapsed s = countAndCheck tspacket s ∧
      (ProcessTSPacket X tspacket elapsed s).trace = s.trace ∧
      (ProcessTSPacket X tspacket elapsed s).m_payload_buffer = s.m_payload_buffer ∧
      (ProcessTSPacket X tspacket elapsed s).m_ringBuffer = s.m_ringBuffer) ∧
    (s.m_input_pmt.isSome = true → s.m_has_no_av = true →
      ProcessTSPacket X tspacket elapsed s =
        BufferedWrite X tspacket false
          (stopBuffering (FindOtherKeyframes X (countAndCheck tspacket s)))) := by
  have hcore := countAndCheck_core tspacket s
  have h1 : (countAndCheck tspacket s).m_input_pmt = s.m_input_pmt :=
    congrArg Core.input_pmt hcore
  have h2 : (countAndCheck tspacket s).m_has_no_av = s.m_has_no_av :=
    congrArg Core.has_no_av hcore
  have h3 : (countAndCheck tspacket s).m_record_mpts_only = s.m_record_mpts_only :=
    congrArg Core.record_mpts_only hcore
  have h4 : (countAndCheck tspacket s).m_stream_id = s.m_stream_id :=
    congrArg Core.stream_id hcore
  constructor
  · intro ha hm hs
    have e : ProcessTSPacket X tspacket elapsed s = countAndCheck tspacket s := by
      rw [ProcessTSPacket_eq_dispatch]
      unfold ProcessTSPacket.dispatch
      rw [h1, h2, h3, h4, hm, hs]
      rcases ha with ha | ha
      · simp [ha]
      · simp [ha]
    refine ⟨e, ?_, ?_, ?_⟩
    · rw [e]; unfold countAndCheck CheckCC; dsimp only; split <;> [skip; rfl]; split <;> rfl
    · rw [e]; unfold countAndCheck CheckCC; dsimp only; split <;> [skip; rfl]; split <;> rfl
    · rw [e]; unfold countAndCheck CheckCC; dsimp only; split <;> [skip; rfl]; split <;> rfl
  · intro hp ha
    rw [ProcessTSPacket_eq_dispatch]
    unfold ProcessTSPacket.dispatch
    rw [h1, h2, hp, ha]
    rfl

/-- C19, at a packet of an unclassified PID: on a recorder as constructed nothing is
written, on one whose cached table has no audio and video the packet reaches
`BufferedWrite` and is written. -/
theorem ProcessTSPacket_unclassified_not_forwarded_witness :
    (ProcessTSPacket testCollab (mkPacket false [0, 0, 1, 0]) 0 fresh0).trace = fresh0.trace ∧
    ProcessTSPacket testCollab (mkPacket false [0, 0, 1, 0]) 0 noAVRec =
      BufferedWrite testCollab (mkPacket false [0, 0, 1, 0]) false
        (stopBuffering (FindOtherKeyframes testCollab
          (countAndCheck (mkPacket false [0, 0, 1, 0]) noAVRec))) ∧
    writesOf (ProcessTSPacket testCollab (mkPacket false [0, 0, 1, 0]) 0 noAVRec).trace =
      [(mkPacket false [0, 0, 1, 0]).data] :=
  ⟨((ProcessTSPacket_unclassified_not_forwarded testCollab (mkPacket false [0, 0, 1, 0]) 0
      fresh0).1 (Or.inl rfl) rfl rfl).2.1,
   (ProcessTSPacket_unclassified_not_forwarded testCollab (mkPacket false [0, 0, 1, 0]) 0
      noAVRec).2 rfl rfl, by decide⟩

/-- C16, at a table with one stream that is neither video nor audio, for program 5. -/
theorem HandlePMT_sets_has_no_av_witness :
    (HandlePMT 5 dataOnlyPMT { fresh0 with DesiredProgram := 5 }).m_has_no_av = true ∧
    HandlePMT 6 dataOnlyPMT { fresh0 with DesiredProgram := 5 } =
      { fresh0 with DesiredProgram := 5 } :=
  ⟨((HandlePMT_sets_has_no_av 5 dataOnlyPMT { fresh0 with DesiredProgram := 5 }).2.1
      (by decide)).2.1.2 (by decide),
   (HandlePMT_sets_has_no_av 6 dataOnlyPMT { fresh0 with DesiredProgram := 5 }).1 (by decide)⟩

/-! ### The primary codecs (C17, C18) -/

theorem videoCodec_of_IsVideo (type cur : Nat) (h : StreamID.IsVideo type = true) :
    HandleSingleProgramPMT.videoCodec type cur =
      HandleSingleProgramPMT.videoCodec type AV_CODEC_ID_NONE ∧
    HandleSingleProgramPMT.videoCodec type AV_CODEC_ID_NONE ≠ AV_CODEC_ID_NONE := by
  simp only [StreamID.IsVideo, Bool.or_eq_true, beq_iff_eq] at h
  rcases h with (((((h | h) | h) | h) | h) | h) | h <;> subst h <;> exact ⟨rfl, by decide⟩

theorem audioCodec_of_IsAudio (type cur : Nat) (h : StreamID.IsAudio type = true) :
    HandleSingleProgramPMT.audioCodec type cur =
      HandleSingleProgramPMT.audioCodec type AV_CODEC_ID_NONE ∧
    HandleSingleProgramPMT.audioCodec type AV_CODEC_ID_NONE ≠ AV_CODEC_ID_NONE ∧ 0 < type := by
  simp only [StreamID.IsAudio, Bool.or_eq_true, beq_iff_eq] at h
  rcases h with (((((h | h) | h) | h) | h) | h) | h <;> subst h <;>
    exact ⟨rfl, by decide, by decide⟩

theorem codecChanges_append (a b : List Event) :
    videoCodecChanges (a ++ b) = videoCodecChanges a ++ videoCodecChanges b ∧
    audioCodecChanges (a ++ b) = audioCodecChanges a ++ audioCodecChanges b := by
  simp [videoCodecChanges, audioCodecChanges, List.filterMap_append]

theorem writePacket_codecs (X : Collab R P) (p : TSPacket) (s : DTVRecorder R P) :
    codecsOf (writePacket X p s) = codecsOf s := by
  unfold writePacket
  split
  · rfl
  · dsimp only
    split <;>
      simp [codecsOf, SetRecordingStatusFailing, codecChanges_append, videoCodecChanges,
        audioCodecChanges]

theorem BufferedWrite_codecs (X : Collab R P) (p : TSPacket) (i : Bool) (s : DTVRecorder R P) :
    codecsOf (BufferedWrite X p i s) = codecsOf s := by
  have hf : codecsOf (flushPayloadBuffer X s) = codecsOf s := by
    unfold flushPayloadBuffer writeIgnoringResult
    split
    · split
      · rfl
      · simp [codecsOf, codecChanges_append, videoCodecChanges, audioCodecChanges]
    · rfl
  unfold BufferedWrite
  split
  · split
    · rfl
    · split
      · rfl
      · rw [writePacket_codecs, hf]
  · exact writePacket_codecs X p s

theorem writeTablePackets_codecs (X : Collab R P) (i : Bool) (ps : List TSPacket) :
    ∀ s : DTVRecorder R P, codecsOf (writeTablePackets X i ps s) = codecsOf s := by
  induction ps with
  | nil => intro s; rfl
  | cons p ps ih =>
    intro s
    unfold writeTablePackets
    rw [ih, BufferedWrite_codecs]

theorem HandleSingleProgramPMT_codecs (X : Collab R P)
    (G : ProgramMapTable → Nat → List TSPacket) (pmt : ProgramMapTable) (i : Bool)
    (s : DTVRecorder R P) :
    codecsOf (HandleSingleProgramPMT X G pmt i s) =
      codecsOf (HandleSingleProgramPMT.loop (s.m_primaryAudioCodec != AV_CODEC_ID_NONE)
        pmt.streams { seenVideo := s.m_primaryVideoCodec != AV_CODEC_ID_NONE
                      bestAudioCodec := 0 } s).2 := by
  unfold HandleSingleProgramPMT
  dsimp only
  generalize HandleSingleProgramPMT.loop (s.m_primaryAudioCodec != AV_CODEC_ID_NONE)
    pmt.streams { seenVideo := s.m_primaryVideoCodec != AV_CODEC_ID_NONE
                  bestAudioCodec := 0 } s = r
  have h1 : codecsOf (if pmt.PCRPID ≠ 0x1fff ∧
        pmt.streams.all (fun st => st.StreamPID != pmt.PCRPID) then
      { r.2 with m_stream_id := Function.update r.2.m_stream_id pmt.PCRPID PrivSec }
    else r.2) = codecsOf r.2 := by
    split <;> rfl
  generalize (if pmt.PCRPID ≠ 0x1fff ∧
        pmt.streams.all (fun st => st.StreamPID != pmt.PCRPID) then
      { r.2 with m_stream_id := Function.update r.2.m_stream_id pmt.PCRPID PrivSec }
    else r.2) = s1 at h1 ⊢
  split
  · exact h1
  · rw [writeTablePackets_codecs]
    exact h1

/-- The video side of one round of the loop when the stream is no video stream or a
video stream was seen before. -/
theorem onStream_video_skip (sa : Bool) (st : PMTStream) (v : PMTLocals) (s : DTVRecorder R P)
    (h : StreamID.IsVideo st.StreamType = false ∨ v.seenVideo = true) :
    (HandleSingleProgramPMT.onStream sa st v s).1.seenVideo = v.seenVideo ∧
    (HandleSingleProgramPMT.onStream sa st v s).2.m_primaryVideoCodec = s.m_primaryVideoCodec ∧
    videoCodecChanges (HandleSingleProgramPMT.onStream sa st v s).2.trace =
      videoCodecChanges s.trace := by
  have hv : HandleSingleProgramPMT.onVideo st v s = (v, s) := by
    unfold HandleSingleProgramPMT.onVideo
    rcases h with h | h <;> simp [h]
  unfold HandleSingleProgramPMT.onStream
  dsimp only
  rw [hv]
  unfold HandleSingleProgramPMT.onAudio
  dsimp only
  split
  · split <;> simp [codecChanges_append, videoCodecChanges]
  · simp

theorem onStream_video_first (sa : Bool) (st : PMTStream) (v : PMTLocals) (s : DTVRecorder R P)
    (hs : v.seenVideo = false) (hc : s.m_primaryVideoCodec = AV_CODEC_ID_NONE)
    (h : StreamID.IsVideo st.StreamType = true) :
    (HandleSingleProgramPMT.onStream sa st v s).1.seenVideo = true ∧
    (HandleSingleProgramPMT.onStream sa st v s).2.m_primaryVideoCodec =
      HandleSingleProgramPMT.videoCodec st.StreamType AV_CODEC_ID_NONE ∧
    videoCodecChanges (HandleSingleProgramPMT.onStream sa st v s).2.trace =
      videoCodecChanges s.trace ++
        [HandleSingleProgramPMT.videoCodec st.StreamType AV_CODEC_ID_NONE] := by
  obtain ⟨-, h2⟩ := videoCodec_of_IsVideo st.StreamType AV_CODEC_ID_NONE h
  have hv : HandleSingleProgramPMT.onVideo st v s =
      ({ v with seenVideo := true },
       { s with m_primaryVideoCodec :=
                  HandleSingleProgramPMT.videoCodec st.StreamType AV_CODEC_ID_NONE
                trace := s.trace ++ [Event.VideoCodecChange
                  (HandleSingleProgramPMT.videoCodec st.StreamType AV_CODEC_ID_NONE)] }) := by
    unfold HandleSingleProgramPMT.onVideo
    simp [hs, hc, h, h2]
  unfold HandleSingleProgramPMT.onStream
  dsimp only
  rw [hv]
  unfold HandleSingleProgramPMT.onAudio
  dsimp only
  split
  · split <;> simp [codecChanges_append, videoCodecChanges]
  · simp [codecChanges_append, videoCodecChanges]

theorem onStream_audio_skip (sa : Bool) (st : PMTStream) (v : PMTLocals) (s : DTVRecorder R P)
    (h : sa = true ∨ StreamID.IsAudio st.StreamType = false ∨
      st.StreamType ≤ v.bestAudioCodec) :
    (HandleSingleProgramPMT.onStream sa st v s).1.bestAudioCodec = v.bestAudioCodec ∧
    (HandleSingleProgramPMT.onStream sa st v s).2.m_primaryAudioCodec = s.m_primaryAudioCodec ∧
    audioCodecChanges (HandleSingleProgramPMT.onStream sa st v s).2.trace =
      audioCodecChanges s.trace := by
  have hv : (HandleSingleProgramPMT.onVideo st v s).1.bestAudioCodec = v.bestAudioCodec ∧
      (HandleSingleProgramPMT.onVideo st v s).2.m_primaryAudioCodec = s.m_primaryAudioCodec ∧
      audioCodecChanges (HandleSingleProgramPMT.onVideo st v s).2.trace =
        audioCodecChanges s.trace := by
    unfold HandleSingleProgramPMT.onVideo
    dsimp only
    split
    · split <;> simp [codecChanges_append, audioCodecChanges]
    · simp
  obtain ⟨h1, h2, h3⟩ := hv
  have ha : HandleSingleProgramPMT.onAudio sa st (HandleSingleProgramPMT.onVideo st v s).1
      (HandleSingleProgramPMT.onVideo st v s).2 = HandleSingleProgramPMT.onVideo st v s := by
    unfold HandleSingleProgramPMT.onAudio
    rw [h1]
    rcases h with h | h | h
    · simp [h]
    · simp [h]
    · simp [Nat.not_lt.mpr h]
  unfold HandleSingleProgramPMT.onStream
  dsimp only
  rw [ha]
  exact ⟨h1, h2, h3⟩

theorem onStream_audio_rise (st : PMTStream) (v : PMTLocals) (s : DTVRecorder R P)
    (h : StreamID.IsAudio st.StreamType = true) (hb : v.bestAudioCodec < st.StreamType) :
    (HandleSingleProgramPMT.onStream false st v s).1.bestAudioCodec = st.StreamType ∧
    (HandleSingleProgramPMT.onStream false st v s).2.m_primaryAudioCodec =
      HandleSingleProgramPMT.audioCodec st.StreamType AV_CODEC_ID_NONE ∧
    audioCodecChanges (HandleSingleProgramPMT.onStream false st v s).2.trace =
      audioCodecChanges s.trace ++
        [HandleSingleProgramPMT.audioCodec st.StreamType AV_CODEC_ID_NONE] := by
  have hv : (HandleSingleProgramPMT.onVideo st v s).1.bestAudioCodec = v.bestAudioCodec ∧
      audioCodecChanges (HandleSingleProgramPMT.onVideo st v s).2.trace =
        audioCodecChanges s.trace := by
    unfold HandleSingleProgramPMT.onVideo
    dsimp only
    split
    · split <;> simp [codecChanges_append, audioCodecChanges]
    · simp
  obtain ⟨h1, h3⟩ := hv
  unfold HandleSingleProgramPMT.onStream
  dsimp only
  generalize HandleSingleProgramPMT.onVideo st v s = r at h1 h3 ⊢
  obtain ⟨e1, e2, -⟩ := audioCodec_of_IsAudio st.StreamType r.2.m_primaryAudioCodec h
  have ha : HandleSingleProgramPMT.onAudio false st r.1 r.2 =
      ({ r.1 with bestAudioCodec := st.StreamType },
       { r.2 with m_primaryAudioCodec :=
                    HandleSingleProgramPMT.audioCodec st.StreamType AV_CODEC_ID_NONE
                  trace := r.2.trace ++ [Event.AudioCodecChange
                    (HandleSingleProgramPMT.audioCodec st.StreamType AV_CODEC_ID_NONE)] }) := by
    unfold HandleSingleProgramPMT.onAudio
    simp [h, h1, hb, e1, e2]
  rw [ha]
  refine ⟨rfl, rfl, ?_⟩
  show audioCodecChanges (r.2.trace ++ _) = _
  rw [(codecChanges_append _ _).2, h3]
  rfl

theorem PMT_loop_append (sa : Bool) (l1 l2 : List PMTStream) :
    ∀ (v : PMTLocals) (s : DTVRecorder R P),
    HandleSingleProgramPMT.loop sa (l1 ++ l2) v s =
      HandleSingleProgramPMT.loop sa l2 (HandleSingleProgramPMT.loop sa l1 v s).1
        (HandleSingleProgramPMT.loop sa l1 v s).2 := by
  induction l1 with
  | nil => intro v s; rfl
  | cons st l1 ih =>
    intro v s
    simp only [List.cons_append, HandleSingleProgramPMT.loop]
    exact ih _ _

theorem PMT_loop_video_skip (sa : Bool) (l : List PMTStream) :
    ∀ (v : PMTLocals) (s : DTVRecorder R P),
    ((∀ b ∈ l, StreamID.IsVideo b.StreamType = false) ∨ v.seenVideo = true) →
    (HandleSingleProgramPMT.loop sa l v s).1.seenVideo = v.seenVideo ∧
    (HandleSingleProgramPMT.loop sa l v s).2.m_primaryVideoCodec = s.m_primaryVideoCodec ∧
    videoCodecChanges (HandleSingleProgramPMT.loop sa l v s).2.trace =
      videoCodecChanges s.trace := by
  induction l with
  | nil => intro v s _; exact ⟨rfl, rfl, rfl⟩
  | cons st l ih =>
    intro v s h
    have hst : StreamID.IsVideo st.StreamType = false ∨ v.seenVideo = true :=
      h.imp (fun h => h st (List.mem_cons_self _ _)) id
    obtain ⟨a1, a2, a3⟩ := onStream_video_skip sa st v s hst
    have hl : (∀ b ∈ l, StreamID.IsVideo b.StreamType = false) ∨
        (HandleSingleProgramPMT.onStream sa st v s).1.seenVideo = true :=
      h.imp (fun h b hb => h b (List.mem_cons_of_mem _ hb)) (fun h => a1.trans h)
    obtain ⟨b1, b2, b3⟩ := ih _ (HandleSingleProgramPMT.onStream sa st v s).2 hl
    simp only [HandleSingleProgramPMT.loop]
    exact ⟨b1.trans a1, b2.trans a2, b3.trans a3⟩

theorem PMT_loop_audio_skip (sa : Bool) (l : List PMTStream) :
    ∀ (v : PMTLocals) (s : DTVRecorder R P),
    (sa = true ∨ ∀ b ∈ l, StreamID.IsAudio b.StreamType = true →
      b.StreamType ≤ v.bestAudioCodec) →
    (HandleSingleProgramPMT.loop sa l v s).1.bestAudioCodec = v.bestAudioCodec ∧
    (HandleSingleProgramPMT.loop sa l v s).2.m_primaryAudioCodec = s.m_primaryAudioCodec ∧
    audioCodecChanges (HandleSingleProgramPMT.loop sa l v s).2.trace =
      audioCodecChanges s.trace := by
  induction l with
  | nil => intro v s _; exact ⟨rfl, rfl, rfl⟩
  | cons st l ih =>
    intro v s h
    have hst : sa = true ∨ StreamID.IsAudio st.StreamType = false ∨
        st.StreamType ≤ v.bestAudioCodec := by
      rcases h with h | h
      · exact Or.inl h
      · right
        cases ha : StreamID.IsAudio st.StreamType with
        | false => exact Or.inl rfl
        | true => exact Or.inr (h st (List.mem_cons_self _ _) ha)
    obtain ⟨a1, a2, a3⟩ := onStream_audio_skip sa st v s hst
    have hl : sa = true ∨ ∀ b ∈ l, StreamID.IsAudio b.StreamType = true →
        b.StreamType ≤ (HandleSingleProgramPMT.onStream sa st v s).1.bestAudioCodec := by
      rcases h with h | h
      · exact Or.inl h
      · right
        intro b hb ha
        rw [a1]
        exact h b (List.mem_cons_of_mem _ hb) ha
    obtain ⟨b1, b2, b3⟩ := ih _ (HandleSingleProgramPMT.onStream sa st v s).2 hl
    simp only [HandleSingleProgramPMT.loop]
    exact ⟨b1.trans a1, b2.trans a2, b3.trans a3⟩

/-- Below a bound: the loop over audio streams of smaller type leaves `bestAudioCodec`
below the bound. -/
theorem PMT_loop_audio_below (bound : Nat) (l : List PMTStream) :
    ∀ (v : PMTLocals) (s : DTVRecorder R P),
    v.bestAudioCodec < bound →
    (∀ b ∈ l, StreamID.IsAudio b.StreamType = true → b.StreamType < bound) →
    (HandleSingleProgramPMT.loop false l v s).1.bestAudioCodec < bound := by
  induction l with
  | nil => intro v s h _; exact h
  | cons st l ih =>
    intro v s hv h
    simp only [HandleSingleProgramPMT.loop]
    apply ih _ _ _ (fun b hb ha => h b (List.mem_cons_of_mem _ hb) ha)
    by_cases hr : StreamID.IsAudio st.StreamType = true ∧ v.bestAudioCodec < st.StreamType
    · rw [(onStream_audio_rise st v s hr.1 hr.2).1]
      exact h st (List.mem_cons_self _ _) hr.1
    · rw [(onStream_audio_skip false st v s (by
        by_cases ha : StreamID.IsAudio st.StreamType = true
        · exact Or.inr (Or.inr (Nat.not_lt.mp (fun hlt => hr ⟨ha, hlt⟩)))
        · exact Or.inr (Or.inl (by simpa using ha)))).1]
      exact hv

theorem PMT_loop_audio_count (l : List PMTStream) :
    ∀ (v : PMTLocals) (s : DTVRecorder R P),
    (audioCodecChanges (HandleSingleProgramPMT.loop false l v s).2.trace).length =
      (audioCodecChanges s.trace).length + audioRises v.bestAudioCodec l ∧
    (0 < audioRises v.bestAudioCodec l →
      (HandleSingleProgramPMT.loop false l v s).2.m_primaryAudioCodec ≠ AV_CODEC_ID_NONE) ∧
    (audioRises v.bestAudioCodec l = 0 →
      (HandleSingleProgramPMT.loop false l v s).2.m_primaryAudioCodec =
        s.m_primaryAudioCodec) := by
  induction l with
  | nil => intro v s; simp [HandleSingleProgramPMT.loop, audioRises]
  | cons st l ih =>
    intro v s
    simp only [HandleSingleProgramPMT.loop]
    obtain ⟨i1, i2, i3⟩ := ih (HandleSingleProgramPMT.onStream false st v s).1
      (HandleSingleProgramPMT.onStream false st v s).2
    by_cases hr : StreamID.IsAudio st.StreamType = true ∧ v.bestAudioCodec < st.StreamType
    · obtain ⟨a1, a2, a3⟩ := onStream_audio_rise st v s hr.1 hr.2
      have hrise : audioRises v.bestAudioCodec (st :: l) = audioRises st.StreamType l + 1 := by
        simp [audioRises, hr.1, hr.2]
      rw [a1] at i1 i2 i3
      rw [hrise, i1, a3]
      refine ⟨by simp; omega, fun _ => ?_, fun h => by omega⟩
      by_cases h0 : audioRises st.StreamType l = 0
      · rw [i3 h0, a2]
        exact (audioCodec_of_IsAudio st.StreamType AV_CODEC_ID_NONE hr.1).2.1
      · exact i2 (by omega)
    · have hskip : false = true ∨ StreamID.IsAudio st.StreamType = false ∨
          st.StreamType ≤ v.bestAudioCodec := by
        by_cases ha : StreamID.IsAudio st.StreamType = true
        · exact Or.inr (Or.inr (Nat.not_lt.mp (fun hlt => hr ⟨ha, hlt⟩)))
        · exact Or.inr (Or.inl (by simpa using ha))
      obtain ⟨a1, a2, a3⟩ := onStream_audio_skip false st v s hskip
      have hrise : audioRises v.bestAudioCodec (st :: l) = audioRises v.bestAudioCodec l := by
        have hc : (StreamID.IsAudio st.StreamType &&
            decide (st.StreamType > v.bestAudioCodec)) = false := by
          rw [Bool.eq_false_iff]
          intro hc
          simp only [Bool.and_eq_true, decide_eq_true_eq] at hc
          exact hr ⟨hc.1, hc.2⟩
        simp [audioRises, hc]
      rw [a1] at i1 i2 i3
      rw [hrise, i1, a3]
      exact ⟨rfl, i2, fun h => (i3 h).trans a2⟩

theorem PMT_loop_video_first (sa : Bool) (l : List PMTStream) :
    ∀ (v : PMTLocals) (s : DTVRecorder R P),
    v.seenVideo = false → s.m_primaryVideoCodec = AV_CODEC_ID_NONE →
    (∃ b ∈ l, StreamID.IsVideo b.StreamType = true) →
    (HandleSingleProgramPMT.loop sa l v s).2.m_primaryVideoCodec ≠ AV_CODEC_ID_NONE ∧
    (videoCodecChanges (HandleSingleProgramPMT.loop sa l v s).2.trace).length =
      (videoCodecChanges s.trace).length + 1 := by
  induction l with
  | nil => intro v s _ _ h; obtain ⟨b, hb, -⟩ := h; exact absurd hb (List.not_mem_nil b)
  | cons st l ih =>
    intro v s hs hc h
    simp only [HandleSingleProgramPMT.loop]
    by_cases hst : StreamID.IsVideo st.StreamType = true
    · obtain ⟨a1, a2, a3⟩ := onStream_video_first sa st v s hs hc hst
      obtain ⟨-, b2, b3⟩ := PMT_loop_video_skip sa l (HandleSingleProgramPMT.onStream sa st v s).1
        (HandleSingleProgramPMT.onStream sa st v s).2 (Or.inr a1)
      rw [b2, b3, a2, a3]
      exact ⟨(videoCodec_of_IsVideo st.StreamType AV_CODEC_ID_NONE hst).2, by simp⟩
    · have hst2 : StreamID.IsVideo st.StreamType = false := by simpa using hst
      obtain ⟨a1, a2, a3⟩ := onStream_video_skip sa st v s (Or.inl hst2)
      have hl : ∃ b ∈ l, StreamID.IsVideo b.StreamType = true := by
        obtain ⟨b, hb, hbv⟩ := h
        rcases List.mem_cons.mp hb with e | e
        · subst e; exact absurd hbv hst
        · exact ⟨b, e, hbv⟩
      obtain ⟨i1, i2⟩ := ih (HandleSingleProgramPMT.onStream sa st v s).1
        (HandleSingleProgramPMT.onStream sa st v s).2 (a1.trans hs) (a2.trans hc) hl
      rw [a3] at i2
      exact ⟨i1, i2⟩

theorem audioRises_pos (l : List PMTStream) :
    ∀ best, (∃ b ∈ l, StreamID.IsAudio b.StreamType = true ∧ best < b.StreamType) →
    0 < audioRises best l := by
  induction l with
  | nil => intro best h; obtain ⟨b, hb, -⟩ := h; exact absurd hb (List.not_mem_nil b)
  | cons st l ih =>
    intro best h
    unfold audioRises
    split
    · omega
    · rename_i hc
      apply ih
      obtain ⟨b, hb, hba, hbt⟩ := h
      rcases List.mem_cons.mp hb with e | e
      · subst e
        exact absurd (by simp [hba, hbt]) hc
      · exact ⟨b, e, hba, hbt⟩

theorem audioRises_no_audio (l : List PMTStream) :
    ∀ best, (∀ b ∈ l, StreamID.IsAudio b.StreamType = false) → audioRises best l = 0 := by
  induction l with
  | nil => intro best _; rfl
  | cons st l ih =>
    intro best h
    unfold audioRises
    rw [h st (List.mem_cons_self _ _)]
    simpa using ih best (fun b hb => h b (List.mem_cons_of_mem _ hb))

theorem audioRises_single (l : List PMTStream)
    (h : (l.filter (fun b => StreamID.IsAudio b.StreamType)).length = 1) :
    audioRises 0 l = 1 := by
  induction l with
  | nil => simp at h
  | cons st l ih =>
    cases ha : StreamID.IsAudio st.StreamType with
    | true =>
      have hpos := (audioCodec_of_IsAudio st.StreamType 0 ha).2.2
      have hl : ∀ b ∈ l, StreamID.IsAudio b.StreamType = false := by
        intro b hb
        rw [List.filter_cons_of_pos (by simpa using ha)] at h
        have h0 : (l.filter (fun b => StreamID.IsAudio b.StreamType)) = [] :=
          List.length_eq_zero.mp (by simpa using h)
        have := List.filter_eq_nil_iff.mp h0 b hb
        simpa using this
      unfold audioRises
      simp [ha, hpos, audioRises_no_audio l _ hl]
    | false =>
      rw [List.filter_cons_of_neg (by simp [ha])] at h
      unfold audioRises
      simp [ha, ih h]

theorem HandleSingleProgramPMT_codecs_known (X : Collab R P)
    (G : ProgramMapTable → Nat → List TSPacket) (pmt : ProgramMapTable) (i : Bool)
    (s : DTVRecorder R P) (hv : s.m_primaryVideoCodec ≠ AV_CODEC_ID_NONE)
    (ha : s.m_primaryAudioCodec ≠ AV_CODEC_ID_NONE) :
    codecsOf (HandleSingleProgramPMT X G pmt i s) = codecsOf s := by
  rw [HandleSingleProgramPMT_codecs]
  have h1 : (s.m_primaryVideoCodec != AV_CODEC_ID_NONE) = true := by simpa using hv
  have h2 : (s.m_primaryAudioCodec != AV_CODEC_ID_NONE) = true := by simpa using ha
  rw [h1, h2]
  obtain ⟨-, a2, a3⟩ := PMT_loop_video_skip true pmt.streams
    { seenVideo := true, bestAudioCodec := 0 } s (Or.inr rfl)
  obtain ⟨-, b2, b3⟩ := PMT_loop_audio_skip true pmt.streams
    { seenVideo := true, bestAudioCodec := 0 } s (Or.inl rfl)
  simp only [codecsOf, a2, a3, b2, b3]

theorem handleTables_codecs_known (X : Collab R P)
    (G : ProgramMapTable → Nat → List TSPacket) (qs : List (ProgramMapTable × Bool)) :
    ∀ s : DTVRecorder R P, s.m_primaryVideoCodec ≠ AV_CODEC_ID_NONE →
    s.m_primaryAudioCodec ≠ AV_CODEC_ID_NONE →
    codecsOf (handleTables X G qs s) = codecsOf s := by
  induction qs with
  | nil => intro s _ _; rfl
  | cons q qs ih =>
    intro s hv ha
    have h := HandleSingleProgramPMT_codecs_known X G q.1 q.2 s hv ha
    have hv2 : (HandleSingleProgramPMT X G q.1 q.2 s).m_primaryVideoCodec ≠ AV_CODEC_ID_NONE := by
      have := congrArg (fun c => c.1) h
      simp only [codecsOf] at this
      rw [this]; exact hv
    have ha2 : (HandleSingleProgramPMT X G q.1 q.2 s).m_primaryAudioCodec ≠ AV_CODEC_ID_NONE := by
      have := congrArg (fun c => c.2.1) h
      simp only [codecsOf] at this
      rw [this]; exact ha
    unfold handleTables
    rw [ih _ hv2 ha2, h]

/-- C17. On a recorder whose two primary codecs are still `AV_CODEC_ID_NONE`,
`HandleSingleProgramPMT(pmt)` leaves as primary video codec the codec that the table of
lines 1325-1347 gives for the first stream of `pmt`, in table order, whose type is a
video type, and as primary audio codec the codec that the table of lines 1361-1386 gives
for the first audio stream whose type no other audio stream of `pmt` exceeds. -/
theorem HandleSingleProgramPMT_primary_codecs (X : Collab R P)
    (GetAsTSPackets : ProgramMapTable → Nat → List TSPacket) (pmt : ProgramMapTable)
    (insert : Bool) (s : DTVRecorder R P)
    (hv : s.m_primaryVideoCodec = AV_CODEC_ID_NONE)
    (ha : s.m_primaryAudioCodec = AV_CODEC_ID_NONE) :
    (∀ pre st post, pmt.streams = pre ++ st :: post →
      (∀ b ∈ pre, StreamID.IsVideo b.StreamType = false) →
      StreamID.IsVideo st.StreamType = true →
      (HandleSingleProgramPMT X GetAsTSPackets pmt insert s).m_primaryVideoCodec =
        HandleSingleProgramPMT.videoCodec st.StreamType AV_CODEC_ID_NONE ∧
      HandleSingleProgramPMT.videoCodec st.StreamType AV_CODEC_ID_NONE ≠ AV_CODEC_ID_NONE) ∧
    (∀ pre st post, pmt.streams = pre ++ st :: post →
      StreamID.IsAudio st.StreamType = true →
      (∀ b ∈ pre, StreamID.IsAudio b.StreamType = true → b.StreamType < st.StreamType) →
      (∀ b ∈ post, StreamID.IsAudio b.StreamType = true → b.StreamType ≤ st.StreamType) →
      (HandleSingleProgramPMT X GetAsTSPackets pmt insert s).m_primaryAudioCodec =
        HandleSingleProgramPMT.audioCodec st.StreamType AV_CODEC_ID_NONE ∧
      HandleSingleProgramPMT.audioCodec st.StreamType AV_CODEC_ID_NONE ≠ AV_CODEC_ID_NONE) := by
  have hc := HandleSingleProgramPMT_codecs X GetAsTSPackets pmt insert s
  have h1 : (s.m_primaryVideoCodec != AV_CODEC_ID_NONE) = false := by simp [hv]
  have h2 : (s.m_primaryAudioCodec != AV_CODEC_ID_NONE) = false := by simp [ha]
  rw [h1, h2] at hc
  have hvid := congrArg (fun c => c.1) hc
  have haud := congrArg (fun c => c.2.1) hc
  simp only [codecsOf] at hvid haud
  constructor
  · intro pre st post hstreams hpre hst
    rw [hvid, hstreams, PMT_loop_append]
    obtain ⟨a1, a2, -⟩ := PMT_loop_video_skip false pre
      { seenVideo := false, bestAudioCodec := 0 } s (Or.inl hpre)
    simp only [HandleSingleProgramPMT.loop]
    generalize HandleSingleProgramPMT.loop false pre
      { seenVideo := false, bestAudioCodec := 0 } s = r at a1 a2 ⊢
    obtain ⟨b1, b2, -⟩ := onStream_video_first false st r.1 r.2 a1 (a2.trans hv) hst
    obtain ⟨-, c2, -⟩ := PMT_loop_video_skip false post
      (HandleSingleProgramPMT.onStream false st r.1 r.2).1
      (HandleSingleProgramPMT.onStream false st r.1 r.2).2 (Or.inr b1)
    exact ⟨c2.trans b2, (videoCodec_of_IsVideo st.StreamType AV_CODEC_ID_NONE hst).2⟩
  · intro pre st post hstreams hst hpre hpost
    have hpos := (audioCodec_of_IsAudio st.StreamType AV_CODEC_ID_NONE hst).2.2
    rw [haud, hstreams, PMT_loop_append]
    have a1 := PMT_loop_audio_below st.StreamType pre
      { seenVideo := false, bestAudioCodec := 0 } s hpos hpre
    simp only [HandleSingleProgramPMT.loop]
    generalize HandleSingleProgramPMT.loop false pre
      { seenVideo := false, bestAudioCodec := 0 } s = r at a1 ⊢
    obtain ⟨b1, b2, -⟩ := onStream_audio_rise st r.1 r.2 hst a1
    obtain ⟨-, c2, -⟩ := PMT_loop_audio_skip false post
      (HandleSingleProgramPMT.onStream false st r.1 r.2).1
      (HandleSingleProgramPMT.onStream false st r.1 r.2).2
      (Or.inr (fun b hb hba => by rw [b1]; exact hpost b hb hba))
    exact ⟨c2.trans b2, (audioCodec_of_IsAudio st.StreamType AV_CODEC_ID_NONE hst).2.1⟩

/-- C17, at a table with an H.264 video stream, an MPEG-1 audio stream and an AC-3 audio
stream: the primary codecs are H.264 and AC-3. -/
theorem HandleSingleProgramPMT_primary_codecs_witness :
    (HandleSingleProgramPMT testCollab onePacket twoAudioPMT true fresh0).m_primaryVideoCodec =
      AV_CODEC_ID_H264 ∧
    (HandleSingleProgramPMT testCollab onePacket twoAudioPMT true fresh0).m_primaryAudioCodec =
      AV_CODEC_ID_AC3 :=
  ⟨((HandleSingleProgramPMT_primary_codecs testCollab onePacket twoAudioPMT true fresh0 rfl
      rfl).1 [] _ _ rfl (by decide) (by decide)).1,
   ((HandleSingleProgramPMT_primary_codecs testCollab onePacket twoAudioPMT true fresh0 rfl
      rfl).2 (twoAudioPMT.streams.take 2) _ [] rfl (by decide) (by decide) (by decide)).1⟩

/-- C18, as amended. On a recorder whose two primary codecs are still
`AV_CODEC_ID_NONE`, over a call of `HandleSingleProgramPMT` for a table with a video
stream and an audio stream and any number of further calls, `VideoCodecChange` is
invoked exactly once, and `AudioCodecChange` once for every audio stream of the first
table whose type is above the types of all audio streams before it: at least once, and
exactly once when the first table has a single audio stream. -/
theorem HandleSingleProgramPMT_codec_changes (X : Collab R P)
    (GetAsTSPackets : ProgramMapTable → Nat → List TSPacket) (pmt : ProgramMapTable)
    (insert : Bool) (later : List (ProgramMapTable × Bool)) (s : DTVRecorder R P)
    (hv : s.m_primaryVideoCodec = AV_CODEC_ID_NONE)
    (ha : s.m_primaryAudioCodec = AV_CODEC_ID_NONE)
    (hvid : ∃ b ∈ pmt.streams, StreamID.IsVideo b.StreamType = true)
    (haud : ∃ b ∈ pmt.streams, StreamID.IsAudio b.StreamType = true) :
    (videoCodecChanges (handleTables X GetAsTSPackets ((pmt, insert) :: later) s).trace).length =
      (videoCodecChanges s.trace).length + 1 ∧
    (audioCodecChanges (handleTables X GetAsTSPackets ((pmt, insert) :: later) s).trace).length =
      (audioCodecChanges s.trace).length + audioRises 0 pmt.streams ∧
    1 ≤ audioRises 0 pmt.streams ∧
    ((pmt.streams.filter (fun b => StreamID.IsAudio b.StreamType)).length = 1 →
      audioRises 0 pmt.streams = 1) := by
  have hc := HandleSingleProgramPMT_codecs X GetAsTSPackets pmt insert s
  have h1 : (s.m_primaryVideoCodec != AV_CODEC_ID_NONE) = false := by simp [hv]
  have h2 : (s.m_primaryAudioCodec != AV_CODEC_ID_NONE) = false := by simp [ha]
  rw [h1, h2] at hc
  have hpos : 0 < audioRises 0 pmt.streams := by
    apply audioRises_pos
    obtain ⟨b, hb, hba⟩ := haud
    exact ⟨b, hb, hba, (audioCodec_of_IsAudio b.StreamType 0 hba).2.2⟩
  obtain ⟨v1, v2⟩ := PMT_loop_video_first false pmt.streams
    { seenVideo := false, bestAudioCodec := 0 } s rfl hv hvid
  obtain ⟨a1, a2, -⟩ := PMT_loop_audio_count pmt.streams
    { seenVideo := false, bestAudioCodec := 0 } s
  have a2 := a2 hpos
  have e1 := congrArg (fun c => c.1) hc
  have e2 := congrArg (fun c => c.2.1) hc
  have e3 := congrArg (fun c => c.2.2.1) hc
  have e4 := congrArg (fun c => c.2.2.2) hc
  simp only [codecsOf] at e1 e2 e3 e4
  have hl := handleTables_codecs_known X GetAsTSPackets later
    (HandleSingleProgramPMT X GetAsTSPackets pmt insert s) (by rw [e1]; exact v1)
    (by rw [e2]; exact a2)
  have f3 := congrArg (fun c => c.2.2.1) hl
  have f4 := congrArg (fun c => c.2.2.2) hl
  simp only [codecsOf] at f3 f4
  refine ⟨?_, ?_, hpos, audioRises_single pmt.streams⟩
  · show (videoCodecChanges (handleTables X GetAsTSPackets later
      (HandleSingleProgramPMT X GetAsTSPackets pmt insert s)).trace).length = _
    rw [f3, e3, v2]
  · show (audioCodecChanges (handleTables X GetAsTSPackets later
      (HandleSingleProgramPMT X GetAsTSPackets pmt insert s)).trace).length = _
    rw [f4, e4, a1]

/-- C18, at the table with one H.264 video stream and one AC-3 audio stream, handled
twice: each notification is made once, with the codecs H.264 and AC-3. -/
theorem HandleSingleProgramPMT_codec_changes_witness :
    (videoCodecChanges (handleTables testCollab onePacket
      [(h264ac3PMT, true), (h264ac3PMT, false)] fresh0).trace).length = 1 ∧
    (audioCodecChanges (handleTables testCollab onePacket
      [(h264ac3PMT, true), (h264ac3PMT, false)] fresh0).trace).length = 1 ∧
    (HandleSingleProgramPMT testCollab onePacket h264ac3PMT true fresh0).trace =
      [Event.VideoCodecChange AV_CODEC_ID_H264, Event.AudioCodecChange AV_CODEC_ID_AC3,
       Event.Write (mkPacket true [0, 2, 0xb0]).data] := by
  have h := HandleSingleProgramPMT_codec_changes testCollab onePacket h264ac3PMT true
    [(h264ac3PMT, false)] fresh0 rfl rfl (by decide) (by decide)
  exact ⟨h.1, h.2.1.trans (by decide), by decide⟩

/-- C18 as stated fails: for a table with an H.264 video stream, an MPEG-1 audio stream
and, after it, an AC-3 audio stream, one call of `HandleSingleProgramPMT` on a recorder
without codecs invokes `AudioCodecChange` twice, first for MP2, then for AC-3. -/
theorem HandleSingleProgramPMT_audio_change_twice_counterexample :
    fresh0.m_primaryVideoCodec = AV_CODEC_ID_NONE ∧
    fresh0.m_primaryAudioCodec = AV_CODEC_ID_NONE ∧
    (∃ b ∈ twoAudioPMT.streams, StreamID.IsVideo b.StreamType = true) ∧
    (∃ b ∈ twoAudioPMT.streams, StreamID.IsAudio b.StreamType = true) ∧
    videoCodecChanges (handleTables testCollab onePacket [(twoAudioPMT, true)] fresh0).trace =
      [AV_CODEC_ID_H264] ∧
    audioCodecChanges (handleTables testCollab onePacket [(twoAudioPMT, true)] fresh0).trace =
      [AV_CODEC_ID_MP2, AV_CODEC_ID_AC3] := by
  decide

/-! ### PES synchronisation of the H.264 detector (C20) -/

theorem syncOf_HandleH264Keyframe (X : Collab R P) (s : DTVRecorder R P) :
    syncOf (HandleH264Keyframe X s) = syncOf s := by
  have h1 : syncOf (CheckForRingBufferSwitch s) = syncOf s := by
    unfold CheckForRingBufferSwitch
    split <;> rfl
  have h2 : ∀ u : DTVRecorder R P, syncOf (noteFirstKeyframe u) = syncOf u := by
    intro u; unfold noteFirstKeyframe; split <;> rfl
  unfold HandleH264Keyframe
  dsimp only
  split
  · show syncOf (noteFirstKeyframe (CheckForRingBufferSwitch s)) = _
    rw [h2, h1]
  · rw [h2, h1]

theorem syncOf_onFrame (s : DTVRecorder R P) : syncOf (onFrame s) = syncOf s := by
  unfold onFrame UpdateFramesWritten
  dsimp only
  split
  · split <;> split <;> split <;> rfl
  · rfl

theorem syncOf_reportChanges (l : ScanLocals) (s : DTVRecorder R P) :
    syncOf (reportChanges l s) = syncOf s := by
  unfold reportChanges
  dsimp only
  split <;> split <;> split <;> rfl

theorem syncOf_H264_finish (X : Collab R P) (l : ScanLocals) (s : DTVRecorder R P) :
    syncOf (FindH264Keyframes.finish X l s) = syncOf s := by
  unfold FindH264Keyframes.finish
  dsimp only
  rw [syncOf_reportChanges]
  have h1 : syncOf (if (FindH264Keyframes.hasKeyFrame l s &&
        (s.m_buffer_packets || decide (s.m_first_keyframe ≥ 0))) = true then
      HandleH264Keyframe X (markKeyframeSeen s) else s) = syncOf s := by
    split
    · rw [syncOf_HandleH264Keyframe]; rfl
    · rfl
  split
  · rw [syncOf_onFrame, h1]
  · exact h1

theorem H264_feed_logged (X : Collab R P) (data : List Nat) (i : Nat) (rb : R) (l : ScanLocals)
    (s : DTVRecorder R (P × List (List Nat))) :
    (FindH264Keyframes.feed (logged X) data i rb l s).1.1.m_pes_synced = s.m_pes_synced ∧
    (FindH264Keyframes.feed (logged X) data i rb l s).1.1.m_h264_parser_state.2 =
      s.m_h264_parser_state.2 ++ [data.drop i] ∧
    (FindH264Keyframes.feed (logged X) data i rb l s).2 =
      (X.addBytes s.m_h264_parser_state.1 (data.drop i) (X.GetWritePosition rb)).2 % 2 ^ 32 := by
  unfold FindH264Keyframes.feed
  dsimp only
  split <;> exact ⟨rfl, rfl, rfl⟩

theorem H264_loop_logged (X : Collab R P) (hX : ParserProgress X) (p : TSPacket) (rb : R) :
    ∀ (fuel i : Nat) (l : ScanLocals) (s : DTVRecorder R (P × List (List Nat))),
    (p.PayloadStart = false ∨ s.m_pes_synced = true) → kSize - i < fuel →
    ∃ r extra, FindH264Keyframes.loop (logged X) p rb fuel i l s = some r ∧
      r.1.m_pes_synced = s.m_pes_synced ∧
      r.1.m_h264_parser_state.2 = s.m_h264_parser_state.2 ++ extra ∧
      (s.m_pes_synced = false → extra = []) ∧
      (s.m_pes_synced = true → i < kSize → ∃ more, extra = p.data.drop i :: more) := by
  intro fuel
  induction fuel with
  | zero => intro i l s _ h; omega
  | succ n ih =>
    intro i l s hps hfuel
    unfold FindH264Keyframes.loop
    by_cases hi : i < kSize
    · have hc : (p.PayloadStart && !s.m_pes_synced) = false := by
        rcases hps with h | h <;> simp [h]
      simp only [hi, if_true, hc, Bool.false_eq_true, if_false]
      cases hsync : s.m_pes_synced with
      | false =>
        refine ⟨(s, l), [], by simp, hsync, by simp, fun _ => rfl, fun h => by simp at h⟩
      | true =>
        obtain ⟨f1, f2, f3⟩ := H264_feed_logged X p.data i rb l s
        have hne : p.data.drop i ≠ [] := by
          intro h
          have := congrArg List.length h
          simp only [List.length_drop, p.size_eq, List.length_nil] at this
          omega
        obtain ⟨u1, u2⟩ := hX s.m_h264_parser_state.1 (p.data.drop i) (X.GetWritePosition rb) hne
        simp only [List.length_drop, p.size_eq] at u2
        have hk : kSize = 188 := rfl
        have hnext : ((i + ((FindH264Keyframes.feed (logged X) p.data i rb l s).2 + 2 ^ 32 - 1))
            % 2 ^ 32 + 1) % 2 ^ 32 = i +
            (X.addBytes s.m_h264_parser_state.1 (p.data.drop i) (X.GetWritePosition rb)).2 := by
          rw [f3]
          generalize (X.addBytes s.m_h264_parser_state.1 (p.data.drop i)
            (X.GetWritePosition rb)).2 = u at u1 u2
          norm_num
          omega
        simp only [Bool.not_true, Bool.false_eq_true, if_false]
        rw [hnext]
        obtain ⟨r, extra, e1, e2, e3, -, -⟩ := ih
          (i + (X.addBytes s.m_h264_parser_state.1 (p.data.drop i) (X.GetWritePosition rb)).2)
          (FindH264Keyframes.feed (logged X) p.data i rb l s).1.2
          (FindH264Keyframes.feed (logged X) p.data i rb l s).1.1
          (Or.inr (f1.trans hsync)) (by omega)
        refine ⟨r, p.data.drop i :: extra, e1, by rw [e2, f1, hsync], ?_, fun h => by simp at h,
          fun _ _ => ⟨extra, rfl⟩⟩
        rw [e3, f2]
        simp
    · refine ⟨(s, l), [], by simp [hi], rfl, by simp, fun _ => rfl, fun _ h => absurd h hi⟩

/-- The first round of the loop of `FindH264Keyframes` on a packet that starts a payload:
with a PES header that fits, the loop goes on synchronised behind the header; otherwise
it is left at once. -/
theorem H264_loop_start (X : Collab R P) (p : TSPacket) (rb : R) (l : ScanLocals)
    (s : DTVRecorder R P) (hstart : p.PayloadStart = true) (hs : s.m_pes_synced = false) :
    (PESHeaderFits p →
      FindH264Keyframes.loop X p rb (kSize + 1) p.AFCOffset l s =
        FindH264Keyframes.loop X p rb kSize (p.AFCOffset + 9 + rd p.data p.AFCOffset 8) l
          { s with m_pes_synced := true }) ∧
    (¬ PESHeaderFits p →
      FindH264Keyframes.loop X p rb (kSize + 1) p.AFCOffset l s = some (s, l)) := by
  have hk : kSize = 188 := rfl
  have hrd : rd p.data (p.AFCOffset + 3) 5 = rd p.data p.AFCOffset 8 := by
    unfold rd; rw [Nat.add_assoc]
  constructor
  · intro h
    obtain ⟨b0, b1, b2, hfit⟩ := h
    rw [FindH264Keyframes.loop]
    have hi : p.AFCOffset < kSize := by omega
    have h2 : ¬ p.AFCOffset + 2 ≥ kSize := by omega
    have h5 : ¬ p.AFCOffset + 3 + 5 ≥ kSize := by omega
    have h6 : ¬ p.AFCOffset + 3 + 6 + rd p.data (p.AFCOffset + 3) 5 ≥ kSize := by
      rw [hrd]; omega
    simp only [hi, if_true, hstart, hs, Bool.not_false, Bool.and_self, h2, if_false, b0, b1, b2,
      ne_eq, not_true_eq_false, or_self, h5, h6]
    rw [hrd]
    congr 1
    omega
  · intro h
    rw [FindH264Keyframes.loop]
    by_cases hi : p.AFCOffset < kSize
    · simp only [hi, if_true, hstart, hs, Bool.not_false, Bool.and_self]
      by_cases h2 : p.AFCOffset + 2 ≥ kSize
      · simp [h2]
      · rw [if_neg h2]
        by_cases hb : rd p.data p.AFCOffset 0 ≠ 0x00 ∨ rd p.data p.AFCOffset 1 ≠ 0x00 ∨
            rd p.data p.AFCOffset 2 ≠ 0x01
        · rw [if_pos hb]
        · rw [if_neg hb]
          by_cases h5 : p.AFCOffset + 3 + 5 ≥ kSize
          · rw [if_pos h5]
          · rw [if_neg h5]
            by_cases h6 : p.AFCOffset + 3 + 6 + rd p.data (p.AFCOffset + 3) 5 ≥ kSize
            · rw [if_pos h6]
            · exfalso
              apply h
              simp only [ne_eq, not_or, not_not] at hb
              rw [hrd] at h6
              exact ⟨hb.1, hb.2.1, hb.2.2, by omega⟩
    · simp [hi]

theorem FindH264Keyframes_unsynced_step (X : Collab R P) (q : TSPacket) (s : DTVRecorder R P)
    (hq : q.PayloadStart = false) (hs : s.m_pes_synced = false) :
    FindH264Keyframes X q s = some s := by
  unfold FindH264Keyframes
  split
  · rfl
  · split
    · rfl
    · rename_i rb hrb
      have hscan : FindH264Keyframes.scan X q rb s = some (s, ScanLocals.init) := by
        unfold FindH264Keyframes.scan
        simp only [hq, Bool.false_eq_true, if_false]
        rw [FindH264Keyframes.loop]
        by_cases hi : q.AFCOffset < kSize
        · simp [hi, hq, hs]
        · simp [hi]
      rw [hscan]
      rfl

theorem feedH264_unsynced (X : Collab R P) (qs : List TSPacket) (s : DTVRecorder R P)
    (hq : ∀ q ∈ qs, q.PayloadStart = false) (hs : s.m_pes_synced = false) :
    feedH264 X qs s = some s := by
  induction qs with
  | nil => rfl
  | cons q qs ih =>
    unfold feedH264
    rw [FindH264Keyframes_unsynced_step X q s (hq q (List.mem_cons_self _ _)) hs]
    exact ih (fun q' h => hq q' (List.mem_cons_of_mem _ h))

theorem head?_drop_rd (data : List Nat) (k : Nat) (h : k < data.length) :
    (data.drop k).head? = some (rd data k 0) := by
  simp [rd, List.head?_drop, List.getD_eq_getElem?_getD, List.getElem?_eq_getElem h]

theorem testCollab_progress : ParserProgress testCollab := by
  intro p bytes pos h
  have : 0 < bytes.length := List.length_pos.mpr h
  exact ⟨this, le_refl _⟩

/-- C20, as amended. With a ring buffer attached and a parser that uses at least one
byte of what it is handed, `FindH264Keyframes` on a packet that starts a payload at
offset `a` returns, PES-synchronised exactly when the bytes at `a`, `a + 1`, `a + 2` are
`00 00 01` and `a + 9 + L < 188` for the byte `L` at `a + 8`. When synchronised, the
first bytes the parser is handed are the packet from offset `a + 9 + L` on. When not,
the parser is handed nothing, neither from this packet nor from any packets after it
that do not start a payload, and the recorder stays unsynchronised. -/
theorem FindH264Keyframes_pes_sync (X : Collab R P) (hX : ParserProgress X)
    (tspacket : TSPacket) (s : DTVRecorder R (P × List (List Nat))) (rb : R)
    (hpay : tspacket.HasPayload = true) (hstart : tspacket.PayloadStart = true)
    (hrb : s.m_ringBuffer = some rb) :
    ∃ t, FindH264Keyframes (logged X) tspacket s = some t ∧
      (t.m_pes_synced = true ↔ PESHeaderFits tspacket) ∧
      (PESHeaderFits tspacket → ∃ more,
        t.m_h264_parser_state.2 = s.m_h264_parser_state.2 ++
          tspacket.data.drop (tspacket.AFCOffset + 9 + rd tspacket.data tspacket.AFCOffset 8)
            :: more ∧
        (tspacket.data.drop
            (tspacket.AFCOffset + 9 + rd tspacket.data tspacket.AFCOffset 8)).head? =
          some (rd tspacket.data (tspacket.AFCOffset + 9 + rd tspacket.data tspacket.AFCOffset 8)
            0)) ∧
      (¬ PESHeaderFits tspacket → ∀ qs : List TSPacket, (∀ q ∈ qs, q.PayloadStart = false) →
        ∃ u, feedH264 (logged X) qs t = some u ∧ u.m_pes_synced = false ∧
          u.m_h264_parser_state.2 = s.m_h264_parser_state.2) := by
  have hF : FindH264Keyframes (logged X) tspacket s =
      (FindH264Keyframes.loop (logged X) tspacket rb (kSize + 1) tspacket.AFCOffset
        ScanLocals.init { s with m_pes_synced := false, m_start_code := 0xffffffff }).map
        (fun r => FindH264Keyframes.finish (logged X) r.2 r.1) := by
    unfold FindH264Keyframes FindH264Keyframes.scan
    simp [hpay, hrb, hstart]
  obtain ⟨c1, c2⟩ := H264_loop_start (logged X) tspacket rb ScanLocals.init
    { s with m_pes_synced := false, m_start_code := 0xffffffff } hstart rfl
  by_cases hfit : PESHeaderFits tspacket
  · have hlt : tspacket.AFCOffset + 9 + rd tspacket.data tspacket.AFCOffset 8 < kSize := hfit.2.2.2
    obtain ⟨r, extra, e1, e2, e3, -, e5⟩ := H264_loop_logged X hX tspacket rb kSize
      (tspacket.AFCOffset + 9 + rd tspacket.data tspacket.AFCOffset 8) ScanLocals.init
      { s with m_pes_synced := true, m_start_code := 0xffffffff } (Or.inr rfl)
      (by have : kSize = 188 := rfl; omega)
    obtain ⟨more, hmore⟩ := e5 rfl hlt
    have hsync := syncOf_H264_finish (logged X) r.2 r.1
    refine ⟨FindH264Keyframes.finish (logged X) r.2 r.1, ?_, ?_, ?_, fun h => absurd hfit h⟩
    · rw [hF, c1 hfit]
      show Option.map _ (FindH264Keyframes.loop (logged X) tspacket rb kSize _ ScanLocals.init
        { s with m_pes_synced := true, m_start_code := 0xffffffff }) = _
      rw [e1]
      rfl
    · have : (FindH264Keyframes.finish (logged X) r.2 r.1).m_pes_synced = true :=
        (congrArg Prod.fst hsync).trans e2
      exact ⟨fun _ => hfit, fun _ => this⟩
    · intro _
      refine ⟨more, ?_, ?_⟩
      · have : (FindH264Keyframes.finish (logged X) r.2 r.1).m_h264_parser_state =
            r.1.m_h264_parser_state := congrArg Prod.snd hsync
        rw [this, e3, hmore]
      · have hlen : tspacket.AFCOffset + 9 + rd tspacket.data tspacket.AFCOffset 8 <
            tspacket.data.length := by rw [tspacket.size_eq]; exact hlt
        exact head?_drop_rd tspacket.data _ hlen
  · have hloop := c2 hfit
    have hfin : FindH264Keyframes.finish (logged X) ScanLocals.init
        ({ s with m_pes_synced := false, m_start_code := 0xffffffff } :
          DTVRecorder R (P × List (List Nat))) =
        { s with m_pes_synced := false, m_start_code := 0xffffffff } := rfl
    refine ⟨{ s with m_pes_synced := false, m_start_code := 0xffffffff }, ?_, ?_,
      fun h => absurd h hfit, ?_⟩
    · rw [hF, hloop]
      exact congrArg some hfin
    · exact ⟨fun h => by simp at h, fun h => absurd h hfit⟩
    · intro _ qs hqs
      exact ⟨_, feedH264_unsynced (logged X) qs _ hqs rfl, rfl, rfl⟩

/-- C20, at the start of a PES packet whose header ends 4 bytes before the end of the
transport packet: the parser is handed those 4 bytes. -/
theorem FindH264Keyframes_pes_sync_witness :
    PESHeaderFits pesStartPacket ∧
    ∃ t, FindH264Keyframes (logged testCollab) pesStartPacket loggedRec = some t ∧
      t.m_pes_synced = true ∧
      ∃ more, t.m_h264_parser_state.2 = [0x11, 0x22, 0x33, 0x44] :: more := by
  obtain ⟨t, h1, h2, h3, -⟩ := FindH264Keyframes_pes_sync testCollab testCollab_progress
    pesStartPacket loggedRec { pos := 0, fails := false } rfl rfl rfl
  have hfit : PESHeaderFits pesStartPacket := by decide
  obtain ⟨more, hm, -⟩ := h3 hfit
  have e : List.drop (pesStartPacket.AFCOffset + 9 +
      rd pesStartPacket.data pesStartPacket.AFCOffset 8) pesStartPacket.data =
      [0x11, 0x22, 0x33, 0x44] := by decide
  have e0 : loggedRec.m_h264_parser_state.2 = [] := rfl
  rw [e, e0] at hm
  exact ⟨hfit, t, h1, h2.mpr hfit, more, hm⟩

/-- C20 as stated fails without a ring buffer: `FindH264Keyframes` returns at once, so a
recorder that was PES-synchronised stays so after a packet that starts a payload without
the bytes `00 00 01`. -/
theorem FindH264Keyframes_no_sink_counterexample :
    (mkPacket true [0x11, 0x22, 0x33, 0x44]).HasPayload = true ∧
    (mkPacket true [0x11, 0x22, 0x33, 0x44]).PayloadStart = true ∧
    ¬ PESHeaderFits (mkPacket true [0x11, 0x22, 0x33, 0x44]) ∧
    (FindH264Keyframes testCollab (mkPacket true [0x11, 0x22, 0x33, 0x44]) syncedNoSink).map
      (fun t => t.m_pes_synced) = some true := by
  decide

/-! ### The gate before the first keyframe (C14) -/

theorem wOf_SetRecordingStatusFailing (s : DTVRecorder R P) :
    wOf (SetRecordingStatusFailing s) = wOf s := by
  simp [wOf, SetRecordingStatusFailing, writesOf_append, writesOf]

theorem wOf_reportChanges (l : ScanLocals) (s : DTVRecorder R P) :
    wOf (reportChanges l s) = wOf s := by
  unfold reportChanges
  dsimp only
  split <;> split <;> split <;> simp [wOf, writesOf_append, writesOf]

theorem wOf_countAndCheck (p : TSPacket) (s : DTVRecorder R P) :
    wOf (countAndCheck p s) = wOf s := by
  unfold countAndCheck CheckCC
  dsimp only
  split <;> [skip; rfl]
  split <;> rfl

theorem wOf_recordGap (X : Collab R P) (sid : Nat) (ts : Int) (s : DTVRecorder R P) :
    wOf (recordGap X sid ts s) = wOf s := by
  unfold recordGap
  dsimp only
  split
  · split
    · rw [wOf_SetRecordingStatusFailing]; rfl
    · rfl
  · rfl

theorem wOf_HandleTimestamps (X : Collab R P) (sid : Nat) (pts dts : Int) (s : DTVRecorder R P) :
    wOf (HandleTimestamps X sid pts dts s) = wOf s := by
  have h1 : ∀ t : DTVRecorder R P, wOf (HandleTimestamps.downgrade sid dts t) = wOf t := by
    intro t; unfold HandleTimestamps.downgrade; split <;> rfl
  have h2 : ∀ t : DTVRecorder R P, wOf (HandleTimestamps.checkGap X sid dts t) = wOf t := by
    intro t; unfold HandleTimestamps.checkGap; dsimp only
    split
    · split
      · exact wOf_recordGap X sid dts t
      · rfl
    · rfl
  have h3 : ∀ t : DTVRecorder R P, wOf (HandleTimestamps.note sid dts t) = wOf t := by
    intro t; unfold HandleTimestamps.note; dsimp only
    split
    · split
      · rfl
      · split <;> rfl
    · rfl
  unfold HandleTimestamps
  split
  · rfl
  · dsimp only
    rw [h3, h2, h1]

theorem wOf_handleExtension (data : List Nat) (bufptr : Nat) (bl : Int) (s : DTVRecorder R P) :
    wOf (handleExtension data bufptr bl s) = wOf s := by
  unfold handleExtension
  dsimp only
  split
  · split
    · split <;> rfl
    · split
      · split <;> rfl
      · rfl
  · rfl

theorem wOf_handleVideoPES (X : Collab R P) (data : List Nat) (bufptr : Nat) (bl : Int)
    (sid : Nat) (l : ScanLocals) (s : DTVRecorder R P) :
    wOf (handleVideoPES X data bufptr bl sid l s).1 = wOf s := by
  unfold handleVideoPES
  dsimp only
  split
  · exact wOf_HandleTimestamps X sid _ _ s
  · exact wOf_HandleTimestamps X sid _ _ s

theorem wOf_onStartCode (X : Collab R P) (data : List Nat) (bufptr : Nat)
    (l : ScanLocals) (s : DTVRecorder R P) :
    wOf (FindMPEG2Keyframes.onStartCode X data bufptr l s).1 = wOf s := by
  unfold FindMPEG2Keyframes.onStartCode
  dsimp only
  have h : wOf (if PictureStartCode = s.m_start_code &&& 0x000000ff then
        (s, { l with hasFrame := true })
      else if GOPStartCode = s.m_start_code &&& 0x000000ff then
        ({ s with m_last_gop_seen := s.m_frames_seen_count }, { l with hasKeyFrame := true })
      else if SequenceStartCode = s.m_start_code &&& 0x000000ff then
        ({ s with m_last_seq_seen := s.m_frames_seen_count },
         { l with
           hasKeyFrame := l.hasKeyFrame ||
             decide (s.m_last_gop_seen + kMaxKeyFrameDistance < s.m_frames_seen_count)
           aspectRatio := rd data bufptr 3 >>> 4
           height := ((rd data bufptr 1 &&& 0xf) <<< 8) ||| rd data bufptr 2
           width := (rd data bufptr 0 <<< 4) ||| (rd data bufptr 1 >>> 4)
           frameRate := frameRateMap (rd data bufptr 3 &&& 0x0000000f) })
      else if MPEG2ExtensionStartCode = s.m_start_code &&& 0x000000ff then
        (handleExtension data bufptr ((kSize : Int) - (bufptr : Int)) s, l)
      else (s, l) : DTVRecorder R P × ScanLocals).1 = wOf s := by
    split
    · rfl
    · split
      · rfl
      · split
        · rfl
        · split
          · exact wOf_handleExtension _ _ _ s
          · rfl
  split
  · rw [wOf_handleVideoPES]; exact h
  · exact h

theorem wOf_MPEG2_loop (X : Collab R P) (data : List Nat) (fuel : Nat) :
    ∀ (bufptr : Nat) (l : ScanLocals) (s : DTVRecorder R P),
    wOf (FindMPEG2Keyframes.loop X data fuel bufptr l s).1 = wOf s := by
  induction fuel with
  | zero => intro bufptr l s; rfl
  | succ n ih =>
    intro bufptr l s
    unfold FindMPEG2Keyframes.loop
    dsimp only
    split
    · split
      · rw [ih, wOf_onStartCode]; rfl
      · rw [ih]; rfl
    · rfl

theorem wOf_MPEG2_scan (X : Collab R P) (p : TSPacket) (s : DTVRecorder R P) :
    wOf (FindMPEG2Keyframes.scan X p s).1 = wOf s := by
  unfold FindMPEG2Keyframes.scan
  dsimp only
  rw [wOf_MPEG2_loop]; rfl

theorem wOf_H264_feed (X : Collab R P) (data : List Nat) (i : Nat) (rb : R)
    (l : ScanLocals) (s : DTVRecorder R P) :
    wOf (FindH264Keyframes.feed X data i rb l s).1.1 = wOf s := by
  unfold FindH264Keyframes.feed
  dsimp only
  split <;> rfl

theorem Gated_refl (s : DTVRecorder R P) : Gated [] s s :=
  ⟨rfl, fun h => ⟨h, rfl, fun _ => by simp⟩⟩

theorem Gated_trans {a b : List (List Nat)} {s u t : DTVRecorder R P}
    (h1 : Gated a s u) (h2 : Gated b u t) : Gated (a ++ b) s t := by
  refine ⟨h2.1.trans h1.1, fun ht => ?_⟩
  obtain ⟨u1, u2, u3⟩ := h2.2 ht
  obtain ⟨s1, s2, s3⟩ := h1.2 u1
  refine ⟨s1, u2.trans s2, fun hw => ?_⟩
  rw [u3 (h1.1.trans hw), s3 hw, List.append_assoc]

theorem Gated_quiet_trans {a : List (List Nat)} {s u t : DTVRecorder R P}
    (h1 : Gated [] s u) (h2 : Gated a u t) : Gated a s t := by
  have := Gated_trans h1 h2
  simpa using this

theorem Gated_trans_quiet {a : List (List Nat)} {s u t : DTVRecorder R P}
    (h1 : Gated a s u) (h2 : Gated [] u t) : Gated a s t := by
  have := Gated_trans h1 h2
  simpa using this

theorem Gated_of_gateOf {s t : DTVRecorder R P} (h : gateOf t = gateOf s) : Gated [] s t := by
  simp only [gateOf, Prod.mk.injEq] at h
  obtain ⟨h1, h2, h3, h4⟩ := h
  exact ⟨h1, fun ht => ⟨h2 ▸ ht, h3, fun _ => by simp [h4]⟩⟩

theorem Gated_of_core {s t : DTVRecorder R P} (hc : coreOf t = coreOf s)
    (hw : s.m_wait_for_keyframe_option = true → s.m_first_keyframe < 0 → wOf t = wOf s) :
    Gated [] s t := by
  have h1 : t.m_wait_for_keyframe_option = s.m_wait_for_keyframe_option :=
    congrArg Core.wait_for_keyframe_option hc
  have h2 : t.m_first_keyframe = s.m_first_keyframe := congrArg Core.first_keyframe hc
  have h3 : t.m_ringBuffer.isSome = s.m_ringBuffer.isSome := congrArg Core.hasRing hc
  exact ⟨h1, fun ht => ⟨h2 ▸ ht, h3, fun hwt => by simp [hw hwt (h2 ▸ ht)]⟩⟩

theorem Gated_of_found {ins : List (List Nat)} {s t : DTVRecorder R P}
    (h1 : t.m_wait_for_keyframe_option = s.m_wait_for_keyframe_option)
    (h2 : 0 ≤ t.m_first_keyframe) : Gated ins s t :=
  ⟨h1, fun ht => absurd ht (not_lt.mpr h2)⟩

theorem gateOf_UpdateFramesWritten (s : DTVRecorder R P) :
    gateOf (UpdateFramesWritten s) = gateOf s := by
  obtain ⟨a, b, c, d, h⟩ := UpdateFramesWritten_shape s
  rw [h]
  rfl

theorem gateOf_onFrame (s : DTVRecorder R P) : gateOf (onFrame s) = gateOf s := by
  unfold onFrame
  dsimp only
  split
  · rw [gateOf_UpdateFramesWritten]; rfl
  · rfl

theorem gateOf_of_core {s t : DTVRecorder R P} (hc : coreOf t = coreOf s)
    (hw : wOf t = wOf s) : gateOf t = gateOf s := by
  have h1 : t.m_wait_for_keyframe_option = s.m_wait_for_keyframe_option :=
    congrArg Core.wait_for_keyframe_option hc
  have h2 : t.m_first_keyframe = s.m_first_keyframe := congrArg Core.first_keyframe hc
  have h3 : t.m_ringBuffer.isSome = s.m_ringBuffer.isSome := congrArg Core.hasRing hc
  unfold gateOf
  rw [h1, h2, h3, hw]

theorem gateOf_reportChanges (l : ScanLocals) (s : DTVRecorder R P) :
    gateOf (reportChanges l s) = gateOf s :=
  gateOf_of_core (reportChanges_core l s) (wOf_reportChanges l s)

theorem noteFirstKeyframe_found (s : DTVRecorder R P) :
    0 ≤ (noteFirstKeyframe s).m_first_keyframe ∧
    (noteFirstKeyframe s).m_wait_for_keyframe_option = s.m_wait_for_keyframe_option := by
  unfold noteFirstKeyframe
  split
  · exact ⟨Int.ofNat_nonneg _, rfl⟩
  · rename_i h
    exact ⟨not_lt.mp h, rfl⟩

theorem CheckForRingBufferSwitch_wait (s : DTVRecorder R P) :
    (CheckForRingBufferSwitch s).m_wait_for_keyframe_option = s.m_wait_for_keyframe_option := by
  unfold CheckForRingBufferSwitch
  split <;> rfl

theorem Gated_HandleKeyframe (X : Collab R P) (extra : Int) (s : DTVRecorder R P) :
    Gated [] s (HandleKeyframe X extra s) := by
  cases hrb : s.m_ringBuffer with
  | none =>
    have : HandleKeyframe X extra s = s := by simp [HandleKeyframe, hrb]
    rw [this]
    exact Gated_refl s
  | some rb =>
    obtain ⟨n1, n2⟩ := noteFirstKeyframe_found (CheckForRingBufferSwitch s)
    have hw := CheckForRingBufferSwitch_wait s
    apply Gated_of_found
    · unfold HandleKeyframe
      simp only [hrb]
      split
      · split
        · exact n2.trans hw
        · split
          · exact n2.trans hw
          · exact n2.trans hw
      · exact n2.trans hw
    · unfold HandleKeyframe
      simp only [hrb]
      split
      · split
        · exact n1
        · split
          · exact n1
          · exact n1
      · exact n1

theorem Gated_HandleH264Keyframe (X : Collab R P) (s : DTVRecorder R P) :
    Gated [] s (HandleH264Keyframe X s) := by
  obtain ⟨n1, n2⟩ := noteFirstKeyframe_found (CheckForRingBufferSwitch s)
  have hw := CheckForRingBufferSwitch_wait s
  apply Gated_of_found
  · unfold HandleH264Keyframe
    dsimp only
    split
    · exact n2.trans hw
    · exact n2.trans hw
  · unfold HandleH264Keyframe
    dsimp only
    split
    · exact n1
    · exact n1

theorem wOf_H264_loop (X : Collab R P) (p : TSPacket) (rb : R) (fuel : Nat) :
    ∀ (i : Nat) (l : ScanLocals) (s : DTVRecorder R P) (r : DTVRecorder R P × ScanLocals),
    FindH264Keyframes.loop X p rb fuel i l s = some r → wOf r.1 = wOf s := by
  induction fuel with
  | zero =>
    intro i l s r h
    simp [FindH264Keyframes.loop] at h
  | succ n ih =>
    intro i l s r h
    unfold FindH264Keyframes.loop at h
    dsimp only at h
    split at h
    · split at h
      · split at h
        · cases h; rfl
        · split at h
          · cases h; rfl
          · split at h
            · cases h; rfl
            · split at h
              · cases h; rfl
              · rw [ih _ _ _ _ h]; rfl
      · split at h
        · cases h; rfl
        · rw [ih _ _ _ _ h]
          exact wOf_H264_feed X _ _ _ _ _
    · cases h; rfl

theorem wOf_H264_scan (X : Collab R P) (p : TSPacket) (rb : R) (s : DTVRecorder R P)
    (r : DTVRecorder R P × ScanLocals) (h : FindH264Keyframes.scan X p rb s = some r) :
    wOf r.1 = wOf s := by
  unfold FindH264Keyframes.scan at h
  dsimp only at h
  rw [wOf_H264_loop X p rb _ _ _ _ _ h]
  split <;> rfl

theorem Gated_BufferedWrite_false (X : Collab R P) (p : TSPacket) (s : DTVRecorder R P) :
    Gated [] s (BufferedWrite X p false s) := by
  apply Gated_of_core (BufferedWrite_core X p false s)
  intro hw hf
  unfold BufferedWrite
  cases hb : s.m_buffer_packets <;> simp [hw, hf, wOf]

theorem Gated_BufferedWrite_true (X : Collab R P) (p : TSPacket) (s : DTVRecorder R P) :
    Gated (if s.m_ringBuffer.isSome then [p.data] else []) s (BufferedWrite X p true s) := by
  have hc := BufferedWrite_core X p true s
  have h1 : (BufferedWrite X p true s).m_wait_for_keyframe_option =
      s.m_wait_for_keyframe_option := congrArg Core.wait_for_keyframe_option hc
  have h2 : (BufferedWrite X p true s).m_first_keyframe = s.m_first_keyframe :=
    congrArg Core.first_keyframe hc
  have h3 : (BufferedWrite X p true s).m_ringBuffer.isSome = s.m_ringBuffer.isSome :=
    congrArg Core.hasRing hc
  refine ⟨h1, fun ht => ⟨h2 ▸ ht, h3, fun _ => ?_⟩⟩
  cases hrb : s.m_ringBuffer with
  | none => simp [BufferedWrite, writePacket, hrb, wOf]
  | some rb =>
    have hbw : BufferedWrite X p true s = writePacket X p s := by simp [BufferedWrite]
    rw [hbw]
    simpa [wOf] using (writePacket_writes X p s rb hrb).2.2.1

theorem Gated_onPayloadStart (X : Collab R P) (p : TSPacket) (s : DTVRecorder R P) :
    Gated [] s (onPayloadStart X p s) := by
  apply Gated_of_core (onPayloadStart_core X p s)
  intro _ hf
  unfold onPayloadStart
  have hd : decide (s.m_first_keyframe ≥ 0) = false := by simpa using hf
  split
  · simp only [hd, Bool.and_false, Bool.false_and, Bool.false_eq_true, if_false]
    rfl
  · rfl

theorem Gated_quiet_step {s : DTVRecorder R P} (f : DTVRecorder R P → DTVRecorder R P)
    (hf : ∀ u, gateOf (f u) = gateOf u) : Gated [] s (f s) :=
  Gated_of_gateOf (hf s)

theorem Gated_FindOtherKeyframes (X : Collab R P) (s : DTVRecorder R P) :
    Gated [] s (FindOtherKeyframes X s) := by
  unfold FindOtherKeyframes
  split
  · exact Gated_refl s
  · split
    · exact Gated_refl s
    · dsimp only
      have h1 : Gated [] s (markKeyframeSeen (UpdateFramesWritten (countFrame s))) :=
        Gated_of_gateOf (by
          show gateOf (UpdateFramesWritten (countFrame s)) = _
          rw [gateOf_UpdateFramesWritten]; rfl)
      have h2 := Gated_HandleKeyframe X
        ((markKeyframeSeen (UpdateFramesWritten (countFrame s))).m_payload_buffer.length : Int)
        (markKeyframeSeen (UpdateFramesWritten (countFrame s)))
      have h3 := Gated_quiet_trans h1 h2
      exact ⟨h3.1, h3.2⟩

theorem Gated_FindAudioKeyframes (X : Collab R P) (e : Nat) (s : DTVRecorder R P) :
    Gated [] s (FindAudioKeyframes X e s) := by
  unfold FindAudioKeyframes
  split
  · exact Gated_refl s
  · split
    · dsimp only
      have h1 : Gated [] s (countFrame (stopBuffering s)) := Gated_of_gateOf rfl
      have h2 : Gated [] (countFrame (stopBuffering s))
          (if 1 = (countFrame (stopBuffering s)).m_frames_seen_count &&& 0x7 then
            HandleKeyframe X ((countFrame (stopBuffering s)).m_payload_buffer.length : Int)
              (markKeyframeSeen (countFrame (stopBuffering s)))
          else countFrame (stopBuffering s)) := by
        split
        · exact Gated_quiet_trans (Gated_of_gateOf (s := countFrame (stopBuffering s))
            (t := markKeyframeSeen (countFrame (stopBuffering s))) rfl)
            (Gated_HandleKeyframe X _ _)
        · exact Gated_refl _
      have h12 := Gated_quiet_trans h1 h2
      generalize (if 1 = (countFrame (stopBuffering s)).m_frames_seen_count &&& 0x7 then
            HandleKeyframe X ((countFrame (stopBuffering s)).m_payload_buffer.length : Int)
              (markKeyframeSeen (countFrame (stopBuffering s)))
          else countFrame (stopBuffering s)) = s2 at h12 ⊢
      split
      · exact Gated_trans_quiet h12 (Gated_of_gateOf (gateOf_UpdateFramesWritten _))
      · exact h12
    · exact Gated_refl s

/-- What follows the loop in both video detectors. -/
theorem Gated_after_scan (l : ScanLocals) (c : Bool) (f : DTVRecorder R P → DTVRecorder R P)
    (hf : ∀ u, Gated [] u (f u)) (s : DTVRecorder R P) :
    Gated [] s (reportChanges l
      (if l.hasFrame = true then onFrame (if c = true then f (markKeyframeSeen s) else s)
       else (if c = true then f (markKeyframeSeen s) else s))) := by
  have h1 : Gated [] s (if c = true then f (markKeyframeSeen s) else s) := by
    split
    · exact Gated_quiet_trans (Gated_of_gateOf (s := s) (t := markKeyframeSeen s) rfl) (hf _)
    · exact Gated_refl s
  have h2 : Gated [] s
      (if l.hasFrame = true then onFrame (if c = true then f (markKeyframeSeen s) else s)
       else (if c = true then f (markKeyframeSeen s) else s)) := by
    split
    · exact Gated_trans_quiet h1 (Gated_of_gateOf (gateOf_onFrame _))
    · exact h1
  exact Gated_trans_quiet h2 (Gated_of_gateOf (gateOf_reportChanges l _))

theorem Gated_MPEG2_finish (X : Collab R P) (l : ScanLocals) (s : DTVRecorder R P) :
    Gated [] s (FindMPEG2Keyframes.finish X l s) :=
  Gated_after_scan l _ (HandleKeyframe X 0) (Gated_HandleKeyframe X 0) s

theorem Gated_H264_finish (X : Collab R P) (l : ScanLocals) (s : DTVRecorder R P) :
    Gated [] s (FindH264Keyframes.finish X l s) :=
  Gated_after_scan l _ (HandleH264Keyframe X) (Gated_HandleH264Keyframe X) s

theorem Gated_FindMPEG2Keyframes (X : Collab R P) (p : TSPacket) (s : DTVRecorder R P) :
    Gated [] s (FindMPEG2Keyframes X p s) := by
  unfold FindMPEG2Keyframes
  split
  · exact Gated_refl s
  · split
    · exact Gated_refl s
    · dsimp only
      exact Gated_quiet_trans
        (Gated_of_gateOf (gateOf_of_core (MPEG2_scan_core X p s) (wOf_MPEG2_scan X p s)))
        (Gated_MPEG2_finish X _ _)

theorem Gated_FindH264Keyframes (X : Collab R P) (p : TSPacket) (s t : DTVRecorder R P)
    (h : FindH264Keyframes X p s = some t) : Gated [] s t := by
  unfold FindH264Keyframes at h
  split at h
  · cases h; exact Gated_refl s
  · split at h
    · cases h; exact Gated_refl s
    · rename_i rb hrb
      cases hs : FindH264Keyframes.scan X p rb s with
      | none => rw [hs] at h; cases h
      | some r =>
        rw [hs] at h
        cases h
        exact Gated_quiet_trans
          (Gated_of_gateOf (gateOf_of_core (H264_scan_core X p rb s r hs)
            (wOf_H264_scan X p rb s r hs)))
          (Gated_H264_finish X _ _)

theorem Gated_ProcessAVTSPacket (X : Collab R P) (p : TSPacket) (s : DTVRecorder R P) :
    Gated [] s (ProcessAVTSPacket X p s) := by
  apply Gated_of_core (ProcessAVTSPacket_core X p s)
  intro hw hf
  unfold ProcessAVTSPacket
  simp only [hw, hf, decide_True, Bool.and_self, if_true]
  split
  · have := (Gated_BufferedWrite_false X p s).2
    have hc := BufferedWrite_core X p false s
    have h2 : (BufferedWrite X p false s).m_first_keyframe = s.m_first_keyframe :=
      congrArg Core.first_keyframe hc
    simpa using (this (h2 ▸ hf)).2.2 hw
  · rfl

theorem Gated_ProcessTSPacket (X : Collab R P) (p : TSPacket) (e : Int) (s : DTVRecorder R P) :
    Gated [] s (ProcessTSPacket X p e s) := by
  rw [ProcessTSPacket_eq_dispatch]
  have h0 : Gated [] s (countAndCheck p s) :=
    Gated_of_gateOf (gateOf_of_core (countAndCheck_core p s) (wOf_countAndCheck p s))
  refine Gated_quiet_trans h0 ?_
  generalize countAndCheck p s = u
  unfold ProcessTSPacket.dispatch
  split
  · exact Gated_quiet_trans (Gated_FindOtherKeyframes X u)
      (Gated_quiet_trans (Gated_of_gateOf (s := FindOtherKeyframes X u)
        (t := stopBuffering (FindOtherKeyframes X u)) rfl) (Gated_BufferedWrite_false X p _))
  · split
    · dsimp only
      have h1 : Gated [] u (countFrame u) := Gated_of_gateOf rfl
      have h2 : Gated [] (countFrame u) (if e > 500 then
          HandleKeyframe X ((UpdateFramesWritten (countFrame u)).m_payload_buffer.length : Int)
            (markKeyframeSeen (UpdateFramesWritten (countFrame u)))
          else countFrame u) := by
        split
        · exact Gated_quiet_trans (Gated_of_gateOf (s := countFrame u)
            (t := markKeyframeSeen (UpdateFramesWritten (countFrame u))) (by
              show gateOf (UpdateFramesWritten (countFrame u)) = _
              rw [gateOf_UpdateFramesWritten])) (Gated_HandleKeyframe X _ _)
        · exact Gated_refl _
      exact Gated_quiet_trans (Gated_quiet_trans h1 h2) (Gated_BufferedWrite_false X p _)
    · split
      · exact Gated_refl u
      · split
        · exact Gated_refl u
        · exact Gated_BufferedWrite_false X p u

theorem Gated_ProcessVideoTSPacket (X : Collab R P) (p : TSPacket) (s t : DTVRecorder R P)
    (h : ProcessVideoTSPacket X p s = some t) : Gated [] s t := by
  unfold ProcessVideoTSPacket at h
  split at h
  · cases h; exact Gated_refl s
  · dsimp only at h
    have h1 := Gated_onPayloadStart X p s
    split at h
    · cases hd : FindH264Keyframes X p (onPayloadStart X p s) with
      | none => rw [hd] at h; cases h
      | some u =>
        rw [hd] at h
        cases h
        exact Gated_quiet_trans h1 (Gated_quiet_trans (Gated_FindH264Keyframes X p _ u hd)
          (Gated_ProcessAVTSPacket X p u))
    · split at h
      · cases h
        exact Gated_quiet_trans h1 (Gated_quiet_trans (Gated_FindMPEG2Keyframes X p _)
          (Gated_ProcessAVTSPacket X p _))
      · cases h
        exact Gated_quiet_trans h1 (Gated_ProcessAVTSPacket X p _)

theorem Gated_ProcessAudioTSPacket (X : Collab R P) (p : TSPacket) (e : Nat)
    (s : DTVRecorder R P) : Gated [] s (ProcessAudioTSPacket X p e s) := by
  unfold ProcessAudioTSPacket
  split
  · exact Gated_refl s
  · dsimp only
    exact Gated_quiet_trans (Gated_onPayloadStart X p s)
      (Gated_quiet_trans (Gated_FindAudioKeyframes X e _) (Gated_ProcessAVTSPacket X p _))

theorem Gated_call (X : Collab R P) (c : PacketCall) (s t : DTVRecorder R P)
    (h : c.apply X s = some t) :
    Gated (if s.m_ringBuffer.isSome then insertedPackets [c] else []) s t := by
  cases c with
  | tsPacket p e =>
    cases h
    simpa [insertedPackets] using Gated_ProcessTSPacket X p e s
  | videoPacket p =>
    simpa [insertedPackets] using Gated_ProcessVideoTSPacket X p s t h
  | audioPacket p e =>
    cases h
    simpa [insertedPackets] using Gated_ProcessAudioTSPacket X p e s
  | bufferedWrite p i =>
    cases h
    cases i with
    | false => simpa [insertedPackets] using Gated_BufferedWrite_false X p s
    | true => simpa [insertedPackets] using Gated_BufferedWrite_true X p s

theorem insertedPackets_cons (c : PacketCall) (cs : List PacketCall) :
    insertedPackets (c :: cs) = insertedPackets [c] ++ insertedPackets cs := by
  cases c with
  | bufferedWrite p i => cases i <;> simp [insertedPackets]
  | _ => simp [insertedPackets]

theorem Gated_runCalls (X : Collab R P) (cs : List PacketCall) :
    ∀ (s t : DTVRecorder R P), runCalls X cs s = some t →
    Gated (if s.m_ringBuffer.isSome then insertedPackets cs else []) s t := by
  induction cs with
  | nil =>
    intro s t h
    cases h
    simpa [insertedPackets] using Gated_refl s
  | cons c cs ih =>
    intro s t h
    unfold runCalls at h
    cases hc : c.apply X s with
    | none => rw [hc] at h; cases h
    | some u =>
      rw [hc] at h
      have h1 := Gated_call X c s u hc
      have h2 := ih u t h
      refine ⟨h2.1.trans h1.1, fun ht => ?_⟩
      obtain ⟨u1, u2, u3⟩ := h2.2 ht
      obtain ⟨s1, s2, s3⟩ := h1.2 u1
      refine ⟨s1, u2.trans s2, fun hw => ?_⟩
      rw [u3 (h1.1.trans hw), s3 hw, s2, insertedPackets_cons c cs]
      cases s.m_ringBuffer.isSome <;> simp

theorem onFrame_drops (v : DTVRecorder R P) (hw : v.m_wait_for_keyframe_option = true)
    (hf : v.m_first_keyframe < 0) :
    (onFrame v).m_payload_buffer = [] ∧ (onFrame v).m_buffer_packets = false := by
  unfold onFrame
  have h1 : (countFrame (stopBuffering v)).m_wait_for_keyframe_option = true := hw
  have h2 : decide ((countFrame (stopBuffering v)).m_first_keyframe ≥ 0) = false := by
    simpa using hf
  rw [if_neg (by simp [h1, h2])]
  exact ⟨rfl, rfl⟩

theorem reportChanges_buffer (l : ScanLocals) (s : DTVRecorder R P) :
    (reportChanges l s).m_payload_buffer = s.m_payload_buffer ∧
    (reportChanges l s).m_buffer_packets = s.m_buffer_packets := by
  unfold reportChanges
  dsimp only
  split <;> split <;> split <;> exact ⟨rfl, rfl⟩

/-- After the loop of a video detector that found a frame: if the recorder waits for a
keyframe and still has none, the payload buffer was emptied and buffering stopped. -/
theorem after_scan_drops (l : ScanLocals) (c : Bool) (f : DTVRecorder R P → DTVRecorder R P)
    (s : DTVRecorder R P) (hl : l.hasFrame = true)
    (hw : (reportChanges l
      (if l.hasFrame = true then onFrame (if c = true then f (markKeyframeSeen s) else s)
       else (if c = true then f (markKeyframeSeen s) else s))).m_wait_for_keyframe_option = true)
    (hf : (reportChanges l
      (if l.hasFrame = true then onFrame (if c = true then f (markKeyframeSeen s) else s)
       else (if c = true then f (markKeyframeSeen s) else s))).m_first_keyframe < 0) :
    (reportChanges l
      (if l.hasFrame = true then onFrame (if c = true then f (markKeyframeSeen s) else s)
       else (if c = true then f (markKeyframeSeen s) else s))).m_payload_buffer = [] ∧
    (reportChanges l
      (if l.hasFrame = true then onFrame (if c = true then f (markKeyframeSeen s) else s)
       else (if c = true then f (markKeyframeSeen s) else s))).m_buffer_packets = false := by
  rw [if_pos hl] at hw hf ⊢
  generalize (if c = true then f (markKeyframeSeen s) else s) = v at hw hf ⊢
  have g1 := gateOf_reportChanges l (onFrame v)
  have g2 := gateOf_onFrame v
  have g := g1.trans g2
  simp only [gateOf, Prod.mk.injEq] at g
  obtain ⟨b1, b2⟩ := reportChanges_buffer l (onFrame v)
  obtain ⟨d1, d2⟩ := onFrame_drops v (g.1 ▸ hw) (g.2.1 ▸ hf)
  exact ⟨b1.trans d1, b2.trans d2⟩

theorem ProcessAVTSPacket_gate_closed (X : Collab R P) (p : TSPacket) (s : DTVRecorder R P)
    (hw : s.m_wait_for_keyframe_option = true) (hf : s.m_first_keyframe < 0)
    (hb : s.m_buffer_packets = false) : ProcessAVTSPacket X p s = s := by
  unfold ProcessAVTSPacket
  simp [hw, hf, hb]

/-- A video packet that confirms a frame while no keyframe is found: the payload buffer
is emptied and nothing is written. -/
theorem video_frame_before_keyframe (X : Collab R P) (p : TSPacket) (s t : DTVRecorder R P)
    (hw : s.m_wait_for_keyframe_option = true) (h : ProcessVideoTSPacket X p s = some t)
    (ht : t.m_first_keyframe < 0) (hv : videoHasFrame X p s = true) :
    t.m_payload_buffer = [] ∧ t.m_buffer_packets = false ∧ wOf t = wOf s := by
  have hg := Gated_ProcessVideoTSPacket X p s t h
  have hwt : wOf t = wOf s := by simpa using (hg.2 ht).2.2 hw
  suffices hb : t.m_payload_buffer = [] ∧ t.m_buffer_packets = false from ⟨hb.1, hb.2, hwt⟩
  · unfold videoHasFrame at hv
    unfold ProcessVideoTSPacket at h
    cases hp : p.HasPayload with
    | false => simp [hp] at hv
    | true =>
      simp only [hp, Bool.not_true, Bool.false_eq_true, if_false] at hv
      have hc1 := onPayloadStart_core X p s
      have hw1 : (onPayloadStart X p s).m_wait_for_keyframe_option = true :=
        (congrArg Core.wait_for_keyframe_option hc1).trans hw
      cases hrb : (onPayloadStart X p s).m_ringBuffer with
      | none => simp [hrb] at hv
      | some rb =>
        have hsome : s.m_ringBuffer.isNone = false := by
          have : (onPayloadStart X p s).m_ringBuffer.isSome = s.m_ringBuffer.isSome :=
            congrArg Core.hasRing hc1
          rw [hrb] at this
          cases hs : s.m_ringBuffer with
          | none => rw [hs] at this; simp at this
          | some _ => rfl
        simp only [hrb] at hv
        simp only [hsome, Bool.false_eq_true, if_false] at h
        generalize onPayloadStart X p s = s1 at hv h hw1 hrb
        -- the detector result `u` and what it leaves
        have key : ∀ u : DTVRecorder R P, u.m_wait_for_keyframe_option = true →
            (u.m_first_keyframe < 0 → u.m_payload_buffer = [] ∧ u.m_buffer_packets = false) →
            ProcessAVTSPacket X p u = t →
            t.m_payload_buffer = [] ∧ t.m_buffer_packets = false := by
          intro u hu1 hu2 hu3
          have hcu := ProcessAVTSPacket_core X p u
          rw [hu3] at hcu
          have hfu : u.m_first_keyframe < 0 := by
            have : t.m_first_keyframe = u.m_first_keyframe := congrArg Core.first_keyframe hcu
            rw [← this]; exact ht
          obtain ⟨q1, q2⟩ := hu2 hfu
          rw [ProcessAVTSPacket_gate_closed X p u hu1 hfu q2] at hu3
          rw [← hu3]
          exact ⟨q1, q2⟩
        by_cases h264 : s.m_stream_id p.PID = H264Video
        · simp only [h264, if_true] at hv h
          cases hs : FindH264Keyframes.scan X p rb s1 with
          | none => simp [hs] at hv
          | some r =>
            simp only [hs] at hv
            have hF : FindH264Keyframes X p s1 = some (FindH264Keyframes.finish X r.2 r.1) := by
              unfold FindH264Keyframes
              simp [hp, hrb, hs]
            rw [hF] at h
            simp only [Option.map_some', Option.some.injEq] at h
            have hcr := H264_scan_core X p rb s1 r hs
            have hwr : r.1.m_wait_for_keyframe_option = true :=
              (congrArg Core.wait_for_keyframe_option hcr).trans hw1
            have hwf : (FindH264Keyframes.finish X r.2 r.1).m_wait_for_keyframe_option = true :=
              (Gated_H264_finish X r.2 r.1).1.trans hwr
            have := key _ hwf
              (fun hf => after_scan_drops r.2 _ (HandleH264Keyframe X) r.1 hv hwf hf) h
            exact this
        · simp only [h264, if_false] at hv h
          by_cases h0 : s.m_stream_id p.PID ≠ 0
          · simp only [h0, ne_eq, not_false_eq_true, if_true] at hv h
            simp only [Option.map_some', Option.some.injEq] at h
            have hF : FindMPEG2Keyframes X p s1 =
                FindMPEG2Keyframes.finish X (FindMPEG2Keyframes.scan X p s1).2
                  (FindMPEG2Keyframes.scan X p s1).1 := by
              unfold FindMPEG2Keyframes
              simp [hp, hrb]
            rw [hF] at h
            have hcr := MPEG2_scan_core X p s1
            have hwr : (FindMPEG2Keyframes.scan X p s1).1.m_wait_for_keyframe_option = true :=
              (congrArg Core.wait_for_keyframe_option hcr).trans hw1
            have hwf : (FindMPEG2Keyframes.finish X (FindMPEG2Keyframes.scan X p s1).2
                (FindMPEG2Keyframes.scan X p s1).1).m_wait_for_keyframe_option = true :=
              (Gated_MPEG2_finish X _ _).1.trans hwr
            have := key _ hwf
              (fun hf => after_scan_drops (FindMPEG2Keyframes.scan X p s1).2 _
                (HandleKeyframe X 0) (FindMPEG2Keyframes.scan X p s1).1 hv hwf hf) h
            exact this
          · simp [h0] at hv

/-- C14. On a recorder that waits for a keyframe, after any sequence of calls of
`ProcessTSPacket`, `ProcessVideoTSPacket`, `ProcessAudioTSPacket` and `BufferedWrite`
that returns with `m_first_keyframe` still negative, `m_first_keyframe` was negative at
the start and the only writes made are, in call order, the packets that were passed to
`BufferedWrite` with `insert` set (none without a ring buffer). And when
`ProcessVideoTSPacket` returns with `m_first_keyframe` negative for a packet in which the
detector confirmed a frame, the payload buffer is empty and nothing was written. -/
theorem no_write_before_first_keyframe (X : Collab R P) (s : DTVRecorder R P)
    (hw : s.m_wait_for_keyframe_option = true) :
    (∀ calls t, runCalls X calls s = some t → t.m_first_keyframe < 0 →
      s.m_first_keyframe < 0 ∧
      writesOf t.trace = writesOf s.trace ++
        (if s.m_ringBuffer.isSome then insertedPackets calls else [])) ∧
    (∀ tspacket t, ProcessVideoTSPacket X tspacket s = some t → t.m_first_keyframe < 0 →
      videoHasFrame X tspacket s = true →
      t.m_payload_buffer = [] ∧ writesOf t.trace = writesOf s.trace) := by
  constructor
  · intro calls t h ht
    obtain ⟨h1, -, h3⟩ := (Gated_runCalls X calls s t h).2 ht
    exact ⟨h1, h3 hw⟩
  · intro p t h ht hv
    obtain ⟨h1, -, h3⟩ := video_frame_before_keyframe X p s t hw h ht hv
    exact ⟨h1, h3⟩

/-- C14, at a recorder as constructed with PID `0x100` classified as MPEG-2 video: of a
PES start packet, a table packet passed with `insert` set and a packet with a picture
start code, only the table packet is written; and the picture packet alone leaves the
payload buffer empty. -/
theorem no_write_before_first_keyframe_witness :
    writesOf ((runCalls testCollab gateCalls mpeg2Rec).getD mpeg2Rec).trace =
      [(mkPacket true [0, 2, 0xb0]).data] ∧
    ((ProcessVideoTSPacket testCollab picturePacket mpeg2Rec).getD mpeg2Rec).m_payload_buffer
      = [] :=
  ⟨((no_write_before_first_keyframe testCollab mpeg2Rec rfl).1 gateCalls _
      (eq_some_getD _ mpeg2Rec (by decide)) (by decide)).2.trans (by decide),
   ((no_write_before_first_keyframe testCollab mpeg2Rec rfl).2 picturePacket _
      (eq_some_getD _ mpeg2Rec (by decide)) (by decide) (by decide)).1⟩

/-! ### Decoding a PES time stamp (C28) -/

theorem rd_lt (data : List Nat) (h : ∀ b ∈ data, b < 256) (bufptr k : Nat) :
    rd data bufptr k < 256 := by
  unfold rd
  rw [List.getD_eq_getElem?_getD]
  cases hg : data[bufptr + k]? with
  | none => simp
  | some b => exact h b (List.getElem?_mem hg)

theorem stamp_byte_top : ∀ b < 256, (b &&& 0x0e) <<< 29 = 2 ^ 30 * (b / 2 % 8) := by
  decide

theorem stamp_byte_mid : ∀ b < 256, (b &&& 0xfe) <<< 14 = 2 ^ 15 * (b / 2) := by
  decide

theorem stamp_byte_low : ∀ b < 256, (b &&& 0xfe) >>> 1 = b / 2 := by
  decide

theorem timestampAt_eq (data : List Nat) (h : ∀ b ∈ data, b < 256) (bufptr offset : Nat) :
    timestampAt data bufptr offset =
      ((2 ^ 30 * (rd data bufptr (offset + 0) / 2 % 8) +
        2 ^ 22 * rd data bufptr (offset + 1) +
        2 ^ 15 * (rd data bufptr (offset + 2) / 2) +
        2 ^ 7 * rd data bufptr (offset + 3) +
        rd data bufptr (offset + 4) / 2 : Nat) : Int) := by
  unfold timestampAt
  have h0 := rd_lt data h bufptr (offset + 0)
  have h1 := rd_lt data h bufptr (offset + 1)
  have h2 := rd_lt data h bufptr (offset + 2)
  have h3 := rd_lt data h bufptr (offset + 3)
  have h4 := rd_lt data h bufptr (offset + 4)
  rw [stamp_byte_top _ h0, stamp_byte_mid _ h2, stamp_byte_low _ h4]
  generalize rd data bufptr (offset + 0) = b0 at *
  generalize rd data bufptr (offset + 1) = b1 at *
  generalize rd data bufptr (offset + 2) = b2 at *
  generalize rd data bufptr (offset + 3) = b3 at *
  generalize rd data bufptr (offset + 4) = b4 at *
  rw [Nat.shiftLeft_eq, Nat.shiftLeft_eq]
  have e1 : 2 ^ 30 * (b0 / 2 % 8) ||| b1 * 2 ^ 22 = 2 ^ 30 * (b0 / 2 % 8) + b1 * 2 ^ 22 :=
    (Nat.mul_add_lt_is_or (by omega) _).symm
  rw [e1]
  have e2 : 2 ^ 30 * (b0 / 2 % 8) + b1 * 2 ^ 22 = 2 ^ 22 * (2 ^ 8 * (b0 / 2 % 8) + b1) := by
    ring
  have e3 : 2 ^ 22 * (2 ^ 8 * (b0 / 2 % 8) + b1) ||| 2 ^ 15 * (b2 / 2) =
      2 ^ 22 * (2 ^ 8 * (b0 / 2 % 8) + b1) + 2 ^ 15 * (b2 / 2) :=
    (Nat.mul_add_lt_is_or (by omega) _).symm
  rw [e2, e3]
  have e4 : 2 ^ 22 * (2 ^ 8 * (b0 / 2 % 8) + b1) + 2 ^ 15 * (b2 / 2) =
      2 ^ 15 * (2 ^ 7 * (2 ^ 8 * (b0 / 2 % 8) + b1) + b2 / 2) := by ring
  have e5 : 2 ^ 15 * (2 ^ 7 * (2 ^ 8 * (b0 / 2 % 8) + b1) + b2 / 2) ||| b3 * 2 ^ 7 =
      2 ^ 15 * (2 ^ 7 * (2 ^ 8 * (b0 / 2 % 8) + b1) + b2 / 2) + b3 * 2 ^ 7 :=
    (Nat.mul_add_lt_is_or (by omega) _).symm
  rw [e4, e5]
  have e6 : 2 ^ 15 * (2 ^ 7 * (2 ^ 8 * (b0 / 2 % 8) + b1) + b2 / 2) + b3 * 2 ^ 7 =
      2 ^ 7 * (2 ^ 8 * (2 ^ 7 * (2 ^ 8 * (b0 / 2 % 8) + b1) + b2 / 2) + b3) := by ring
  have e7 : 2 ^ 7 * (2 ^ 8 * (2 ^ 7 * (2 ^ 8 * (b0 / 2 % 8) + b1) + b2 / 2) + b3) ||| b4 / 2 =
      2 ^ 7 * (2 ^ 8 * (2 ^ 7 * (2 ^ 8 * (b0 / 2 % 8) + b1) + b2 / 2) + b3) + b4 / 2 :=
    (Nat.mul_add_lt_is_or (by omega) _).symm
  rw [e6, e7]
  congr 1
  ring

theorem natCast_lt_two_pow_33 (x : Nat) (h : x < 2 ^ 33) : (x : Int) < 2 ^ 33 := by
  have h2 := Int.ofNat_lt.mpr h
  exact lt_of_lt_of_eq h2 (by norm_num)

theorem extract_timestamp_cases (data : List Nat) (bufptr : Nat) (bytes_left : Int)
    (pts_or_dts : Nat) :
    extract_timestamp data bufptr bytes_left pts_or_dts = -1 ∨
    ∃ offset, extract_timestamp data bufptr bytes_left pts_or_dts =
      timestampAt data bufptr offset := by
  unfold extract_timestamp
  dsimp only
  split_ifs <;> first | exact Or.inl rfl | exact Or.inr ⟨_, rfl⟩

theorem timestampAt_range (data : List Nat) (h : ∀ b ∈ data, b < 256) (bufptr offset : Nat) :
    0 ≤ timestampAt data bufptr offset ∧ timestampAt data bufptr offset < 2 ^ 33 := by
  rw [timestampAt_eq data h]
  have h0 := rd_lt data h bufptr (offset + 0)
  have h1 := rd_lt data h bufptr (offset + 1)
  have h2 := rd_lt data h bufptr (offset + 2)
  have h3 := rd_lt data h bufptr (offset + 3)
  have h4 := rd_lt data h bufptr (offset + 4)
  constructor
  · exact Int.ofNat_nonneg _
  · apply natCast_lt_two_pow_33
    omega

theorem extract_timestamp_range (data : List Nat) (h : ∀ b ∈ data, b < 256)
    (bufptr : Nat) (bytes_left : Int) (pts_or_dts : Nat) :
    extract_timestamp data bufptr bytes_left pts_or_dts = -1 ∨
    (0 ≤ extract_timestamp data bufptr bytes_left pts_or_dts ∧
     extract_timestamp data bufptr bytes_left pts_or_dts < 2 ^ 33) := by
  rcases extract_timestamp_cases data bufptr bytes_left pts_or_dts with h1 | ⟨o, h1⟩
  · exact Or.inl h1
  · rw [h1]
    exact Or.inr (timestampAt_range data h bufptr o)

theorem extract_timestamp_pts (data : List Nat) (bufptr : Nat) (bytes_left : Int)
    (hflag : rd data bufptr 3 &&& 0x80 ≠ 0) (hlen : 10 ≤ bytes_left) :
    extract_timestamp data bufptr bytes_left kExtractPTS = timestampAt data bufptr 5 := by
  have h1 : ¬ bytes_left < 4 := by omega
  have h2 : ¬ ((5 : Nat) : Int) + 5 > bytes_left := by omega
  have hp : ((rd data bufptr 3 &&& 0x80) != 0) = true := bne_iff_ne.mpr hflag
  have hc : ((kExtractPTS == kExtractPTS && !((rd data bufptr 3 &&& 0x80) != 0)) ||
      decide (((5 : Nat) : Int) + 5 > bytes_left)) = false := by
    rw [hp, decide_eq_false h2]; rfl
  have hk : (kExtractDTS == kExtractPTS) = false := rfl
  unfold extract_timestamp
  rw [if_neg h1]
  dsimp only
  rw [hc, hk]
  rfl
/-- C28. On bytes (values below 256), `extract_timestamp(buf, n, kExtractPTS)` returns `t`
for every `t < 2 ^ 33` when bit 7 of byte 3 is set, `n` is at least 10 and bytes 5 to 9
carry `t` in the 3 + 15 + 15 bit layout, whatever the prefix and marker bits are; and for
every offset, length and selector the result is -1 or lies in `[0, 2 ^ 33)`. -/
theorem extract_timestamp_decodes (data : List Nat) (hbytes : ∀ b ∈ data, b < 256)
    (bufptr : Nat) :
    (∀ (t : Nat) (bytes_left : Int), t < 2 ^ 33 → rd data bufptr 3 &&& 0x80 ≠ 0 →
      10 ≤ bytes_left → CarriesStamp data bufptr 5 t →
      extract_timestamp data bufptr bytes_left kExtractPTS = (t : Int)) ∧
    (∀ (bytes_left : Int) (pts_or_dts : Nat),
      extract_timestamp data bufptr bytes_left pts_or_dts = -1 ∨
      (0 ≤ extract_timestamp data bufptr bytes_left pts_or_dts ∧
       extract_timestamp data bufptr bytes_left pts_or_dts < 2 ^ 33)) := by
  refine ⟨?_, extract_timestamp_range data hbytes bufptr⟩
  intro t bytes_left ht hflag hlen hc
  have he := extract_timestamp_pts data bufptr bytes_left hflag hlen
  rw [he, timestampAt_eq data hbytes]
  obtain ⟨c0, c1, c2, c3, c4⟩ := hc
  rw [c0, c1, c2, c3, c4]
  congr 1
  omega

/-- C28, at the header that carries the stamp 123456789. -/
theorem extract_timestamp_decodes_witness :
    extract_timestamp (pesHeader 123456789 5) 0 15 kExtractPTS = 123456789 :=
  (extract_timestamp_decodes (pesHeader 123456789 5) (by decide) 0).1 123456789 15
    (by decide) (by decide) (by decide) (by decide)

/-! ### Recording gaps (C21, C22) -/

theorem recordGap_gaps (X : Collab R P) (sid : Nat) (ts : Int) (s : DTVRecorder R P) :
    (recordGap X sid ts s).m_recordingGaps = s.m_recordingGaps ++
      [{ start := ts_to_qdatetime (s.m_ts_last sid) (s.m_ts_first sid)
         stop := ts_to_qdatetime ts (s.m_ts_first sid) }] := by
  unfold recordGap
  dsimp only
  split
  · split <;> rfl
  · rfl

theorem note_gaps (sid : Nat) (ts : Int) (s : DTVRecorder R P) :
    (HandleTimestamps.note sid ts s).m_recordingGaps = s.m_recordingGaps := by
  unfold HandleTimestamps.note
  dsimp only
  split
  · split
    · rfl
    · split <;> rfl
  · rfl

theorem downgrade_first_keyframe (sid : Nat) (dts : Int) (s : DTVRecorder R P) :
    (HandleTimestamps.downgrade sid dts s).m_first_keyframe = s.m_first_keyframe := by
  unfold HandleTimestamps.downgrade
  split <;> rfl

theorem downgrade_ts_first (sid : Nat) (dts : Int) (s : DTVRecorder R P) :
    (HandleTimestamps.downgrade sid dts s).m_ts_first = s.m_ts_first := by
  unfold HandleTimestamps.downgrade
  split <;> rfl

theorem downgrade_idle (sid : Nat) (dts : Int) (s : DTVRecorder R P)
    (h : ¬ (dts < 0 ∧ s.m_use_pts = false)) :
    HandleTimestamps.downgrade sid dts s = s := by
  unfold HandleTimestamps.downgrade
  rw [if_neg h]

theorem HandleTimestamps_gaps (X : Collab R P) (sid : Nat) (pts dts : Int)
    (s : DTVRecorder R P) (hpts : 0 ≤ pts) :
    (HandleTimestamps X sid pts dts s).m_recordingGaps =
      (HandleTimestamps.checkGap X sid dts
        (HandleTimestamps.downgrade sid dts s)).m_recordingGaps := by
  unfold HandleTimestamps
  rw [if_neg (by omega)]
  exact note_gaps _ _ _

theorem checkGap_fires (X : Collab R P) (sid : Nat) (ts : Int) (s : DTVRecorder R P)
    (h1 : 0 ≤ s.m_ts_last sid) (h2 : 0 ≤ s.m_first_keyframe)
    (h3 : gapDiff ts (s.m_ts_last sid) > gapThreshold s.m_use_pts s.m_music_choice) :
    HandleTimestamps.checkGap X sid ts s = recordGap X sid ts s := by
  unfold HandleTimestamps.checkGap
  dsimp only
  rw [if_pos h1, if_pos ⟨h3, h2⟩]

theorem checkGap_idle (X : Collab R P) (sid : Nat) (ts : Int) (s : DTVRecorder R P)
    (h : ¬ (0 ≤ s.m_ts_last sid ∧ 0 ≤ s.m_first_keyframe ∧
      gapDiff ts (s.m_ts_last sid) > gapThreshold s.m_use_pts s.m_music_choice)) :
    HandleTimestamps.checkGap X sid ts s = s := by
  unfold HandleTimestamps.checkGap
  dsimp only
  split
  · rename_i h1
    rw [if_neg]
    rintro ⟨h3, h2⟩
    exact h ⟨h1, h2, h3⟩
  · rfl

theorem gapDiff_rollover (ts last : Int) (h : ts - last < -900000) :
    gapDiff ts last = |ts - last + 8589934591| := by
  unfold gapDiff
  dsimp only
  have h1 : ts - last < 10 * (-90000) := by omega
  rw [if_pos h1]
  split
  · rename_i h2
    rw [abs_of_neg h2]
  · rename_i h2
    rw [abs_of_nonneg (by omega)]

/-- C22, as the code has it. In `HandleTimestamps`, when the new time stamp is more than
900000 ticks below the previous one for the stream, the difference used for gap detection
is the absolute value of `(new - previous) + (2 ^ 33 - 1)`: the constant added is
`0x1ffffffff` = 8589934591, not 8589934592; with `pts >= 0`, a DTS, a previous stamp and
a first keyframe, a gap is appended exactly when that value exceeds the threshold. -/
theorem HandleTimestamps_rollover_constant (X : Collab R P) (sid : Nat) (pts dts : Int)
    (s : DTVRecorder R P) (hpts : 0 ≤ pts) (hdts : 0 ≤ dts) (hlast : 0 ≤ s.m_ts_last sid)
    (hkey : 0 ≤ s.m_first_keyframe) (hback : dts - s.m_ts_last sid < -900000) :
    gapDiff dts (s.m_ts_last sid) = |dts - s.m_ts_last sid + 8589934591| ∧
    (|dts - s.m_ts_last sid + 8589934591| > gapThreshold s.m_use_pts s.m_music_choice →
      ∃ gap, (HandleTimestamps X sid pts dts s).m_recordingGaps =
        s.m_recordingGaps ++ [gap]) ∧
    (¬ |dts - s.m_ts_last sid + 8589934591| > gapThreshold s.m_use_pts s.m_music_choice →
      (HandleTimestamps X sid pts dts s).m_recordingGaps = s.m_recordingGaps) := by
  have e := gapDiff_rollover dts (s.m_ts_last sid) hback
  have hd : ¬ (dts < 0 ∧ s.m_use_pts = false) := by
    rintro ⟨h, _⟩
    omega
  refine ⟨e, ?_, ?_⟩
  · intro h
    rw [← e] at h
    rw [HandleTimestamps_gaps X sid pts dts s hpts, downgrade_idle sid dts s hd,
      checkGap_fires X sid dts s hlast hkey h, recordGap_gaps]
    exact ⟨_, rfl⟩
  · intro h
    rw [← e] at h
    rw [HandleTimestamps_gaps X sid pts dts s hpts, downgrade_idle sid dts s hd,
      checkGap_idle]
    rintro ⟨_, _, h3⟩
    exact h h3

/-- C22, at a stamp that wrapped: the previous stamp is 2 ^ 33 - 1000, the new one 200000. -/
theorem HandleTimestamps_rollover_constant_witness :
    gapDiff 200000 ((stampedRec 8589933592).m_ts_last 0xE0) =
      |200000 - (stampedRec 8589933592).m_ts_last 0xE0 + 8589934591| :=
  (HandleTimestamps_rollover_constant testCollab 0xE0 200000 200000 (stampedRec 8589933592)
    (by decide) (by decide) (by decide) (by decide) (by decide)).1

/-- C22 as stated fails: the previous stamp is 8589844591 and the new one 0, more than
900000 ticks below it. With the constant 2 ^ 33 the difference would be 90001 and exceed
the threshold 90000; the code computes 90000 and appends no gap. -/
theorem HandleTimestamps_rollover_counterexample :
    (0 : Int) - (stampedRec 8589844591).m_ts_last 0xE0 < -900000 ∧
    (0 : Int) - (stampedRec 8589844591).m_ts_last 0xE0 + 2 ^ 33 = 90001 ∧
    gapThreshold (stampedRec 8589844591).m_use_pts (stampedRec 8589844591).m_music_choice
      = 90000 ∧
    gapDiff 0 ((stampedRec 8589844591).m_ts_last 0xE0) = 90000 ∧
    (HandleTimestamps testCollab 0xE0 0 0 (stampedRec 8589844591)).m_recordingGaps =
      (stampedRec 8589844591).m_recordingGaps := by
  decide

/-! ### The time stamps of video PES headers (C26, C27) -/

/-- C26 fails on the code. The packet `stampPacket 1000 500` starts a video PES packet whose
header has the PTS and the DTS flag set and carries PTS 1000 and DTS 500: the scan finds
the start code with 15 bytes left, `extract_timestamp` yields 1000 for `kExtractPTS` and
500 for `kExtractDTS`, yet `FindMPEG2Keyframes` leaves 1000 as the last time stamp of
stream `0xE0`, the value `HandleTimestamps` received as `dts`, where the header's DTS
would have left 500. -/
theorem FindMPEG2Keyframes_passes_pts_as_dts :
    (stampPacket 1000 500).AFCOffset = 169 ∧
    rd (stampPacket 1000 500).data 169 3 = 0xE0 ∧
    rd (stampPacket 1000 500).data 173 3 &&& 0x40 ≠ 0 ∧
    extract_timestamp (stampPacket 1000 500).data 173 15 kExtractPTS = 1000 ∧
    extract_timestamp (stampPacket 1000 500).data 173 15 kExtractDTS = 500 ∧
    (FindMPEG2Keyframes testCollab (stampPacket 1000 500) mpeg2Rec).m_ts_last 0xE0 = 1000 ∧
    (HandleTimestamps testCollab 0xE0 1000 1000 mpeg2Rec).m_ts_last 0xE0 = 1000 ∧
    (HandleTimestamps testCollab 0xE0 1000 500 mpeg2Rec).m_ts_last 0xE0 = 500 := by
  decide

theorem stampsOf_recordGap (X : Collab R P) (sid : Nat) (ts : Int) (s : DTVRecorder R P) :
    stampsOf (recordGap X sid ts s) = stampsOf s := by
  unfold recordGap
  dsimp only
  split
  · split <;> rfl
  · rfl

theorem stampsOf_checkGap (X : Collab R P) (sid : Nat) (ts : Int) (s : DTVRecorder R P) :
    stampsOf (HandleTimestamps.checkGap X sid ts s) = stampsOf s := by
  unfold HandleTimestamps.checkGap
  dsimp only
  split
  · split
    · exact stampsOf_recordGap X sid ts s
    · rfl
  · rfl

theorem stampsOf_downgrade (sid : Nat) (dts : Int) (s : DTVRecorder R P) :
    stampsOf (HandleTimestamps.downgrade sid dts s) = stampsOf s := by
  unfold HandleTimestamps.downgrade
  split <;> rfl

theorem note_stamps (sid : Nat) (ts : Int) (s : DTVRecorder R P) :
    (HandleTimestamps.note sid ts s).m_first_keyframe = s.m_first_keyframe ∧
    (HandleTimestamps.note sid ts s).m_music_choice = s.m_music_choice ∧
    (HandleTimestamps.note sid ts s).m_ts_last sid = ts ∧
    (HandleTimestamps.note sid ts s).m_ts_first sid =
      (if s.m_ts_count sid < 30 ∧ (s.m_ts_count sid = 0 ∨ ts < s.m_ts_first sid) then ts
       else s.m_ts_first sid) := by
  unfold HandleTimestamps.note
  dsimp only
  by_cases h30 : s.m_ts_count sid < 30
  · by_cases h0 : s.m_ts_count sid = 0
    · rw [if_pos h30, if_pos h0, if_pos ⟨h30, Or.inl h0⟩]
      exact ⟨rfl, rfl, Function.update_same _ _ _, Function.update_same _ _ _⟩
    · by_cases hlt : ts < s.m_ts_first sid
      · rw [if_pos h30, if_neg h0, if_pos hlt, if_pos ⟨h30, Or.inr hlt⟩]
        exact ⟨rfl, rfl, Function.update_same _ _ _, Function.update_same _ _ _⟩
      · rw [if_pos h30, if_neg h0, if_neg hlt, if_neg (by tauto)]
        exact ⟨rfl, rfl, Function.update_same _ _ _, rfl⟩
  · rw [if_neg h30, if_neg (by tauto)]
    exact ⟨rfl, rfl, Function.update_same _ _ _, rfl⟩

theorem HandleTimestamps_stamps (X : Collab R P) (sid : Nat) (pts dts : Int)
    (s : DTVRecorder R P) (hpts : 0 ≤ pts) :
    (HandleTimestamps X sid pts dts s).m_first_keyframe = s.m_first_keyframe ∧
    (HandleTimestamps X sid pts dts s).m_music_choice = s.m_music_choice ∧
    (HandleTimestamps X sid pts dts s).m_ts_last sid = dts ∧
    (HandleTimestamps X sid pts dts s).m_ts_first sid =
      (if s.m_ts_count sid < 30 ∧ (s.m_ts_count sid = 0 ∨ dts < s.m_ts_first sid) then dts
       else s.m_ts_first sid) := by
  have hh : HandleTimestamps X sid pts dts s = HandleTimestamps.note sid dts
      (HandleTimestamps.checkGap X sid dts (HandleTimestamps.downgrade sid dts s)) := by
    unfold HandleTimestamps
    rw [if_neg (by omega)]
  rw [hh]
  have e : stampsOf (HandleTimestamps.checkGap X sid dts
      (HandleTimestamps.downgrade sid dts s)) = stampsOf s := by
    rw [stampsOf_checkGap, stampsOf_downgrade]
  generalize HandleTimestamps.checkGap X sid dts (HandleTimestamps.downgrade sid dts s) = t
    at e ⊢
  have e1 : t.m_ts_count = s.m_ts_count := congrArg (fun q => q.1) e
  have e2 : t.m_ts_first = s.m_ts_first := congrArg (fun q => q.2.1) e
  have e3 : t.m_first_keyframe = s.m_first_keyframe := congrArg (fun q => q.2.2.1) e
  have e4 : t.m_music_choice = s.m_music_choice := congrArg (fun q => q.2.2.2) e
  have hn := note_stamps sid dts t
  rw [e1, e2, e3, e4] at hn
  exact hn

/-- C27, as the code has it. In `FindMPEG2Keyframes`, at a video PES header that carries a
time stamp `ts`, the music-choice rule declares a keyframe (and sets `m_music_choice`)
exactly when no first keyframe has been written and `ts` exceeds the first time stamp of
the stream by more than 270000 ticks, the first time stamp being `ts` itself when it is
the first stamp of the stream or, among the first 30, lower than `m_ts_first`, and
`m_ts_first` otherwise; the distance to the preceding time stamp plays no part. -/
theorem music_choice_rule (X : Collab R P) (data : List Nat) (bufptr : Nat)
    (bytes_left : Int) (sid : Nat) (l : ScanLocals) (s : DTVRecorder R P) (ts first : Int)
    (hts : extract_timestamp data bufptr bytes_left kExtractPTS = ts) (hpts : 0 ≤ ts)
    (hfirst : first = if s.m_ts_count sid < 30 ∧ (s.m_ts_count sid = 0 ∨ ts < s.m_ts_first sid)
      then ts else s.m_ts_first sid) :
    (s.m_first_keyframe < 0 ∧ ts - first > 270000 →
      (handleVideoPES X data bufptr bytes_left sid l s).2.hasKeyFrame = true ∧
      (handleVideoPES X data bufptr bytes_left sid l s).1.m_music_choice = true) ∧
    (¬ (s.m_first_keyframe < 0 ∧ ts - first > 270000) →
      (handleVideoPES X data bufptr bytes_left sid l s).2 = l ∧
      (handleVideoPES X data bufptr bytes_left sid l s).1.m_music_choice =
        s.m_music_choice) := by
  obtain ⟨h1, h2, h3, h4⟩ := HandleTimestamps_stamps X sid ts ts s hpts
  rw [← hfirst] at h4
  unfold handleVideoPES
  dsimp only
  rw [hts, h1, h3, h4]
  constructor
  · intro h
    rw [if_pos (by omega)]
    exact ⟨rfl, rfl⟩
  · intro h
    rw [if_neg (by omega)]
    exact ⟨rfl, h2⟩

/-- C27, at the second header of a stream, stamped four seconds after the first. -/
theorem music_choice_rule_witness :
    (handleVideoPES testCollab (pesHeader 360000 360000) 0 15 0xE0 ScanLocals.init
        (HandleTimestamps testCollab 0xE0 0 0 mpeg2Rec)).2.hasKeyFrame = true ∧
    (handleVideoPES testCollab (pesHeader 360000 360000) 0 15 0xE0 ScanLocals.init
        (HandleTimestamps testCollab 0xE0 0 0 mpeg2Rec)).1.m_music_choice = true :=
  (music_choice_rule testCollab (pesHeader 360000 360000) 0 15 0xE0 ScanLocals.init
    (HandleTimestamps testCollab 0xE0 0 0 mpeg2Rec) 360000 0 (by decide) (by decide)
    (by decide)).1 (by decide)

/-- C27 as stated fails: five video PES headers of one stream stamped one second apart,
so that no two successive stamps are more than 270000 ticks apart. After the fourth the
rule has not fired; at the fifth, 360000 ticks after the first, it fires, and the frame
is taken for the first keyframe. -/
theorem music_choice_second_apart_counterexample :
    ((run testCollab (secondApart.take 4) mpeg2Rec).getD mpeg2Rec).m_music_choice = false ∧
    ((run testCollab (secondApart.take 4) mpeg2Rec).getD mpeg2Rec).m_first_keyframe < 0 ∧
    ((run testCollab (secondApart.take 4) mpeg2Rec).getD mpeg2Rec).m_ts_last 0xE0 = 270000 ∧
    (run testCollab secondApart mpeg2Rec).isSome = true ∧
    ((run testCollab secondApart mpeg2Rec).getD mpeg2Rec).m_ts_last 0xE0 = 360000 ∧
    ((run testCollab secondApart mpeg2Rec).getD mpeg2Rec).m_music_choice = true ∧
    ((run testCollab secondApart mpeg2Rec).getD mpeg2Rec).m_first_keyframe = 0 := by
  decide

/-! ### The accrual of the duration (C23) -/

theorem DurationAccrued_ClearStatistics (s : DTVRecorder R P) :
    DurationAccrued (ClearStatistics s) := by
  simp [DurationAccrued, ClearStatistics, FrameRate.isNonzero, FrameRate.ofNat]

theorem worth_nonneg (c den num : Nat) : (0 : ℚ) ≤ ((500 * c * den : Nat) : ℚ) / (num : ℚ) :=
  div_nonneg (Nat.cast_nonneg _) (Nat.cast_nonneg _)

theorem worth_mono (c d den num : Nat) (h : c ≤ d) :
    ((500 * c * den : Nat) : ℚ) / (num : ℚ) ≤ ((500 * d * den : Nat) : ℚ) / (num : ℚ) := by
  apply div_le_div_of_nonneg_right _ (Nat.cast_nonneg _)
  exact_mod_cast Nat.mul_le_mul_right den (Nat.mul_le_mul_left 500 h)

theorem frameWritten_step (call : FrameRate × Nat) (s : DTVRecorder R P)
    (hs : DurationAccrued s) :
    DurationAccrued (frameWritten call s) ∧
    s.m_total_duration ≤ (frameWritten call s).m_total_duration := by
  obtain ⟨rate, rep⟩ := call
  unfold DurationAccrued at hs ⊢
  unfold frameWritten UpdateFramesWritten
  dsimp only
  by_cases ht : s.m_td_tick_framerate.isNonzero = true
  · by_cases he : s.m_td_tick_framerate = rate
    · subst he
      simp only [ht, Bool.not_true, Bool.false_eq_true, if_false, ne_eq, not_true_eq_false,
        if_true] at hs ⊢
      refine ⟨trivial, ?_⟩
      rw [hs]
      exact add_le_add_left (worth_mono _ _ _ _ (Nat.le_add_right _ _)) _
    · by_cases hr : rate.isNonzero = true
      · simp only [ht, Bool.not_true, Bool.false_eq_true, if_false, ne_eq, he,
          not_false_eq_true, if_true, hr, Nat.zero_add] at hs ⊢
        exact ⟨trivial, le_add_of_nonneg_right (worth_nonneg _ _ _)⟩
      · simp only [ht, Bool.not_true, Bool.false_eq_true, if_false, ne_eq, he,
          not_false_eq_true, if_true, hr, Nat.zero_add, add_zero] at hs ⊢
        exact ⟨trivial, le_refl _⟩
  · by_cases hr : rate.isNonzero = true
    · simp only [ht, Bool.not_false, if_true, ne_eq, not_true_eq_false, if_false, hr,
        Bool.false_eq_true, add_zero] at hs ⊢
      refine ⟨trivial, ?_⟩
      rw [hs]
      exact le_add_of_nonneg_right (worth_nonneg _ _ _)
    · simp only [ht, Bool.not_false, if_true, ne_eq, not_true_eq_false, if_false, hr,
        Bool.false_eq_true, add_zero] at hs ⊢
      exact ⟨hs, le_refl _⟩
theorem frameWritten_rebase (call : FrameRate × Nat) (s : DTVRecorder R P) :
    (s.m_td_tick_framerate.isNonzero = true → s.m_td_tick_framerate ≠ call.1 →
      (frameWritten call s).m_td_base = s.m_total_duration ∧
      (frameWritten call s).m_td_tick_count = 2 + call.2) ∧
    (s.m_td_tick_framerate.isNonzero = false ∨ s.m_td_tick_framerate = call.1 →
      (frameWritten call s).m_td_base = s.m_td_base ∧
      (frameWritten call s).m_td_tick_count = s.m_td_tick_count + (2 + call.2)) ∧
    (frameWritten call s).m_td_tick_framerate = call.1 := by
  obtain ⟨rate, rep⟩ := call
  unfold frameWritten UpdateFramesWritten
  dsimp only
  by_cases ht : s.m_td_tick_framerate.isNonzero = true
  · by_cases he : s.m_td_tick_framerate = rate
    · subst he
      simp [ht]
    · by_cases hr : rate.isNonzero = true
      · simp [ht, he, hr]
      · simp [ht, he, hr]
  · by_cases hr : rate.isNonzero = true
    · simp [ht, hr]
    · simp [ht, hr]

theorem framesWritten_accrued (calls : List (FrameRate × Nat)) (s : DTVRecorder R P)
    (hs : DurationAccrued s) : DurationAccrued (framesWritten calls s) := by
  induction calls generalizing s with
  | nil => exact hs
  | cons call calls ih => exact ih _ (frameWritten_step call s hs).1

/-- C23, as the code has it. From a recorder whose duration is accrued (as after
`ClearStatistics`), over every sequence of `UpdateFramesWritten` calls with repeat counts
`>= 0`, each preceded by an arbitrary assignment of the current frame rate (the unknown
rate 0 included), `m_total_duration` never decreases. When the tick frame rate is known
and differs from the current one, the accrual is re-based: `m_td_base` takes the duration
so far and the tick count restarts (it is `2 + repeat` after the call). When the tick
frame rate is unknown, the current rate is adopted and the tick count goes on. -/
theorem UpdateFramesWritten_duration_monotone (s : DTVRecorder R P) (hs : DurationAccrued s)
    (calls : List (FrameRate × Nat)) (call : FrameRate × Nat) :
    (framesWritten calls s).m_total_duration ≤
      (frameWritten call (framesWritten calls s)).m_total_duration ∧
    ((framesWritten calls s).m_td_tick_framerate.isNonzero = true →
      (framesWritten calls s).m_td_tick_framerate ≠ call.1 →
      (frameWritten call (framesWritten calls s)).m_td_base =
        (framesWritten calls s).m_total_duration ∧
      (frameWritten call (framesWritten calls s)).m_td_tick_count = 2 + call.2) ∧
    ((framesWritten calls s).m_td_tick_framerate.isNonzero = false ∨
        (framesWritten calls s).m_td_tick_framerate = call.1 →
      (frameWritten call (framesWritten calls s)).m_td_base =
        (framesWritten calls s).m_td_base ∧
      (frameWritten call (framesWritten calls s)).m_td_tick_count =
        (framesWritten calls s).m_td_tick_count + (2 + call.2)) ∧
    (frameWritten call (framesWritten calls s)).m_td_tick_framerate = call.1 :=
  ⟨(frameWritten_step call _ (framesWritten_accrued calls s hs)).2,
   frameWritten_rebase call _⟩

/-- C23, at two frames of rate 25 followed by one of rate 30. -/
theorem UpdateFramesWritten_duration_monotone_witness :
    (framesWritten [(FrameRate.ofNat 25, 0), (FrameRate.ofNat 25, 1)] fresh0).m_total_duration ≤
      (frameWritten (FrameRate.ofNat 30, 0)
        (framesWritten [(FrameRate.ofNat 25, 0), (FrameRate.ofNat 25, 1)]
          fresh0)).m_total_duration :=
  (UpdateFramesWritten_duration_monotone fresh0
    (by simp [DurationAccrued, fresh0, construct, ResetForNewFile, ClearStatistics,
      RecorderBase.ClearStatistics, FrameRate.isNonzero, FrameRate.ofNat])
    [(FrameRate.ofNat 25, 0), (FrameRate.ofNat 25, 1)] (FrameRate.ofNat 30, 0)).1

/-- C23 as stated fails: after `ClearStatistics`, one frame is written while the frame
rate is unknown (0) and the next after the rate has changed to 25. The accrual is not
re-based at that change: the tick count goes on to 4 where a restart would give 2, and
the duration is 80 where a restart would give 40. -/
theorem UpdateFramesWritten_no_rebase_counterexample :
    (frameWritten (FrameRate.ofNat 0, 0) fresh0).m_frameRate ≠ FrameRate.ofNat 25 ∧
    (frameWritten (FrameRate.ofNat 0, 0) fresh0).m_td_tick_count = 2 ∧
    (frameWritten (FrameRate.ofNat 25, 0)
      (frameWritten (FrameRate.ofNat 0, 0) fresh0)).m_td_tick_count = 4 ∧
    (frameWritten (FrameRate.ofNat 25, 0)
      (frameWritten (FrameRate.ofNat 0, 0) fresh0)).m_total_duration = 80 := by
  refine ⟨by decide, by decide, by decide, ?_⟩
  simp [frameWritten, UpdateFramesWritten, fresh0, construct, ResetForNewFile,
    ClearStatistics, RecorderBase.ClearStatistics, FrameRate.isNonzero, FrameRate.ofNat]
  norm_num

/-! ### The bytes read by the MPEG-2 detector (C30) -/

/-- C30 fails on the code. The packet `sequenceEndPacket` has 188 bytes, the last four of
which are the sequence start code `00 00 01 B3`; the scan finds the start code with
`bufptr` at offset 188, and the sequence-start branch reads the bytes at offsets 191, 189,
190 and 188, none of which is below 188. -/
theorem FindMPEG2Keyframes_reads_past_packet :
    sequenceEndPacket.data.length = 188 ∧
    sequenceEndPacket.data.drop 184 = [0x00, 0x00, 0x01, 0xB3] ∧
    avpriv_find_start_code sequenceEndPacket.data sequenceEndPacket.AFCOffset kSize
      0xffffffff = (188, 0x000001B3) ∧
    FindMPEG2Keyframes.reads sequenceEndPacket mpeg2Rec = [191, 189, 190, 188, 189, 191] ∧
    ¬ (∀ o ∈ FindMPEG2Keyframes.reads sequenceEndPacket mpeg2Rec, o < 188) := by
  decide

theorem extract_timestamp_reads_in_bounds (data : List Nat) (bufptr : Nat) (sel : Nat) :
    ∀ o ∈ extract_timestamp.reads data bufptr ((kSize : Int) - (bufptr : Int)) sel,
      o < kSize := by
  intro o ho
  unfold extract_timestamp.reads at ho
  dsimp only at ho
  split_ifs at ho <;> simp [kSize] at * <;> omega

theorem readsAt_in_bounds (data : List Nat) (bufptr stream_id : Nat)
    (h : stream_id ≠ SequenceStartCode) :
    ∀ o ∈ FindMPEG2Keyframes.readsAt data bufptr stream_id, o < 188 := by
  have ht : ∀ o ∈ extract_timestamp.reads data bufptr ((kSize : Int) - (bufptr : Int))
      kExtractPTS, o < 188 := extract_timestamp_reads_in_bounds data bufptr kExtractPTS
  have hs : ¬ SequenceStartCode = stream_id := fun e => h e.symm
  have hr : ∀ o ∈ (if PictureStartCode = stream_id then ([] : List Nat)
      else if GOPStartCode = stream_id then []
      else if MPEG2ExtensionStartCode = stream_id then
        if (kSize : Int) - (bufptr : Int) ≥ 1 then
          if rd data bufptr 0 >>> 4 = 0x1 then
            if (kSize : Int) - (bufptr : Int) ≥ 6 then [bufptr + 0, bufptr + 1]
            else [bufptr + 0]
          else if rd data bufptr 0 >>> 4 = 0x8 then
            if (kSize : Int) - (bufptr : Int) ≥ 5 then
              [bufptr + 0, bufptr + 3, bufptr + 3, bufptr + 4]
            else [bufptr + 0]
          else [bufptr + 0]
        else []
      else []), o < 188 := by
    have hk : (kSize : Int) = 188 := rfl
    rw [hk]
    intro o ho
    split_ifs at ho <;> simp at ho <;> omega
  intro o ho
  unfold FindMPEG2Keyframes.readsAt at ho
  dsimp only at ho
  simp only [if_neg hs] at ho
  split at ho
  · rcases List.mem_append.mp ho with h1 | h1
    · rcases List.mem_append.mp h1 with h2 | h2
      · exact hr o h2
      · exact ht o h2
    · exact ht o h1
  · exact hr o ho

/-! ### The bytes of a program stream (C29) -/

theorem find_start_code_from_bounds (data : List Nat) (bufend : Nat) (fuel : Nat) :
    ∀ (p state : Nat), p ≤ bufend →
      p ≤ (find_start_code_from data bufend fuel p state).1 ∧
      (find_start_code_from data bufend fuel p state).1 ≤ bufend := by
  induction fuel with
  | zero => intro p state h; exact ⟨Nat.le_refl _, h⟩
  | succ n ih =>
    intro p state h
    unfold find_start_code_from
    dsimp only
    split
    · split
      · exact ⟨Nat.le_succ _, by omega⟩
      · have := ih (p + 1) (((state <<< 8) ||| rd data p 0) % 2 ^ 32) (by omega)
        exact ⟨by omega, this.2⟩
    · exact ⟨Nat.le_refl _, h⟩

theorem avpriv_find_start_code_bounds (data : List Nat) (p bufend state : Nat)
    (h : p ≤ bufend) :
    p ≤ (avpriv_find_start_code data p bufend state).1 ∧
    (avpriv_find_start_code data p bufend state).1 ≤ bufend :=
  find_start_code_from_bounds data bufend _ p state h

theorem bytesOf_CheckForRingBufferSwitch (s : DTVRecorder R P)
    (h : s.m_ringBuffer.isSome = true) :
    bytesOf (CheckForRingBufferSwitch s) = bytesOf s := by
  unfold CheckForRingBufferSwitch
  cases hn : s.m_nextRingBuffer with
  | none => rfl
  | some rb =>
    show (wOf s, s.m_payload_buffer, true) = (wOf s, s.m_payload_buffer, s.m_ringBuffer.isSome)
    rw [h]

theorem bytesOf_noteFirstKeyframe (s : DTVRecorder R P) :
    bytesOf (noteFirstKeyframe s) = bytesOf s := by
  unfold noteFirstKeyframe
  split
  · simp [bytesOf, wOf, writesOf_append, writesOf]
  · rfl

theorem bytesOf_HandleKeyframe (X : Collab R P) (extra : Int) (s : DTVRecorder R P) :
    bytesOf (HandleKeyframe X extra s) = bytesOf s := by
  unfold HandleKeyframe
  cases hrb : s.m_ringBuffer with
  | none => rfl
  | some rb =>
    dsimp only
    have h1 := bytesOf_CheckForRingBufferSwitch s (by rw [hrb]; rfl)
    have h2 := bytesOf_noteFirstKeyframe (CheckForRingBufferSwitch s)
    generalize noteFirstKeyframe (CheckForRingBufferSwitch s) = w at h2 ⊢
    generalize (CheckForRingBufferSwitch s).m_frames_written_count = k
    split
    · split
      · exact h2.trans h1
      · split
        · exact (show bytesOf (storeKeyframe k _ w) = bytesOf w from rfl).trans (h2.trans h1)
        · exact h2.trans h1
    · exact h2.trans h1

theorem bytesOf_UpdateFramesWritten (s : DTVRecorder R P) :
    bytesOf (UpdateFramesWritten s) = bytesOf s := by
  obtain ⟨a, b, c, d, h⟩ := UpdateFramesWritten_shape s
  rw [h]
  rfl

theorem bytesOf_reportChanges (l : ScanLocals) (s : DTVRecorder R P) :
    bytesOf (reportChanges l s) = bytesOf s := by
  have h := wOf_reportChanges l s
  have h2 : (reportChanges l s).m_payload_buffer = s.m_payload_buffer ∧
      (reportChanges l s).m_ringBuffer = s.m_ringBuffer := by
    unfold reportChanges
    dsimp only
    split <;> split <;> split <;> exact ⟨rfl, rfl⟩
  unfold bytesOf
  rw [h, h2.1, h2.2]

theorem bytesOf_PS_classify (buffer : List Nat) (bufptr : Nat) (l : ScanLocals)
    (s : DTVRecorder R P) :
    bytesOf (FindPSKeyFrames.classify buffer bufptr l s).1 = bytesOf s := by
  unfold FindPSKeyFrames.classify
  dsimp only
  split_ifs <;> rfl

theorem bytesOf_PS_account (X : Collab R P) (a b : Nat) (l : ScanLocals)
    (s : DTVRecorder R P) :
    bytesOf (FindPSKeyFrames.account X a b l s) = bytesOf s := by
  unfold FindPSKeyFrames.account
  dsimp only
  rw [bytesOf_reportChanges]
  have h2 : bytesOf (if l.hasFrame = true then
      if (!(countFrame s).m_wait_for_keyframe_option ||
          decide ((countFrame s).m_first_keyframe ≥ 0)) = true then
        UpdateFramesWritten (countFrame s) else countFrame s
    else s) = bytesOf s := by
    split
    · split
      · rw [bytesOf_UpdateFramesWritten]; rfl
      · rfl
    · rfl
  generalize (if l.hasFrame = true then
      if (!(countFrame s).m_wait_for_keyframe_option ||
          decide ((countFrame s).m_first_keyframe ≥ 0)) = true then
        UpdateFramesWritten (countFrame s) else countFrame s
    else s) = s2 at h2 ⊢
  split
  · rw [bytesOf_HandleKeyframe]
    exact h2
  · exact h2
theorem PS_writeOut_bytes (X : Collab R P) (buffer : List Nat) (a b : Nat)
    (s : DTVRecorder R P) (h : s.m_ringBuffer.isSome = true) :
    ∃ new, wOf (FindPSKeyFrames.writeOut X buffer a b s) = wOf s ++ new ∧
      new.flatten = s.m_payload_buffer ++ (buffer.drop a).take (b - a) ∧
      (FindPSKeyFrames.writeOut X buffer a b s).m_payload_buffer = [] ∧
      (FindPSKeyFrames.writeOut X buffer a b s).m_ringBuffer.isSome = true := by
  cases hrb : s.m_ringBuffer with
  | none => rw [hrb] at h; cases h
  | some rb =>
    unfold FindPSKeyFrames.writeOut flushPayloadBuffer
    dsimp only
    by_cases he : s.m_payload_buffer = []
    · refine ⟨[(buffer.drop a).take (b - a)], ?_, ?_, ?_, ?_⟩ <;>
        simp [he, writeIgnoringResult, hrb, wOf, writesOf_append, writesOf]
    · refine ⟨[s.m_payload_buffer, (buffer.drop a).take (b - a)], ?_, ?_, ?_, ?_⟩ <;>
        simp [he, writeIgnoringResult, hrb, wOf, writesOf_append, writesOf]

theorem PS_drop_split (buffer : List Nat) (a b : Nat) (h1 : a ≤ b) :
    (buffer.drop a).take (b - a) ++ buffer.drop b = buffer.drop a := by
  have : buffer.drop b = (buffer.drop a).drop (b - a) := by
    rw [List.drop_drop]
    congr 1
    omega
  rw [this, List.take_append_drop]
theorem PSConserved_of_bytesOf {buffer : List Nat} {s0 s t : DTVRecorder R P} {v : PSVars}
    (h : PSConserved buffer s0 v s) (e : bytesOf t = bytesOf s) (bufptr : Nat)
    (h1 : v.bufptr ≤ bufptr) (h2 : bufptr ≤ buffer.length) :
    PSConserved buffer s0 { v with bufptr := bufptr } t := by
  obtain ⟨a, b, c, new, d1, d2⟩ := h
  have e1 : wOf t = wOf s := congrArg (fun q => q.1) e
  have e2 : t.m_payload_buffer = s.m_payload_buffer := congrArg (fun q => q.2.1) e
  have e3 : t.m_ringBuffer.isSome = s.m_ringBuffer.isSome := congrArg (fun q => q.2.2) e
  exact ⟨e3.trans a, Nat.le_trans b h1, h2, new, e1.trans d1, by rw [e2]; exact d2⟩

theorem PSConserved_onStartCode (X : Collab R P) (buffer : List Nat) (s0 s : DTVRecorder R P)
    (v : PSVars) (bufptr : Nat) (h : PSConserved buffer s0 v s) (h1 : v.bufptr ≤ bufptr)
    (h2 : bufptr ≤ buffer.length) :
    PSConserved buffer s0 (FindPSKeyFrames.onStartCode X buffer v bufptr s).2
      (FindPSKeyFrames.onStartCode X buffer v bufptr s).1 := by
  unfold FindPSKeyFrames.onStartCode
  dsimp only
  have e : bytesOf (FindPSKeyFrames.account X v.bufstart bufptr
      (FindPSKeyFrames.classify buffer bufptr
        { v.l with hasFrame := false, hasKeyFrame := false } s).2
      (FindPSKeyFrames.classify buffer bufptr
        { v.l with hasFrame := false, hasKeyFrame := false } s).1) = bytesOf s := by
    rw [bytesOf_PS_account, bytesOf_PS_classify]
  generalize FindPSKeyFrames.classify buffer bufptr
    { v.l with hasFrame := false, hasKeyFrame := false } s = c at e ⊢
  generalize FindPSKeyFrames.account X v.bufstart bufptr c.2 c.1 = s4 at e ⊢
  obtain ⟨a, b, _, new, d1, d2⟩ := h
  have e1 : wOf s4 = wOf s := congrArg (fun q => q.1) e
  have e2 : s4.m_payload_buffer = s.m_payload_buffer := congrArg (fun q => q.2.1) e
  have e3 : s4.m_ringBuffer.isSome = s.m_ringBuffer.isSome := congrArg (fun q => q.2.2) e
  by_cases hw : (fallbackKeyFrame c.2 c.1 || c.2.hasFrame) = true
  · simp only [hw, if_true]
    obtain ⟨new2, w1, w2, w3, w4⟩ :=
      PS_writeOut_bytes X buffer v.bufstart bufptr s4 (e3.trans a)
    refine ⟨w4, Nat.le_refl _, h2, new ++ new2, ?_, ?_⟩
    · rw [w1, e1, d1, List.append_assoc]
    · have hsplit := PS_drop_split buffer v.bufstart bufptr (Nat.le_trans b h1)
      rw [w3, List.flatten_append, w2, e2, List.append_nil, ← d2]
      conv_rhs => rw [← hsplit]
      simp only [List.append_assoc]
  · simp only [hw, if_false, Bool.false_eq_true]
    exact ⟨e3.trans a, Nat.le_trans b h1, h2, new, e1.trans d1, by rw [e2]; exact d2⟩

theorem avpriv_find_start_code_advances (data : List Nat) (p bufend state : Nat)
    (h : p < bufend) : p + 1 ≤ (avpriv_find_start_code data p bufend state).1 := by
  unfold avpriv_find_start_code
  obtain ⟨n, hn⟩ : ∃ n, bufend - p = n + 1 := ⟨bufend - p - 1, by omega⟩
  rw [hn]
  unfold find_start_code_from
  dsimp only
  rw [if_pos h]
  split
  · exact Nat.le_refl _
  · exact (find_start_code_from_bounds data bufend n (p + 1) _ (by omega)).1

theorem PSConserved_loop (X : Collab R P) (buffer : List Nat) (s0 : DTVRecorder R P)
    (fuel : Nat) : ∀ (v : PSVars) (s : DTVRecorder R P), PSConserved buffer s0 v s →
      PSConserved buffer s0 (FindPSKeyFrames.loop X buffer fuel v s).2
        (FindPSKeyFrames.loop X buffer fuel v s).1 ∧
      (buffer.length ≤ v.bufptr + fuel →
        ¬ ((FindPSKeyFrames.loop X buffer fuel v s).2.bufptr +
          (FindPSKeyFrames.loop X buffer fuel v s).2.skip < buffer.length)) := by
  induction fuel with
  | zero =>
    intro v s h
    refine ⟨h, fun hl => ?_⟩
    show ¬ (v.bufptr + v.skip < buffer.length)
    omega
  | succ n ih =>
    intro v s h
    unfold FindPSKeyFrames.loop
    dsimp only
    by_cases hc : v.bufptr + v.skip < buffer.length
    · rw [if_pos hc]
      have hb := avpriv_find_start_code_bounds buffer (v.bufptr + v.skip) buffer.length
        s.m_start_code (Nat.le_of_lt hc)
      have ha := avpriv_find_start_code_advances buffer (v.bufptr + v.skip) buffer.length
        s.m_start_code hc
      generalize avpriv_find_start_code buffer (v.bufptr + v.skip) buffer.length
        s.m_start_code = f at hb ha ⊢
      have hcons : PSConserved buffer s0 { v with bufptr := f.1 }
          (FindPSKeyFrames.consume v.bufptr f.1 f.2 s) :=
        PSConserved_of_bytesOf h rfl f.1 (by omega) hb.2
      split
      · obtain ⟨i1, i2⟩ := ih _ _ hcons
        exact ⟨i1, fun hl => i2 (by show buffer.length ≤ f.1 + n; omega)⟩
      · have hs := PSConserved_onStartCode X buffer s0
          (FindPSKeyFrames.consume v.bufptr f.1 f.2 s) v f.1
          ⟨hcons.1, h.2.1, h.2.2.1, hcons.2.2.2⟩ (by omega) hb.2
        obtain ⟨i1, i2⟩ := ih _ _ hs
        refine ⟨i1, fun hl => i2 ?_⟩
        show buffer.length ≤ f.1 + n
        omega
    · rw [if_neg hc]
      exact ⟨h, fun _ => hc⟩

/-- C29. `FindPSKeyFrames` conserves bytes in order: for every input buffer and every
prior state with a ring buffer attached, the scanning loop ends, and the byte sequences
written during the call, one after the other, followed by the final content of
`m_payload_buffer` are the initial content of `m_payload_buffer` followed by the input
bytes. -/
theorem FindPSKeyFrames_conserves_bytes (X : Collab R P) (buffer : List Nat)
    (s : DTVRecorder R P) (h : s.m_ringBuffer.isSome = true) :
    (∃ written, wOf (FindPSKeyFrames X buffer s) = wOf s ++ written ∧
      written.flatten ++ (FindPSKeyFrames X buffer s).m_payload_buffer =
        s.m_payload_buffer ++ buffer) ∧
    ¬ ((FindPSKeyFrames.loop X buffer buffer.length
          { bufstart := 0, bufptr := 0
            skip := max s.m_audio_bytes_remaining s.m_other_bytes_remaining
            l := ScanLocals.init } s).2.bufptr +
        (FindPSKeyFrames.loop X buffer buffer.length
          { bufstart := 0, bufptr := 0
            skip := max s.m_audio_bytes_remaining s.m_other_bytes_remaining
            l := ScanLocals.init } s).2.skip < buffer.length) := by
  have h0 : PSConserved buffer s
      { bufstart := 0, bufptr := 0
        skip := max s.m_audio_bytes_remaining s.m_other_bytes_remaining
        l := ScanLocals.init } s :=
    ⟨h, Nat.le_refl _, Nat.zero_le _, [], (List.append_nil _).symm, rfl⟩
  obtain ⟨⟨_, _, _, new, d1, d2⟩, hend⟩ := PSConserved_loop X buffer s buffer.length _ s h0
  refine ⟨⟨new, ?_, ?_⟩, hend (by show buffer.length ≤ 0 + buffer.length; omega)⟩
  · unfold FindPSKeyFrames
    dsimp only
    rw [← d1]
    split <;> rfl
  · unfold FindPSKeyFrames
    dsimp only
    rw [← d2]
    split <;> simp only [List.append_assoc]

/-- C29, at a buffer that holds a PES header, a GOP start and a picture: the bytes up to
the GOP start code and those up to the picture start code are written, the rest is kept
in the payload buffer. -/
theorem FindPSKeyFrames_conserves_bytes_witness :
    wOf (FindPSKeyFrames testCollab psBuffer fresh0) =
      wOf fresh0 ++ [psBuffer.take 13, (psBuffer.drop 13).take 8] ∧
    (FindPSKeyFrames testCollab psBuffer fresh0).m_payload_buffer = psBuffer.drop 21 ∧
    ∃ written, wOf (FindPSKeyFrames testCollab psBuffer fresh0) = wOf fresh0 ++ written ∧
      written.flatten ++ (FindPSKeyFrames testCollab psBuffer fresh0).m_payload_buffer =
        fresh0.m_payload_buffer ++ psBuffer :=
  ⟨by decide, by decide, (FindPSKeyFrames_conserves_bytes testCollab psBuffer fresh0 rfl).1⟩

/-! ### Start codes across packets (C25) -/

theorem shiftIn_append (state : Nat) (a b : List Nat) :
    shiftIn state (a ++ b) = shiftIn (shiftIn state a) b := by
  induction a generalizing state with
  | nil => rfl
  | cons x xs ih => exact ih _

theorem NoStartCode_append (state : Nat) (a b : List Nat) :
    NoStartCode state (a ++ b) ↔ NoStartCode state a ∧ NoStartCode (shiftIn state a) b := by
  induction a generalizing state with
  | nil => exact ⟨fun h => ⟨trivial, h⟩, fun h => h.2⟩
  | cons x xs ih =>
    show _ ∧ NoStartCode _ (xs ++ b) ↔ (_ ∧ NoStartCode _ xs) ∧ NoStartCode (shiftIn _ xs) b
    rw [ih]
    tauto

theorem NoStartCode_last (state : Nat) (a : List Nat) (h : NoStartCode state a)
    (hs : state &&& 0xffffff00 ≠ 0x00000100) :
    shiftIn state a &&& 0xffffff00 ≠ 0x00000100 := by
  induction a generalizing state with
  | nil => exact hs
  | cons x xs ih => exact ih _ h.2 h.1

theorem low_byte_start_code : ∀ x < 256, (256 + x) &&& 0xffffff00 = 0x00000100 := by
  decide

theorem or_byte (a b : Nat) (hb : b < 256) : (a <<< 8) ||| b = a * 256 + b := by
  rw [Nat.shiftLeft_eq]
  have := (Nat.mul_add_lt_is_or (i := 8) hb a).symm
  rw [Nat.mul_comm] at this
  exact this

theorem shiftIn_start_code (state x : Nat) (hx : x < 256) :
    shiftIn state [0x00, 0x00, 0x01, x] = 256 + x := by
  simp only [shiftIn]
  rw [or_byte _ x hx, or_byte _ 1 (by omega), or_byte _ 0 (by omega), or_byte _ 0 (by omega)]
  omega
theorem drop_cons_rd {data : List Nat} {p b : Nat} {t : List Nat}
    (h : data.drop p = b :: t) : rd data p 0 = b ∧ data.drop (p + 1) = t := by
  constructor
  · have hl : p < data.length := by
      by_contra hc
      rw [List.drop_eq_nil_of_le (by omega)] at h
      cases h
    have := head?_drop_rd data p hl
    rw [h] at this
    simpa using this.symm
  · have : data.drop (p + 1) = (data.drop p).drop 1 := by
      rw [List.drop_drop, Nat.add_comm]
    rw [this, h]
    rfl

theorem find_start_code_from_succ (data : List Nat) (bufend fuel p state : Nat) :
    find_start_code_from data bufend (fuel + 1) p state =
      if p < bufend then
        if ((state <<< 8) ||| rd data p 0) % 2 ^ 32 &&& 0xffffff00 = 0x00000100 then
          (p + 1, ((state <<< 8) ||| rd data p 0) % 2 ^ 32)
        else find_start_code_from data bufend fuel (p + 1)
          (((state <<< 8) ||| rd data p 0) % 2 ^ 32)
      else (p, state) := rfl

theorem scan_through (data : List Nat) (bufend : Nat) (bytes : List Nat) :
    ∀ (rest : List Nat) (fuel p state : Nat), data.drop p = bytes ++ rest →
      p + bytes.length ≤ bufend → NoStartCode state bytes →
      find_start_code_from data bufend (fuel + bytes.length) p state =
        find_start_code_from data bufend fuel (p + bytes.length) (shiftIn state bytes) := by
  induction bytes with
  | nil => intro rest fuel p state _ _ _; rfl
  | cons b bs ih =>
    intro rest fuel p state hd hl hn
    obtain ⟨h1, h2⟩ := drop_cons_rd hd
    have hlen : (b :: bs).length = bs.length + 1 := rfl
    rw [hlen] at hl ⊢
    rw [← Nat.add_assoc, find_start_code_from_succ, if_pos (by omega), h1, if_neg hn.1,
      ih rest fuel (p + 1) _ h2 (by omega) hn.2, Nat.add_assoc, Nat.add_comm 1]
    rfl

theorem scan_hit (data : List Nat) (bufend fuel p state x : Nat) (rest : List Nat)
    (hd : data.drop p = x :: rest) (hp : p < bufend)
    (hx : ((state <<< 8) ||| x) % 2 ^ 32 &&& 0xffffff00 = 0x00000100) :
    find_start_code_from data bufend (fuel + 1) p state =
      (p + 1, ((state <<< 8) ||| x) % 2 ^ 32) := by
  obtain ⟨h1, _⟩ := drop_cons_rd hd
  rw [find_start_code_from_succ, if_pos hp, h1, if_pos hx]

theorem scan_end (data : List Nat) (bufend fuel state : Nat) :
    find_start_code_from data bufend fuel bufend state = (bufend, state) := by
  cases fuel with
  | zero => rfl
  | succ n => rw [find_start_code_from_succ, if_neg (Nat.lt_irrefl _)]
theorem drop_length_eq {data : List Nat} {q n : Nat} {l : List Nat} (hlen : data.length = n)
    (hd : data.drop q = l) : n - q = l.length := by
  rw [← hd, List.length_drop, hlen]

theorem avpriv_hit (data : List Nat) (bufend q state x : Nat) (pre rest : List Nat)
    (hlen : data.length = bufend) (hd : data.drop q = pre ++ x :: rest)
    (hn : NoStartCode state pre)
    (hx : ((shiftIn state pre <<< 8) ||| x) % 2 ^ 32 &&& 0xffffff00 = 0x00000100) :
    avpriv_find_start_code data q bufend state =
      (q + pre.length + 1, ((shiftIn state pre <<< 8) ||| x) % 2 ^ 32) := by
  have hl := drop_length_eq hlen hd
  rw [List.length_append, List.length_cons] at hl
  have hd2 : data.drop (q + pre.length) = x :: rest := by
    have : data.drop (q + pre.length) = (data.drop q).drop pre.length := by
      rw [List.drop_drop, Nat.add_comm]
    rw [this, hd, List.drop_left]
  unfold avpriv_find_start_code
  have hf : bufend - q = (rest.length + 1) + pre.length := by omega
  rw [hf, scan_through data bufend pre (x :: rest) _ q state hd (by omega) hn]
  exact scan_hit data bufend rest.length (q + pre.length) _ x rest hd2 (by omega) hx

theorem avpriv_miss (data : List Nat) (bufend q state : Nat) (bytes : List Nat)
    (hlen : data.length = bufend) (hq : q ≤ bufend) (hd : data.drop q = bytes)
    (hn : NoStartCode state bytes) :
    avpriv_find_start_code data q bufend state = (bufend, shiftIn state bytes) := by
  have hl := drop_length_eq hlen hd
  unfold avpriv_find_start_code
  have hf : bufend - q = 0 + bytes.length := by omega
  have hd0 : data.drop q = bytes ++ [] := by rw [List.append_nil]; exact hd
  rw [hf, scan_through data bufend bytes [] 0 q state hd0 (by omega) hn]
  have hb : q + bytes.length = bufend := by omega
  rw [hb]
  rfl

theorem MPEG2_loop_succ (X : Collab R P) (data : List Nat) (fuel bufptr : Nat)
    (l : ScanLocals) (s : DTVRecorder R P) :
    FindMPEG2Keyframes.loop X data (fuel + 1) bufptr l s =
      if bufptr < kSize then
        if (avpriv_find_start_code data bufptr kSize s.m_start_code).2 &&& 0xffffff00 =
            0x00000100 then
          FindMPEG2Keyframes.loop X data fuel
            (avpriv_find_start_code data bufptr kSize s.m_start_code).1
            (FindMPEG2Keyframes.onStartCode X data
              (avpriv_find_start_code data bufptr kSize s.m_start_code).1 l
              (withStartCode (avpriv_find_start_code data bufptr kSize s.m_start_code).2 s)).2
            (FindMPEG2Keyframes.onStartCode X data
              (avpriv_find_start_code data bufptr kSize s.m_start_code).1 l
              (withStartCode (avpriv_find_start_code data bufptr kSize s.m_start_code).2 s)).1
        else FindMPEG2Keyframes.loop X data fuel
          (avpriv_find_start_code data bufptr kSize s.m_start_code).1 l
          (withStartCode (avpriv_find_start_code data bufptr kSize s.m_start_code).2 s)
      else (s, l) := rfl

theorem MPEG2_loop_at_end (X : Collab R P) (data : List Nat) (fuel : Nat)
    (l : ScanLocals) (s : DTVRecorder R P) :
    FindMPEG2Keyframes.loop X data fuel kSize l s = (s, l) := by
  cases fuel with
  | zero => rfl
  | succ n => rw [MPEG2_loop_succ, if_neg (Nat.lt_irrefl _)]

theorem MPEG2_loop_hit (X : Collab R P) (data : List Nat) (fuel q x : Nat)
    (pre rest : List Nat) (l : ScanLocals) (s : DTVRecorder R P)
    (hlen : data.length = kSize) (hd : data.drop q = pre ++ x :: rest)
    (hn : NoStartCode s.m_start_code pre)
    (hx : ((shiftIn s.m_start_code pre <<< 8) ||| x) % 2 ^ 32 &&& 0xffffff00 = 0x00000100) :
    FindMPEG2Keyframes.loop X data (fuel + 1) q l s =
      FindMPEG2Keyframes.loop X data fuel (q + pre.length + 1)
        (FindMPEG2Keyframes.onStartCode X data (q + pre.length + 1) l
          (withStartCode (((shiftIn s.m_start_code pre <<< 8) ||| x) % 2 ^ 32) s)).2
        (FindMPEG2Keyframes.onStartCode X data (q + pre.length + 1) l
          (withStartCode (((shiftIn s.m_start_code pre <<< 8) ||| x) % 2 ^ 32) s)).1 := by
  have hl := drop_length_eq hlen hd
  rw [List.length_append, List.length_cons] at hl
  rw [MPEG2_loop_succ, if_pos (by omega),
    avpriv_hit data kSize q s.m_start_code x pre rest hlen hd hn hx]
  dsimp only
  rw [if_pos hx]

theorem MPEG2_loop_miss (X : Collab R P) (data : List Nat) (fuel q : Nat)
    (bytes : List Nat) (l : ScanLocals) (s : DTVRecorder R P)
    (hlen : data.length = kSize) (hd : data.drop q = bytes) (hne : bytes ≠ [])
    (hn : NoStartCode s.m_start_code bytes) :
    FindMPEG2Keyframes.loop X data (fuel + 1) q l s =
      (withStartCode (shiftIn s.m_start_code bytes) s, l) := by
  have hl := drop_length_eq hlen hd
  have hpos : 0 < bytes.length := List.length_pos.mpr hne
  have hlast : shiftIn s.m_start_code bytes &&& 0xffffff00 ≠ 0x00000100 := by
    cases bytes with
    | nil => exact absurd rfl hne
    | cons b bs => exact NoStartCode_last _ bs hn.2 hn.1
  rw [MPEG2_loop_succ, if_pos (by omega),
    avpriv_miss data kSize q s.m_start_code bytes hlen (by omega) hd hn]
  dsimp only
  rw [if_neg hlast, MPEG2_loop_at_end]
theorem rd_congr {d1 d2 : List Nat} {c : Nat} (h : d1.drop c = d2.drop c) (b k : Nat)
    (hb : c ≤ b) : rd d1 b k = rd d2 b k := by
  unfold rd
  rw [List.getD_eq_getElem?_getD, List.getD_eq_getElem?_getD]
  have e : b + k = c + (b + k - c) := by omega
  rw [e, ← List.getElem?_drop, ← List.getElem?_drop, h]

theorem find_start_code_from_congr {d1 d2 : List Nat} {c : Nat} (h : d1.drop c = d2.drop c)
    (bufend fuel : Nat) : ∀ (p state : Nat), c ≤ p →
      find_start_code_from d1 bufend fuel p state =
        find_start_code_from d2 bufend fuel p state := by
  induction fuel with
  | zero => intro p state _; rfl
  | succ n ih =>
    intro p state hp
    rw [find_start_code_from_succ, find_start_code_from_succ, rd_congr h p 0 hp,
      ih (p + 1) _ (by omega)]

theorem onStartCode_congr (X : Collab R P) {d1 d2 : List Nat} (b : Nat)
    (h : ∀ k, rd d1 b k = rd d2 b k) (l : ScanLocals) (s : DTVRecorder R P) :
    FindMPEG2Keyframes.onStartCode X d1 b l s = FindMPEG2Keyframes.onStartCode X d2 b l s := by
  unfold FindMPEG2Keyframes.onStartCode handleVideoPES handleExtension repeatPictOf
    extract_timestamp timestampAt
  simp only [h]

theorem MPEG2_loop_congr (X : Collab R P) {d1 d2 : List Nat} {c : Nat}
    (h : d1.drop c = d2.drop c) (fuel : Nat) :
    ∀ (b : Nat) (l : ScanLocals) (s : DTVRecorder R P), c ≤ b →
      FindMPEG2Keyframes.loop X d1 fuel b l s = FindMPEG2Keyframes.loop X d2 fuel b l s := by
  induction fuel with
  | zero => intro b l s _; rfl
  | succ n ih =>
    intro b l s hb
    rw [MPEG2_loop_succ, MPEG2_loop_succ]
    by_cases hlt : b < kSize
    · have hf : avpriv_find_start_code d1 b kSize s.m_start_code =
          avpriv_find_start_code d2 b kSize s.m_start_code :=
        find_start_code_from_congr h kSize _ b _ hb
      have hge := (avpriv_find_start_code_bounds d2 b kSize s.m_start_code
        (Nat.le_of_lt hlt)).1
      rw [hf]
      generalize avpriv_find_start_code d2 b kSize s.m_start_code = f at hge ⊢
      have hc : c ≤ f.1 := Nat.le_trans hb hge
      rw [onStartCode_congr X f.1 (fun k => rd_congr h f.1 k hc), ih _ _ _ hc, ih _ _ _ hc]
    · rw [if_neg hlt, if_neg hlt]
theorem MPEG2_finish_init (X : Collab R P) (u : DTVRecorder R P) :
    FindMPEG2Keyframes.finish X ScanLocals.init u = u := by
  simp [FindMPEG2Keyframes.finish, fallbackKeyFrame, ScanLocals.init, reportChanges,
    FrameRate.isNonzero, FrameRate.ofNat]

theorem drop_after {data : List Nat} {q x : Nat} {pre rest : List Nat}
    (hd : data.drop q = pre ++ x :: rest) : data.drop (q + pre.length + 1) = rest := by
  have e : data.drop (q + pre.length + 1) = (data.drop q).drop (pre ++ [x]).length := by
    rw [List.drop_drop, List.length_append]
    congr 1
  have e2 : pre ++ x :: rest = (pre ++ [x]) ++ rest := by simp
  rw [e, hd, e2, List.drop_left]

theorem MPEG2_scan_miss (X : Collab R P) (p1 : TSPacket) (s : DTVRecorder R P)
    (bytes : List Nat) (hd : p1.data.drop p1.AFCOffset = bytes) (hne : bytes ≠ [])
    (hn : NoStartCode (if p1.PayloadStart then 0xffffffff else s.m_start_code) bytes) :
    FindMPEG2Keyframes.scan X p1 s =
      (withStartCode (shiftIn (if p1.PayloadStart then 0xffffffff else s.m_start_code) bytes)
        { s with m_repeat_pict := 0 }, ScanLocals.init) :=
  MPEG2_loop_miss X p1.data 187 p1.AFCOffset bytes ScanLocals.init
    (withStartCode (if p1.PayloadStart then 0xffffffff else s.m_start_code)
      { s with m_repeat_pict := 0 }) p1.size_eq hd hne hn

theorem MPEG2_scan_hit (X : Collab R P) (p : TSPacket) (s : DTVRecorder R P)
    (pre rest : List Nat) (x : Nat) (hd : p.data.drop p.AFCOffset = pre ++ x :: rest)
    (hn : NoStartCode (if p.PayloadStart then 0xffffffff else s.m_start_code) pre)
    (hx : ((shiftIn (if p.PayloadStart then 0xffffffff else s.m_start_code) pre <<< 8) ||| x)
      % 2 ^ 32 &&& 0xffffff00 = 0x00000100) :
    FindMPEG2Keyframes.scan X p s =
      FindMPEG2Keyframes.loop X p.data 187 (kSize - rest.length)
        (FindMPEG2Keyframes.onStartCode X p.data (kSize - rest.length) ScanLocals.init
          (withStartCode (((shiftIn (if p.PayloadStart then 0xffffffff else s.m_start_code) pre
            <<< 8) ||| x) % 2 ^ 32) { s with m_repeat_pict := 0 })).2
        (FindMPEG2Keyframes.onStartCode X p.data (kSize - rest.length) ScanLocals.init
          (withStartCode (((shiftIn (if p.PayloadStart then 0xffffffff else s.m_start_code) pre
            <<< 8) ||| x) % 2 ^ 32) { s with m_repeat_pict := 0 })).1 := by
  have hl := drop_length_eq p.size_eq hd
  rw [List.length_append, List.length_cons] at hl
  have hc : kSize - rest.length = p.AFCOffset + pre.length + 1 := by omega
  rw [hc]
  exact MPEG2_loop_hit X p.data 187 p.AFCOffset x pre rest ScanLocals.init
    (withStartCode (if p.PayloadStart then 0xffffffff else s.m_start_code)
      { s with m_repeat_pict := 0 }) p.size_eq hd hn hx
theorem drop_tail {p : TSPacket} {pre rest : List Nat} {x : Nat}
    (hd : p.data.drop p.AFCOffset = pre ++ x :: rest) :
    p.data.drop (kSize - rest.length) = rest := by
  have hl := drop_length_eq p.size_eq hd
  rw [List.length_append, List.length_cons] at hl
  have hc : kSize - rest.length = p.AFCOffset + pre.length + 1 := by omega
  rw [hc]
  exact drop_after hd

theorem FindMPEG2Keyframes_of_ring (X : Collab R P) (p : TSPacket) (s : DTVRecorder R P)
    (rb : R) (hp : p.HasPayload = true) (hrb : s.m_ringBuffer = some rb) :
    FindMPEG2Keyframes X p s =
      FindMPEG2Keyframes.finish X (FindMPEG2Keyframes.scan X p s).2
        (FindMPEG2Keyframes.scan X p s).1 ∧
    FindMPEG2Keyframes.hasKeyFrame X p s =
      fallbackKeyFrame (FindMPEG2Keyframes.scan X p s).2 (FindMPEG2Keyframes.scan X p s).1 := by
  unfold FindMPEG2Keyframes FindMPEG2Keyframes.hasKeyFrame
  rw [if_neg (by simp [hp]), if_neg (by simp [hp])]
  constructor
  · split
    · rename_i h
      rw [hrb] at h
      cases h
    · rfl
  · split
    · rename_i h
      rw [hrb] at h
      cases h
    · rfl

theorem MPEG2_straddle (X : Collab R P) (p p1 p2 : TSPacket) (s : DTVRecorder R P) (rb : R)
    (L1 L2 B : List Nat) (x : Nat) (hrb : s.m_ringBuffer = some rb)
    (hd : p.data.drop p.AFCOffset = (L1 ++ L2) ++ x :: B)
    (hp1 : p1.HasPayload = true) (hs1 : p1.PayloadStart = p.PayloadStart)
    (hd1 : p1.data.drop p1.AFCOffset = L1)
    (hs2 : p2.PayloadStart = false) (hd2 : p2.data.drop p2.AFCOffset = L2 ++ x :: B)
    (hne : L1 ≠ [])
    (hn : NoStartCode (if p.PayloadStart then 0xffffffff else s.m_start_code) (L1 ++ L2))
    (hx : ((shiftIn (if p.PayloadStart then 0xffffffff else s.m_start_code) (L1 ++ L2) <<< 8)
      ||| x) % 2 ^ 32 &&& 0xffffff00 = 0x00000100) :
    FindMPEG2Keyframes.scan X p1 s =
      (withStartCode (shiftIn (if p.PayloadStart then 0xffffffff else s.m_start_code) L1)
        { s with m_repeat_pict := 0 }, ScanLocals.init) ∧
    FindMPEG2Keyframes X p1 s =
      withStartCode (shiftIn (if p.PayloadStart then 0xffffffff else s.m_start_code) L1)
        { s with m_repeat_pict := 0 } ∧
    FindMPEG2Keyframes.scan X p2
      (withStartCode (shiftIn (if p.PayloadStart then 0xffffffff else s.m_start_code) L1)
        { s with m_repeat_pict := 0 }) = FindMPEG2Keyframes.scan X p s := by
  obtain ⟨n1, n2⟩ := (NoStartCode_append _ L1 L2).mp hn
  have h1 : FindMPEG2Keyframes.scan X p1 s =
      (withStartCode (shiftIn (if p.PayloadStart then 0xffffffff else s.m_start_code) L1)
        { s with m_repeat_pict := 0 }, ScanLocals.init) := by
    have := MPEG2_scan_miss X p1 s L1 hd1 hne (by rw [hs1]; exact n1)
    rw [hs1] at this
    exact this
  refine ⟨h1, ?_, ?_⟩
  · rw [(FindMPEG2Keyframes_of_ring X p1 s rb hp1 hrb).1, h1]
    exact MPEG2_finish_init X _
  · rw [MPEG2_scan_hit X p s (L1 ++ L2) B x hd hn hx]
    have h2 := MPEG2_scan_hit X p2
      (withStartCode (shiftIn (if p.PayloadStart then 0xffffffff else s.m_start_code) L1)
        { s with m_repeat_pict := 0 }) L2 B x hd2
      (by rw [hs2]; exact n2)
      (by rw [hs2]
          show ((shiftIn (shiftIn _ L1) L2 <<< 8) ||| x) % 2 ^ 32 &&& 0xffffff00 = 0x00000100
          rw [← shiftIn_append]
          exact hx)
    rw [h2, hs2]
    have e : shiftIn (if false = true then 0xffffffff else
        (withStartCode (shiftIn (if p.PayloadStart then 0xffffffff else s.m_start_code) L1)
          { s with m_repeat_pict := 0 }).m_start_code) L2 =
        shiftIn (if p.PayloadStart then 0xffffffff else s.m_start_code) (L1 ++ L2) := by
      rw [shiftIn_append]
      rfl
    rw [e]
    have hagree : p2.data.drop (kSize - B.length) = p.data.drop (kSize - B.length) := by
      rw [drop_tail hd2, drop_tail hd]
    have hb : kSize - B.length ≤ kSize - B.length := Nat.le_refl _
    rw [onStartCode_congr X (kSize - B.length)
      (fun k => rd_congr hagree (kSize - B.length) k hb)]
    exact MPEG2_loop_congr X hagree 187 _ _ _ hb
theorem FindMPEG2Keyframes_no_ring (X : Collab R P) (p : TSPacket) (s : DTVRecorder R P)
    (hrb : s.m_ringBuffer = none) :
    FindMPEG2Keyframes X p s = s ∧ FindMPEG2Keyframes.hasKeyFrame X p s = false := by
  unfold FindMPEG2Keyframes FindMPEG2Keyframes.hasKeyFrame
  constructor
  · split
    · rfl
    · split
      · rfl
      · rename_i h
        rw [hrb] at h
        cases h
  · split
    · rfl
    · split
      · rfl
      · rename_i h
        rw [hrb] at h
        cases h

theorem straddle_parts (A B : List Nat) (xx k : Nat) (hk1 : 1 ≤ k) (hk3 : k ≤ 3) :
    ∃ L1 L2, L1 ++ L2 = A ++ [0x00, 0x00, 0x01] ∧
      A ++ [0x00, 0x00, 0x01, xx].take k = L1 ∧
      [0x00, 0x00, 0x01, xx].drop k ++ B = L2 ++ xx :: B ∧ L1 ≠ [] := by
  have hk : k = 1 ∨ k = 2 ∨ k = 3 := by omega
  rcases hk with rfl | rfl | rfl
  · exact ⟨A ++ [0], [0, 1], by simp, rfl, rfl, by simp⟩
  · exact ⟨A ++ [0, 0], [1], by simp, rfl, rfl, by simp⟩
  · exact ⟨A ++ [0, 0, 1], [], by simp, rfl, rfl, by simp⟩

theorem readsFrom_succ (data : List Nat) (fuel bufptr state : Nat) :
    FindMPEG2Keyframes.readsFrom data (fuel + 1) bufptr state =
      if bufptr < kSize then
        if (avpriv_find_start_code data bufptr kSize state).2 &&& 0xffffff00 = 0x00000100 then
          FindMPEG2Keyframes.readsAt data (avpriv_find_start_code data bufptr kSize state).1
              ((avpriv_find_start_code data bufptr kSize state).2 &&& 0x000000ff) ++
            FindMPEG2Keyframes.readsFrom data fuel
              (avpriv_find_start_code data bufptr kSize state).1
              (avpriv_find_start_code data bufptr kSize state).2
        else FindMPEG2Keyframes.readsFrom data fuel
          (avpriv_find_start_code data bufptr kSize state).1
          (avpriv_find_start_code data bufptr kSize state).2
      else [] := rfl

theorem readsFrom_at_end (data : List Nat) (fuel state : Nat) :
    FindMPEG2Keyframes.readsFrom data fuel kSize state = [] := by
  cases fuel with
  | zero => rfl
  | succ n => rw [readsFrom_succ, if_neg (Nat.lt_irrefl _)]

theorem readsFrom_hit (data : List Nat) (fuel q x state : Nat) (pre rest : List Nat)
    (hlen : data.length = kSize) (hd : data.drop q = pre ++ x :: rest)
    (hn : NoStartCode state pre)
    (hx : ((shiftIn state pre <<< 8) ||| x) % 2 ^ 32 &&& 0xffffff00 = 0x00000100) :
    FindMPEG2Keyframes.readsFrom data (fuel + 1) q state =
      FindMPEG2Keyframes.readsAt data (kSize - rest.length)
          (((shiftIn state pre <<< 8) ||| x) % 2 ^ 32 &&& 0x000000ff) ++
        FindMPEG2Keyframes.readsFrom data fuel (kSize - rest.length)
          (((shiftIn state pre <<< 8) ||| x) % 2 ^ 32) := by
  have hl := drop_length_eq hlen hd
  rw [List.length_append, List.length_cons] at hl
  have hc : kSize - rest.length = q + pre.length + 1 := by omega
  rw [hc, readsFrom_succ, if_pos (by omega), avpriv_hit data kSize q state x pre rest hlen hd hn hx]
  dsimp only
  rw [if_pos hx]

theorem readsFrom_miss (data : List Nat) (fuel q state : Nat) (bytes : List Nat)
    (hlen : data.length = kSize) (hd : data.drop q = bytes) (hne : bytes ≠ [])
    (hn : NoStartCode state bytes) :
    FindMPEG2Keyframes.readsFrom data (fuel + 1) q state = [] := by
  have hl := drop_length_eq hlen hd
  have hpos : 0 < bytes.length := List.length_pos.mpr hne
  have hlast : shiftIn state bytes &&& 0xffffff00 ≠ 0x00000100 := by
    cases bytes with
    | nil => exact absurd rfl hne
    | cons b bs => exact NoStartCode_last _ bs hn.2 hn.1
  rw [readsFrom_succ, if_pos (by omega), avpriv_miss data kSize q state bytes hlen (by omega) hd hn]
  dsimp only
  rw [if_neg hlast, readsFrom_at_end]

theorem readsAt_congr {d1 d2 : List Nat} (b sid : Nat) (h : ∀ k, rd d1 b k = rd d2 b k) :
    FindMPEG2Keyframes.readsAt d1 b sid = FindMPEG2Keyframes.readsAt d2 b sid := by
  unfold FindMPEG2Keyframes.readsAt extract_timestamp.reads
  simp only [h]

theorem readsFrom_congr {d1 d2 : List Nat} {c : Nat} (h : d1.drop c = d2.drop c)
    (fuel : Nat) : ∀ (b state : Nat), c ≤ b →
      FindMPEG2Keyframes.readsFrom d1 fuel b state =
        FindMPEG2Keyframes.readsFrom d2 fuel b state := by
  induction fuel with
  | zero => intro b state _; rfl
  | succ n ih =>
    intro b state hb
    rw [readsFrom_succ, readsFrom_succ]
    by_cases hlt : b < kSize
    · have hf : avpriv_find_start_code d1 b kSize state =
          avpriv_find_start_code d2 b kSize state :=
        find_start_code_from_congr h kSize _ b _ hb
      have hge := (avpriv_find_start_code_bounds d2 b kSize state (Nat.le_of_lt hlt)).1
      rw [hf]
      generalize avpriv_find_start_code d2 b kSize state = f at hge ⊢
      have hc : c ≤ f.1 := Nat.le_trans hb hge
      rw [readsAt_congr f.1 _ (fun k => rd_congr h f.1 k hc), ih _ _ hc]
    · rw [if_neg hlt, if_neg hlt]

theorem reads_of_ring (p : TSPacket) (s : DTVRecorder R P) (rb : R)
    (hp : p.HasPayload = true) (hrb : s.m_ringBuffer = some rb) :
    FindMPEG2Keyframes.reads p s =
      FindMPEG2Keyframes.readsFrom p.data kSize p.AFCOffset
        (if p.PayloadStart then 0xffffffff else s.m_start_code) := by
  unfold FindMPEG2Keyframes.reads
  rw [if_neg (by simp [hp])]
  split
  · rename_i h
    rw [hrb] at h
    cases h
  · rfl

theorem reads_no_ring (p : TSPacket) (s : DTVRecorder R P) (hrb : s.m_ringBuffer = none) :
    FindMPEG2Keyframes.reads p s = [] := by
  unfold FindMPEG2Keyframes.reads
  split
  · rfl
  · split
    · rfl
    · rename_i h
      rw [hrb] at h
      cases h

theorem reads_straddle (p p1 p2 : TSPacket) (s : DTVRecorder R P) (rb : R)
    (L1 L2 B : List Nat) (x : Nat) (hrb : s.m_ringBuffer = some rb)
    (hp : p.HasPayload = true) (hd : p.data.drop p.AFCOffset = (L1 ++ L2) ++ x :: B)
    (hp1 : p1.HasPayload = true) (hs1 : p1.PayloadStart = p.PayloadStart)
    (hd1 : p1.data.drop p1.AFCOffset = L1)
    (hp2 : p2.HasPayload = true) (hs2 : p2.PayloadStart = false)
    (hd2 : p2.data.drop p2.AFCOffset = L2 ++ x :: B)
    (hne : L1 ≠ [])
    (hn : NoStartCode (if p.PayloadStart then 0xffffffff else s.m_start_code) (L1 ++ L2))
    (hx : ((shiftIn (if p.PayloadStart then 0xffffffff else s.m_start_code) (L1 ++ L2) <<< 8)
      ||| x) % 2 ^ 32 &&& 0xffffff00 = 0x00000100) :
    FindMPEG2Keyframes.reads p1 s = [] ∧
    FindMPEG2Keyframes.reads p2
      (withStartCode (shiftIn (if p.PayloadStart then 0xffffffff else s.m_start_code) L1)
        { s with m_repeat_pict := 0 }) = FindMPEG2Keyframes.reads p s := by
  obtain ⟨n1, n2⟩ := (NoStartCode_append _ L1 L2).mp hn
  constructor
  · rw [reads_of_ring p1 s rb hp1 hrb, hs1]
    exact readsFrom_miss p1.data 187 p1.AFCOffset _ L1 p1.size_eq hd1 hne n1
  · have hU : (withStartCode (shiftIn (if p.PayloadStart then 0xffffffff else s.m_start_code)
        L1) { s with m_repeat_pict := 0 }).m_ringBuffer = some rb := hrb
    rw [reads_of_ring p2 _ rb hp2 hU, reads_of_ring p s rb hp hrb, hs2]
    have e1 := readsFrom_hit p.data 187 p.AFCOffset x
      (if p.PayloadStart then 0xffffffff else s.m_start_code) (L1 ++ L2) B p.size_eq hd hn hx
    have e2 := readsFrom_hit p2.data 187 p2.AFCOffset x
      (shiftIn (if p.PayloadStart then 0xffffffff else s.m_start_code) L1) L2 B p2.size_eq hd2
      n2 (by rw [← shiftIn_append]; exact hx)
    rw [← shiftIn_append] at e2
    have hagree : p2.data.drop (kSize - B.length) = p.data.drop (kSize - B.length) := by
      rw [drop_tail hd2, drop_tail hd]
    have hb : kSize - B.length ≤ kSize - B.length := Nat.le_refl _
    refine Eq.trans e2 (Eq.trans ?_ e1.symm)
    rw [readsAt_congr (kSize - B.length) _ (fun k => rd_congr hagree (kSize - B.length) k hb),
      readsFrom_congr hagree 187 _ _ hb]

/-- C25, as the code has it. A payload holds the bytes `A`, then `00 00 01 xx`, then the
bytes `B`; no start code is completed before `xx`, and the scan of the whole payload reads
no byte past the end of the packet (the header bytes after a sequence start code are read
without a look at `bytes_left`, so such a code needs four bytes after it). When the
payload is split inside those four bytes over two consecutive packets (the first with the
`payload_start` flag of the whole, the second without), `FindMPEG2Keyframes` leaves the
same recorder, frame counters included, after the two packets as after the one packet
with the whole payload; the first packet decides for no frame and no keyframe, the second
decides as the one packet does; the two packets are read at the same offsets as the one,
none past the end of the packet; and the scan of the second packet stops right after `xx`
with the accumulator `00 00 01 xx`. -/
theorem FindMPEG2Keyframes_straddling_start_code (X : Collab R P) (p p1 p2 : TSPacket)
    (s : DTVRecorder R P) (A B : List Nat) (xx k : Nat)
    (hxx : xx < 256) (hk1 : 1 ≤ k) (hk3 : k ≤ 3)
    (hp : p.HasPayload = true)
    (hd : p.data.drop p.AFCOffset = A ++ [0x00, 0x00, 0x01, xx] ++ B)
    (hp1 : p1.HasPayload = true) (hs1 : p1.PayloadStart = p.PayloadStart)
    (hd1 : p1.data.drop p1.AFCOffset = A ++ [0x00, 0x00, 0x01, xx].take k)
    (hp2 : p2.HasPayload = true) (hs2 : p2.PayloadStart = false)
    (hd2 : p2.data.drop p2.AFCOffset = [0x00, 0x00, 0x01, xx].drop k ++ B)
    (hfirst : NoStartCode (if p.PayloadStart then 0xffffffff else s.m_start_code)
      (A ++ [0x00, 0x00, 0x01]))
    (hin : ∀ o ∈ FindMPEG2Keyframes.reads p s, o < kSize) :
    FindMPEG2Keyframes X p2 (FindMPEG2Keyframes X p1 s) = FindMPEG2Keyframes X p s ∧
    FindMPEG2Keyframes.hasKeyFrame X p1 s = false ∧
    FindMPEG2Keyframes.hasKeyFrame X p2 (FindMPEG2Keyframes X p1 s) =
      FindMPEG2Keyframes.hasKeyFrame X p s ∧
    FindMPEG2Keyframes.reads p1 s = [] ∧
    FindMPEG2Keyframes.reads p2 (FindMPEG2Keyframes X p1 s) = FindMPEG2Keyframes.reads p s ∧
    (∀ o ∈ FindMPEG2Keyframes.reads p2 (FindMPEG2Keyframes X p1 s), o < kSize) ∧
    (s.m_ringBuffer.isSome = true →
      (FindMPEG2Keyframes.scan X p1 s).2 = ScanLocals.init ∧
      (FindMPEG2Keyframes.scan X p2 (FindMPEG2Keyframes X p1 s)).2 =
        (FindMPEG2Keyframes.scan X p s).2 ∧
      avpriv_find_start_code p2.data p2.AFCOffset kSize
        (FindMPEG2Keyframes X p1 s).m_start_code = (kSize - B.length, 0x00000100 + xx)) := by
  cases hrb : s.m_ringBuffer with
  | none =>
    obtain ⟨a1, a2⟩ := FindMPEG2Keyframes_no_ring X p1 s hrb
    obtain ⟨b1, b2⟩ := FindMPEG2Keyframes_no_ring X p2 s hrb
    obtain ⟨c1, c2⟩ := FindMPEG2Keyframes_no_ring X p s hrb
    rw [a1, b1, c1, a2, b2, c2, reads_no_ring p1 s hrb, reads_no_ring p2 s hrb,
      reads_no_ring p s hrb]
    exact ⟨rfl, rfl, rfl, rfl, rfl, fun o ho => absurd ho (List.not_mem_nil o),
      fun h => by simp at h⟩
  | some rb =>
    obtain ⟨L1, L2, e12, e1, e2, hne⟩ := straddle_parts A B xx k hk1 hk3
    rw [e1] at hd1
    rw [e2] at hd2
    have hd0 : p.data.drop p.AFCOffset = (L1 ++ L2) ++ xx :: B := by
      rw [hd, e12]
      simp
    have hcode : ((shiftIn (if p.PayloadStart then 0xffffffff else s.m_start_code)
        (L1 ++ L2) <<< 8) ||| xx) % 2 ^ 32 = 0x00000100 + xx := by
      have hstep : ∀ (t : Nat) (l : List Nat) (x : Nat),
          ((shiftIn t l <<< 8) ||| x) % 2 ^ 32 = shiftIn t (l ++ [x]) := by
        intro t l x
        rw [shiftIn_append]
        rfl
      have e3 : (A ++ [0x00, 0x00, 0x01]) ++ [xx] = A ++ [0x00, 0x00, 0x01, xx] := by simp
      rw [e12, hstep, e3, shiftIn_append]
      exact shiftIn_start_code _ xx hxx
    have hx : ((shiftIn (if p.PayloadStart then 0xffffffff else s.m_start_code)
        (L1 ++ L2) <<< 8) ||| xx) % 2 ^ 32 &&& 0xffffff00 = 0x00000100 := by
      rw [hcode]
      exact low_byte_start_code xx hxx
    have hn : NoStartCode (if p.PayloadStart then 0xffffffff else s.m_start_code)
        (L1 ++ L2) := by
      rw [e12]
      exact hfirst
    obtain ⟨h1, h2, h3⟩ := MPEG2_straddle X p p1 p2 s rb L1 L2 B xx hrb hd0 hp1 hs1 hd1
      hs2 hd2 hne hn hx
    have hU : (withStartCode (shiftIn (if p.PayloadStart then 0xffffffff else s.m_start_code)
        L1) { s with m_repeat_pict := 0 }).m_ringBuffer = some rb := hrb
    obtain ⟨f1, k1⟩ := FindMPEG2Keyframes_of_ring X p1 s rb hp1 hrb
    obtain ⟨f2, k2⟩ := FindMPEG2Keyframes_of_ring X p2 _ rb hp2 hU
    obtain ⟨f0, k0⟩ := FindMPEG2Keyframes_of_ring X p s rb hp hrb
    obtain ⟨r1, r2⟩ := reads_straddle p p1 p2 s rb L1 L2 B xx hrb hp hd0 hp1 hs1 hd1 hp2
      hs2 hd2 hne hn hx
    refine ⟨?_, ?_, ?_, r1, ?_, ?_, fun _ => ⟨?_, ?_, ?_⟩⟩
    · rw [h2, f2, h3, f0]
    · rw [k1, h1]
      simp [fallbackKeyFrame, ScanLocals.init]
    · rw [h2, k2, h3, k0]
    · rw [h2, r2]
    · rw [h2, r2]
      exact hin
    · rw [h1]
    · rw [h2, h3]
    · rw [h2]
      obtain ⟨_, n2⟩ := (NoStartCode_append _ L1 L2).mp hn
      have hl := drop_length_eq p2.size_eq hd2
      rw [List.length_append, List.length_cons] at hl
      have hc : kSize - B.length = p2.AFCOffset + L2.length + 1 := by omega
      rw [hc, ← hcode, shiftIn_append]
      exact avpriv_hit p2.data kSize p2.AFCOffset _ xx L2 B p2.size_eq hd2 n2
        (show ((shiftIn (shiftIn _ L1) L2 <<< 8) ||| xx) % 2 ^ 32 &&& 0xffffff00 = 0x00000100
          by rw [← shiftIn_append]; exact hx)

/-- C25, at a picture start code split after its second byte. -/
theorem FindMPEG2Keyframes_straddling_start_code_witness:
    FindMPEG2Keyframes testCollab straddleSecond
        (FindMPEG2Keyframes testCollab straddleFirst mpeg2Rec) =
      FindMPEG2Keyframes testCollab straddleWhole mpeg2Rec :=
  (FindMPEG2Keyframes_straddling_start_code testCollab straddleWhole straddleFirst
    straddleSecond mpeg2Rec [0x11, 0x22] [0x00, 0x0f, 0xff, 0xf8] 0x00 2 (by decide)
    (by decide) (by decide) rfl (by decide) rfl rfl (by decide) rfl rfl (by decide)
    (by decide) (by decide)).1

/-- C25 as stated fails: a payload with two pictures is split inside the second picture
start code. Delivered in one packet the two pictures count as one frame seen; delivered
in two packets, each packet counts a frame, and the final count of frames seen is 2. -/
theorem FindMPEG2Keyframes_split_counts_twice_counterexample :
    twoPicturesWhole.data.drop twoPicturesWhole.AFCOffset =
      [0x00, 0x00, 0x01, 0x00, 0x00, 0x0f, 0xff, 0xf8] ++ [0x00, 0x00, 0x01, 0x00] ++
        [0x00, 0x0f, 0xff, 0xf8] ∧
    twoPicturesFirst.data.drop twoPicturesFirst.AFCOffset =
      [0x00, 0x00, 0x01, 0x00, 0x00, 0x0f, 0xff, 0xf8] ++ [0x00, 0x00, 0x01, 0x00].take 2 ∧
    twoPicturesSecond.data.drop twoPicturesSecond.AFCOffset =
      [0x00, 0x00, 0x01, 0x00].drop 2 ++ [0x00, 0x0f, 0xff, 0xf8] ∧
    twoPicturesSecond.PayloadStart = false ∧
    (FindMPEG2Keyframes testCollab twoPicturesWhole mpeg2Rec).m_frames_seen_count = 1 ∧
    (FindMPEG2Keyframes testCollab twoPicturesSecond
      (FindMPEG2Keyframes testCollab twoPicturesFirst mpeg2Rec)).m_frames_seen_count = 2 := by
  decide

/-! ### Frames written and the position map (C24) -/

theorem increasing_in_range (hi : Nat) (l : List Nat) :
    ∀ lo, (∀ x ∈ l, lo ≤ x ∧ x ≤ hi) → l.Pairwise (fun a b => a < b) →
      l.length ≤ hi + 1 - lo := by
  induction l with
  | nil => intro lo _ _; exact Nat.zero_le _
  | cons x xs ih =>
    intro lo hb hp
    obtain ⟨h1, h2⟩ := List.pairwise_cons.1 hp
    have hx := hb x (List.mem_cons_self _ _)
    have := ih (x + 1) (fun y hy => ⟨h1 y hy, (hb y (List.mem_cons_of_mem _ hy)).2⟩) h2
    simp only [List.length_cons]
    omega

/-- C24, as the code has it. Starting from a recorder with an empty position map and no
ring-buffer switch pending, after any sequence of packet-processing operations a further
packet-processing operation does not decrease `m_frames_written_count` and only appends
entries to `m_positionMap`; every key it adds was absent before and is a frame number
between the old and the new `m_frames_written_count`, the keys added are distinct, and so
an operation that increases `m_frames_written_count` by `b` adds at most `b + 1` keys. -/
theorem frames_written_and_position_map (X : Collab R P) (s0 : DTVRecorder R P)
    (ops : List Op) (op : Op) (s t : DTVRecorder R P)
    (hmap : s0.m_positionMap = []) (hn : s0.m_nextRingBuffer = none)
    (hops : ∀ o ∈ ops, o.isPacketOp = true) (hop : op.isPacketOp = true)
    (hrun : run X ops s0 = some s) (hstep : op.apply X s = some t) :
    s.m_frames_written_count ≤ t.m_frames_written_count ∧
    ∃ new, t.m_positionMap = s.m_positionMap ++ new ∧
      (∀ e ∈ new, s.m_positionMap.contains e.1 = false ∧
        s.m_frames_written_count ≤ e.1 ∧ e.1 ≤ t.m_frames_written_count) ∧
      (new.map Prod.fst).Pairwise (fun a b => a < b) ∧
      new.length ≤ t.m_frames_written_count - s.m_frames_written_count + 1 := by
  have h0 : KeysOK s0 := by
    unfold KeysOK
    rw [hmap]
    exact ⟨fun e he => absurd he (List.not_mem_nil e), List.Pairwise.nil⟩
  obtain ⟨hn1, hk1⟩ := keysOK_run X ops s0 s hn h0 hops hrun
  obtain ⟨a, b, _, d⟩ := Pres_packetOp X op s t hop hn1 hstep
  obtain ⟨hk2, new, he, hlo⟩ := d.2.2.2 hk1
  have hw := d.2.2.1
  obtain ⟨hle, hsorted⟩ := hk2
  rw [he, List.map_append, List.pairwise_append] at hsorted
  obtain ⟨_, hnew, hcross⟩ := hsorted
  have hb : ∀ e ∈ new, s.m_frames_written_count ≤ e.1 ∧ e.1 ≤ t.m_frames_written_count :=
    fun e h => ⟨hlo e h, hle e (by rw [he]; exact List.mem_append_right _ h)⟩
  refine ⟨by omega, new, he, ?_, hnew, ?_⟩
  · intro e h
    refine ⟨?_, hb e h⟩
    cases hc : s.m_positionMap.contains e.1 with
    | false => rfl
    | true =>
      simp only [PosMap.contains, List.any_eq_true] at hc
      obtain ⟨x, hx, hxe⟩ := hc
      have hlt := hcross x.1 (List.mem_map_of_mem _ hx) e.1 (List.mem_map_of_mem _ h)
      simp at hxe
      omega
  · have := increasing_in_range t.m_frames_written_count (new.map Prod.fst)
      s.m_frames_written_count
      (fun x hx => by
        obtain ⟨e, h, rfl⟩ := List.mem_map.1 hx
        exact hb e h) hnew
    rw [List.length_map] at this
    omega

/-- C24, at the packet that carries the first GOP start code and a picture start code:
`m_frames_written_count` goes from 0 to 1 and the one key 0, absent before, is added. -/
theorem frames_written_and_position_map_witness :
    afterPesStart.m_frames_written_count = 0 ∧ afterPesStart.m_positionMap = [] ∧
    afterGopPicture.m_frames_written_count = 1 ∧ afterGopPicture.m_positionMap = [(0, 0)] ∧
    (afterPesStart.m_frames_written_count ≤ afterGopPicture.m_frames_written_count ∧
     ∃ new, afterGopPicture.m_positionMap = afterPesStart.m_positionMap ++ new ∧
      (∀ e ∈ new, afterPesStart.m_positionMap.contains e.1 = false ∧
        afterPesStart.m_frames_written_count ≤ e.1 ∧
        e.1 ≤ afterGopPicture.m_frames_written_count) ∧
      (new.map Prod.fst).Pairwise (fun a b => a < b) ∧
      new.length ≤
        afterGopPicture.m_frames_written_count - afterPesStart.m_frames_written_count + 1) :=
  ⟨by decide, by decide, by decide, by decide,
   frames_written_and_position_map testCollab mpeg2Rec [Op.videoPacket pesStartPacket]
    (Op.videoPacket gopPicturePacket) afterPesStart afterGopPicture rfl rfl (by decide) rfl
    (eq_some_getD _ mpeg2Rec (by decide)) (eq_some_getD _ mpeg2Rec (by decide))⟩

/-- C24 as stated fails. After the start of a PES packet and a packet with a GOP start and
its picture one frame is written and the position map holds the key 0; the packet with
the next picture, which is no keyframe, increases `m_frames_written_count` to 2 and adds
no key. And one program stream buffer with a GOP start, a picture and a second GOP start
increases `m_frames_written_count` from 0 to 1 and adds the two keys 0 and 1. -/
theorem frames_written_without_key_counterexample :
    ((run testCollab [Op.videoPacket pesStartPacket, Op.videoPacket gopPicturePacket]
      mpeg2Rec).getD mpeg2Rec).m_frames_written_count = 1 ∧
    ((run testCollab [Op.videoPacket pesStartPacket, Op.videoPacket gopPicturePacket]
      mpeg2Rec).getD mpeg2Rec).m_positionMap = [(0, 0)] ∧
    ((run testCollab [Op.videoPacket pesStartPacket, Op.videoPacket gopPicturePacket,
      Op.videoPacket picturePacket] mpeg2Rec).getD mpeg2Rec).m_frames_written_count = 2 ∧
    ((run testCollab [Op.videoPacket pesStartPacket, Op.videoPacket gopPicturePacket,
      Op.videoPacket picturePacket] mpeg2Rec).getD mpeg2Rec).m_positionMap = [(0, 0)] ∧
    psRec.m_frames_written_count = 0 ∧ psRec.m_positionMap = [] ∧
    ((run testCollab [Op.psData psTwoKeys] psRec).getD psRec).m_frames_written_count = 1 ∧
    ((run testCollab [Op.psData psTwoKeys] psRec).getD psRec).m_positionMap =
      [(0, 90), (1, 106)] := by
  decide

/-! ### The fallback of the MPEG-2 detector (C6) -/

end DTVRec
